import Mathlib

/-! Kyros: evidence scoring, rulepack actions, candidate merging, SSE endpoint parsing,
protocol probes, server interrogation, active coordination, config source.

A shallow embedding of the detection core of Kyros (`candidate.hpp`, `candidate.cpp`,
`rulepack.cpp`, `scanner.cpp`, `testing_engine.cpp`, `stdio_testing_engine.cpp`,
`http_testing_engine.cpp`, `protocol_detector.cpp`, `server_interrogator.cpp`,
`config_detection_engine.cpp`) together with theorems about it.

Modelling conventions.
* `double` values are idealised as exact rationals (`ℚ`); the literals `0.49` and `0.99`
  are `49/100` and `99/100`. Rounding, infinities and NaN are outside the model.
* `std::string` is `String`; the byte-wise library calls used by the code
  (`find`, `substr`, `erase`, `find_first_not_of`, `find_last_not_of`, `getline`) are
  modelled on the character list of the string.
* `int` fields are `Int`; the code only compares them.
* `std::vector` is `List`, a mutating member function returns the updated object.
* What lies outside the program (spawned processes, HTTP servers, files, the text functions
  of the JSON library) is a parameter: a function of the calls made so far, which is also
  the record of the calls that the code has made.
-/

namespace Kyros

/-! ## Data model (`evidence.hpp`, `types.hpp`, `candidate.hpp`) -/

/-- Strength classification, `Evidence::Strength`. -/
inductive Strength where
  | Definitive
  | Strong
  | Moderate
  | Weak
deriving DecidableEq, Repr

/-- The struct `Evidence`. -/
structure Evidence where
  type : String
  description : String
  confidence : ℚ
  source : String
  strength : Strength
  is_negative : Bool
deriving DecidableEq

/-- The constructor of `Evidence` called with four arguments: the defaults
`strength = Strength::Moderate` and `is_negative = false` fill the rest. -/
def Evidence.make4 (type description : String) (confidence : ℚ) (source : String) : Evidence :=
  ⟨type, description, confidence, source, Strength.Moderate, false⟩

/-- The enum `TransportType`. -/
inductive TransportType where
  | Stdio
  | Http
  | Sse
  | Unknown
deriving DecidableEq, Repr

/-- The struct `DockerContainer`. -/
structure DockerContainer where
  id : String
  name : String
  image : String
  command : String
  entrypoint_path : String
  entrypoint_args : List String
  labels : List (String × String)
  env : List (String × String)
deriving DecidableEq

/-- The struct `KubernetesPod`. -/
structure KubernetesPod where
  name : String
  namespace_name : String
  pod_ip : String
  container_names : List String
  annotations : List (String × String)
  labels : List (String × String)
deriving DecidableEq

/-- The struct `Candidate`. -/
structure Candidate where
  pid : Int
  command : String
  process_name : String
  parent_pid : Int
  environment : List (String × String)
  config_file : String
  config_key : String
  url : String
  address : String
  port : Int
  docker_container : Option DockerContainer
  k8s_pod : Option KubernetesPod
  evidence : List Evidence
  confidence_score : ℚ
  transport_hint : TransportType
deriving DecidableEq

/-- A default-constructed `Candidate` (the member initialisers of the struct). -/
def Candidate.default : Candidate where
  pid := 0
  command := ""
  process_name := ""
  parent_pid := 0
  environment := []
  config_file := ""
  config_key := ""
  url := ""
  address := ""
  port := 0
  docker_container := none
  k8s_pod := none
  evidence := []
  confidence_score := 0
  transport_hint := TransportType.Unknown

/-! ## `Candidate::recalculate_confidence` (`candidate.cpp`) -/

/-- The four local counters of `recalculate_confidence`. -/
structure StrengthCounts where
  definitive_count : Nat
  strong_count : Nat
  moderate_count : Nat
  weak_count : Nat
deriving DecidableEq, Repr

/-- The `switch (e.strength)` of the counting loop. -/
def StrengthCounts.bump (k : StrengthCounts) : Strength → StrengthCounts
  | Strength.Definitive => { k with definitive_count := k.definitive_count + 1 }
  | Strength.Strong => { k with strong_count := k.strong_count + 1 }
  | Strength.Moderate => { k with moderate_count := k.moderate_count + 1 }
  | Strength.Weak => { k with weak_count := k.weak_count + 1 }

/-- The first loop of `recalculate_confidence`: `none` is the early `return` taken at the
first negative evidence, `some k` the counters when the loop runs to its end. -/
def countLoop : List Evidence → StrengthCounts → Option StrengthCounts
  | [], k => some k
  | e :: es, k => if e.is_negative then none else countLoop es (k.bump e.strength)

/-- The accumulation loop `product_of_negatives *= (1.0 - e.confidence)`, started at `1.0`. -/
def product_of_negatives (es : List Evidence) : ℚ :=
  es.foldl (fun acc e => acc * (1 - e.confidence)) 1

/-- The call `std::min(a, b)`, which is `(b < a) ? b : a`. -/
def stdMin (a b : ℚ) : ℚ := if b < a then b else a

/-- The value that `Candidate::recalculate_confidence` stores in `confidence_score`,
as a function of the evidence vector. -/
def recalculatedScore (evidence : List Evidence) : ℚ :=
  if evidence.isEmpty then 0
  else
    match countLoop evidence ⟨0, 0, 0, 0⟩ with
    | none => 0
    | some k =>
      if 0 < k.weak_count ∧ k.moderate_count = 0 ∧ k.strong_count = 0
          ∧ k.definitive_count = 0 then
        stdMin (49 / 100) (1 - product_of_negatives evidence)
      else
        let confidence_score := 1 - product_of_negatives evidence
        if confidence_score > 99 / 100 then 99 / 100 else confidence_score

/-- The member function `Candidate::recalculate_confidence`. -/
def Candidate.recalculate_confidence (c : Candidate) : Candidate :=
  { c with confidence_score := recalculatedScore c.evidence }

/-- The member function `Candidate::add_evidence`: `push_back`, then recalculate. -/
def Candidate.add_evidence (c : Candidate) (e : Evidence) : Candidate :=
  Candidate.recalculate_confidence { c with evidence := c.evidence ++ [e] }

/-! ## Reference Noisy-OR value, following the specification text -/

/-- The reference Noisy-OR score of the specification: `0` for an empty list or when some
evidence is negative; otherwise, with `p = 1 - ∏ (1 - confidence)`, `min p 0.49` when every
evidence is `Weak` and `min p 0.99` when some evidence is `Moderate`, `Strong` or
`Definitive`. -/
def noisyOrReference (es : List Evidence) : ℚ :=
  if es = [] ∨ ∃ e ∈ es, e.is_negative = true then 0
  else
    let p := 1 - (es.map (fun e => 1 - e.confidence)).prod
    if ∀ e ∈ es, e.strength = Strength.Weak then min p (49 / 100) else min p (99 / 100)

/-- Number of evidence items of a given strength. -/
def strengthCount (s : Strength) (es : List Evidence) : Nat :=
  es.countP (fun e => decide (e.strength = s))

/-! ## `Candidate::is_direct_detection` (`candidate.hpp`) -/

/-- The search loop of `std::string::find(needle)` on the characters from position `pos`
on: the first position at which `needle` occurs, `none` for `npos`. -/
def findFrom (needle : List Char) : List Char → Nat → Option Nat
  | [], pos => if needle.isPrefixOf [] then some pos else none
  | c :: cs, pos =>
    if needle.isPrefixOf (c :: cs) then some pos else findFrom needle cs (pos + 1)

/-- The call `s.find(needle)`; `none` stands for `std::string::npos`. -/
def strFind (s needle : String) : Option Nat := findFrom needle.toList s.toList 0

/-- The loop of `Candidate::is_direct_detection` over the evidence vector. -/
def directDetectionLoop : List Evidence → Bool
  | [] => false
  | e :: es =>
    if e.type = "claude_extension_installed" then true
    else if e.type = "config_declared" then true
    else if strFind e.source "rulepack:" = some 0 then true
    else directDetectionLoop es

/-- The member function `Candidate::is_direct_detection`. -/
def Candidate.is_direct_detection (c : Candidate) : Bool := directDetectionLoop c.evidence

/-! ## Rulepack engine (`rulepack.hpp`, `rulepack.cpp`) -/

/-- The enum `RuleMatch::Type`. -/
inductive RuleMatchType where
  | ProcessName
  | CommandContains
  | CommandRegex
  | PortEquals
  | URLContains
  | ConfigFile
  | EvidenceType
  | ParentProcess
deriving DecidableEq, Repr

/-- The struct `RuleMatch`. -/
structure RuleMatch where
  type : RuleMatchType
  value : String
deriving DecidableEq

/-- The enum `RuleAction::Type`. -/
inductive RuleActionType where
  | AddEvidence
  | BoostConfidence
  | SetMinimumConfidence
  | AddTag
  | AddNegativeEvidence
  | SetMaximumConfidence
  | Exclude
deriving DecidableEq, Repr

/-- The struct `RuleAction` with all of its parameter fields. -/
structure RuleAction where
  type : RuleActionType
  evidence_type : String
  evidence_description : String
  evidence_confidence : ℚ
  evidence_source : String
  boost_factor : ℚ
  minimum_confidence : ℚ
  tag : String
  negative_evidence_type : String
  negative_evidence_description : String
  negative_evidence_confidence : ℚ
  maximum_confidence : ℚ
deriving DecidableEq

/-- A `RuleAction` of the given type whose parameter fields hold their member initialisers. -/
def RuleAction.ofType (t : RuleActionType) : RuleAction where
  type := t
  evidence_type := ""
  evidence_description := ""
  evidence_confidence := 0
  evidence_source := ""
  boost_factor := 1
  minimum_confidence := 0
  tag := ""
  negative_evidence_type := ""
  negative_evidence_description := ""
  negative_evidence_confidence := 99 / 100
  maximum_confidence := 0

/-- The struct `Rule`. -/
structure Rule where
  name : String
  description : String
  match_conditions : List RuleMatch
  actions : List RuleAction
deriving DecidableEq

/-- The struct `Rulepack`. -/
structure Rulepack where
  name : String
  version : String
  description : String
  rules : List Rule
deriving DecidableEq

/-- The class `RuleEngine`: its private vector `rulepacks_`. -/
structure RuleEngine where
  rulepacks_ : List Rulepack
deriving DecidableEq

/-- Regular-expression search of the standard library, which is not part of the repository:
`rx pattern subject` is `none` when `std::regex` raises `std::regex_error`, and otherwise
the result of `std::regex_search(subject, pattern)`. -/
abbrev RegexSearch := String → String → Option Bool

/-- The whitespace class of `isspace` in the C locale, skipped by `std::stoi`. -/
def isSpaceChar (c : Char) : Bool :=
  c = ' ' || c = '\t' || c = '\n' || c = '\r' || c.toNat = 11 || c.toNat = 12

/-- The call `std::stoi(value)` in base 10: leading whitespace, an optional sign, then the
longest run of digits; `none` when it throws (`std::invalid_argument` without a digit,
`std::out_of_range` outside the range of `int`). -/
def stoi (value : String) : Option Int :=
  let t := value.toList.dropWhile isSpaceChar
  let signed : Bool × List Char :=
    match t with
    | '-' :: r => (true, r)
    | '+' :: r => (false, r)
    | _ => (false, t)
  let ds := signed.2.takeWhile Char.isDigit
  if ds.isEmpty then none
  else
    let n : Nat := ds.foldl (fun a d => 10 * a + (d.toNat - 48)) 0
    let v : Int := if signed.1 then -(n : Int) else (n : Int)
    if v < -2147483648 ∨ 2147483647 < v then none else some v

/-- The member function `RuleMatch::matches`; `none` when `std::stoi` throws. -/
def RuleMatch.matches (rx : RegexSearch) (m : RuleMatch) (candidate : Candidate) : Option Bool :=
  match m.type with
  | RuleMatchType.ProcessName => some (strFind candidate.process_name m.value).isSome
  | RuleMatchType.CommandContains => some (strFind candidate.command m.value).isSome
  | RuleMatchType.CommandRegex =>
    match rx m.value candidate.command with
    | some b => some b
    | none => some false
  | RuleMatchType.PortEquals =>
    match stoi m.value with
    | some n => some (decide (candidate.port = n))
    | none => none
  | RuleMatchType.URLContains => some (strFind candidate.url m.value).isSome
  | RuleMatchType.ConfigFile => some (strFind candidate.config_file m.value).isSome
  | RuleMatchType.EvidenceType => some (candidate.evidence.any (fun e => decide (e.type = m.value)))
  | RuleMatchType.ParentProcess => some false

/-- The member function `RuleAction::apply`. -/
def RuleAction.apply (a : RuleAction) (candidate : Candidate) : Candidate :=
  match a.type with
  | RuleActionType.AddEvidence =>
    candidate.add_evidence
      (Evidence.make4 a.evidence_type a.evidence_description a.evidence_confidence
        a.evidence_source)
  | RuleActionType.BoostConfidence =>
    let new_confidence := candidate.confidence_score * a.boost_factor
    { candidate with
      confidence_score := if new_confidence > 99 / 100 then 99 / 100 else new_confidence }
  | RuleActionType.SetMinimumConfidence =>
    if candidate.confidence_score < a.minimum_confidence then
      { candidate with confidence_score := a.minimum_confidence }
    else candidate
  | RuleActionType.AddTag =>
    candidate.add_evidence (Evidence.make4 "tag" ("Tagged as: " ++ a.tag) 0 "rulepack")
  | RuleActionType.AddNegativeEvidence =>
    candidate.add_evidence
      ⟨a.negative_evidence_type, a.negative_evidence_description,
        a.negative_evidence_confidence, "rulepack:exclusion", Strength.Definitive, true⟩
  | RuleActionType.SetMaximumConfidence =>
    if candidate.confidence_score > a.maximum_confidence then
      { candidate with confidence_score := a.maximum_confidence }
    else candidate
  | RuleActionType.Exclude =>
    Candidate.add_evidence { candidate with confidence_score := 0 }
      ⟨"rulepack_exclusion", "Excluded by rulepack rule", 99 / 100, "rulepack:exclusion",
        Strength.Definitive, true⟩

/-- How a call that mutates a candidate through a reference ends: it returns, or an
exception leaves it; either way the caller sees the candidate as it is at that point. -/
inductive Outcome where
  | returned (candidate : Candidate)
  | threw (candidate : Candidate)
deriving DecidableEq

/-- The candidate as the call left it. -/
def Outcome.candidate : Outcome → Candidate
  | Outcome.returned c => c
  | Outcome.threw c => c

/-- The loop of `Rule::matches`: the first condition that does not hold ends it with `false`;
`none` when a condition throws. -/
def matchesLoop (rx : RegexSearch) (candidate : Candidate) : List RuleMatch → Option Bool
  | [] => some true
  | m :: ms =>
    match m.matches rx candidate with
    | none => none
    | some false => some false
    | some true => matchesLoop rx candidate ms

/-- The member function `Rule::matches`. -/
def Rule.matches (rx : RegexSearch) (r : Rule) (candidate : Candidate) : Option Bool :=
  matchesLoop rx candidate r.match_conditions

/-- The member function `Rule::apply`. -/
def Rule.apply (rx : RegexSearch) (r : Rule) (candidate : Candidate) : Outcome :=
  match r.matches rx candidate with
  | none => Outcome.threw candidate
  | some false => Outcome.returned candidate
  | some true =>
    Outcome.returned (r.actions.foldl (fun c (a : RuleAction) => a.apply c) candidate)

/-- The loop of `Rulepack::apply` over the rules. -/
def rulesLoop (rx : RegexSearch) : List Rule → Candidate → Outcome
  | [], candidate => Outcome.returned candidate
  | r :: rs, candidate =>
    match r.apply rx candidate with
    | Outcome.returned c => rulesLoop rx rs c
    | Outcome.threw c => Outcome.threw c

/-- The member function `Rulepack::apply`. -/
def Rulepack.apply (rx : RegexSearch) (p : Rulepack) (candidate : Candidate) : Outcome :=
  rulesLoop rx p.rules candidate

/-- The loop of `RuleEngine::apply` over the rulepacks. -/
def rulepacksLoop (rx : RegexSearch) : List Rulepack → Candidate → Outcome
  | [], candidate => Outcome.returned candidate
  | p :: ps, candidate =>
    match p.apply rx candidate with
    | Outcome.returned c => rulepacksLoop rx ps c
    | Outcome.threw c => Outcome.threw c

/-- The member function `RuleEngine::apply`. -/
def RuleEngine.apply (rx : RegexSearch) (engine : RuleEngine) (candidate : Candidate) : Outcome :=
  rulepacksLoop rx engine.rulepacks_ candidate

/-- One mutation of a candidate's score: a call of `Candidate::add_evidence` or a call of
`RuleAction::apply`. -/
inductive Mutation where
  | add_evidence (e : Evidence)
  | rule_action (a : RuleAction)
deriving DecidableEq

/-- Perform one mutation. -/
def Mutation.run (c : Candidate) : Mutation → Candidate
  | Mutation.add_evidence e => c.add_evidence e
  | Mutation.rule_action a => a.apply c

/-- Perform a sequence of mutations, first to last. -/
def runMutations (ms : List Mutation) (c : Candidate) : Candidate := ms.foldl Mutation.run c

/-! ## Candidate merger (`scanner.cpp`) -/

/-- The lambda passed to `std::find_if` in `deduplicate_candidates`, `it` being the
candidate under the outer iterator and `other` the later candidate tested. -/
def isDuplicate (it other : Candidate) : Bool :=
  if it.config_file ≠ "" ∧ other.config_file ≠ "" ∧
      it.config_file = other.config_file ∧ it.config_key = other.config_key then true
  else if it.pid > 0 ∧ other.pid > 0 ∧ it.pid = other.pid then true
  else if it.url ≠ "" ∧ other.url ≠ "" ∧ it.url = other.url then true
  else if it.command ≠ "" ∧ other.command ≠ "" ∧ it.command = other.command then true
  else false

/-- The call `std::find_if(it + 1, end, ...)` followed by `erase(duplicate)`: the first later
candidate that duplicates `it`, and the later candidates without it; `none` when `find_if`
returns `end`. -/
def extractDuplicate (it : Candidate) : List Candidate → Option (Candidate × List Candidate)
  | [] => none
  | x :: xs =>
    if isDuplicate it x then some (x, xs)
    else
      match extractDuplicate it xs with
      | some (d, r) => some (d, x :: r)
      | none => none

/-- The loop `for (auto& evidence : duplicate->evidence) it->add_evidence(evidence);`. -/
def mergeEvidence (it duplicate : Candidate) : Candidate :=
  duplicate.evidence.foldl Candidate.add_evidence it

/-- The `while (it != candidates.end())` loop of `deduplicate_candidates`, on the candidates
from `it` on (those before `it` are final); `fuel` bounds the iterations. -/
def dedupLoop : Nat → List Candidate → List Candidate
  | 0, cs => cs
  | _ + 1, [] => []
  | fuel + 1, it :: rest =>
    match extractDuplicate it rest with
    | some (duplicate, rest') => dedupLoop fuel (mergeEvidence it duplicate :: rest')
    | none => it :: dedupLoop fuel rest

/-- The function `deduplicate_candidates`. Every iteration erases a candidate or advances
`it`, so `candidates.size()` iterations end the loop. -/
def deduplicate_candidates (candidates : List Candidate) : List Candidate :=
  dedupLoop candidates.length candidates

/-- A candidate without its derived fields `evidence` and `confidence_score`. -/
def Candidate.identity (c : Candidate) : Candidate :=
  { c with evidence := [], confidence_score := 0 }

/-! ## SSE endpoint discovery (`http_testing_engine.cpp`) -/

/-- The successive results of `std::getline(stream, line)`: the text is cut at every `'\n'`;
a last line without `'\n'` is returned when it has at least one character. `cur` holds the
characters of the current line, most recent first. -/
def getlinesAux : List Char → List Char → List (List Char)
  | cur, [] => if cur.isEmpty then [] else [cur.reverse]
  | cur, c :: cs =>
    if c = '\n' then cur.reverse :: getlinesAux [] cs else getlinesAux (c :: cur) cs

/-- All lines that the `while (std::getline(stream, line))` loop reads. -/
def getlines (body : List Char) : List (List Char) := getlinesAux [] body

/-- Membership in the character set `" \t\r\n"`. -/
def isTrimChar (c : Char) : Bool := c = ' ' || c = '\t' || c = '\r' || c = '\n'

/-- Membership in the character set `" \t"`. -/
def isBlankChar (c : Char) : Bool := c = ' ' || c = '\t'

/-- The two `erase` calls that trim a line: `erase(0, find_first_not_of(" \t\r\n"))`, then
`erase(find_last_not_of(" \t\r\n") + 1)`. -/
def trimLine (line : List Char) : List Char :=
  ((line.dropWhile isTrimChar).reverse.dropWhile isTrimChar).reverse

/-- The call `s.erase(0, s.find_first_not_of(" \t"))`. -/
def eraseLeadingBlanks (s : List Char) : List Char := s.dropWhile isBlankChar

/-- The body of the `while` loop of `parse_sse_endpoint`, run over the remaining lines with
the current value of `found_endpoint_event`; the result is the final value of `endpoint`. -/
def sseLoop : List (List Char) → Bool → List Char
  | [], _ => []
  | raw :: rest, found_endpoint_event =>
    let line := trimLine raw
    if line.isEmpty then sseLoop rest found_endpoint_event
    else
      let found :=
        if findFrom "event:".toList line 0 = some 0 then
          if eraseLeadingBlanks (line.drop 6) = "endpoint".toList then true
          else found_endpoint_event
        else found_endpoint_event
      if found = true ∧ findFrom "data:".toList line 0 = some 0 then
        eraseLeadingBlanks (line.drop 5)
      else sseLoop rest found

/-- The member function `HttpTestingEngine::parse_sse_endpoint`. -/
def parse_sse_endpoint (sse_body : String) : String :=
  String.mk (sseLoop (getlines sse_body.toList) false)

/-- A line that sets `found_endpoint_event`: after trimming it starts with `event:` and the
rest, without leading blanks, is `endpoint`. -/
def isEndpointEventLine (raw : List Char) : Bool :=
  let line := trimLine raw
  decide (findFrom "event:".toList line 0 = some 0 ∧
    eraseLeadingBlanks (line.drop 6) = "endpoint".toList)

/-! ## Predicates and sample inputs used in the theorems -/

/-- The score bounds `0 ≤ confidence_score ≤ 0.99`. -/
def Candidate.scoreInBounds (c : Candidate) : Prop :=
  0 ≤ c.confidence_score ∧ c.confidence_score ≤ 99 / 100

/-- The candidate holds a negative evidence. -/
def Candidate.hasNegativeEvidence (c : Candidate) : Prop :=
  ∃ e ∈ c.evidence, e.is_negative = true

/-- The restriction on mutations made by the score bound as the specification states it:
evidence passed to `Candidate::add_evidence` has its confidence in `[0, 1]`, and a
`RuleAction` is of any type with any parameters. -/
def Mutation.evidenceInUnitInterval : Mutation → Prop
  | Mutation.add_evidence e => 0 ≤ e.confidence ∧ e.confidence ≤ 1
  | Mutation.rule_action _ => True

/-- Parameter ranges of a mutation: evidence added directly or by `AddEvidence` has its
confidence in `[0, 1]`, a boost factor is not negative, a floor is at most `0.99` and a cap is
not negative; `AddTag`, `AddNegativeEvidence` and `Exclude` are unrestricted. -/
def Mutation.inRange : Mutation → Prop
  | Mutation.add_evidence e => 0 ≤ e.confidence ∧ e.confidence ≤ 1
  | Mutation.rule_action a =>
    match a.type with
    | RuleActionType.AddEvidence => 0 ≤ a.evidence_confidence ∧ a.evidence_confidence ≤ 1
    | RuleActionType.BoostConfidence => 0 ≤ a.boost_factor
    | RuleActionType.SetMinimumConfidence => a.minimum_confidence ≤ 99 / 100
    | RuleActionType.SetMaximumConfidence => 0 ≤ a.maximum_confidence
    | RuleActionType.AddTag => True
    | RuleActionType.AddNegativeEvidence => True
    | RuleActionType.Exclude => True

/-- A rule action that cannot move a score of `0` : it is not a `SetMinimumConfidence` with
a positive floor and not a `SetMaximumConfidence` with a negative cap. -/
def RuleAction.keepsZero (a : RuleAction) : Prop :=
  (a.type = RuleActionType.SetMinimumConfidence → a.minimum_confidence ≤ 0) ∧
  (a.type = RuleActionType.SetMaximumConfidence → 0 ≤ a.maximum_confidence)

/-- A non-negative sample evidence of the given confidence and strength. -/
def sampleEvidence (confidence : ℚ) (strength : Strength) : Evidence :=
  ⟨"file_descriptors", "sample", confidence, "pid", strength, false⟩

/-- A default candidate holding the given evidence. -/
def sampleCandidate (evidence : List Evidence) : Candidate :=
  { Candidate.default with evidence := evidence }

/-- The action parsed from `"set_minimum_confidence": 1.0`. -/
def floorOneAction : RuleAction :=
  { RuleAction.ofType RuleActionType.SetMinimumConfidence with minimum_confidence := 1 }

/-- A regular-expression search that rejects every pattern. -/
def noRegex : RegexSearch := fun _ _ => none

/-- A crash handler process of a browser. -/
def crashpadCandidate : Candidate :=
  { Candidate.default with
    pid := 4242
    process_name := "chrome_crashpad_handler"
    command := "chrome_crashpad_handler --monitor" }

/-- A rulepack of two rules: the first excludes crash handlers, the second, declared later,
sets a floor of `0.9` for every candidate with a process id (it has no match condition). -/
def excludeThenFloorPack : Rulepack where
  name := "sample"
  version := "1.0"
  description := ""
  rules :=
    [ { name := "exclude crashpad"
        description := ""
        match_conditions := [⟨RuleMatchType.ProcessName, "crashpad_handler"⟩]
        actions := [RuleAction.ofType RuleActionType.Exclude] },
      { name := "floor"
        description := ""
        match_conditions := []
        actions :=
          [{ RuleAction.ofType RuleActionType.SetMinimumConfidence with
             minimum_confidence := 9 / 10 }] } ]

/-- A sequence of mutations with in-range parameters: evidence at `0.7`, a boost by `1.5`,
a floor of `0.9`, and an exclusion. -/
def sampleMutations : List Mutation :=
  [ Mutation.add_evidence (sampleEvidence (7 / 10) Strength.Moderate),
    Mutation.rule_action
      { RuleAction.ofType RuleActionType.BoostConfidence with boost_factor := 3 / 2 },
    Mutation.rule_action
      { RuleAction.ofType RuleActionType.SetMinimumConfidence with
        minimum_confidence := 9 / 10 },
    Mutation.rule_action (RuleAction.ofType RuleActionType.Exclude) ]

/-- A rulepack whose only rule excludes crash handlers. -/
def excludePack : Rulepack where
  name := "sample"
  version := "1.0"
  description := ""
  rules :=
    [ { name := "exclude crashpad"
        description := ""
        match_conditions := [⟨RuleMatchType.ProcessName, "crashpad_handler"⟩]
        actions := [RuleAction.ofType RuleActionType.Exclude] } ]

/-- Two entries of the `servers` array of one configuration file, both without a `name`,
that declare different commands (as `create_candidate_from_config` emits them). -/
def unnamedEntryA : Candidate :=
  { Candidate.default with
    config_file := "/home/u/.config/Claude/claude_desktop_config.json"
    config_key := ""
    command := "node /srv/a.js"
    transport_hint := TransportType.Stdio
    evidence :=
      [Evidence.make4 "config_declared"
        "Declared in config file: /home/u/.config/Claude/claude_desktop_config.json" (9 / 10)
        "/home/u/.config/Claude/claude_desktop_config.json"]
    confidence_score := 9 / 10 }

/-- The second unnamed entry of the same file. -/
def unnamedEntryB : Candidate :=
  { unnamedEntryA with command := "python3 /srv/b.py" }

/-- A process candidate with one piece of evidence. -/
def processCandidate (pid : Int) (command : String) (e : Evidence) : Candidate :=
  { Candidate.default with
    pid := pid
    command := command
    evidence := [e]
    confidence_score := recalculatedScore [e] }

/-- Evidence at `0.5`, then the action parsed from `"boost_confidence": -1`. -/
def negativeBoostMutations : List Mutation :=
  [ Mutation.add_evidence (sampleEvidence (1 / 2) Strength.Moderate),
    Mutation.rule_action
      { RuleAction.ofType RuleActionType.BoostConfidence with boost_factor := -1 } ]

/-- The action parsed from `"set_maximum_confidence": -1`. -/
def negativeCapMutations : List Mutation :=
  [ Mutation.rule_action
      { RuleAction.ofType RuleActionType.SetMaximumConfidence with
        maximum_confidence := -1 } ]

/-- The action parsed from `"add_evidence": {"confidence": -1}`. -/
def negativeEvidenceMutations : List Mutation :=
  [ Mutation.rule_action
      { RuleAction.ofType RuleActionType.AddEvidence with
        evidence_type := "custom_rule"
        evidence_confidence := -1
        evidence_source := "rulepack" } ]

/-! ## Application order, following the specification text -/

/-- Sequencing of two calls on a candidate passed by reference: the second call runs on the
candidate as the first left it, unless an exception left the first. -/
def Outcome.andThen (o : Outcome) (f : Candidate → Outcome) : Outcome :=
  match o with
  | Outcome.returned c => f c
  | Outcome.threw c => Outcome.threw c

/-- The actions of a rule applied one after the other in the order declared. -/
def applyActionsInOrder : List RuleAction → Candidate → Candidate
  | [], c => c
  | a :: as, c => applyActionsInOrder as (a.apply c)

/-- One rule visited on the current candidate: when its conjunction of matches holds on
that candidate, its actions are applied in the order declared. -/
def visitRule (rx : RegexSearch) (r : Rule) (c : Candidate) : Outcome :=
  match r.matches rx c with
  | some true => Outcome.returned (applyActionsInOrder r.actions c)
  | some false => Outcome.returned c
  | none => Outcome.threw c

/-- The application order of the specification: every rule of every rulepack is visited, in
rulepack order and then in rule order within a pack, each on the candidate as the rules
before it left it. -/
def applyInOrderReference (rx : RegexSearch) (engine : RuleEngine) (c : Candidate) : Outcome :=
  (engine.rulepacks_.flatMap Rulepack.rules).foldl
    (fun o r => o.andThen (visitRule rx r)) (Outcome.returned c)

/-- The tag evidence that `AddTag` builds. -/
def tagEvidence (tag : String) : Evidence :=
  Evidence.make4 "tag" ("Tagged as: " ++ tag) 0 "rulepack"

/-- The action parsed from `"add_tag": "ide"`. -/
def tagIdeAction : RuleAction :=
  { RuleAction.ofType RuleActionType.AddTag with tag := "ide" }

/-- A candidate with two `Weak` evidences at `0.7`, its score at the weak cap `0.49`. -/
def weakPairCandidate : Candidate :=
  { sampleCandidate [sampleEvidence (7 / 10) Strength.Weak,
      sampleEvidence (7 / 10) Strength.Weak] with confidence_score := 49 / 100 }

/-- A candidate with one evidence at `0.5` whose score a `SetMinimumConfidence` action has
raised to `0.9`. -/
def flooredCandidate : Candidate :=
  { sampleCandidate [sampleEvidence (1 / 2) Strength.Moderate] with
    confidence_score := 9 / 10 }

/-! ## URL parsing (`http_client.hpp`, `http_client.cpp`) -/

/-- The struct `HttpClient::ParsedUrl`. -/
structure ParsedUrl where
  scheme : String
  host : String
  port : Int
  path : String
  valid : Bool
deriving DecidableEq

/-- A default-constructed `ParsedUrl`: `port = 80`, `valid = false`. -/
def ParsedUrl.init : ParsedUrl := ⟨"", "", 80, "", false⟩

/-- The first part of `HttpClient::parse_url`: the scheme before `"://"`, the authority up
to the next `'/'` and the path from that `'/'` on (`"/"` without one); `none` is the early
`return result` for a URL without `"://"`. -/
def splitUrl (url : List Char) : Option (List Char × List Char × List Char) :=
  match findFrom "://".toList url 0 with
  | none => none
  | some scheme_end =>
    let scheme := url.take scheme_end
    let authority_start := scheme_end + 3
    match findFrom ['/'] (url.drop authority_start) authority_start with
    | none => some (scheme, url.drop authority_start, ['/'])
    | some path_start =>
      some (scheme, (url.drop authority_start).take (path_start - authority_start),
        url.drop path_start)

/-- The expression `(result.scheme == "https") ? 443 : 80`. -/
def defaultPort (scheme : List Char) : Int := if scheme = "https".toList then 443 else 80

/-- The second part of `HttpClient::parse_url`: host and port from the authority. A port
that `std::stoi` rejects takes the `catch (...)` and returns with `valid = false`. -/
def parseAuthority (scheme authority path : List Char) : ParsedUrl :=
  let result : ParsedUrl :=
    { ParsedUrl.init with scheme := String.mk scheme, path := String.mk path }
  if authority.head? = some '[' then
    match findFrom [']'] authority 0 with
    | none => result
    | some bracket_end =>
      let host := String.mk (authority.take (bracket_end + 1))
      if bracket_end + 1 < authority.length ∧ authority.get? (bracket_end + 1) = some ':' then
        match stoi (String.mk (authority.drop (bracket_end + 2))) with
        | none => { result with host := host }
        | some port => { result with host := host, port := port, valid := decide (host ≠ "") }
      else
        { result with host := host, port := defaultPort scheme, valid := decide (host ≠ "") }
  else
    match findFrom [':'] authority 0 with
    | some port_sep =>
      let host := String.mk (authority.take port_sep)
      match stoi (String.mk (authority.drop (port_sep + 1))) with
      | none => { result with host := host }
      | some port => { result with host := host, port := port, valid := decide (host ≠ "") }
    | none =>
      let host := String.mk authority
      { result with host := host, port := defaultPort scheme, valid := decide (host ≠ "") }

/-- The member function `HttpClient::parse_url`. -/
def parse_url (url : String) : ParsedUrl :=
  match splitUrl url.toList with
  | none => ParsedUrl.init
  | some (scheme, authority, path) => parseAuthority scheme authority path

/-! ## Passive coordinator (`config.hpp`, `scanner.cpp`)

Wall-clock readings (`scan_timestamp`, `scan_duration_seconds`) are not modelled. -/

/-- The struct `PassiveScanConfig`. -/
structure PassiveScanConfig where
  scan_configs : Bool
  scan_processes : Bool
  scan_network : Bool
  scan_containers : Bool
  min_confidence : ℚ
  max_candidates : Int
  additional_config_paths : List String
deriving DecidableEq

/-- A default-constructed `PassiveScanConfig`: `min_confidence = 0.0`,
`max_candidates = 1000`. -/
def PassiveScanConfig.default : PassiveScanConfig where
  scan_configs := true
  scan_processes := true
  scan_network := true
  scan_containers := false
  min_confidence := 0
  max_candidates := 1000
  additional_config_paths := []

/-- The struct `PassiveScanResults` without its wall-clock fields. -/
structure PassiveScanResults where
  candidates : List Candidate
  config_files_checked : Int
  processes_scanned : Int
  network_sockets_checked : Int
  containers_scanned : Int
  errors : List String
deriving DecidableEq

/-- A default-constructed `PassiveScanResults`. -/
def PassiveScanResults.init : PassiveScanResults := ⟨[], 0, 0, 0, 0, []⟩

/-- What one detection engine does during a scan: its `name()`, the result of `detect()`
(`Except.error what` when it throws an exception with that `what()`), and the count that
its `get_last_scan_..._count()` reports afterwards. -/
structure EngineRun where
  name : String
  detect : Except String (List Candidate)
  last_scan_count : Int

/-- The call `std::partial_sort(first, first + middle, last, comp)` of the standard library
with the comparator of the scan, `a.confidence_score > b.confidence_score`: the range after
the call, as a function of the range before it and of `middle`. -/
abbrev PartialSort := List Candidate → Nat → List Candidate

/-- What the C++ standard guarantees of `std::partial_sort` with that comparator: the range
is permuted, its first `middle` elements are sorted (no element has a greater score than one
before it), and no element after them has a greater score than one of them. The order of
equal elements and of the elements after `middle` is unspecified. -/
def PartialSort.meetsStandard (partial_sort : PartialSort) : Prop :=
  ∀ (l : List Candidate) (middle : Nat), middle ≤ l.length →
    (partial_sort l middle).Perm l ∧
    ((partial_sort l middle).take middle).Pairwise
      (fun a b => ¬ b.confidence_score > a.confidence_score) ∧
    ∀ a ∈ (partial_sort l middle).take middle, ∀ b ∈ (partial_sort l middle).drop middle,
      ¬ b.confidence_score > a.confidence_score

/-- The loop `for (auto& candidate : candidates) rule_engine_->apply(candidate);`:
`none` when an application throws, which abandons the engine's candidates. -/
def applyRulesLoop (rx : RegexSearch) (rule_engine : RuleEngine) :
    List Candidate → Option (List Candidate)
  | [] => some []
  | c :: cs =>
    match rule_engine.apply rx c with
    | Outcome.threw _ => none
    | Outcome.returned c' =>
      match applyRulesLoop rx rule_engine cs with
      | none => none
      | some cs' => some (c' :: cs')

/-- The loop that filters by the confidence threshold: the candidates pushed to
`results.candidates`. -/
def confidenceFilter (config : PassiveScanConfig) (candidates : List Candidate) :
    List Candidate :=
  candidates.filter (fun c => decide (c.confidence_score ≥ config.min_confidence))

/-- The statistics update after an engine has run. -/
def updateStatistics (engine : EngineRun) (results : PassiveScanResults) :
    PassiveScanResults :=
  if engine.name = "ConfigDetectionEngine" then
    { results with
      config_files_checked := results.config_files_checked + engine.last_scan_count }
  else if engine.name = "ProcessDetectionEngine" then
    { results with processes_scanned := results.processes_scanned + engine.last_scan_count }
  else if engine.name = "NetworkDetectionEngine" then
    { results with
      network_sockets_checked := results.network_sockets_checked + engine.last_scan_count }
  else results

/-- The body of the loop over the engines: the `try` block and its `catch`. `rule_what` is
the `what()` of the exception that a throwing rule application raises. -/
def runEngine (rx : RegexSearch) (rule_what : String) (rule_engine : RuleEngine)
    (config : PassiveScanConfig) (results : PassiveScanResults) (engine : EngineRun) :
    PassiveScanResults :=
  match engine.detect with
  | Except.error what =>
    { results with errors := results.errors ++ ["Error in " ++ engine.name ++ ": " ++ what] }
  | Except.ok candidates =>
    match applyRulesLoop rx rule_engine candidates with
    | none =>
      { results with
        errors := results.errors ++ ["Error in " ++ engine.name ++ ": " ++ rule_what] }
    | some candidates' =>
      updateStatistics engine
        { results with
          candidates := results.candidates ++ confidenceFilter config candidates' }

/-- The loop `for (auto& engine : engines_)` of `PassiveScanner::scan`. -/
def runEngines (rx : RegexSearch) (rule_what : String) (rule_engine : RuleEngine)
    (config : PassiveScanConfig) (engines : List EngineRun) : PassiveScanResults :=
  engines.foldl (runEngine rx rule_what rule_engine config) PassiveScanResults.init

/-- The conversion `static_cast<size_t>(config.max_candidates)` on a 64-bit target. -/
def sizeOfInt (n : Int) : Nat := (n % 18446744073709551616).toNat

/-- The block that enforces `max_candidates`: when more candidates are held, a partial sort
by descending score and `resize(max_candidates)`. -/
def enforceMaxCandidates (partial_sort : PartialSort) (config : PassiveScanConfig)
    (candidates : List Candidate) : List Candidate :=
  if candidates.length > sizeOfInt config.max_candidates then
    (partial_sort candidates (sizeOfInt config.max_candidates)).take
      (sizeOfInt config.max_candidates)
  else candidates

/-- The member function `PassiveScanner::scan`, on the engines already initialised. -/
def PassiveScanner.scan (rx : RegexSearch) (partial_sort : PartialSort) (rule_what : String)
    (rule_engine : RuleEngine) (engines : List EngineRun) (config : PassiveScanConfig) :
    PassiveScanResults :=
  let results := runEngines rx rule_what rule_engine config engines
  { results with
    candidates :=
      enforceMaxCandidates partial_sort config (deduplicate_candidates results.candidates) }

/-- A partial sort that keeps the original order of equal elements. -/
def stablePartialSort : PartialSort :=
  fun l _ => l.insertionSort (fun a b => a.confidence_score ≥ b.confidence_score)

/-- A network candidate with a given score. -/
def listenerCandidate (pid : Int) (url : String) (score : ℚ) : Candidate :=
  { Candidate.default with
    pid := pid
    url := url
    transport_hint := TransportType.Http
    evidence := [Evidence.make4 "network_listener" "listener" score "network"]
    confidence_score := score }

/-- A process engine that emits the crash handler candidate. -/
def crashpadEngine : EngineRun where
  name := "ProcessDetectionEngine"
  detect := Except.ok [crashpadCandidate]
  last_scan_count := 1

/-- A JSON value, `nlohmann::json`. -/
inductive Json where
  | null
  | boolean (b : Bool)
  | number_integer (n : Int)
  | number_float (x : ℚ)
  | string (s : String)
  | array (elements : List Json)
  | object (members : List (String × Json))

/-- The member of an object under a key; `none` for a missing key and for a value that is
not an object. -/
def Json.find (j : Json) (key : String) : Option Json :=
  match j with
  | Json.object members => members.lookup key
  | _ => none

/-- The call `j.contains(key)`. -/
def Json.contains (j : Json) (key : String) : Bool := (j.find key).isSome

/-- The call `j[key]` on a constant value; the code guards it by `contains`. -/
def Json.index (j : Json) (key : String) : Json := (j.find key).getD Json.null

/-- The call `j.is_array()`. -/
def Json.is_array : Json → Bool
  | Json.array _ => true
  | _ => false

/-- The call `j.is_object()`. -/
def Json.is_object : Json → Bool
  | Json.object _ => true
  | _ => false

/-- The call `j.is_string()`. -/
def Json.is_string : Json → Bool
  | Json.string _ => true
  | _ => false

/-- The call `j.is_null()`. -/
def Json.is_null : Json → Bool
  | Json.null => true
  | _ => false

/-- The conversion `j.get<std::string>()`; `none` when it throws `type_error`. -/
def Json.get_string : Json → Option String
  | Json.string s => some s
  | _ => none

/-- The conversion `j.get<double>()`; `none` when it throws `type_error`. -/
def Json.get_double : Json → Option ℚ
  | Json.number_integer n => some (n : ℚ)
  | Json.number_float x => some x
  | _ => none

/-- The conversion `j.get<bool>()`; `none` when it throws `type_error`. -/
def Json.get_bool : Json → Option Bool
  | Json.boolean b => some b
  | _ => none

/-- Reduction of an integer to the range of a 32-bit `int`. -/
def wrapInt32 (n : Int) : Int := (n + 2147483648) % 4294967296 - 2147483648

/-- The conversion `j.get<int>()`: a number is converted by `static_cast<int>`, a boolean
gives `0` or `1`; `none` when it throws `type_error`. -/
def Json.get_int : Json → Option Int
  | Json.number_integer n => some (wrapInt32 n)
  | Json.number_float x => some (wrapInt32 (Int.tdiv x.num x.den))
  | Json.boolean b => some (if b then 1 else 0)
  | _ => none

/-- The call `j.value(key, default_value)` with a string default: the default for a missing
key; `none` when it throws `type_error` (`j` is not an object, or the member is not a
string). -/
def Json.value_string (j : Json) (key default_value : String) : Option String :=
  match j with
  | Json.object members =>
    match members.lookup key with
    | none => some default_value
    | some v => v.get_string
  | _ => none

/-- The call `j.value(key, default_value)` with a `double` default. -/
def Json.value_double (j : Json) (key : String) (default_value : ℚ) : Option ℚ :=
  match j with
  | Json.object members =>
    match members.lookup key with
    | none => some default_value
    | some v => v.get_double
  | _ => none

/-! ## `Rulepack::load_from_json` (`rulepack.cpp`) -/

/-- One of the blocks `if (match_json.contains(key)) { ...; match.value = match_json[key]; }`
for a key whose value is converted to a string. -/
def parseStringMatch (match_json : Json) (key : String) (type : RuleMatchType) :
    Option (List RuleMatch) :=
  if match_json.contains key then
    match (match_json.index key).get_string with
    | some value => some [⟨type, value⟩]
    | none => none
  else some []

/-- The block for the key `port`: `std::to_string(match_json["port"].get<int>())`. -/
def parsePortMatch (match_json : Json) : Option (List RuleMatch) :=
  if match_json.contains "port" then
    match (match_json.index "port").get_int with
    | some port => some [⟨RuleMatchType.PortEquals, toString port⟩]
    | none => none
  else some []

/-- The block `// Parse matches` of `load_from_json`: the seven keys it reads, in its order.
`none` when a conversion throws. -/
def parseMatchConditions (rule_json : Json) : Option (List RuleMatch) :=
  if rule_json.contains "match" then
    let match_json := rule_json.index "match"
    match parseStringMatch match_json "process_name" RuleMatchType.ProcessName,
      parseStringMatch match_json "command_contains" RuleMatchType.CommandContains,
      parseStringMatch match_json "command_regex" RuleMatchType.CommandRegex,
      parsePortMatch match_json,
      parseStringMatch match_json "url_contains" RuleMatchType.URLContains,
      parseStringMatch match_json "config_file" RuleMatchType.ConfigFile,
      parseStringMatch match_json "has_evidence_type" RuleMatchType.EvidenceType with
    | some m1, some m2, some m3, some m4, some m5, some m6, some m7 =>
      some (m1 ++ m2 ++ m3 ++ m4 ++ m5 ++ m6 ++ m7)
    | _, _, _, _, _, _, _ => none
  else some []

/-- The block for the key `add_evidence`. -/
def parseAddEvidence (action_json : Json) : Option (List RuleAction) :=
  if action_json.contains "add_evidence" then
    let evidence_json := action_json.index "add_evidence"
    match evidence_json.value_string "type" "custom_rule",
      evidence_json.value_string "description" "",
      evidence_json.value_double "confidence" (1 / 2),
      evidence_json.value_string "source" "rulepack" with
    | some type, some description, some confidence, some source =>
      some [{ RuleAction.ofType RuleActionType.AddEvidence with
              evidence_type := type
              evidence_description := description
              evidence_confidence := confidence
              evidence_source := source }]
    | _, _, _, _ => none
  else some []

/-- The block for the key `boost_confidence`. -/
def parseBoostConfidence (action_json : Json) : Option (List RuleAction) :=
  if action_json.contains "boost_confidence" then
    match (action_json.index "boost_confidence").get_double with
    | some factor =>
      some [{ RuleAction.ofType RuleActionType.BoostConfidence with boost_factor := factor }]
    | none => none
  else some []

/-- The block for the key `set_minimum_confidence`. -/
def parseSetMinimumConfidence (action_json : Json) : Option (List RuleAction) :=
  if action_json.contains "set_minimum_confidence" then
    match (action_json.index "set_minimum_confidence").get_double with
    | some floor =>
      some [{ RuleAction.ofType RuleActionType.SetMinimumConfidence with
              minimum_confidence := floor }]
    | none => none
  else some []

/-- The block for the key `add_tag`. -/
def parseAddTag (action_json : Json) : Option (List RuleAction) :=
  if action_json.contains "add_tag" then
    match (action_json.index "add_tag").get_string with
    | some tag => some [{ RuleAction.ofType RuleActionType.AddTag with tag := tag }]
    | none => none
  else some []

/-- The block for the key `add_negative_evidence`. -/
def parseAddNegativeEvidence (action_json : Json) : Option (List RuleAction) :=
  if action_json.contains "add_negative_evidence" then
    let neg_ev_json := action_json.index "add_negative_evidence"
    match neg_ev_json.value_string "type" "rulepack_negative",
      neg_ev_json.value_string "description" "",
      neg_ev_json.value_double "confidence" (99 / 100) with
    | some type, some description, some confidence =>
      some [{ RuleAction.ofType RuleActionType.AddNegativeEvidence with
              negative_evidence_type := type
              negative_evidence_description := description
              negative_evidence_confidence := confidence }]
    | _, _, _ => none
  else some []

/-- The block for the key `set_maximum_confidence`. -/
def parseSetMaximumConfidence (action_json : Json) : Option (List RuleAction) :=
  if action_json.contains "set_maximum_confidence" then
    match (action_json.index "set_maximum_confidence").get_double with
    | some cap =>
      some [{ RuleAction.ofType RuleActionType.SetMaximumConfidence with
              maximum_confidence := cap }]
    | none => none
  else some []

/-- The block for the key `exclude`. -/
def parseExclude (action_json : Json) : Option (List RuleAction) :=
  if action_json.contains "exclude" then
    match (action_json.index "exclude").get_bool with
    | some true => some [RuleAction.ofType RuleActionType.Exclude]
    | some false => some []
    | none => none
  else some []

/-- The block `// Parse action` of `load_from_json`: the seven keys it reads, in its order. -/
def parseActions (rule_json : Json) : Option (List RuleAction) :=
  if rule_json.contains "action" then
    let action_json := rule_json.index "action"
    match parseAddEvidence action_json, parseBoostConfidence action_json,
      parseSetMinimumConfidence action_json, parseAddTag action_json,
      parseAddNegativeEvidence action_json, parseSetMaximumConfidence action_json,
      parseExclude action_json with
    | some a1, some a2, some a3, some a4, some a5, some a6, some a7 =>
      some (a1 ++ a2 ++ a3 ++ a4 ++ a5 ++ a6 ++ a7)
    | _, _, _, _, _, _, _ => none
  else some []

/-- The body of the loop over `json["rules"]`: one rule. -/
def parseRule (rule_json : Json) : Option Rule :=
  match rule_json.value_string "name" "Unnamed Rule",
    rule_json.value_string "description" "",
    parseMatchConditions rule_json, parseActions rule_json with
  | some name, some description, some match_conditions, some actions =>
    some ⟨name, description, match_conditions, actions⟩
  | _, _, _, _ => none

/-- The loop over `json["rules"]`. -/
def parseRules : List Json → Option (List Rule)
  | [] => some []
  | rule_json :: rest =>
    match parseRule rule_json, parseRules rest with
    | some rule, some rules => some (rule :: rules)
    | _, _ => none

/-- The static member function `Rulepack::load_from_json`; `none` when it throws
(`std::runtime_error` for missing `rules`, `type_error` from a conversion). -/
def load_from_json (json : Json) : Option Rulepack :=
  match json.value_string "name" "Unnamed Rulepack", json.value_string "version" "1.0",
    json.value_string "description" "" with
  | some name, some version, some description =>
    if !json.contains "rules" || !(json.index "rules").is_array then none
    else
      match json.index "rules" with
      | Json.array elements =>
        match parseRules elements with
        | some rules => some ⟨name, version, description, rules⟩
        | none => none
      | _ => none
  | _, _, _ => none

/-- A rulepack document whose only rule restricts an exclusion to children of an IDE by the
match key `parent_process`. -/
def parentProcessRulepackJson : Json :=
  Json.object
    [ ("name", Json.string "ide children"),
      ("rules", Json.array
        [ Json.object
            [ ("action", Json.object [("exclude", Json.boolean true)]),
              ("match", Json.object [("parent_process", Json.string "Code")]),
              ("name", Json.string "exclude ide children") ] ]) ]

/-! ## Confirmed servers (`mcp_server.hpp`)

The wall-clock fields `discovered_at` and `interrogation_time_seconds` are not modelled. -/

/-- The struct `ToolDefinition`. -/
structure ToolDefinition where
  name : String
  description : String
  input_schema : Json
  required_parameters : List String
  optional_parameters : List String

/-- The struct `ResourceDefinition`. -/
structure ResourceDefinition where
  uri : String
  name : String
  description : String
  mime_type : String
deriving DecidableEq

/-- The struct `ResourceTemplate`. -/
structure ResourceTemplate where
  uri_template : String
  name : String
  description : String
  mime_type : String
  parameters : List String
deriving DecidableEq

/-- The struct `PromptArgument`. -/
structure PromptArgument where
  name : String
  type : String
  description : String
  required : Bool
deriving DecidableEq

/-- The struct `PromptDefinition`. -/
structure PromptDefinition where
  name : String
  description : String
  arguments : List PromptArgument
deriving DecidableEq

/-- The struct `MCPServer`. -/
structure MCPServer where
  candidate : Candidate
  server_name : String
  server_version : String
  protocol_version : String
  capabilities : Json
  transport_type : TransportType
  tools : List ToolDefinition
  resources : List ResourceDefinition
  resource_templates : List ResourceTemplate
  prompts : List PromptDefinition
  interrogation_attempted : Bool
  interrogation_successful : Bool
  interrogation_errors : List String

/-- A default-constructed `MCPServer`. -/
def MCPServer.init : MCPServer where
  candidate := Candidate.default
  server_name := ""
  server_version := ""
  protocol_version := ""
  capabilities := Json.null
  transport_type := TransportType.Unknown
  tools := []
  resources := []
  resource_templates := []
  prompts := []
  interrogation_attempted := false
  interrogation_successful := false
  interrogation_errors := []

/-! ## Spawned processes and the platform (`process.hpp`, `platform_adapter.hpp`)

The operating system is outside the program. A spawned process is described by what its
member functions do after a given history of calls; the history is also the record of the
I/O that a probe has performed. Timeouts are durations of real time and are not modelled:
a read that times out is a read that throws. -/

/-- One call made on the platform or on a spawned process. -/
inductive IoEvent where
  | spawn (command : String)
  | write_stdin (data : String)
  | read_stdout_line
  | terminate
deriving DecidableEq

/-- The behaviour of a spawned `Process`, each member as a function of the calls made so
far: `is_running()`, `write_stdin(data)` (`some what` when it throws an exception with
that `what()`), `read_stdout_line(timeout)` (`Except.error what` when it throws). -/
structure Process where
  is_running : List IoEvent → Bool
  write_stdin : List IoEvent → String → Option String
  read_stdout_line : List IoEvent → Except String String

/-- The part of `PlatformAdapter` that the stdio probe uses: `spawn_process_with_pipes`,
which throws (`Except.error what`), returns a null pointer (`none`) or returns a process. -/
structure PlatformAdapter where
  spawn_process_with_pipes : String → Except String (Option Process)

/-- The functions of the JSON library that work on text: `json::parse` (`none` when it
throws `parse_error`), `dump`, and the `what()` of the `type_error` that an accessor
raises on a given value. -/
structure JsonLib where
  parse : String → Option Json
  dump : Json → String
  type_error_what : Json → String

/-! ## Testing engines (`testing_engine.cpp`, `stdio_testing_engine.cpp`) -/

/-- The member function `TestingEngine::is_valid_mcp_response`. -/
def is_valid_mcp_response (response : Json) : Bool :=
  if !response.contains "jsonrpc" ||
      (match response.index "jsonrpc" with
        | Json.string s => decide (s ≠ "2.0")
        | _ => true) then false
  else if !response.contains "result" && !response.contains "error" then false
  else if !response.contains "id" then false
  else true

/-- The member function `TestingEngine::create_initialize_request`; the members of each
object are listed in key order. -/
def create_initialize_request (id : Int) : Json :=
  Json.object
    [ ("id", Json.number_integer id),
      ("jsonrpc", Json.string "2.0"),
      ("method", Json.string "initialize"),
      ("params", Json.object
        [ ("capabilities", Json.object []),
          ("clientInfo", Json.object
            [("name", Json.string "Kyros"), ("version", Json.string "2.0.0")]),
          ("protocolVersion", Json.string "2024-11-05") ]) ]

/-- The member function `extract_server_info`, which `StdioTestingEngine` and
`HttpTestingEngine` define with the same body. -/
def extract_server_info (response : Json) (server : MCPServer) : MCPServer :=
  if !response.contains "result" then server
  else
    let result := response.index "result"
    let server :=
      if result.contains "protocolVersion" && (result.index "protocolVersion").is_string then
        { server with
          protocol_version := ((result.index "protocolVersion").get_string).getD "" }
      else server
    let server :=
      if result.contains "serverInfo" && (result.index "serverInfo").is_object then
        let server_info := result.index "serverInfo"
        let server :=
          if server_info.contains "name" && (server_info.index "name").is_string then
            { server with server_name := ((server_info.index "name").get_string).getD "" }
          else server
        if server_info.contains "version" && (server_info.index "version").is_string then
          { server with server_version := ((server_info.index "version").get_string).getD "" }
        else server
      else server
    if result.contains "capabilities" && (result.index "capabilities").is_object then
      { server with capabilities := result.index "capabilities" }
    else server

/-! ## Protocol detector (`protocol_detector.hpp`, `protocol_detector.cpp`) -/

/-- The enum `ProtocolType`. -/
inductive ProtocolType where
  | Unknown
  | MCP
  | ChromiumIPC
  | LSP
  | GenericJSONRPC
  | Binary
  | Invalid
deriving DecidableEq, Repr

/-- The struct `ProtocolSignature`. -/
structure ProtocolSignature where
  type : ProtocolType
  name : String
  confidence : ℚ
  detected_evidence : String
deriving DecidableEq

/-- The static vector `chromium_patterns`. -/
def chromium_patterns : List String :=
  [ "Helper (GPU)", "Helper (Renderer)", "Helper (Plugin)", "Helper (Network Service)",
    "Helper (Utility)", "--type=gpu-process", "--type=renderer", "--type=utility",
    "--type=zygote", "--enable-crashpad", "--enable-crash-reporter" ]

/-- The static vector `lsp_patterns`. -/
def lsp_patterns : List String :=
  [ "vscode-html-language-server", "vscode-json-language-server",
    "vscode-css-language-server", "typescript-language-server", "eslint-language-server",
    "language-server", "languageserver", "--stdio" ]

/-- The loop over a pattern vector: some pattern occurs in the process name or in the
command. -/
def matchesPattern (candidate : Candidate) : List String → Bool
  | [] => false
  | pattern :: rest =>
    if (strFind candidate.process_name pattern).isSome ||
        (strFind candidate.command pattern).isSome then true
    else matchesPattern candidate rest

/-- The member function `ProtocolDetector::is_chromium_ipc_process`. -/
def is_chromium_ipc_process (candidate : Candidate) : Bool :=
  matchesPattern candidate chromium_patterns

/-- The member function `ProtocolDetector::is_lsp_process`. -/
def is_lsp_process (candidate : Candidate) : Bool :=
  if matchesPattern candidate lsp_patterns then true
  else if (strFind candidate.command "--node-ipc").isSome &&
      ((strFind candidate.command ".vscode/extensions").isSome ||
        (strFind candidate.command "language-features").isSome) then true
  else false

/-- The member function `ProtocolDetector::detect_from_process_info`. -/
def detect_from_process_info (candidate : Candidate) : ProtocolSignature :=
  if is_chromium_ipc_process candidate then
    ⟨ProtocolType.ChromiumIPC, "Chromium IPC", 95 / 100,
      "Chromium helper process pattern detected in process name/command"⟩
  else if is_lsp_process candidate then
    ⟨ProtocolType.LSP, "Language Server Protocol", 90 / 100,
      "LSP server pattern detected in process name/command"⟩
  else ⟨ProtocolType.Unknown, "Unknown", 0, "No distinctive protocol patterns found"⟩

/-- The classification of a parsed response in `ProtocolDetector::detect_mcp`, from
`// Validate it's JSON-RPC 2.0` on; `none` when `response.value("jsonrpc", "")` throws. -/
def classifyMcpResponse (response : Json) : Option ProtocolSignature :=
  match response.value_string "jsonrpc" "" with
  | none => none
  | some version =>
    if version ≠ "2.0" then
      some ⟨ProtocolType.GenericJSONRPC, "Generic JSON-RPC", 50 / 100,
        "Valid JSON but not JSON-RPC 2.0"⟩
    else if response.contains "result" then
      let result := response.index "result"
      if result.contains "protocolVersion" then
        some ⟨ProtocolType.MCP, "Model Context Protocol", 99 / 100,
          "Valid MCP initialize response with protocolVersion"⟩
      else if result.contains "serverInfo" then
        some ⟨ProtocolType.MCP, "Model Context Protocol", 95 / 100,
          "Valid MCP initialize response with serverInfo"⟩
      else
        some ⟨ProtocolType.GenericJSONRPC, "Generic JSON-RPC", 60 / 100,
          "Valid JSON-RPC response but missing MCP-specific fields"⟩
    else if response.contains "error" then
      some ⟨ProtocolType.MCP, "Model Context Protocol", 75 / 100,
        "MCP error response (server exists but rejected initialize)"⟩
    else
      some ⟨ProtocolType.GenericJSONRPC, "Generic JSON-RPC", 50 / 100,
        "Valid JSON-RPC 2.0 but cannot determine if MCP"⟩

/-- The part of `ProtocolDetector::detect_mcp` after the response line has been read. -/
def classifyMcpLine (lib : JsonLib) (response_line : String) : ProtocolSignature :=
  if response_line = "" then ⟨ProtocolType.Unknown, "Unknown", 0, "No response"⟩
  else
    match lib.parse response_line with
    | none => ⟨ProtocolType.Invalid, "Invalid", 0, "Response is not valid JSON"⟩
    | some response =>
      match classifyMcpResponse response with
      | some signature => signature
      | none =>
        ⟨ProtocolType.Unknown, "Unknown", 0,
          "Protocol detection failed: " ++ lib.type_error_what response⟩

/-- The member function `ProtocolDetector::detect_mcp` on a process with the given history
of calls: the signature and the history after the probe. -/
def detect_mcp (lib : JsonLib) (process : Process) (history : List IoEvent) :
    ProtocolSignature × List IoEvent :=
  let request := lib.dump (create_initialize_request 1) ++ "\n"
  let history := history ++ [IoEvent.write_stdin request]
  match process.write_stdin history request with
  | some what =>
    (⟨ProtocolType.Unknown, "Unknown", 0, "Protocol detection failed: " ++ what⟩, history)
  | none =>
    let history := history ++ [IoEvent.read_stdout_line]
    match process.read_stdout_line history with
    | Except.error what =>
      (⟨ProtocolType.Unknown, "Unknown", 0, "Protocol detection failed: " ++ what⟩, history)
    | Except.ok response_line => (classifyMcpLine lib response_line, history)

/-- The class `StdioTestingEngine`: its member `platform_`, a shared pointer that may be
null. -/
structure StdioTestingEngine where
  platform_ : Option PlatformAdapter

/-- The `try` block of `StdioTestingEngine::test` once the process has been spawned and is
running: the server, if any, and the calls made. -/
def stdioHandshake (lib : JsonLib) (candidate : Candidate) (process : Process)
    (history : List IoEvent) : Option MCPServer × List IoEvent :=
  let request_str := lib.dump (create_initialize_request 1) ++ "\n"
  let cleanup (history : List IoEvent) : Option MCPServer × List IoEvent :=
    if process.is_running history then (none, history ++ [IoEvent.terminate])
    else (none, history)
  let history := history ++ [IoEvent.write_stdin request_str]
  match process.write_stdin history request_str with
  | some _ => cleanup history
  | none =>
    let history := history ++ [IoEvent.read_stdout_line]
    match process.read_stdout_line history with
    | Except.error _ => cleanup history
    | Except.ok response_line =>
      match lib.parse response_line with
      | none => (none, history ++ [IoEvent.terminate])
      | some response =>
        if !is_valid_mcp_response response then (none, history ++ [IoEvent.terminate])
        else
          let server : MCPServer :=
            { MCPServer.init with
              candidate := candidate
              transport_type := TransportType.Stdio }
          (some (extract_server_info response server), history ++ [IoEvent.terminate])

/-- The member function `StdioTestingEngine::test`: the server, if any, and the calls made
on the platform and on the spawned process, in order. -/
def StdioTestingEngine.test (lib : JsonLib) (engine : StdioTestingEngine)
    (candidate : Candidate) : Option MCPServer × List IoEvent :=
  if candidate.command = "" then (none, [])
  else if candidate.transport_hint ≠ TransportType.Stdio ∧
      candidate.transport_hint ≠ TransportType.Unknown then (none, [])
  else
    match engine.platform_ with
    | none => (none, [])
    | some platform =>
      let passive_signature := detect_from_process_info candidate
      if passive_signature.type = ProtocolType.ChromiumIPC ∨
          passive_signature.type = ProtocolType.LSP then (none, [])
      else
        let history := [IoEvent.spawn candidate.command]
        match platform.spawn_process_with_pipes candidate.command with
        | Except.error _ => (none, history)
        | Except.ok none => (none, history)
        | Except.ok (some process) =>
          if !process.is_running history then (none, history)
          else stdioHandshake lib candidate process history

/-- A language server as the process source emits it. -/
def languageServerCandidate : Candidate :=
  { Candidate.default with
    pid := 900
    process_name := "typescript-language-server"
    command := "node /usr/lib/node_modules/typescript-language-server/lib/cli.mjs --stdio"
    transport_hint := TransportType.Stdio }

/-- A process that accepts every write and answers every read with the given line. -/
def answeringProcess (line : String) : Process where
  is_running := fun _ => true
  write_stdin := fun _ _ => none
  read_stdout_line := fun _ => Except.ok line

/-- A platform whose spawned processes answer with the given line. -/
def answeringPlatform (line : String) : PlatformAdapter where
  spawn_process_with_pipes := fun _ => Except.ok (some (answeringProcess line))

/-- A response without `result` and without `error`: `{"id":1,"jsonrpc":"2.0"}`. -/
def bareResponse : Json :=
  Json.object [("id", Json.number_integer 1), ("jsonrpc", Json.string "2.0")]

/-- A response with an empty `result` and an `error`:
`{"error":{"code":-32600},"id":1,"jsonrpc":"2.0","result":{}}`. -/
def resultAndErrorResponse : Json :=
  Json.object
    [ ("error", Json.object [("code", Json.number_integer (-32600))]),
      ("id", Json.number_integer 1),
      ("jsonrpc", Json.string "2.0"),
      ("result", Json.object []) ]

/-- The text `{"jsonrpc":"2.0","id":1}`. -/
def bareResponseLine : String := "\x7b\"jsonrpc\":\"2.0\",\"id\":1\x7d"

/-- The text `{"jsonrpc":"2.0","id":1,"result":{},"error":{"code":-32600}}`. -/
def resultAndErrorLine : String :=
  "\x7b\"jsonrpc\":\"2.0\",\"id\":1,\"result\":\x7b\x7d,\"error\":\x7b\"code\":-32600\x7d\x7d"

/-- The text that `dump` gives for the initialize request with id `1`. -/
def initializeRequestText : String :=
  "\x7b\"id\":1,\"jsonrpc\":\"2.0\",\"method\":\"initialize\",\"params\":\x7b" ++
    "\"capabilities\":\x7b\x7d,\"clientInfo\":\x7b\"name\":\"Kyros\",\"version\":\"2.0.0\"\x7d," ++
    "\"protocolVersion\":\"2024-11-05\"\x7d\x7d"

/-- The JSON library on the texts used below: it reads `bareResponseLine` as `bareResponse`
and `resultAndErrorLine` as `resultAndErrorResponse`, and rejects the text `not json`. -/
def sampleJsonLib : JsonLib where
  parse := fun text =>
    if text = bareResponseLine then some bareResponse
    else if text = resultAndErrorLine then some resultAndErrorResponse
    else none
  dump := fun _ => initializeRequestText
  type_error_what := fun _ => "[json.exception.type_error.302] type must be string"

/-! ## Active protocol detection on stdio (`protocol_detector.cpp`)

The process id of the scanner (`getpid()`) and the signedness of plain `char`, which the
language leaves to the implementation, are parameters. -/

/-- The value `lsp_init` of `ProtocolDetector::detect_lsp`; the members of each object are
listed in key order. -/
def lsp_initialize_request (pid : Int) : Json :=
  Json.object
    [ ("id", Json.number_integer 1),
      ("jsonrpc", Json.string "2.0"),
      ("method", Json.string "initialize"),
      ("params", Json.object
        [ ("capabilities", Json.object []),
          ("processId", Json.number_integer pid),
          ("rootUri", Json.null) ]) ]

/-- The member function `ProtocolDetector::detect_lsp` on a process with the given history
of calls: the signature and the history after the probe. Every exception is swallowed. -/
def detect_lsp (lib : JsonLib) (pid : Int) (process : Process) (history : List IoEvent) :
    ProtocolSignature × List IoEvent :=
  let request_body := lib.dump (lsp_initialize_request pid)
  let request :=
    "Content-Length: " ++ toString request_body.utf8ByteSize ++ "\r\n\r\n" ++ request_body
  let history := history ++ [IoEvent.write_stdin request]
  match process.write_stdin history request with
  | some _ => (⟨ProtocolType.Unknown, "Unknown", 0, ""⟩, history)
  | none =>
    let history := history ++ [IoEvent.read_stdout_line]
    match process.read_stdout_line history with
    | Except.error _ => (⟨ProtocolType.Unknown, "Unknown", 0, ""⟩, history)
    | Except.ok response =>
      if strFind response "Content-Length:" = some 0 then
        (⟨ProtocolType.LSP, "Language Server Protocol", 95 / 100,
          "Content-Length header detected in response"⟩, history)
      else (⟨ProtocolType.Unknown, "Unknown", 0, ""⟩, history)

/-- The lambda of `detect_chromium_ipc`, `c == 0 || (c < 32 && c != \n && c != \r &&
c != \t)`, on the bytes of one character of the text: a character above U+007F is encoded
by bytes of value 128 and more, which are negative where `char` is signed. -/
def isBinaryChar (char_is_signed : Bool) (c : Char) : Bool :=
  if c.val < 128 then
    c = Char.ofNat 0 || (c.val < 32 && c ≠ '\n' && c ≠ '\r' && c ≠ '\t')
  else char_is_signed

/-- The member function `ProtocolDetector::detect_chromium_ipc`: one read, no write. -/
def detect_chromium_ipc (char_is_signed : Bool) (process : Process)
    (history : List IoEvent) : ProtocolSignature × List IoEvent :=
  let history := history ++ [IoEvent.read_stdout_line]
  match process.read_stdout_line history with
  | Except.error _ =>
    (⟨ProtocolType.ChromiumIPC, "Chromium IPC", 60 / 100, "No response on stdio probe"⟩,
      history)
  | Except.ok initial_data =>
    if initial_data = "" then
      (⟨ProtocolType.ChromiumIPC, "Chromium IPC", 80 / 100,
        "No text response on stdio (binary protocol)"⟩, history)
    else if initial_data.toList.any (isBinaryChar char_is_signed) then
      (⟨ProtocolType.Binary, "Binary Protocol", 85 / 100, "Binary data detected on stdio"⟩,
        history)
    else (⟨ProtocolType.Unknown, "Unknown", 0, ""⟩, history)

/-- The block `// Return best guess or unknown` that ends
`ProtocolDetector::detect_from_stdio`. -/
def bestGuess (mcp_sig lsp_sig chromium_sig : ProtocolSignature) : ProtocolSignature :=
  if mcp_sig.confidence > 50 / 100 then mcp_sig
  else if lsp_sig.confidence > 50 / 100 then lsp_sig
  else if chromium_sig.confidence > 50 / 100 then chromium_sig
  else ⟨ProtocolType.Unknown, "Unknown", 0, "Could not determine protocol"⟩

/-- The member function `ProtocolDetector::detect_from_stdio`; `none` is the null
pointer. The result is the signature and the history of calls after the probes. -/
def detect_from_stdio (lib : JsonLib) (pid : Int) (char_is_signed : Bool)
    (process : Option Process) (history : List IoEvent) :
    ProtocolSignature × List IoEvent :=
  match process with
  | none => (⟨ProtocolType.Unknown, "Unknown", 0, "Process not running"⟩, history)
  | some process =>
    if !process.is_running history then
      (⟨ProtocolType.Unknown, "Unknown", 0, "Process not running"⟩, history)
    else
      let mcp := detect_mcp lib process history
      if mcp.1.type = ProtocolType.MCP ∧ mcp.1.confidence > 70 / 100 then mcp
      else
        let lsp := detect_lsp lib pid process mcp.2
        if lsp.1.type = ProtocolType.LSP ∧ lsp.1.confidence > 80 / 100 then lsp
        else
          let chromium := detect_chromium_ipc char_is_signed process lsp.2
          if chromium.1.confidence > 60 / 100 then chromium
          else (bestGuess mcp.1 lsp.1 chromium.1, chromium.2)

/-- The number of reads among the calls made so far. -/
def readCount (history : List IoEvent) : Nat :=
  (history.filter (fun event => decide (event = IoEvent.read_stdout_line))).length

/-- The text `{"jsonrpc":"2.0","id":1,"result":{}}`. -/
def plainResultLine : String := "\x7b\"jsonrpc\":\"2.0\",\"id\":1,\"result\":\x7b\x7d\x7d"

/-- The response `{"id":1,"jsonrpc":"2.0","result":{}}`. -/
def plainResultResponse : Json :=
  Json.object
    [ ("id", Json.number_integer 1),
      ("jsonrpc", Json.string "2.0"),
      ("result", Json.object []) ]

/-- A JSON-RPC server that is not an MCP server: it accepts every write, answers the first
read with `plainResultLine`, the second with a line of text, and no further read (the read
times out). -/
def jsonRpcProcess : Process where
  is_running := fun _ => true
  write_stdin := fun _ _ => none
  read_stdout_line := fun history =>
    if readCount history = 1 then Except.ok plainResultLine
    else if readCount history = 2 then Except.ok "method not found"
    else Except.error "Read timeout"

/-- The text that `dump` gives for the LSP initialize request of process `4242`. -/
def lspRequestText : String :=
  "\x7b\"id\":1,\"jsonrpc\":\"2.0\",\"method\":\"initialize\",\"params\":\x7b" ++
    "\"capabilities\":\x7b\x7d,\"processId\":4242,\"rootUri\":null\x7d\x7d"

/-- The JSON library on the texts of the detector example: it reads `plainResultLine` as
`plainResultResponse` and writes the two initialize requests. -/
def detectorJsonLib : JsonLib where
  parse := fun text => if text = plainResultLine then some plainResultResponse else none
  dump := fun request =>
    if (request.index "params").contains "processId" then lspRequestText
    else initializeRequestText
  type_error_what := fun _ => "[json.exception.type_error.302] type must be string"

/-! ## HTTP probe (`http_client.hpp`, `http_testing_engine.cpp`)

The network is outside the program. The client is described by what `get` and `post`
answer after a given history of requests; the history is also the record of the requests
that a probe has sent. Timeouts are not modelled. -/

/-- The struct `HttpResponse`; the map `headers` as a list of pairs. -/
structure HttpResponse where
  status_code : Int
  body : String
  headers : List (String × String)
  success : Bool
  error_message : String
deriving DecidableEq

/-- One request sent through the `HttpClient`. -/
inductive HttpEvent where
  | get (url : String) (headers : List (String × String))
  | post (url body : String) (headers : List (String × String))
deriving DecidableEq

/-- The behaviour of the `HttpClient`: `get(url, headers, timeout)` and
`post(url, body, headers, timeout)` as functions of the requests sent so far, the current
one included; `Except.error what` when the call throws. -/
structure HttpClient where
  get : List HttpEvent → String → List (String × String) → Except String HttpResponse
  post : List HttpEvent → String → String → List (String × String) →
    Except String HttpResponse

/-- The call `std::transform(s.begin(), s.end(), s.begin(), ::tolower)`: the letters `A`
to `Z` are replaced, every other character is kept. -/
def toLowerText (s : String) : String := String.mk (s.toList.map Char.toLower)

/-- The class `HttpTestingEngine`: its member `http_client_`, a shared pointer that may be
null. -/
structure HttpTestingEngine where
  http_client_ : Option HttpClient

/-- The server object that the HTTP probe builds for a confirmed URL. -/
def httpServerAt (candidate : Candidate) (url : String) : MCPServer :=
  { MCPServer.init with
    candidate := { candidate with url := url }
    transport_type := TransportType.Http }

/-- The member function `HttpTestingEngine::try_sse_transport`: the server, if any, and the
history of requests after the probe. -/
def try_sse_transport (lib : JsonLib) (http_client : HttpClient) (candidate : Candidate)
    (history : List HttpEvent) : Option MCPServer × List HttpEvent :=
  let sse_url := candidate.url ++ "/sse"
  let headers := [("Accept", "text/event-stream")]
  let history := history ++ [HttpEvent.get sse_url headers]
  match http_client.get history sse_url headers with
  | Except.error _ => (none, history)
  | Except.ok response =>
    if response.status_code = 401 ∨ response.status_code = 403 then
      let body_lower := toLowerText response.body
      if (strFind body_lower "authentication").isSome ||
          (strFind body_lower "unauthorized").isSome ||
          (strFind body_lower "session").isSome ||
          (strFind body_lower "token").isSome ||
          (strFind body_lower "mcp").isSome then
        (some (httpServerAt candidate sse_url), history)
      else (none, history)
    else if response.status_code ≠ 200 then (none, history)
    else
      match response.headers.lookup "content-type" with
      | none => (none, history)
      | some content_type =>
        if (strFind content_type "text/event-stream").isNone then (none, history)
        else
          let endpoint_path := parse_sse_endpoint response.body
          if endpoint_path = "" then (none, history)
          else
            let messages_url := candidate.url ++ endpoint_path
            let request_body := lib.dump (create_initialize_request 1)
            let history := history ++ [HttpEvent.post messages_url request_body []]
            match http_client.post history messages_url request_body [] with
            | Except.error _ => (none, history)
            | Except.ok messages_response =>
              if messages_response.status_code ≠ 200 ∧
                  messages_response.status_code ≠ 401 ∧
                  messages_response.status_code ≠ 403 then (none, history)
              else
                match lib.parse messages_response.body with
                | none => (none, history)
                | some json_response =>
                  if !is_valid_mcp_response json_response then (none, history)
                  else
                    (some (extract_server_info json_response
                      (httpServerAt candidate messages_url)), history)

/-- The loop of `HttpTestingEngine::test` over `paths_to_try`. -/
def postLoop (lib : JsonLib) (http_client : HttpClient) (candidate : Candidate) :
    List String → List HttpEvent → Option MCPServer × List HttpEvent
  | [], history => (none, history)
  | path :: rest, history =>
    let test_url := candidate.url ++ path
    let request_body := lib.dump (create_initialize_request 1)
    let history := history ++ [HttpEvent.post test_url request_body []]
    match http_client.post history test_url request_body [] with
    | Except.error _ => postLoop lib http_client candidate rest history
    | Except.ok response =>
      let is_success := decide (response.status_code = 200)
      let is_auth_challenge :=
        decide (response.status_code = 401 ∨ response.status_code = 403)
      if !is_success && !is_auth_challenge then
        postLoop lib http_client candidate rest history
      else
        match lib.parse response.body with
        | some json_response =>
          if !is_valid_mcp_response json_response then
            postLoop lib http_client candidate rest history
          else
            (some (extract_server_info json_response (httpServerAt candidate test_url)),
              history)
        | none =>
          if is_auth_challenge then
            let body_lower := toLowerText response.body
            if (strFind body_lower "authentication").isSome ||
                (strFind body_lower "unauthorized").isSome ||
                (strFind body_lower "session").isSome ||
                (strFind body_lower "mcp").isSome then
              (some (httpServerAt candidate test_url), history)
            else postLoop lib http_client candidate rest history
          else postLoop lib http_client candidate rest history

/-- The member function `HttpTestingEngine::test`: the server, if any, and the requests
sent, in order. -/
def HttpTestingEngine.test (lib : JsonLib) (engine : HttpTestingEngine)
    (candidate : Candidate) : Option MCPServer × List HttpEvent :=
  if candidate.url = "" then (none, [])
  else if candidate.transport_hint ≠ TransportType.Http ∧
      candidate.transport_hint ≠ TransportType.Unknown then (none, [])
  else
    match engine.http_client_ with
    | none => (none, [])
    | some http_client =>
      match try_sse_transport lib http_client candidate [] with
      | (some server, history) => (some server, history)
      | (none, history) =>
        postLoop lib http_client candidate ["", "/messages", "/rpc"] history

/-- The keyword `t`, written in small letters, occurs in `s` when the case of letters is
ignored: it is a stretch of `s` once the capital letters of `s` are replaced by small
ones. -/
def containsIgnoreCase (s t : String) : Prop := t.toList <:+: s.toList.map Char.toLower

instance (s t : String) : Decidable (containsIgnoreCase s t) := by
  unfold containsIgnoreCase
  infer_instance

/-- The keywords that mark an authentication challenge of an MCP server. -/
def authKeywords : List String := ["authentication", "unauthorized", "session", "token", "mcp"]

/-- A candidate of the network source: a listener on port 8080. -/
def httpCandidate : Candidate :=
  { Candidate.default with
    url := "http://127.0.0.1:8080"
    address := "127.0.0.1"
    port := 8080
    transport_hint := TransportType.Http }

/-- An answer of an HTTP server without headers. -/
def plainAnswer (status_code : Int) (body : String) : HttpResponse where
  status_code := status_code
  body := body
  headers := []
  success := true
  error_message := ""

/-- A server that protects its SSE endpoint: `GET /sse` is answered by status 401 and the
text `Missing bearer Token`, every other request by status 404. -/
def protectedSseClient : HttpClient where
  get := fun _ url _ =>
    if url = "http://127.0.0.1:8080/sse" then
      Except.ok (plainAnswer 401 "Missing bearer Token")
    else Except.ok (plainAnswer 404 "")
  post := fun _ _ _ _ => Except.ok (plainAnswer 404 "")

/-- The keywords that the direct POST of the probe looks for. -/
def postKeywords : List String := ["authentication", "unauthorized", "session", "mcp"]

/-- The requests sent after the direct POST to each of the given paths. -/
def postHistory (lib : JsonLib) (candidate : Candidate) (history : List HttpEvent)
    (paths : List String) : List HttpEvent :=
  history ++ paths.map (fun path =>
    HttpEvent.post (candidate.url ++ path) (lib.dump (create_initialize_request 1)) [])

/-- An answer to the direct POST that confirms a server: status 200, 401 or 403 with a
body that is a valid JSON-RPC 2.0 response, or status 401 or 403 with a body that is not
JSON and contains one of `postKeywords` with the case of letters ignored. -/
def confirmsServer (lib : JsonLib) (response : HttpResponse) : Bool :=
  match lib.parse response.body with
  | some json_response =>
    decide (response.status_code = 200 ∨ response.status_code = 401 ∨
      response.status_code = 403) && is_valid_mcp_response json_response
  | none =>
    decide (response.status_code = 401 ∨ response.status_code = 403) &&
      postKeywords.any (fun keyword => decide (containsIgnoreCase response.body keyword))

/-- An outcome of the direct POST that confirms nothing: the call throws, or the status is
not 200, 401 or 403, or the body is JSON without being a valid JSON-RPC 2.0 response, or
the body is not JSON and the status is 200 or the body contains none of `authKeywords`. -/
def confirmsNothing (lib : JsonLib) : Except String HttpResponse → Bool
  | Except.error _ => true
  | Except.ok response =>
    match lib.parse response.body with
    | some json_response =>
      !decide (response.status_code = 200 ∨ response.status_code = 401 ∨
        response.status_code = 403) || !is_valid_mcp_response json_response
    | none =>
      !decide (response.status_code = 401 ∨ response.status_code = 403) ||
        authKeywords.all (fun keyword => !decide (containsIgnoreCase response.body keyword))

/-- The text `{"error":"Unauthorized"}`. -/
def unauthorizedJsonText : String := "\x7b\"error\":\"Unauthorized\"\x7d"

/-- The value `{"error":"Unauthorized"}`. -/
def unauthorizedJson : Json := Json.object [("error", Json.string "Unauthorized")]

/-- The text `{"jsonrpc":"2.0","id":7,"result":{}}`. -/
def otherIdLine : String := "\x7b\"jsonrpc\":\"2.0\",\"id\":7,\"result\":\x7b\x7d\x7d"

/-- The response `{"id":7,"jsonrpc":"2.0","result":{}}`, whose id is not the id `1` of the
initialize request. -/
def otherIdResponse : Json :=
  Json.object
    [ ("id", Json.number_integer 7),
      ("jsonrpc", Json.string "2.0"),
      ("result", Json.object []) ]

/-- The JSON library on the texts of the HTTP examples. -/
def httpJsonLib : JsonLib where
  parse := fun text =>
    if text = unauthorizedJsonText then some unauthorizedJson
    else if text = plainResultLine then some plainResultResponse
    else if text = otherIdLine then some otherIdResponse
    else none
  dump := fun _ => initializeRequestText
  type_error_what := fun _ => "[json.exception.type_error.302] type must be string"

/-- A server that answers every POST by status 401 and the JSON text
`{"error":"Unauthorized"}`, and has no SSE endpoint (status 404). -/
def unauthorizedJsonClient : HttpClient where
  get := fun _ _ _ => Except.ok (plainAnswer 404 "")
  post := fun _ _ _ _ => Except.ok (plainAnswer 401 unauthorizedJsonText)

/-- A server without SSE endpoint (status 404) whose only MCP endpoint is `/rpc`: a POST
there is answered by status 200 and `plainResultLine`, a POST elsewhere by status 404. -/
def rpcPathClient : HttpClient where
  get := fun _ _ _ => Except.ok (plainAnswer 404 "")
  post := fun _ url _ _ =>
    if url = "http://127.0.0.1:8080/rpc" then Except.ok (plainAnswer 200 plainResultLine)
    else Except.ok (plainAnswer 404 "Not Found")

/-- A server without SSE endpoint (status 404) that answers every POST by status 200 and
`otherIdLine`. -/
def otherIdClient : HttpClient where
  get := fun _ _ _ => Except.ok (plainAnswer 404 "")
  post := fun _ _ _ _ => Except.ok (plainAnswer 200 otherIdLine)

/-- A candidate of the process source: a server started by `node`. -/
def nodeCandidate : Candidate :=
  { Candidate.default with
    pid := 4321
    process_name := "node"
    command := "node /srv/mcp/server.js"
    transport_hint := TransportType.Stdio }

/-! ## Server interrogation (`config.hpp`, `server_interrogator.cpp`)

The member `timeout` of the configuration is a duration of real time and is not
modelled. -/

/-- The struct `InterrogationConfig`. -/
structure InterrogationConfig where
  interrogate_enabled : Bool
  get_tools : Bool
  get_resources : Bool
  get_resource_templates : Bool
  get_prompts : Bool
  max_tools : Int
  max_resources : Int
  max_prompts : Int
deriving DecidableEq

/-- A default-constructed `InterrogationConfig`. -/
def InterrogationConfig.default : InterrogationConfig where
  interrogate_enabled := false
  get_tools := true
  get_resources := true
  get_resource_templates := true
  get_prompts := true
  max_tools := 100
  max_resources := 100
  max_prompts := 50

/-- The elements that a range-based `for` visits on an array, in order. -/
def Json.elements : Json → List Json
  | Json.array elements => elements
  | _ => []

/-- The members that the iterators `begin()` to `end()` visit on an object, in the order
of the underlying `std::map`, which is ascending key order. -/
def Json.members : Json → List (String × Json)
  | Json.object members => members
  | _ => []

/-- The lexicographic comparison of two sequences of character codes. -/
def lexLess : List Nat → List Nat → Bool
  | _, [] => false
  | [], _ :: _ => true
  | a :: as, b :: bs => if a < b then true else if b < a then false else lexLess as bs

/-- The comparison `std::less<std::string>` that orders the keys of an object: the
lexicographic order of the texts. It is taken on the codes of the characters, which order
two texts as their UTF-8 bytes do. -/
def keyLess (a b : String) : Bool :=
  lexLess (a.toList.map Char.toNat) (b.toList.map Char.toNat)

/-- The members of an object of the library after one more member has been inserted, as
the parser does it: the underlying `std::map` keeps one entry per key (a later value
replaces an earlier one) and orders the entries by key, whatever the order of insertion. -/
def Json.insertMember (key : String) (value : Json) :
    List (String × Json) → List (String × Json)
  | [] => [(key, value)]
  | (k, v) :: rest =>
    if keyLess key k then (key, value) :: (k, v) :: rest
    else if key = k then (k, value) :: rest
    else (k, v) :: Json.insertMember key value rest

/-- The object that holds the given members, inserted in the given order. -/
def Json.ofInsertions (inserted : List (String × Json)) : Json :=
  Json.object (inserted.foldl (fun members entry =>
    Json.insertMember entry.1 entry.2 members) [])

/-- The statement `if (j.contains(key) && j[key].is_string()) field = j[key].get<std::string>();`
on a field with the given current value. -/
def stringField (j : Json) (key : String) (current : String) : String :=
  if j.contains key && (j.index key).is_string then ((j.index key).get_string).getD current
  else current

/-- A default-constructed `ToolDefinition`. -/
def ToolDefinition.init : ToolDefinition where
  name := ""
  description := ""
  input_schema := Json.null
  required_parameters := []
  optional_parameters := []

/-- The loop over `tool.input_schema["required"]`: the string elements are pushed. -/
def requiredLoop : List Json → List String → List String
  | [], required_parameters => required_parameters
  | req :: rest, required_parameters =>
    if req.is_string then
      requiredLoop rest (required_parameters ++ [(req.get_string).getD ""])
    else requiredLoop rest required_parameters

/-- The loop over the members of `tool.input_schema["properties"]`: the keys that
`std::find` does not find among the required parameters are pushed. -/
def optionalLoop (required_parameters : List String) :
    List (String × Json) → List String → List String
  | [], optional_parameters => optional_parameters
  | (param_name, _) :: rest, optional_parameters =>
    if required_parameters.contains param_name then
      optionalLoop required_parameters rest optional_parameters
    else optionalLoop required_parameters rest (optional_parameters ++ [param_name])

/-- The body of the loop of `parse_tools_response`: the tool built from one element. -/
def parseTool (tool_json : Json) : ToolDefinition :=
  let tool := ToolDefinition.init
  let tool := { tool with name := stringField tool_json "name" tool.name }
  let tool := { tool with description := stringField tool_json "description" tool.description }
  if tool_json.contains "inputSchema" && (tool_json.index "inputSchema").is_object then
    let tool := { tool with input_schema := tool_json.index "inputSchema" }
    let tool :=
      if tool.input_schema.contains "required" &&
          (tool.input_schema.index "required").is_array then
        { tool with
          required_parameters :=
            requiredLoop (tool.input_schema.index "required").elements
              tool.required_parameters }
      else tool
    if tool.input_schema.contains "properties" &&
        (tool.input_schema.index "properties").is_object then
      { tool with
        optional_parameters :=
          optionalLoop tool.required_parameters
            (tool.input_schema.index "properties").members tool.optional_parameters }
    else tool
  else tool

/-- The loop of `parse_tools_response` with its counter `count`. -/
def toolsLoop (config : InterrogationConfig) : List Json → Int → MCPServer → MCPServer
  | [], _, server => server
  | tool_json :: rest, count, server =>
    if count ≥ config.max_tools then server
    else
      toolsLoop config rest (count + 1)
        { server with tools := server.tools ++ [parseTool tool_json] }

/-- The member function `ServerInterrogator::parse_tools_response`. -/
def parse_tools_response (config : InterrogationConfig) (response : Json)
    (server : MCPServer) : MCPServer :=
  if !response.contains "result" then server
  else
    let result := response.index "result"
    if !result.contains "tools" || !(result.index "tools").is_array then server
    else toolsLoop config (result.index "tools").elements 0 server

/-- The body of the loop of `parse_resources_response`. -/
def parseResource (resource_json : Json) : ResourceDefinition where
  uri := stringField resource_json "uri" ""
  name := stringField resource_json "name" ""
  description := stringField resource_json "description" ""
  mime_type := stringField resource_json "mimeType" ""

/-- The loop of `parse_resources_response` with its counter `count`. -/
def resourcesLoop (config : InterrogationConfig) : List Json → Int → MCPServer → MCPServer
  | [], _, server => server
  | resource_json :: rest, count, server =>
    if count ≥ config.max_resources then server
    else
      resourcesLoop config rest (count + 1)
        { server with resources := server.resources ++ [parseResource resource_json] }

/-- The member function `ServerInterrogator::parse_resources_response`. -/
def parse_resources_response (config : InterrogationConfig) (response : Json)
    (server : MCPServer) : MCPServer :=
  if !response.contains "result" then server
  else
    let result := response.index "result"
    if !result.contains "resources" || !(result.index "resources").is_array then server
    else resourcesLoop config (result.index "resources").elements 0 server

/-- The `while` loop of `parse_resource_templates_response` over the characters of
`uri_template`, from position `pos`: `find` of an opening brace from `pos`, `find` of a
closing brace from there, `substr` between the two, and on from behind the closing brace.
The loop is run for at most `fuel` rounds; `none` when they do not suffice. -/
def templateLoop (uri_template : List Char) : Nat → Nat → List String → Option (List String)
  | 0, _, _ => none
  | fuel + 1, pos, parameters =>
    match findFrom ['\x7b'] (uri_template.drop pos) pos with
    | none => some parameters
    | some pos =>
      match findFrom ['\x7d'] (uri_template.drop pos) pos with
      | none => some parameters
      | some end_pos =>
        templateLoop uri_template fuel (end_pos + 1)
          (parameters ++
            [String.mk ((uri_template.drop (pos + 1)).take (end_pos - pos - 1))])

/-- The parameters that the `while` loop extracts from a template. Every round moves `pos`
forward by two characters at least, so one round more than the template has characters
is enough. -/
def templateParameters (uri_template : String) : List String :=
  (templateLoop uri_template.toList (uri_template.length + 1) 0 []).getD []

/-- The body of the loop of `parse_resource_templates_response`. -/
def parseResourceTemplate (template_json : Json) : ResourceTemplate where
  uri_template := stringField template_json "uriTemplate" ""
  name := stringField template_json "name" ""
  description := stringField template_json "description" ""
  mime_type := stringField template_json "mimeType" ""
  parameters := templateParameters (stringField template_json "uriTemplate" "")

/-- The loop of `parse_resource_templates_response` with its counter `count`, which is
compared with `max_resources`. -/
def resourceTemplatesLoop (config : InterrogationConfig) :
    List Json → Int → MCPServer → MCPServer
  | [], _, server => server
  | template_json :: rest, count, server =>
    if count ≥ config.max_resources then server
    else
      resourceTemplatesLoop config rest (count + 1)
        { server with
          resource_templates :=
            server.resource_templates ++ [parseResourceTemplate template_json] }

/-- The member function `ServerInterrogator::parse_resource_templates_response`. -/
def parse_resource_templates_response (config : InterrogationConfig) (response : Json)
    (server : MCPServer) : MCPServer :=
  if !response.contains "result" then server
  else
    let result := response.index "result"
    if !result.contains "resourceTemplates" ||
        !(result.index "resourceTemplates").is_array then server
    else resourceTemplatesLoop config (result.index "resourceTemplates").elements 0 server

/-- The call `j.is_boolean()`. -/
def Json.is_boolean : Json → Bool
  | Json.boolean _ => true
  | _ => false

/-- The body of the inner loop of `parse_prompts_response`: one argument of a prompt. The
member `type` is never assigned. -/
def parsePromptArgument (arg_json : Json) : PromptArgument where
  name := stringField arg_json "name" ""
  type := ""
  description := stringField arg_json "description" ""
  required :=
    if arg_json.contains "required" && (arg_json.index "required").is_boolean then
      ((arg_json.index "required").get_bool).getD false
    else false

/-- The inner loop of `parse_prompts_response` over the array `arguments`. -/
def promptArgumentsLoop : List Json → List PromptArgument → List PromptArgument
  | [], arguments => arguments
  | arg_json :: rest, arguments =>
    promptArgumentsLoop rest (arguments ++ [parsePromptArgument arg_json])

/-- The body of the loop of `parse_prompts_response`. -/
def parsePrompt (prompt_json : Json) : PromptDefinition where
  name := stringField prompt_json "name" ""
  description := stringField prompt_json "description" ""
  arguments :=
    if prompt_json.contains "arguments" && (prompt_json.index "arguments").is_array then
      promptArgumentsLoop (prompt_json.index "arguments").elements []
    else []

/-- The loop of `parse_prompts_response` with its counter `count`. -/
def promptsLoop (config : InterrogationConfig) : List Json → Int → MCPServer → MCPServer
  | [], _, server => server
  | prompt_json :: rest, count, server =>
    if count ≥ config.max_prompts then server
    else
      promptsLoop config rest (count + 1)
        { server with prompts := server.prompts ++ [parsePrompt prompt_json] }

/-- The member function `ServerInterrogator::parse_prompts_response`. -/
def parse_prompts_response (config : InterrogationConfig) (response : Json)
    (server : MCPServer) : MCPServer :=
  if !response.contains "result" then server
  else
    let result := response.index "result"
    if !result.contains "prompts" || !(result.index "prompts").is_array then server
    else promptsLoop config (result.index "prompts").elements 0 server

/-- The text of a template `s0 {p1} s1 ... {pk} sk` behind `s0`: every segment is a
parameter `p` in braces followed by a text `s`. -/
def templateSegments (segments : List (List Char × List Char)) : List Char :=
  segments.flatMap (fun segment => '\x7b' :: segment.1 ++ '\x7d' :: segment.2)

/-- A text without braces. -/
def braceFree (text : List Char) : Prop := '\x7b' ∉ text ∧ '\x7d' ∉ text

instance (text : List Char) : Decidable (braceFree text) := by
  unfold braceFree
  infer_instance

/-- A tool element with an empty input schema, as in the unit test `EnforceToolsLimit`. -/
def bareToolJson (name description : String) : Json :=
  Json.object
    [ ("description", Json.string description),
      ("inputSchema", Json.object []),
      ("name", Json.string name) ]

/-- The response of the unit test `EnforceToolsLimit`: three tools. -/
def threeToolsResponse : Json :=
  Json.object
    [ ("result", Json.object
        [ ("tools", Json.array
            [ bareToolJson "tool1" "Tool 1",
              bareToolJson "tool2" "Tool 2",
              bareToolJson "tool3" "Tool 3" ]) ]) ]

/-- The configuration of the unit test `EnforceToolsLimit`: at most two tools. -/
def twoToolsConfig : InterrogationConfig :=
  { InterrogationConfig.default with max_tools := 2 }

/-- The second template of the unit test `ParseResourceTemplatesResponse`. -/
def userProfileTemplateJson : Json :=
  Json.object
    [ ("description", Json.string "Access user profile fields"),
      ("mimeType", Json.string "application/json"),
      ("name", Json.string "User Profile Template"),
      ("uriTemplate", Json.string "user:///\x7buserId\x7d/profile/\x7bfield\x7d") ]

/-- A response to `resources/templates/list` with the given templates. -/
def templatesResponse (templates : List Json) : Json :=
  Json.object [("result", Json.object [("resourceTemplates", Json.array templates)])]

/-- The input schema of the tool `read_file` of the unit test `ParseToolsResponse`, without
its member `required`: the properties are written in the order `path`, `encoding`. -/
def readFileSchema : Json :=
  Json.ofInsertions
    [ ("type", Json.string "object"),
      ("properties", Json.ofInsertions
        [ ("path", Json.ofInsertions [("type", Json.string "string")]),
          ("encoding", Json.ofInsertions [("type", Json.string "string")]) ]) ]

/-- A response to `tools/list` with one tool `read_file` of the given input schema. -/
def readFileResponse (schema : Json) : Json :=
  Json.ofInsertions
    [ ("jsonrpc", Json.string "2.0"),
      ("id", Json.number_integer 1),
      ("result", Json.ofInsertions
        [ ("tools", Json.array
            [ Json.ofInsertions
                [ ("name", Json.string "read_file"),
                  ("description", Json.string "Read a file from the filesystem"),
                  ("inputSchema", schema) ] ]) ]) ]

/-- The input schema of the tool `read_file` of the unit test `ParseToolsResponse`, where
`path` is required. -/
def readFileSchemaRequired : Json :=
  Json.ofInsertions
    [ ("type", Json.string "object"),
      ("properties", Json.ofInsertions
        [ ("path", Json.ofInsertions [("type", Json.string "string")]),
          ("encoding", Json.ofInsertions [("type", Json.string "string")]) ]),
      ("required", Json.array [Json.string "path"]) ]

/-- The class `ServerInterrogator`: its members `config_`, `platform_` and `http_client_`,
the two shared pointers possibly null. -/
structure ServerInterrogator where
  config_ : InterrogationConfig
  platform_ : Option PlatformAdapter
  http_client_ : Option HttpClient

/-- The member function `MCPServer::has_tools`. -/
def MCPServer.has_tools (server : MCPServer) : Bool :=
  server.capabilities.contains "tools" && !(server.capabilities.index "tools").is_null

/-- The member function `MCPServer::has_resources`. -/
def MCPServer.has_resources (server : MCPServer) : Bool :=
  server.capabilities.contains "resources" && !(server.capabilities.index "resources").is_null

/-- The member function `MCPServer::has_prompts`. -/
def MCPServer.has_prompts (server : MCPServer) : Bool :=
  server.capabilities.contains "prompts" && !(server.capabilities.index "prompts").is_null

/-- The four `create_..._list_request` member functions: they differ in the method only.
The members are listed in key order. -/
def create_list_request (method : String) (id : Int) : Json :=
  Json.object
    [ ("id", Json.number_integer id),
      ("jsonrpc", Json.string "2.0"),
      ("method", Json.string method),
      ("params", Json.object []) ]

/-- The member function `ServerInterrogator::create_tools_list_request`. -/
def create_tools_list_request (id : Int) : Json := create_list_request "tools/list" id

/-- The member function `ServerInterrogator::create_resources_list_request`. -/
def create_resources_list_request (id : Int) : Json :=
  create_list_request "resources/list" id

/-- The member function `ServerInterrogator::create_resource_templates_list_request`. -/
def create_resource_templates_list_request (id : Int) : Json :=
  create_list_request "resources/templates/list" id

/-- The member function `ServerInterrogator::create_prompts_list_request`. -/
def create_prompts_list_request (id : Int) : Json := create_list_request "prompts/list" id

/-- The calls made by an interrogation: those on the platform and the spawned process, and
the requests sent through the HTTP client. -/
structure InterrogationTrace where
  io : List IoEvent
  http : List HttpEvent
deriving DecidableEq

/-- The lambda `send_request` of `ServerInterrogator::interrogate`: the response, or the
`what()` of the exception thrown, and the calls made so far. -/
abbrev SendRequest := InterrogationTrace → Json → Except String Json × InterrogationTrace

/-- The lambda `send_request` for a stdio server; `parse_error_what` is the `what()` of the
`parse_error` that `json::parse` throws on a text. -/
def stdioSendRequest (lib : JsonLib) (parse_error_what : String → String)
    (process : Process) : SendRequest := fun trace request =>
  let request_str := lib.dump request ++ "\n"
  let trace := { trace with io := trace.io ++ [IoEvent.write_stdin request_str] }
  match process.write_stdin trace.io request_str with
  | some what => (Except.error what, trace)
  | none =>
    let trace := { trace with io := trace.io ++ [IoEvent.read_stdout_line] }
    match process.read_stdout_line trace.io with
    | Except.error what => (Except.error what, trace)
    | Except.ok response_line =>
      match lib.parse response_line with
      | none => (Except.error (parse_error_what response_line), trace)
      | some response => (Except.ok response, trace)

/-- The lambda `send_request` for an HTTP server. -/
def httpSendRequest (lib : JsonLib) (parse_error_what : String → String)
    (http_client : HttpClient) (url : String) : SendRequest := fun trace request =>
  let request_body := lib.dump request
  let headers := [("Content-Type", "application/json")]
  let trace := { trace with http := trace.http ++ [HttpEvent.post url request_body headers] }
  match http_client.post trace.http url request_body headers with
  | Except.error what => (Except.error what, trace)
  | Except.ok response =>
    if response.status_code ≠ 200 then
      (Except.error ("HTTP request failed with status " ++ toString response.status_code),
        trace)
    else
      match lib.parse response.body with
      | none => (Except.error (parse_error_what response.body), trace)
      | some json_response => (Except.ok json_response, trace)

/-- The common shape of `interrogate_tools`, `interrogate_resources`,
`interrogate_resource_templates` and `interrogate_prompts`: the request is sent and the
response parsed; an exception becomes an entry of `interrogation_errors`. -/
def interrogateStep (send_request : SendRequest) (request : Json)
    (parse : Json → MCPServer → MCPServer) (failure : String) (server : MCPServer)
    (trace : InterrogationTrace) : MCPServer × InterrogationTrace :=
  match send_request trace request with
  | (Except.ok response, trace) => (parse response server, trace)
  | (Except.error what, trace) =>
    ({ server with interrogation_errors := server.interrogation_errors ++ [failure ++ what] },
      trace)

/-- The member function `ServerInterrogator::interrogate_tools`. -/
def interrogate_tools (config : InterrogationConfig) (send_request : SendRequest)
    (server : MCPServer) (trace : InterrogationTrace) : MCPServer × InterrogationTrace :=
  interrogateStep send_request (create_tools_list_request 1) (parse_tools_response config)
    "Tools interrogation failed: " server trace

/-- The member function `ServerInterrogator::interrogate_resources`. -/
def interrogate_resources (config : InterrogationConfig) (send_request : SendRequest)
    (server : MCPServer) (trace : InterrogationTrace) : MCPServer × InterrogationTrace :=
  interrogateStep send_request (create_resources_list_request 2)
    (parse_resources_response config) "Resources interrogation failed: " server trace

/-- The member function `ServerInterrogator::interrogate_resource_templates`. -/
def interrogate_resource_templates (config : InterrogationConfig)
    (send_request : SendRequest) (server : MCPServer) (trace : InterrogationTrace) :
    MCPServer × InterrogationTrace :=
  interrogateStep send_request (create_resource_templates_list_request 3)
    (parse_resource_templates_response config) "Resource templates interrogation failed: "
    server trace

/-- The member function `ServerInterrogator::interrogate_prompts`. -/
def interrogate_prompts (config : InterrogationConfig) (send_request : SendRequest)
    (server : MCPServer) (trace : InterrogationTrace) : MCPServer × InterrogationTrace :=
  interrogateStep send_request (create_prompts_list_request 4)
    (parse_prompts_response config) "Prompts interrogation failed: " server trace

/-- The block `// Perform interrogation based on config` of `interrogate`: the four steps,
each under its two conditions. -/
def performInterrogation (config : InterrogationConfig) (send_request : SendRequest)
    (server : MCPServer) (trace : InterrogationTrace) : MCPServer × InterrogationTrace :=
  let state := (server, trace)
  let state :=
    if config.get_tools && state.1.has_tools then
      interrogate_tools config send_request state.1 state.2
    else state
  let state :=
    if config.get_resources && state.1.has_resources then
      interrogate_resources config send_request state.1 state.2
    else state
  let state :=
    if config.get_resource_templates && state.1.has_resources then
      interrogate_resource_templates config send_request state.1 state.2
    else state
  if config.get_prompts && state.1.has_prompts then
    interrogate_prompts config send_request state.1 state.2
  else state

/-- The end of `interrogate` behind the `try` block:
`interrogation_successful = interrogation_errors.empty()`. -/
def finishInterrogation (server : MCPServer) : MCPServer :=
  { server with interrogation_successful := server.interrogation_errors.isEmpty }

/-- An early `return` of `interrogate` with an error message. -/
def abandonInterrogation (server : MCPServer) (message : String) : MCPServer :=
  { server with
    interrogation_errors := server.interrogation_errors ++ [message]
    interrogation_successful := false }

/-- The member function `ServerInterrogator::interrogate`: the server after the call and
the calls made on the platform, the spawned process and the HTTP client. -/
def ServerInterrogator.interrogate (lib : JsonLib) (parse_error_what : String → String)
    (interrogator : ServerInterrogator) (server : MCPServer) :
    MCPServer × InterrogationTrace :=
  let server := { server with interrogation_attempted := true }
  if !interrogator.config_.interrogate_enabled then (server, ⟨[], []⟩)
  else if server.transport_type = TransportType.Stdio then
    match interrogator.platform_ with
    | none =>
      (abandonInterrogation server
        "Cannot interrogate stdio server: missing platform or command", ⟨[], []⟩)
    | some platform =>
      if server.candidate.command = "" then
        (abandonInterrogation server
          "Cannot interrogate stdio server: missing platform or command", ⟨[], []⟩)
      else
        let trace : InterrogationTrace := ⟨[IoEvent.spawn server.candidate.command], []⟩
        match platform.spawn_process_with_pipes server.candidate.command with
        | Except.error what =>
          (finishInterrogation
            { server with
              interrogation_errors :=
                server.interrogation_errors ++ ["Interrogation failed: " ++ what] }, trace)
        | Except.ok none =>
          (abandonInterrogation server "Failed to spawn process for interrogation", trace)
        | Except.ok (some process) =>
          if !process.is_running trace.io then
            (abandonInterrogation server "Failed to spawn process for interrogation", trace)
          else
            let state :=
              performInterrogation interrogator.config_
                (stdioSendRequest lib parse_error_what process) server trace
            if process.is_running state.2.io then
              (finishInterrogation state.1,
                { state.2 with io := state.2.io ++ [IoEvent.terminate] })
            else (finishInterrogation state.1, state.2)
  else if server.transport_type = TransportType.Http then
    match interrogator.http_client_ with
    | none =>
      (abandonInterrogation server
        "Cannot interrogate HTTP server: missing HTTP client or URL", ⟨[], []⟩)
    | some http_client =>
      if server.candidate.url = "" then
        (abandonInterrogation server
          "Cannot interrogate HTTP server: missing HTTP client or URL", ⟨[], []⟩)
      else
        let state :=
          performInterrogation interrogator.config_
            (httpSendRequest lib parse_error_what http_client server.candidate.url) server
            ⟨[], []⟩
        (finishInterrogation state.1, state.2)
  else (abandonInterrogation server "Unknown transport type", ⟨[], []⟩)

/-- The default configuration with interrogation switched on. -/
def enabledInterrogationConfig : InterrogationConfig :=
  { InterrogationConfig.default with interrogate_enabled := true }

/-- The `what()` of a `parse_error`, as far as the examples need it. -/
def sampleParseErrorWhat : String → String :=
  fun _ => "[json.exception.parse_error.101] parse error"

/-- A server confirmed over HTTP that announces the capability `tools`. -/
def toolsServer : MCPServer :=
  { httpServerAt httpCandidate "http://127.0.0.1:8080" with
    capabilities := Json.object [("tools", Json.object [])] }

/-! ## Active coordinator (`config.hpp`, `scanner.cpp`)

A testing engine is an object behind the interface `TestingEngine`. The coordinator keeps
a log of the calls of `test`; what an engine answers may depend on the calls made so far.
The wall-clock fields of the results and the timeout set on the engines are not
modelled, and the requests that an interrogation sends are those of
`ServerInterrogator.interrogate`, which the log does not repeat. -/

/-- The struct `ActiveScanConfig`. -/
structure ActiveScanConfig where
  probe_timeout_ms : Int
  max_parallel_probes : Int
  test_all_candidates : Bool
  interrogate : Bool
  interrogation_config : InterrogationConfig
  require_confirmation : Bool
  skip_pids : List Int
  skip_urls : List String

/-- A default-constructed `ActiveScanConfig`. -/
def ActiveScanConfig.default : ActiveScanConfig where
  probe_timeout_ms := 5000
  max_parallel_probes := 10
  test_all_candidates := true
  interrogate := false
  interrogation_config := InterrogationConfig.default
  require_confirmation := false
  skip_pids := []
  skip_urls := []

/-- The struct `ActiveScanResults`. -/
structure ActiveScanResults where
  candidates_tested : List Candidate
  confirmed_servers : List MCPServer
  failed_tests : List Candidate
  candidates_tested_count : Int
  servers_confirmed_count : Int
  tests_failed_count : Int
  errors : List String

/-- One call `engine->test(candidate)`. -/
structure ProbeCall where
  engine : String
  candidate : Candidate
deriving DecidableEq

/-- The interface `TestingEngine`: `name()` and `test(candidate)`, the latter as a function
of the calls made so far, the current one included; `Except.error what` when it throws. -/
structure TestingEngine where
  name : String
  test : List ProbeCall → Candidate → Except String (Option MCPServer)

/-- The class `ActiveScanner`: its four members. -/
structure ActiveScanner where
  platform_ : Option PlatformAdapter
  http_client_ : Option HttpClient
  testing_engines_ : List TestingEngine
  interrogator_ : Option ServerInterrogator

/-- The stdio probe behind the interface `TestingEngine`; it catches every exception. -/
def stdioEngine (lib : JsonLib) (platform : Option PlatformAdapter) : TestingEngine where
  name := "StdioTestingEngine"
  test := fun _ candidate => Except.ok (StdioTestingEngine.test lib ⟨platform⟩ candidate).1

/-- The HTTP probe behind the interface `TestingEngine`; it catches every exception. -/
def httpEngine (lib : JsonLib) (http_client : Option HttpClient) : TestingEngine where
  name := "HttpTestingEngine"
  test := fun _ candidate =>
    Except.ok (HttpTestingEngine.test lib ⟨http_client⟩ candidate).1

/-- The member function `ActiveScanner::initialize_engines`; `new_http_client` is the
client that `std::make_shared<HttpClient>()` creates. -/
def ActiveScanner.initialize_engines (lib : JsonLib) (new_http_client : HttpClient)
    (scanner : ActiveScanner) : ActiveScanner :=
  let scanner := { scanner with http_client_ := some new_http_client }
  let scanner :=
    { scanner with
      testing_engines_ := scanner.testing_engines_ ++ [stdioEngine lib scanner.platform_] }
  { scanner with
    testing_engines_ := scanner.testing_engines_ ++ [httpEngine lib scanner.http_client_] }

/-- What the loop of `ActiveScanner::scan` carries from one candidate to the next: the
results, the member `interrogator_`, and the log of the calls of `test`. -/
structure ActiveScanState where
  results : ActiveScanResults
  interrogator_ : Option ServerInterrogator
  calls : List ProbeCall

/-- The two skip tests at the head of the loop of `ActiveScanner::scan`. -/
def isSkipped (config : ActiveScanConfig) (candidate : Candidate) : Bool :=
  if candidate.pid > 0 && config.skip_pids.contains candidate.pid then true
  else if candidate.url ≠ "" && config.skip_urls.contains candidate.url then true
  else false

/-- The block `// Test succeeded!`: the server takes the candidate, is interrogated when
that is enabled (by the interrogator of the scanner, created on first use), and is
recorded. -/
def recordConfirmed (lib : JsonLib) (parse_error_what : String → String)
    (scanner : ActiveScanner) (config : ActiveScanConfig) (candidate : Candidate)
    (server : MCPServer) (state : ActiveScanState) : ActiveScanState :=
  let server := { server with candidate := candidate }
  let interrogated : MCPServer × Option ServerInterrogator :=
    if config.interrogate && config.interrogation_config.interrogate_enabled then
      let interrogator :=
        match state.interrogator_ with
        | some interrogator => interrogator
        | none => ⟨config.interrogation_config, scanner.platform_, scanner.http_client_⟩
      ((interrogator.interrogate lib parse_error_what server).1, some interrogator)
    else (server, state.interrogator_)
  { state with
    results :=
      { state.results with
        confirmed_servers := state.results.confirmed_servers ++ [interrogated.1]
        servers_confirmed_count := state.results.servers_confirmed_count + 1 }
    interrogator_ := interrogated.2 }

/-- The loop `// Try each testing engine` for one candidate: the state after the loop,
whether a server was confirmed, and the errors collected. -/
def engineLoop (lib : JsonLib) (parse_error_what : String → String)
    (scanner : ActiveScanner) (config : ActiveScanConfig) (candidate : Candidate) :
    List TestingEngine → ActiveScanState → List String →
      ActiveScanState × Bool × List String
  | [], state, engine_errors => (state, false, engine_errors)
  | engine :: rest, state, engine_errors =>
    let state := { state with calls := state.calls ++ [⟨engine.name, candidate⟩] }
    match engine.test state.calls candidate with
    | Except.ok (some server) =>
      (recordConfirmed lib parse_error_what scanner config candidate server state, true,
        engine_errors)
    | Except.ok none =>
      engineLoop lib parse_error_what scanner config candidate rest state engine_errors
    | Except.error what =>
      engineLoop lib parse_error_what scanner config candidate rest state
        (engine_errors ++ [engine.name ++ ": " ++ what])

/-- The block `// If no engine succeeded` of `ActiveScanner::scan`. -/
def recordFailed (candidate : Candidate) (engine_errors : List String)
    (results : ActiveScanResults) : ActiveScanResults :=
  let results := { results with failed_tests := results.failed_tests ++ [candidate] }
  let results :=
    if engine_errors ≠ [] then
      let error_msg := "Failed to test candidate"
      let error_msg :=
        if candidate.command ≠ "" then error_msg ++ " (command: " ++ candidate.command ++ ")"
        else if candidate.url ≠ "" then error_msg ++ " (url: " ++ candidate.url ++ ")"
        else error_msg
      let error_msg := error_msg ++ " - Errors: " ++ "; ".intercalate engine_errors
      { results with errors := results.errors ++ [error_msg] }
    else results
  { results with tests_failed_count := results.tests_failed_count + 1 }

/-- The body of the loop `// Test each candidate` of `ActiveScanner::scan`. -/
def scanCandidate (lib : JsonLib) (parse_error_what : String → String)
    (scanner : ActiveScanner) (config : ActiveScanConfig) (candidate : Candidate)
    (state : ActiveScanState) : ActiveScanState :=
  if isSkipped config candidate then state
  else
    let state :=
      { state with
        results :=
          { state.results with
            candidates_tested_count := state.results.candidates_tested_count + 1 } }
    match engineLoop lib parse_error_what scanner config candidate scanner.testing_engines_
        state [] with
    | (state, true, _) => state
    | (state, false, engine_errors) =>
      { state with results := recordFailed candidate engine_errors state.results }

/-- The loop `// Test each candidate` of `ActiveScanner::scan`. -/
def candidatesLoop (lib : JsonLib) (parse_error_what : String → String)
    (scanner : ActiveScanner) (config : ActiveScanConfig) :
    List Candidate → ActiveScanState → ActiveScanState
  | [], state => state
  | candidate :: rest, state =>
    candidatesLoop lib parse_error_what scanner config rest
      (scanCandidate lib parse_error_what scanner config candidate state)

/-- The member function `ActiveScanner::scan`: the results, the scanner after the call,
and the log of the calls of `test`. -/
def ActiveScanner.scan (lib : JsonLib) (parse_error_what : String → String)
    (new_http_client : HttpClient) (scanner : ActiveScanner) (candidates : List Candidate)
    (config : ActiveScanConfig) : ActiveScanResults × ActiveScanner × List ProbeCall :=
  let results : ActiveScanResults :=
    { candidates_tested := candidates
      confirmed_servers := []
      failed_tests := []
      candidates_tested_count := 0
      servers_confirmed_count := 0
      tests_failed_count := 0
      errors := [] }
  let scanner :=
    if scanner.testing_engines_.isEmpty then scanner.initialize_engines lib new_http_client
    else scanner
  let state :=
    candidatesLoop lib parse_error_what scanner config candidates
      ⟨results, scanner.interrogator_, []⟩
  (state.results, { scanner with interrogator_ := state.interrogator_ }, state.calls)

/-- A fresh scanner on a platform whose spawned processes answer with `plainResultLine`. -/
def freshScanner : ActiveScanner where
  platform_ := some (answeringPlatform plainResultLine)
  http_client_ := none
  testing_engines_ := []
  interrogator_ := none

/-- A configuration that skips the url of `httpCandidate`. -/
def skipUrlConfig : ActiveScanConfig :=
  { ActiveScanConfig.default with skip_urls := ["http://127.0.0.1:8080"] }

/-- A listener on another port, which answers no probe. -/
def silentCandidate : Candidate :=
  { Candidate.default with
    url := "http://127.0.0.1:9090"
    address := "127.0.0.1"
    port := 9090
    transport_hint := TransportType.Http }

/-! ## Config source (`config_detection_engine.hpp`, `config_detection_engine.cpp`)

The member `read_json_file` of the platform is a parameter: the content of the file, or
the `what()` of the exception thrown. -/

/-- The struct `ServerConfig`; the map `env` as a list of pairs in key order. -/
structure ServerConfig where
  name : String
  command : String
  args : List String
  env : List (String × String)
  url : String
deriving DecidableEq

/-- A default-constructed `ServerConfig`. -/
def ServerConfig.init : ServerConfig where
  name := ""
  command := ""
  args := []
  env := []
  url := ""

/-- The loop over the array `args`: the string elements are pushed. -/
def argsLoop : List Json → List String → List String
  | [], args => args
  | arg :: rest, args =>
    if arg.is_string then argsLoop rest (args ++ [(arg.get_string).getD ""])
    else argsLoop rest args

/-- The assignment `env[key] = value` on a `std::map<std::string, std::string>`. -/
def envAssign (key value : String) : List (String × String) → List (String × String)
  | [] => [(key, value)]
  | (k, v) :: rest =>
    if keyLess key k then (key, value) :: (k, v) :: rest
    else if key = k then (k, value) :: rest
    else (k, v) :: envAssign key value rest

/-- The loop over the members of the object `env`: the string values are assigned. -/
def envLoop : List (String × Json) → List (String × String) → List (String × String)
  | [], env => env
  | (key, value) :: rest, env =>
    if value.is_string then envLoop rest (envAssign key ((value.get_string).getD "") env)
    else envLoop rest env

/-- The body of both loops of `parse_config_file` from `// Extract command` on, for a
`config` whose name has been set: `none` is the `continue` taken when `command` is missing
or not a string. -/
def parseServerEntry (config : ServerConfig) (server_obj : Json) : Option ServerConfig :=
  if server_obj.contains "command" && (server_obj.index "command").is_string then
    let config :=
      { config with command := ((server_obj.index "command").get_string).getD "" }
    let config :=
      if server_obj.contains "args" && (server_obj.index "args").is_array then
        { config with args := argsLoop (server_obj.index "args").elements config.args }
      else config
    let config :=
      if server_obj.contains "env" && (server_obj.index "env").is_object then
        { config with env := envLoop (server_obj.index "env").members config.env }
      else config
    let config :=
      if server_obj.contains "url" && (server_obj.index "url").is_string then
        { config with url := ((server_obj.index "url").get_string).getD "" }
      else config
    some config
  else none

/-- The loop over the members of `mcpServers`: the name of an entry is its key. -/
def mcpServersLoop : List (String × Json) → List ServerConfig → List ServerConfig
  | [], configs => configs
  | (server_name, server_obj) :: rest, configs =>
    match parseServerEntry { ServerConfig.init with name := server_name } server_obj with
    | some config => mcpServersLoop rest (configs ++ [config])
    | none => mcpServersLoop rest configs

/-- The loop over the elements of `servers`: the name of an entry is its member `name`,
when that is a string. -/
def serversLoop : List Json → List ServerConfig → List ServerConfig
  | [], configs => configs
  | server_obj :: rest, configs =>
    match parseServerEntry
        { ServerConfig.init with name := stringField server_obj "name" "" } server_obj with
    | some config => serversLoop rest (configs ++ [config])
    | none => serversLoop rest configs

/-- The `try` block of `parse_config_file` behind the call of `read_json_file`. -/
def parseConfigJson (json : Json) : List ServerConfig :=
  let configs : List ServerConfig := []
  let configs :=
    if json.contains "mcpServers" && (json.index "mcpServers").is_object then
      mcpServersLoop (json.index "mcpServers").members configs
    else configs
  if json.contains "servers" && (json.index "servers").is_array then
    serversLoop (json.index "servers").elements configs
  else configs

/-- The member function `ConfigDetectionEngine::parse_config_file`; `Except.error what`
when it throws. -/
def parse_config_file (read_json_file : String → Except String Json) (path : String) :
    Except String (List ServerConfig) :=
  match read_json_file path with
  | Except.error what => Except.error ("Failed to parse config file: " ++ what)
  | Except.ok json => Except.ok (parseConfigJson json)

/-- The member function `ConfigDetectionEngine::create_candidate_from_config`. -/
def create_candidate_from_config (config : ServerConfig) (config_path : String) :
    Candidate :=
  let candidate := Candidate.default
  let candidate := { candidate with config_file := config_path, config_key := config.name }
  let candidate :=
    if config.command ≠ "" then
      { candidate with
        command := config.args.foldl (fun cmd_stream arg => cmd_stream ++ " " ++ arg)
          config.command }
    else candidate
  let candidate := { candidate with environment := config.env }
  let candidate :=
    if config.url ≠ "" then
      { candidate with url := config.url, transport_hint := TransportType.Http }
    else { candidate with transport_hint := TransportType.Stdio }
  candidate.add_evidence
    (Evidence.make4 "config_declared" ("Declared in config file: " ++ config_path) (9 / 10)
      config_path)

/-- The part of the loop of `ConfigDetectionEngine::detect` that follows `file_exists`:
the candidates of one config file, or the `what()` of the exception that makes `detect`
pass over the file. -/
def configFileCandidates (read_json_file : String → Except String Json)
    (expanded_path : String) : Except String (List Candidate) :=
  match parse_config_file read_json_file expanded_path with
  | Except.error what => Except.error what
  | Except.ok server_configs =>
    Except.ok (server_configs.map (fun config =>
      create_candidate_from_config config expanded_path))

/-- The candidate that one entry of a config file yields, if any. -/
def entryCandidate (config_path name : String) (server_obj : Json) : Option Candidate :=
  (parseServerEntry { ServerConfig.init with name := name } server_obj).map
    (fun config => create_candidate_from_config config config_path)

/-- The entry `{"command":"node","args":["/a/b.js"]}` of the specification. -/
def nodeEntry : Json :=
  Json.object
    [ ("args", Json.array [Json.string "/a/b.js"]),
      ("command", Json.string "node") ]

/-- An entry with an empty command: `{"command":"","args":["server.js"]}`. -/
def emptyCommandEntry : Json :=
  Json.object
    [ ("args", Json.array [Json.string "server.js"]),
      ("command", Json.string "") ]

/-- A config file with the entry `fs` in `mcpServers`. -/
def nodeConfigJson : Json :=
  Json.object [("mcpServers", Json.object [("fs", nodeEntry)])]

/-- A platform that reads `nodeConfigJson` from every path. -/
def nodeConfigReader : String → Except String Json := fun _ => Except.ok nodeConfigJson

/-- The accounting of an active scan after `tested` candidates have been tested: the three
counters and the lengths of the two result lists agree. -/
def ActiveScanResults.balanced (results : ActiveScanResults) (tested : Nat) : Prop :=
  results.candidates_tested_count = (tested : Int) ∧
  results.servers_confirmed_count + results.tests_failed_count = (tested : Int) ∧
  (results.confirmed_servers.length : Int) = results.servers_confirmed_count ∧
  (results.failed_tests.length : Int) = results.tests_failed_count

/-- A fresh scanner without platform adapter. -/
def bareScanner : ActiveScanner where
  platform_ := none
  http_client_ := none
  testing_engines_ := []
  interrogator_ := none

/-- A candidate of the container source whose label `mcp.transport` is `sse`. -/
def sseCandidate : Candidate :=
  { Candidate.default with
    command := "/usr/local/bin/mcp-server"
    url := "http://127.0.0.1:8080"
    transport_hint := TransportType.Sse }

/-- A rulepack whose only rule, without a match condition, sets a floor of `0.9`. -/
def floorPack : Rulepack where
  name := "sample"
  version := "1.0"
  description := ""
  rules :=
    [ { name := "floor"
        description := ""
        match_conditions := []
        actions :=
          [{ RuleAction.ofType RuleActionType.SetMinimumConfidence with
             minimum_confidence := 9 / 10 }] } ]

/-- A process engine that emits process 100 with one weak evidence at `0.7`. -/
def weakProcessEngine : EngineRun where
  name := "ProcessDetectionEngine"
  detect :=
    Except.ok [processCandidate 100 "node server.js" (sampleEvidence (7 / 10) Strength.Weak)]
  last_scan_count := 1

/-- A network engine that emits a listener of the same process 100. -/
def samePidListenerEngine : EngineRun where
  name := "NetworkDetectionEngine"
  detect := Except.ok [listenerCandidate 100 "http://127.0.0.1:3000" (1 / 10)]
  last_scan_count := 1

/-- A scan configuration with `min_confidence = 0.8`. -/
def thresholdConfig : PassiveScanConfig :=
  { PassiveScanConfig.default with min_confidence := 8 / 10 }

/-! ## Network and process sources (`platform_adapter.hpp`, `network_detection_engine.cpp`,
`process_detection_engine.cpp`) -/

/-- The struct `NetworkListener`. -/
structure NetworkListener where
  pid : Int
  address : String
  port : Int
  protocol : String
  process_name : String
deriving DecidableEq

/-- The query member functions of `PlatformAdapter` that the network and process sources
call, each as a function of its argument: the state of the system is taken as fixed during
one `detect()`, and the functions return (a query that throws is not modelled).
`get_environment` is the `std::map` in its iteration order. -/
structure PlatformQueries where
  get_process_list : List Int
  get_command_line : Int → String
  get_process_name : Int → String
  get_parent_pid : Int → Int
  get_environment : Int → List (String × String)
  has_bidirectional_pipes : Int → Bool
  get_listening_sockets : List NetworkListener

/-- The body of the loop over the listeners of `NetworkDetectionEngine::detect`. The
declaration `Evidence evidence;` runs the defaulted constructor, which leaves the members
`strength` and `is_negative` without a value (the struct has no member initialisers), and
the body assigns only `type`, `description` and `confidence`: `indeterminate_strength` and
`indeterminate_is_negative` are what `add_evidence` then reads from the two members. -/
def listenerBody (platform : PlatformQueries) (indeterminate_strength : Strength)
    (indeterminate_is_negative : Bool) (listener : NetworkListener) : Candidate :=
  let candidate := { Candidate.default with pid := listener.pid }
  let protocol := "http"
  let host := listener.address
  let host := if host = "0.0.0.0" ∨ host = "::" then "127.0.0.1" else host
  let is_ipv6 := (strFind host ":").isSome
  let host := if is_ipv6 then "[" ++ host ++ "]" else host
  let candidate :=
    { candidate with
      url := protocol ++ "://" ++ host ++ ":" ++ toString listener.port
      transport_hint := TransportType.Http }
  let candidate :=
    if listener.pid > 0 then
      { candidate with
        process_name := platform.get_process_name listener.pid
        command := platform.get_command_line listener.pid }
    else candidate
  let evidence : Evidence :=
    { type := "network_listener"
      description :=
        "Process listening on " ++ listener.address ++ ":" ++ toString listener.port ++
          " (" ++ listener.protocol ++ ")"
      confidence := if listener.protocol = "udp" then 5 / 100 else 10 / 100
      source := ""
      strength := indeterminate_strength
      is_negative := indeterminate_is_negative }
  candidate.add_evidence evidence

/-- The loop `for (const auto& listener : listeners)`; `indeterminate i` is what the two
members without a value hold in iteration `i`. -/
def listenersLoop (platform : PlatformQueries) (indeterminate : Nat → Strength × Bool) :
    Nat → List NetworkListener → List Candidate
  | _, [] => []
  | i, listener :: rest =>
    listenerBody platform (indeterminate i).1 (indeterminate i).2 listener ::
      listenersLoop platform indeterminate (i + 1) rest

/-- The member function `NetworkDetectionEngine::detect`; `platform_` is `none` for a null
pointer. -/
def NetworkDetectionEngine.detect (indeterminate : Nat → Strength × Bool)
    (platform_ : Option PlatformQueries) : List Candidate :=
  match platform_ with
  | none => []
  | some platform => listenersLoop platform indeterminate 0 platform.get_listening_sockets

/-- The vector `known_clients` of `check_parent_process`. -/
def known_clients : List String :=
  ["Claude", "claude", "Claude.app", "Cursor", "cursor", "code", "Code",
    "Visual Studio Code", "windsurf", "Windsurf"]

/-- The loop over `known_clients`: the first client found in the name of the parent adds
the evidence and ends the loop. -/
def clientsLoop (parent_name : String) (candidate : Candidate) : List String → Candidate
  | [] => candidate
  | client :: rest =>
    if (strFind parent_name client).isSome then
      candidate.add_evidence
        ⟨"parent_process", "Parent process is MCP client: " ++ parent_name, 7 / 10, "",
          Strength.Weak, false⟩
    else clientsLoop parent_name candidate rest

/-- The member function `check_parent_process`, called with a platform. -/
def check_parent_process (platform : PlatformQueries) (pid : Int) (candidate : Candidate) :
    Candidate :=
  let parent_pid := platform.get_parent_pid pid
  if parent_pid ≤ 0 then candidate
  else
    let parent_name := platform.get_process_name parent_pid
    if parent_name = "" then candidate
    else clientsLoop parent_name candidate known_clients

/-- The member function `check_file_descriptors`, called with a platform. -/
def check_file_descriptors (platform : PlatformQueries) (pid : Int) (candidate : Candidate) :
    Candidate :=
  if platform.has_bidirectional_pipes pid then
    { candidate.add_evidence
        ⟨"file_descriptors", "Process has bidirectional pipes (stdio transport)", 6 / 10, "",
          Strength.Moderate, false⟩ with
      transport_hint := TransportType.Stdio }
  else candidate

/-- The vector `mcp_env_vars` of `check_environment`. -/
def mcp_env_vars : List String := ["MCP_", "ANTHROPIC_", "CLAUDE_"]

/-- The inner loop of `check_environment` over `mcp_env_vars`: the first one found at
position `0` of the key adds the evidence and ends the loop. -/
def prefixesLoop (key : String) (candidate : Candidate) : List String → Candidate
  | [] => candidate
  | p :: rest =>
    if strFind key p = some 0 then
      candidate.add_evidence
        ⟨"environment", "Environment variable found: " ++ key, 5 / 10, "",
          Strength.Moderate, false⟩
    else prefixesLoop key candidate rest

/-- The outer loop of `check_environment` over the variables. -/
def environmentLoop : List (String × String) → Candidate → Candidate
  | [], candidate => candidate
  | (key, _) :: rest, candidate =>
    environmentLoop rest (prefixesLoop key candidate mcp_env_vars)

/-- The member function `check_environment`, called with a platform. -/
def check_environment (platform : PlatformQueries) (pid : Int) (candidate : Candidate) :
    Candidate :=
  environmentLoop (platform.get_environment pid) candidate

/-- The body of the loop over the process ids of `ProcessDetectionEngine::detect`: `none`
when the iteration pushes no candidate (the `continue`, or an empty evidence vector). -/
def processBody (platform : PlatformQueries) (pid : Int) : Option Candidate :=
  let candidate :=
    { Candidate.default with pid := pid, process_name := platform.get_process_name pid }
  let cmdline := platform.get_command_line pid
  if candidate.process_name = "" ∧ cmdline = "" then none
  else
    let candidate := if cmdline ≠ "" then { candidate with command := cmdline } else candidate
    let candidate := check_parent_process platform pid candidate
    let candidate := check_file_descriptors platform pid candidate
    let candidate := check_environment platform pid candidate
    if candidate.evidence ≠ [] then some candidate else none

/-- The loop `for (int pid : pids)`. -/
def pidsLoop (platform : PlatformQueries) : List Int → List Candidate
  | [] => []
  | pid :: rest =>
    match processBody platform pid with
    | some candidate => candidate :: pidsLoop platform rest
    | none => pidsLoop platform rest

/-- The member function `ProcessDetectionEngine::detect`; `platform_` is `none` for a null
pointer. -/
def ProcessDetectionEngine.detect (platform_ : Option PlatformQueries) : List Candidate :=
  match platform_ with
  | none => []
  | some platform => pidsLoop platform platform.get_process_list

/-- The condition of the first check in the words of the specification: the process has a
parent whose name contains a known client name. -/
def parentIsKnownClient (platform : PlatformQueries) (pid : Int) : Prop :=
  0 < platform.get_parent_pid pid ∧
    ∃ client ∈ known_clients,
      client.toList <:+: (platform.get_process_name (platform.get_parent_pid pid)).toList

instance (platform : PlatformQueries) (pid : Int) :
    Decidable (parentIsKnownClient platform pid) := by
  unfold parentIsKnownClient
  exact inferInstance

/-- The condition of the third check in the words of the specification: the environment has
a variable whose name starts with `MCP_`, `ANTHROPIC_` or `CLAUDE_`. -/
def hasMcpVariable (platform : PlatformQueries) (pid : Int) : Prop :=
  ∃ entry ∈ platform.get_environment pid,
    ∃ p ∈ mcp_env_vars, p.toList <+: entry.1.toList

instance (platform : PlatformQueries) (pid : Int) :
    Decidable (hasMcpVariable platform pid) := by
  unfold hasMcpVariable
  exact inferInstance

/-- The condition under which the process source emits a process. -/
def processEmitted (platform : PlatformQueries) (pid : Int) : Prop :=
  (platform.get_process_name pid ≠ "" ∨ platform.get_command_line pid ≠ "") ∧
    (parentIsKnownClient platform pid ∨ platform.has_bidirectional_pipes pid = true ∨
      hasMcpVariable platform pid)

instance (platform : PlatformQueries) (pid : Int) :
    Decidable (processEmitted platform pid) := by
  unfold processEmitted
  exact inferInstance

/-- A system with the listener of a `node` process 123 on `0.0.0.0:3000`, and with three
processes: 200, a `node` child of the client `Claude` (process 50) with stdio pipes and the
variable `MCP_MODE`; 300, a shell without any indicator; and 77, a process with pipes
whose name and command line cannot be read. -/
def samplePlatformQueries : PlatformQueries where
  get_process_list := [200, 300, 77]
  get_command_line := fun pid =>
    if pid = 123 then "node server.js" else if pid = 200 then "node mcp.js"
    else if pid = 300 then "bash" else ""
  get_process_name := fun pid =>
    if pid = 123 then "node" else if pid = 200 then "node" else if pid = 300 then "bash"
    else if pid = 50 then "Claude" else ""
  get_parent_pid := fun pid => if pid = 200 then 50 else 1
  get_environment := fun pid =>
    if pid = 200 then [("HOME", "/home/u"), ("MCP_MODE", "stdio")] else [("HOME", "/home/u")]
  has_bidirectional_pipes := fun pid => decide (pid = 200 ∨ pid = 77)
  get_listening_sockets := [⟨123, "0.0.0.0", 3000, "tcp", "node"⟩]

/-! # Theorems -/

/-! ## Lemmas on the scoring loops -/

theorem countLoop_eq (es : List Evidence) (k : StrengthCounts) :
    countLoop es k =
      if es.any (fun e => e.is_negative) then none
      else some ⟨k.definitive_count + strengthCount Strength.Definitive es,
                 k.strong_count + strengthCount Strength.Strong es,
                 k.moderate_count + strengthCount Strength.Moderate es,
                 k.weak_count + strengthCount Strength.Weak es⟩ := by
  induction es generalizing k with
  | nil => simp [countLoop, strengthCount]
  | cons e es ih =>
    unfold countLoop
    cases hneg : e.is_negative with
    | true => simp [hneg]
    | false =>
      simp only [Bool.false_eq_true, ↓reduceIte, List.any_cons, hneg, Bool.false_or, ih]
      split
      · rfl
      · cases hs : e.strength <;>
          simp [StrengthCounts.bump, strengthCount, List.countP_cons, hs] <;> omega

theorem product_foldl_eq (es : List Evidence) (a : ℚ) :
    es.foldl (fun acc e => acc * (1 - e.confidence)) a
      = a * (es.map (fun e => 1 - e.confidence)).prod := by
  induction es generalizing a with
  | nil => simp
  | cons e es ih => simp [List.foldl_cons, ih, mul_assoc]

theorem product_of_negatives_eq (es : List Evidence) :
    product_of_negatives es = (es.map (fun e => 1 - e.confidence)).prod := by
  simp [product_of_negatives, product_foldl_eq]

theorem stdMin_eq_min (a b : ℚ) : stdMin a b = min b a := by
  unfold stdMin
  rcases lt_trichotomy b a with h | h | h
  · simp [h, min_eq_left h.le]
  · simp [h]
  · simp [not_lt.mpr h.le, min_eq_right h.le]

theorem cap_eq_min (s : ℚ) : (if s > 99 / 100 then (99 / 100 : ℚ) else s) = min s (99 / 100) := by
  by_cases h : s > 99 / 100
  · simp [h, min_eq_right h.le]
  · simp [h, min_eq_left (not_lt.mp h)]

theorem any_negative_iff (es : List Evidence) :
    es.any (fun e => e.is_negative) = true ↔ ∃ e ∈ es, e.is_negative = true := by
  simp [List.any_eq_true]

theorem strengthCount_eq_zero (s : Strength) (es : List Evidence) :
    strengthCount s es = 0 ↔ ∀ e ∈ es, e.strength ≠ s := by
  simp [strengthCount, List.countP_eq_zero]

theorem weakOnly_iff (es : List Evidence) (hne : es ≠ []) :
    (0 < 0 + strengthCount Strength.Weak es ∧ 0 + strengthCount Strength.Moderate es = 0 ∧
      0 + strengthCount Strength.Strong es = 0 ∧ 0 + strengthCount Strength.Definitive es = 0)
      ↔ ∀ e ∈ es, e.strength = Strength.Weak := by
  simp only [Nat.zero_add, strengthCount_eq_zero]
  constructor
  · rintro ⟨_, hm, hs, hd⟩ e he
    have h1 := hm e he
    have h2 := hs e he
    have h3 := hd e he
    cases hst : e.strength <;> simp_all
  · intro h
    refine ⟨?_, ?_, ?_, ?_⟩
    · cases es with
      | nil => exact absurd rfl hne
      | cons e es =>
        have := h e (List.mem_cons_self _ _)
        simp [strengthCount, List.countP_cons, this]
    all_goals
      intro e he
      simp [h e he]

/-- The score computed by the code, in closed form. -/
theorem recalculatedScore_eq (es : List Evidence) :
    recalculatedScore es = noisyOrReference es := by
  unfold recalculatedScore noisyOrReference
  cases es with
  | nil => simp
  | cons e0 es0 =>
    have hne : e0 :: es0 ≠ [] := List.cons_ne_nil _ _
    simp only [List.isEmpty_cons, Bool.false_eq_true, ↓reduceIte, hne, false_or]
    rw [countLoop_eq]
    by_cases hneg : ∃ e ∈ e0 :: es0, e.is_negative = true
    · rw [if_pos ((any_negative_iff _).mpr hneg), if_pos hneg]
    · rw [if_neg (fun h => hneg ((any_negative_iff _).mp h)), if_neg hneg]
      simp only [weakOnly_iff _ hne, product_of_negatives_eq, stdMin_eq_min, cap_eq_min]

/-! ## Scoring: reference value, order invariance, compounding -/

/-- C1: for every evidence list, `Candidate::recalculate_confidence` stores in
`confidence_score` the reference Noisy-OR value: `0` when the list is empty or holds a
negative evidence, otherwise `min p 0.49` when every evidence is `Weak` and `min p 0.99`
when some evidence is not, with `p = 1 - ∏ (1 - confidence)`; it changes no other field. -/
theorem recalculate_confidence_eq_reference (c : Candidate) :
    c.recalculate_confidence = { c with confidence_score := noisyOrReference c.evidence } := by
  have hscore : recalculatedScore c.evidence = noisyOrReference c.evidence := by
    unfold recalculatedScore noisyOrReference
    cases c.evidence with
    | nil => simp
    | cons e0 es0 =>
      have hne : e0 :: es0 ≠ [] := List.cons_ne_nil _ _
      simp only [List.isEmpty_cons, Bool.false_eq_true, ↓reduceIte, hne, false_or]
      rw [countLoop_eq]
      by_cases hneg : ∃ e ∈ e0 :: es0, e.is_negative = true
      · rw [if_pos ((any_negative_iff _).mpr hneg), if_pos hneg]
      · rw [if_neg (fun h => hneg ((any_negative_iff _).mp h)), if_neg hneg]
        simp only [weakOnly_iff _ hne, product_of_negatives_eq, stdMin_eq_min, cap_eq_min]
  unfold Candidate.recalculate_confidence
  rw [hscore]

theorem noisyOrReference_strong (es : List Evidence)
    (hneg : ∀ x ∈ es, x.is_negative = false)
    (hstrong : ∃ x ∈ es, x.strength ≠ Strength.Weak) :
    noisyOrReference es
      = min (1 - (es.map (fun e => 1 - e.confidence)).prod) (99 / 100) := by
  unfold noisyOrReference
  obtain ⟨x, hx, hxs⟩ := hstrong
  have hne : es ≠ [] := List.ne_nil_of_mem hx
  have h1 : ¬ (es = [] ∨ ∃ e ∈ es, e.is_negative = true) := by
    rintro (h | ⟨e, he, hn⟩)
    · exact hne h
    · rw [hneg e he] at hn
      exact Bool.false_ne_true hn
  have h2 : ¬ ∀ e ∈ es, e.strength = Strength.Weak := fun hw => hxs (hw x hx)
  simp only [h1, h2, ↓reduceIte]

theorem prod_unit_interval (l : List ℚ) (h : ∀ x ∈ l, 0 ≤ x ∧ x ≤ 1) :
    0 ≤ l.prod ∧ l.prod ≤ 1 := by
  induction l with
  | nil => simp
  | cons a l ih =>
    have ha := h a (List.mem_cons_self _ _)
    have hl := ih (fun x hx => h x (List.mem_cons_of_mem _ hx))
    rw [List.prod_cons]
    exact ⟨mul_nonneg ha.1 hl.1, mul_le_one₀ ha.2 hl.1 hl.2⟩

theorem noisyOrReference_of_negative (es : List Evidence)
    (h : ∃ e ∈ es, e.is_negative = true) : noisyOrReference es = 0 := by
  unfold noisyOrReference
  rw [if_pos (Or.inr h)]

theorem noisyOrReference_bounds (es : List Evidence)
    (h : (∃ e ∈ es, e.is_negative = true) ∨
      ∀ e ∈ es, 0 ≤ e.confidence ∧ e.confidence ≤ 1) :
    0 ≤ noisyOrReference es ∧ noisyOrReference es ≤ 99 / 100 := by
  rcases h with h | h
  · rw [noisyOrReference_of_negative es h]
    norm_num
  · unfold noisyOrReference
    split
    · norm_num
    · have hp := prod_unit_interval (es.map (fun e => 1 - e.confidence)) (by
        intro x hx
        obtain ⟨e, he, rfl⟩ := List.mem_map.mp hx
        have := h e he
        constructor <;> linarith [this.1, this.2])
      simp only
      split
      · constructor
        · exact le_min (by linarith [hp.2]) (by norm_num)
        · exact le_trans (min_le_right _ _) (by norm_num)
      · constructor
        · exact le_min (by linarith [hp.2]) (by norm_num)
        · exact min_le_right _ _

/-- Adding evidence keeps the invariant behind the score bound: the score is within
`[0, 0.99]`, and the confidences are within `[0, 1]` unless a negative evidence is held. -/
theorem add_evidence_bounds (c : Candidate) (e : Evidence)
    (hc : c.hasNegativeEvidence ∨ ∀ x ∈ c.evidence, 0 ≤ x.confidence ∧ x.confidence ≤ 1)
    (he : e.is_negative = true ∨ (0 ≤ e.confidence ∧ e.confidence ≤ 1)) :
    ((c.add_evidence e).hasNegativeEvidence ∨
        ∀ x ∈ (c.add_evidence e).evidence, 0 ≤ x.confidence ∧ x.confidence ≤ 1) ∧
      (c.add_evidence e).scoreInBounds := by
  have hev : (c.add_evidence e).evidence = c.evidence ++ [e] := rfl
  have h1 : (c.add_evidence e).hasNegativeEvidence ∨
      ∀ x ∈ (c.add_evidence e).evidence, 0 ≤ x.confidence ∧ x.confidence ≤ 1 := by
    rw [hev]
    unfold Candidate.hasNegativeEvidence
    rw [hev]
    rcases hc with ⟨x, hx, hn⟩ | hc
    · exact Or.inl ⟨x, List.mem_append_left _ hx, hn⟩
    · rcases he with he | he
      · exact Or.inl ⟨e, by simp, he⟩
      · right
        intro x hx
        rcases List.mem_append.mp hx with h | h
        · exact hc x h
        · rw [List.mem_singleton.mp h]
          exact he
  refine ⟨h1, ?_⟩
  have hs : (c.add_evidence e).confidence_score = noisyOrReference (c.add_evidence e).evidence := by
    simp [Candidate.add_evidence, Candidate.recalculate_confidence, recalculatedScore_eq]
  unfold Candidate.scoreInBounds
  rw [hs]
  exact noisyOrReference_bounds _ h1

theorem mutation_keeps_bounds (c : Candidate) (m : Mutation) (hm : m.inRange)
    (hc : c.hasNegativeEvidence ∨ ∀ x ∈ c.evidence, 0 ≤ x.confidence ∧ x.confidence ≤ 1)
    (hs : c.scoreInBounds) :
    ((m.run c).hasNegativeEvidence ∨
        ∀ x ∈ (m.run c).evidence, 0 ≤ x.confidence ∧ x.confidence ≤ 1) ∧
      (m.run c).scoreInBounds := by
  cases m with
  | add_evidence e => exact add_evidence_bounds c e hc (Or.inr hm)
  | rule_action a =>
    unfold Mutation.inRange at hm
    unfold Mutation.run RuleAction.apply
    unfold Candidate.scoreInBounds at hs
    cases ht : a.type <;> simp only [ht] at hm ⊢
    · exact add_evidence_bounds c _ hc (Or.inr hm)
    · refine ⟨hc, ?_⟩
      unfold Candidate.scoreInBounds
      simp only
      split
      · norm_num
      · rename_i hle
        exact ⟨mul_nonneg hs.1 hm, not_lt.mp hle⟩
    · split
      · refine ⟨hc, ?_⟩
        rename_i hlt
        exact ⟨le_trans hs.1 hlt.le, hm⟩
      · exact ⟨hc, hs⟩
    · exact add_evidence_bounds c _ hc (Or.inr (by simp [Evidence.make4]))
    · exact add_evidence_bounds c _ hc (Or.inl rfl)
    · split
      · refine ⟨hc, ?_⟩
        rename_i hgt
        exact ⟨hm, le_trans (le_of_lt hgt) hs.2⟩
      · exact ⟨hc, hs⟩
    · exact add_evidence_bounds { c with confidence_score := 0 } _ hc (Or.inl rfl)

theorem runMutations_keeps_bounds (ms : List Mutation) (h : ∀ m ∈ ms, m.inRange)
    (c : Candidate)
    (hc : c.hasNegativeEvidence ∨ ∀ x ∈ c.evidence, 0 ≤ x.confidence ∧ x.confidence ≤ 1)
    (hs : c.scoreInBounds) :
    (runMutations ms c).scoreInBounds := by
  induction ms generalizing c with
  | nil => exact hs
  | cons m ms ih =>
    have hm := mutation_keeps_bounds c m (h m (List.mem_cons_self _ _)) hc hs
    exact ih (fun x hx => h x (List.mem_cons_of_mem _ hx)) (m.run c) hm.1 hm.2

/-- C2 as stated fails. Each of the following mutation sequences is admitted by the stated
restriction (evidence added by `Candidate::add_evidence` has its confidence in `[0, 1]`, rule
actions are arbitrary) and takes a default candidate out of `[0, 0.99]`:
`SetMinimumConfidence` with floor `1.0` gives the score `1`; evidence at `0.5` followed by
`BoostConfidence` with factor `-1` gives `-0.5`; `SetMaximumConfidence` with cap `-1` gives
`-1`; `AddEvidence` with confidence `-1` gives `-1`. -/
theorem score_bound_counterexample :
    ((∀ m ∈ [Mutation.rule_action floorOneAction], m.evidenceInUnitInterval) ∧
      (runMutations [Mutation.rule_action floorOneAction] Candidate.default).confidence_score
        = 1 ∧
      ¬ (runMutations [Mutation.rule_action floorOneAction] Candidate.default).scoreInBounds) ∧
    ((∀ m ∈ negativeBoostMutations, m.evidenceInUnitInterval) ∧
      (runMutations negativeBoostMutations Candidate.default).confidence_score = -(1 / 2)) ∧
    ((∀ m ∈ negativeCapMutations, m.evidenceInUnitInterval) ∧
      (runMutations negativeCapMutations Candidate.default).confidence_score = -1) ∧
    ((∀ m ∈ negativeEvidenceMutations, m.evidenceInUnitInterval) ∧
      (runMutations negativeEvidenceMutations Candidate.default).confidence_score = -1) := by
  refine ⟨⟨?_, ?_, ?_⟩, ⟨?_, ?_⟩, ⟨?_, ?_⟩, ⟨?_, ?_⟩⟩
  · intro m hm
    rw [List.mem_singleton.mp hm]
    exact True.intro
  · simp [runMutations, Mutation.run, RuleAction.apply, floorOneAction, RuleAction.ofType,
      Candidate.default]
  · simp [runMutations, Mutation.run, RuleAction.apply, floorOneAction, RuleAction.ofType,
      Candidate.default, Candidate.scoreInBounds]
    norm_num
  · intro m hm
    simp only [negativeBoostMutations, List.mem_cons, List.mem_singleton, List.not_mem_nil,
      or_false] at hm
    rcases hm with rfl | rfl <;>
      norm_num [Mutation.evidenceInUnitInterval, sampleEvidence]
  · norm_num [negativeBoostMutations, runMutations, Mutation.run, RuleAction.apply,
      RuleAction.ofType, Candidate.default, Candidate.add_evidence,
      Candidate.recalculate_confidence, recalculatedScore, countLoop, StrengthCounts.bump,
      product_of_negatives, sampleEvidence]
  · intro m hm
    rw [List.mem_singleton.mp hm]
    exact True.intro
  · norm_num [negativeCapMutations, runMutations, Mutation.run, RuleAction.apply,
      RuleAction.ofType, Candidate.default]
  · intro m hm
    rw [List.mem_singleton.mp hm]
    exact True.intro
  · norm_num [negativeEvidenceMutations, runMutations, Mutation.run, RuleAction.apply,
      RuleAction.ofType, Candidate.default, Candidate.add_evidence,
      Candidate.recalculate_confidence, recalculatedScore, countLoop, StrengthCounts.bump,
      product_of_negatives, Evidence.make4]

/-- C2, amended: for every candidate reached from a default candidate by a sequence of
`Candidate::add_evidence` calls and `RuleAction::apply` calls whose parameters are in range
(added evidence and `AddEvidence` with confidence in `[0, 1]`, `BoostConfidence` with a factor
`≥ 0`, `SetMinimumConfidence` with a floor `≤ 0.99`, `SetMaximumConfidence` with a cap `≥ 0`,
and `AddTag`, `AddNegativeEvidence`, `Exclude` with any parameters),
`0 ≤ confidence_score ≤ 0.99` holds after every step. -/
theorem score_bound_invariant (ms : List Mutation) (h : ∀ m ∈ ms, m.inRange) (k : Nat) :
    (runMutations (ms.take k) Candidate.default).scoreInBounds := by
  apply runMutations_keeps_bounds
  · intro m hm
    exact h m (List.mem_of_mem_take hm)
  · right
    intro x hx
    simp [Candidate.default] at hx
  · norm_num [Candidate.scoreInBounds, Candidate.default]


/-- The score bound along a concrete in-range sequence: evidence, boost, floor. -/
theorem score_bound_invariant_witness :
    (∀ m ∈ sampleMutations, m.inRange) ∧
    (runMutations (sampleMutations.take 3) Candidate.default).scoreInBounds :=
  have h : ∀ m ∈ sampleMutations, m.inRange := by
    intro m hm
    simp only [sampleMutations, List.mem_cons, List.mem_singleton, List.not_mem_nil,
      or_false] at hm
    rcases hm with rfl | rfl | rfl | rfl <;>
      norm_num [Mutation.inRange, sampleEvidence, RuleAction.ofType]
  ⟨h, score_bound_invariant sampleMutations h 3⟩

theorem add_evidence_veto (c : Candidate) (e : Evidence)
    (h : (c.add_evidence e).hasNegativeEvidence) : (c.add_evidence e).confidence_score = 0 := by
  have hs : (c.add_evidence e).confidence_score = noisyOrReference (c.add_evidence e).evidence := by
    simp [Candidate.add_evidence, Candidate.recalculate_confidence, recalculatedScore_eq]
  rw [hs]
  exact noisyOrReference_of_negative _ h

theorem action_keeps_veto (a : RuleAction) (ha : a.keepsZero) (c : Candidate)
    (hc : c.hasNegativeEvidence → c.confidence_score = 0) :
    (a.apply c).hasNegativeEvidence → (a.apply c).confidence_score = 0 := by
  unfold RuleAction.apply
  cases ht : a.type <;> simp only
  · exact add_evidence_veto c _
  · intro h
    have h0 : c.confidence_score = 0 := hc h
    norm_num [h0]
  · split
    · intro h
      rename_i hlt
      have h0 : c.confidence_score = 0 := hc h
      have := ha.1 ht
      rw [h0] at hlt
      exact absurd hlt (not_lt.mpr this)
    · exact hc
  · exact add_evidence_veto c _
  · exact add_evidence_veto c _
  · split
    · intro h
      rename_i hgt
      have h0 : c.confidence_score = 0 := hc h
      have := ha.2 ht
      rw [h0] at hgt
      exact absurd hgt (not_lt.mpr this)
    · exact hc
  · exact add_evidence_veto { c with confidence_score := 0 } _

theorem actions_keep_veto (as : List RuleAction) (has : ∀ a ∈ as, a.keepsZero) (c : Candidate)
    (hc : c.hasNegativeEvidence → c.confidence_score = 0) :
    (as.foldl (fun c (a : RuleAction) => a.apply c) c).hasNegativeEvidence →
      (as.foldl (fun c (a : RuleAction) => a.apply c) c).confidence_score = 0 := by
  induction as generalizing c with
  | nil => exact hc
  | cons a as ih =>
    rw [List.foldl_cons]
    exact ih (fun x hx => has x (List.mem_cons_of_mem _ hx)) (a.apply c)
      (action_keeps_veto a (has a (List.mem_cons_self _ _)) c hc)

theorem rule_keeps_veto (rx : RegexSearch) (r : Rule) (hr : ∀ a ∈ r.actions, a.keepsZero)
    (c : Candidate) (hc : c.hasNegativeEvidence → c.confidence_score = 0) :
    (r.apply rx c).candidate.hasNegativeEvidence →
      (r.apply rx c).candidate.confidence_score = 0 := by
  unfold Rule.apply
  split
  · exact hc
  · exact hc
  · exact actions_keep_veto r.actions hr c hc

theorem rules_keep_veto (rx : RegexSearch) (rs : List Rule)
    (hrs : ∀ r ∈ rs, ∀ a ∈ r.actions, a.keepsZero)
    (c : Candidate) (hc : c.hasNegativeEvidence → c.confidence_score = 0) :
    (rulesLoop rx rs c).candidate.hasNegativeEvidence →
      (rulesLoop rx rs c).candidate.confidence_score = 0 := by
  induction rs generalizing c with
  | nil => exact hc
  | cons r rs ih =>
    have hr := rule_keeps_veto rx r (hrs r (List.mem_cons_self _ _)) c hc
    unfold rulesLoop
    cases hout : r.apply rx c with
    | returned c' =>
      rw [hout] at hr
      exact ih (fun x hx => hrs x (List.mem_cons_of_mem _ hx)) c' hr
    | threw c' =>
      rw [hout] at hr
      exact hr

theorem rulepacks_keep_veto (rx : RegexSearch) (ps : List Rulepack)
    (hps : ∀ p ∈ ps, ∀ r ∈ p.rules, ∀ a ∈ r.actions, a.keepsZero)
    (c : Candidate) (hc : c.hasNegativeEvidence → c.confidence_score = 0) :
    (rulepacksLoop rx ps c).candidate.hasNegativeEvidence →
      (rulepacksLoop rx ps c).candidate.confidence_score = 0 := by
  induction ps generalizing c with
  | nil => exact hc
  | cons p ps ih =>
    have hp := rules_keep_veto rx p.rules (hps p (List.mem_cons_self _ _)) c hc
    unfold rulepacksLoop Rulepack.apply
    cases hout : rulesLoop rx p.rules c with
    | returned c' =>
      rw [hout] at hp
      exact ih (fun x hx => hps x (List.mem_cons_of_mem _ hx)) c' hp
    | threw c' =>
      rw [hout] at hp
      exact hp

/-- C3 as stated fails: a rulepack whose first rule excludes a crash handler and whose
second rule sets a floor of `0.9` makes `RuleEngine::apply` return a candidate that holds a
negative evidence and has `confidence_score = 0.9`. -/
theorem veto_counterexample :
    RuleEngine.apply noRegex ⟨[excludeThenFloorPack]⟩ crashpadCandidate
      = Outcome.returned
          { crashpadCandidate with
            evidence :=
              [⟨"rulepack_exclusion", "Excluded by rulepack rule", 99 / 100,
                "rulepack:exclusion", Strength.Definitive, true⟩]
            confidence_score := 9 / 10 } ∧
    (RuleEngine.apply noRegex ⟨[excludeThenFloorPack]⟩ crashpadCandidate).candidate.hasNegativeEvidence ∧
    (RuleEngine.apply noRegex ⟨[excludeThenFloorPack]⟩ crashpadCandidate).candidate.confidence_score
      ≠ 0 := by
  have h : RuleEngine.apply noRegex ⟨[excludeThenFloorPack]⟩ crashpadCandidate
      = Outcome.returned
          { crashpadCandidate with
            evidence :=
              [⟨"rulepack_exclusion", "Excluded by rulepack rule", 99 / 100,
                "rulepack:exclusion", Strength.Definitive, true⟩]
            confidence_score := 9 / 10 } := by
    simp [RuleEngine.apply, rulepacksLoop, Rulepack.apply, rulesLoop, Rule.apply, Rule.matches,
      matchesLoop, RuleMatch.matches, excludeThenFloorPack, crashpadCandidate, RuleAction.apply,
      RuleAction.ofType, Candidate.add_evidence, Candidate.recalculate_confidence,
      recalculatedScore, countLoop, Candidate.default, strFind, findFrom]
  refine ⟨h, ?_, ?_⟩
  · rw [h]
    exact ⟨_, List.mem_singleton.mpr rfl, rfl⟩
  · rw [h]
    norm_num [Outcome.candidate]

/-- C3, amended: after every `Candidate::add_evidence`, a candidate that holds a negative
evidence has `confidence_score = 0`; and `RuleEngine::apply` keeps this property of a
candidate (whether it returns or an exception leaves it) when none of the engine's rule
actions is a `SetMinimumConfidence` with a floor above `0` or a `SetMaximumConfidence` with
a cap below `0`. -/
theorem veto_invariant :
    (∀ (c : Candidate) (e : Evidence),
      (c.add_evidence e).hasNegativeEvidence → (c.add_evidence e).confidence_score = 0) ∧
    (∀ (rx : RegexSearch) (engine : RuleEngine) (c : Candidate),
      (∀ p ∈ engine.rulepacks_, ∀ r ∈ p.rules, ∀ a ∈ r.actions, a.keepsZero) →
      (c.hasNegativeEvidence → c.confidence_score = 0) →
      (engine.apply rx c).candidate.hasNegativeEvidence →
        (engine.apply rx c).candidate.confidence_score = 0) :=
  ⟨add_evidence_veto, fun rx engine c h hc => rulepacks_keep_veto rx engine.rulepacks_ h c hc⟩


/-- The veto at a concrete input: a crash handler excluded by a rulepack keeps score `0`. -/
theorem veto_invariant_witness :
    (∀ p ∈ (RuleEngine.mk [excludePack]).rulepacks_, ∀ r ∈ p.rules, ∀ a ∈ r.actions,
      a.keepsZero) ∧
    (crashpadCandidate.hasNegativeEvidence → crashpadCandidate.confidence_score = 0) ∧
    (RuleEngine.apply noRegex ⟨[excludePack]⟩ crashpadCandidate).candidate.hasNegativeEvidence ∧
    (RuleEngine.apply noRegex ⟨[excludePack]⟩ crashpadCandidate).candidate.confidence_score
      = 0 :=
  have h1 : ∀ p ∈ (RuleEngine.mk [excludePack]).rulepacks_, ∀ r ∈ p.rules, ∀ a ∈ r.actions,
      a.keepsZero := by
    intro p hp r hr a ha
    rw [List.mem_singleton.mp hp] at hr
    simp only [excludePack, List.mem_singleton] at hr
    rw [hr] at ha
    simp only [List.mem_singleton] at ha
    rw [ha]
    simp [RuleAction.keepsZero, RuleAction.ofType]
  have h2 : crashpadCandidate.hasNegativeEvidence → crashpadCandidate.confidence_score = 0 :=
    fun _ => rfl
  have h3 : (RuleEngine.apply noRegex ⟨[excludePack]⟩
      crashpadCandidate).candidate.hasNegativeEvidence := by
    simp [RuleEngine.apply, rulepacksLoop, Rulepack.apply, rulesLoop, Rule.apply, Rule.matches,
      matchesLoop, RuleMatch.matches, excludePack, crashpadCandidate, RuleAction.apply,
      RuleAction.ofType, Candidate.add_evidence, Candidate.recalculate_confidence,
      Candidate.default, strFind, findFrom, Outcome.candidate, Candidate.hasNegativeEvidence]
  ⟨h1, h2, h3, veto_invariant.2 noRegex ⟨[excludePack]⟩ crashpadCandidate h1 h2 h3⟩


theorem foldl_add_evidence (es : List Evidence) (c : Candidate) :
    es.foldl Candidate.add_evidence c =
      { c with
        evidence := c.evidence ++ es
        confidence_score :=
          if es = [] then c.confidence_score else recalculatedScore (c.evidence ++ es) } := by
  induction es generalizing c with
  | nil => simp
  | cons e es ih =>
    rw [List.foldl_cons, ih]
    by_cases hes : es = []
    · simp [Candidate.add_evidence, Candidate.recalculate_confidence, hes]
    · simp [Candidate.add_evidence, Candidate.recalculate_confidence, hes]

theorem mergeEvidence_eq (it duplicate : Candidate) :
    mergeEvidence it duplicate =
      { it with
        evidence := it.evidence ++ duplicate.evidence
        confidence_score :=
          if duplicate.evidence = [] then it.confidence_score
          else recalculatedScore (it.evidence ++ duplicate.evidence) } :=
  foldl_add_evidence duplicate.evidence it

theorem mergeEvidence_identity (it duplicate : Candidate) :
    (mergeEvidence it duplicate).identity = it.identity := by
  rw [mergeEvidence_eq]
  rfl

theorem isDuplicate_congr_left {a a' : Candidate} (h : a.identity = a'.identity)
    (x : Candidate) : isDuplicate a x = isDuplicate a' x := by
  have h1 : a.config_file = a'.config_file := by
    have := congrArg Candidate.config_file h
    exact this
  have h2 : a.config_key = a'.config_key := by
    have := congrArg Candidate.config_key h
    exact this
  have h3 : a.pid = a'.pid := by
    have := congrArg Candidate.pid h
    exact this
  have h4 : a.url = a'.url := by
    have := congrArg Candidate.url h
    exact this
  have h5 : a.command = a'.command := by
    have := congrArg Candidate.command h
    exact this
  unfold isDuplicate
  rw [h1, h2, h3, h4, h5]

theorem isDuplicate_congr_right {b b' : Candidate} (h : b.identity = b'.identity)
    (x : Candidate) : isDuplicate x b = isDuplicate x b' := by
  have h1 : b.config_file = b'.config_file := by
    have := congrArg Candidate.config_file h
    exact this
  have h2 : b.config_key = b'.config_key := by
    have := congrArg Candidate.config_key h
    exact this
  have h3 : b.pid = b'.pid := by
    have := congrArg Candidate.pid h
    exact this
  have h4 : b.url = b'.url := by
    have := congrArg Candidate.url h
    exact this
  have h5 : b.command = b'.command := by
    have := congrArg Candidate.command h
    exact this
  unfold isDuplicate
  rw [h1, h2, h3, h4, h5]

theorem extractDuplicate_none (it : Candidate) (rest : List Candidate) :
    extractDuplicate it rest = none ↔ ∀ x ∈ rest, isDuplicate it x = false := by
  induction rest with
  | nil => simp [extractDuplicate]
  | cons x xs ih =>
    unfold extractDuplicate
    cases hx : isDuplicate it x with
    | true => simp [hx]
    | false =>
      simp only [Bool.false_eq_true, ↓reduceIte, List.mem_cons, forall_eq_or_imp, hx, true_and]
      rw [← ih]
      cases extractDuplicate it xs with
      | none => simp
      | some p => simp

theorem extractDuplicate_some (it : Candidate) (rest : List Candidate) (d : Candidate)
    (r : List Candidate) (h : extractDuplicate it rest = some (d, r)) :
    ∃ pre post, rest = pre ++ d :: post ∧ r = pre ++ post ∧ isDuplicate it d = true ∧
      ∀ x ∈ pre, isDuplicate it x = false := by
  induction rest generalizing r with
  | nil => simp [extractDuplicate] at h
  | cons x xs ih =>
    unfold extractDuplicate at h
    cases hx : isDuplicate it x with
    | true =>
      simp only [hx, ↓reduceIte, Option.some.injEq, Prod.mk.injEq] at h
      obtain ⟨rfl, rfl⟩ := h
      exact ⟨[], xs, rfl, rfl, hx, by simp⟩
    | false =>
      simp only [hx, Bool.false_eq_true, ↓reduceIte] at h
      cases hrec : extractDuplicate it xs with
      | none => simp [hrec] at h
      | some p =>
        obtain ⟨d', r'⟩ := p
        simp only [hrec, Option.some.injEq, Prod.mk.injEq] at h
        obtain ⟨rfl, rfl⟩ := h
        obtain ⟨pre, post, h1, h2, h3, h4⟩ := ih r' hrec
        refine ⟨x :: pre, post, by simp [h1], by simp [h2], h3, ?_⟩
        intro y hy
        rcases List.mem_cons.mp hy with rfl | hy
        · exact hx
        · exact h4 y hy

theorem extractDuplicate_split (it : Candidate) (pre : List Candidate) (d : Candidate)
    (post : List Candidate) (hd : isDuplicate it d = true)
    (hpre : ∀ x ∈ pre, isDuplicate it x = false) :
    extractDuplicate it (pre ++ d :: post) = some (d, pre ++ post) := by
  induction pre with
  | nil => simp [extractDuplicate, hd]
  | cons x xs ih =>
    have hx := hpre x (List.mem_cons_self _ _)
    have := ih (fun y hy => hpre y (List.mem_cons_of_mem _ hy))
    simp [extractDuplicate, hx, this]

theorem dedupLoop_identity_sublist (fuel : Nat) (cs : List Candidate) :
    ((dedupLoop fuel cs).map Candidate.identity).Sublist (cs.map Candidate.identity) := by
  induction fuel generalizing cs with
  | zero => exact List.Sublist.refl _
  | succ fuel ih =>
    cases cs with
    | nil => exact List.Sublist.refl _
    | cons it rest =>
      unfold dedupLoop
      cases hex : extractDuplicate it rest with
      | none =>
        simp only [List.map_cons]
        exact (ih rest).cons₂ _
      | some p =>
        obtain ⟨d, r⟩ := p
        obtain ⟨pre, post, h1, h2, _, _⟩ := extractDuplicate_some it rest d r hex
        simp only
        refine (ih _).trans ?_
        rw [List.map_cons, List.map_cons, mergeEvidence_identity, h1, h2]
        apply List.Sublist.cons₂
        simp only [List.map_append, List.map_cons]
        exact List.Sublist.append (List.Sublist.refl _) (List.sublist_cons_self _ _)

theorem dedupLoop_pairwise (fuel : Nat) (cs : List Candidate) (hfuel : cs.length ≤ fuel) :
    (dedupLoop fuel cs).Pairwise (fun a b => isDuplicate a b = false) := by
  induction fuel generalizing cs with
  | zero =>
    have : cs = [] := List.length_eq_zero.mp (Nat.le_zero.mp hfuel)
    subst this
    exact List.Pairwise.nil
  | succ fuel ih =>
    cases cs with
    | nil => exact List.Pairwise.nil
    | cons it rest =>
      have hlen : rest.length ≤ fuel := by simpa using hfuel
      unfold dedupLoop
      cases hex : extractDuplicate it rest with
      | none =>
        simp only
        rw [List.pairwise_cons]
        refine ⟨?_, ih rest hlen⟩
        intro y hy
        have hmem : y.identity ∈ (dedupLoop fuel rest).map Candidate.identity :=
          List.mem_map_of_mem _ hy
        have hmem' := (dedupLoop_identity_sublist fuel rest).subset hmem
        obtain ⟨x, hx, hxy⟩ := List.mem_map.mp hmem'
        rw [← isDuplicate_congr_right hxy]
        exact (extractDuplicate_none it rest).mp hex x hx
      | some p =>
        obtain ⟨d, r⟩ := p
        obtain ⟨pre, post, h1, h2, _, _⟩ := extractDuplicate_some it rest d r hex
        simp only
        apply ih
        rw [h1] at hlen
        rw [h2]
        simp only [List.length_cons, List.length_append] at hlen ⊢
        omega

theorem dedupLoop_fixed (fuel : Nat) (cs : List Candidate)
    (h : cs.Pairwise (fun a b => isDuplicate a b = false)) : dedupLoop fuel cs = cs := by
  induction fuel generalizing cs with
  | zero => rfl
  | succ fuel ih =>
    cases cs with
    | nil => rfl
    | cons it rest =>
      rw [List.pairwise_cons] at h
      unfold dedupLoop
      rw [(extractDuplicate_none it rest).mpr h.1]
      simp only
      rw [ih rest h.2]

/-- C6: merger idempotence. For every list of candidates, running
`deduplicate_candidates` on its own output changes nothing: the same candidates with the same
evidence and the same scores, in the same order. -/
theorem deduplicate_candidates_idempotent (xs : List Candidate) :
    deduplicate_candidates (deduplicate_candidates xs) = deduplicate_candidates xs := by
  have hpair : (deduplicate_candidates xs).Pairwise (fun a b => isDuplicate a b = false) :=
    dedupLoop_pairwise xs.length xs (Nat.le_refl _)
  show dedupLoop (deduplicate_candidates xs).length (deduplicate_candidates xs) = _
  exact dedupLoop_fixed _ _ hpair


theorem dedupLoop_evidence_perm (fuel : Nat) (cs : List Candidate) :
    ((dedupLoop fuel cs).flatMap Candidate.evidence).Perm (cs.flatMap Candidate.evidence) := by
  induction fuel generalizing cs with
  | zero => exact List.Perm.refl _
  | succ fuel ih =>
    cases cs with
    | nil => exact List.Perm.refl _
    | cons it rest =>
      unfold dedupLoop
      cases hex : extractDuplicate it rest with
      | none =>
        simp only [List.flatMap_cons]
        exact List.Perm.append_left _ (ih rest)
      | some p =>
        obtain ⟨d, r⟩ := p
        obtain ⟨pre, post, h1, h2, _, _⟩ := extractDuplicate_some it rest d r hex
        simp only
        refine (ih _).trans ?_
        rw [h1, h2, mergeEvidence_eq]
        simp only [List.flatMap_cons, List.flatMap_append, List.append_assoc]
        apply List.Perm.append_left
        exact List.perm_append_comm_assoc _ _ _

/-- C7: merge action. When the loop of `deduplicate_candidates` stands at a candidate `A`
and `B` is the first later candidate that duplicates it, the iteration keeps `A` in place
with every field other than `evidence` and `confidence_score` unchanged, gives it the
evidence `A.evidence` followed by `B.evidence` (the score being recalculated from that list
when `B` has evidence), and removes `B`. Consequently the candidates of the output are,
up to evidence and score, a subsequence of the input, and the evidence of the whole list is
preserved as a multiset. -/
theorem merge_action :
    (∀ (fuel : Nat) (A B : Candidate) (pre post : List Candidate),
      isDuplicate A B = true → (∀ x ∈ pre, isDuplicate A x = false) →
      dedupLoop (fuel + 1) (A :: (pre ++ B :: post)) =
        dedupLoop fuel
          ({ A with
              evidence := A.evidence ++ B.evidence
              confidence_score :=
                if B.evidence = [] then A.confidence_score
                else recalculatedScore (A.evidence ++ B.evidence) } :: (pre ++ post))) ∧
    (∀ xs : List Candidate,
      ((deduplicate_candidates xs).map Candidate.identity).Sublist
        (xs.map Candidate.identity)) ∧
    (∀ xs : List Candidate,
      ((deduplicate_candidates xs).flatMap Candidate.evidence).Perm
        (xs.flatMap Candidate.evidence)) := by
  refine ⟨?_, ?_, ?_⟩
  · intro fuel A B pre post hAB hpre
    have hex := extractDuplicate_split A pre B post hAB hpre
    rw [← mergeEvidence_eq]
    show (match extractDuplicate A (pre ++ B :: post) with
      | some (duplicate, rest') => dedupLoop fuel (mergeEvidence A duplicate :: rest')
      | none => A :: dedupLoop fuel (pre ++ B :: post)) = _
    rw [hex]
  · intro xs
    exact dedupLoop_identity_sublist xs.length xs
  · intro xs
    exact dedupLoop_evidence_perm xs.length xs


/-- The merge action at a concrete input: two candidates of process `100` around a
candidate of process `7`. -/
theorem merge_action_witness :
    isDuplicate (processCandidate 100 "node a.js" (sampleEvidence (7 / 10) Strength.Weak))
      (processCandidate 100 "node a.js --stdio" (sampleEvidence (6 / 10) Strength.Moderate))
      = true ∧
    (∀ x ∈ [processCandidate 7 "python3 b.py" (sampleEvidence (1 / 2) Strength.Moderate)],
      isDuplicate (processCandidate 100 "node a.js" (sampleEvidence (7 / 10) Strength.Weak)) x
        = false) ∧
    dedupLoop (2 + 1)
        (processCandidate 100 "node a.js" (sampleEvidence (7 / 10) Strength.Weak) ::
          ([processCandidate 7 "python3 b.py" (sampleEvidence (1 / 2) Strength.Moderate)] ++
            processCandidate 100 "node a.js --stdio" (sampleEvidence (6 / 10) Strength.Moderate)
              :: []))
      = dedupLoop 2
          ({ processCandidate 100 "node a.js" (sampleEvidence (7 / 10) Strength.Weak) with
              evidence :=
                (processCandidate 100 "node a.js"
                    (sampleEvidence (7 / 10) Strength.Weak)).evidence ++
                  (processCandidate 100 "node a.js --stdio"
                    (sampleEvidence (6 / 10) Strength.Moderate)).evidence
              confidence_score :=
                if (processCandidate 100 "node a.js --stdio"
                    (sampleEvidence (6 / 10) Strength.Moderate)).evidence = [] then
                  (processCandidate 100 "node a.js"
                    (sampleEvidence (7 / 10) Strength.Weak)).confidence_score
                else
                  recalculatedScore
                    ((processCandidate 100 "node a.js"
                        (sampleEvidence (7 / 10) Strength.Weak)).evidence ++
                      (processCandidate 100 "node a.js --stdio"
                        (sampleEvidence (6 / 10) Strength.Moderate)).evidence) } ::
            ([processCandidate 7 "python3 b.py" (sampleEvidence (1 / 2) Strength.Moderate)]
              ++ [])) :=
  have h1 : isDuplicate (processCandidate 100 "node a.js" (sampleEvidence (7 / 10) Strength.Weak))
      (processCandidate 100 "node a.js --stdio" (sampleEvidence (6 / 10) Strength.Moderate))
      = true := by
    simp [isDuplicate, processCandidate, Candidate.default]
  have h2 : ∀ x ∈ [processCandidate 7 "python3 b.py" (sampleEvidence (1 / 2) Strength.Moderate)],
      isDuplicate (processCandidate 100 "node a.js" (sampleEvidence (7 / 10) Strength.Weak)) x
        = false := by
    intro x hx
    rw [List.mem_singleton.mp hx]
    simp [isDuplicate, processCandidate, Candidate.default]
  ⟨h1, h2, merge_action.1 2 _ _ _ [] h1 h2⟩

/-- The duplicate test of the code in closed form: the configuration clause asks for
non-empty `config_file` on both sides and compares `config_key` without asking that it is
non-empty. -/
theorem isDuplicate_iff (A B : Candidate) :
    isDuplicate A B = true ↔
      (A.config_file ≠ "" ∧ B.config_file ≠ "" ∧ A.config_file = B.config_file ∧
        A.config_key = B.config_key) ∨
      (A.pid > 0 ∧ B.pid > 0 ∧ A.pid = B.pid) ∨
      (A.url ≠ "" ∧ B.url ≠ "" ∧ A.url = B.url) ∨
      (A.command ≠ "" ∧ B.command ≠ "" ∧ A.command = B.command) := by
  unfold isDuplicate
  constructor
  · intro h
    split at h
    · exact Or.inl ‹_›
    · split at h
      · exact Or.inr (Or.inl ‹_›)
      · split at h
        · exact Or.inr (Or.inr (Or.inl ‹_›))
        · split at h
          · exact Or.inr (Or.inr (Or.inr ‹_›))
          · exact absurd h Bool.false_ne_true
  · intro h
    split
    · rfl
    · split
      · rfl
      · split
        · rfl
        · split
          · rfl
          · rcases h with h | h | h | h <;> contradiction

/-- C8, the code at the failing input: two entries of one configuration file that both
have an empty `config_key` and declare different commands satisfy the duplicate test of the
code, and `deduplicate_candidates` merges them into the first one (whose score becomes
`0.99` from the two `config_declared` evidences); the second server is lost. -/
theorem unnamed_config_entries_merged :
    unnamedEntryA.config_key = "" ∧ unnamedEntryB.config_key = "" ∧
    unnamedEntryA.config_file = unnamedEntryB.config_file ∧
    unnamedEntryA.command ≠ unnamedEntryB.command ∧
    isDuplicate unnamedEntryA unnamedEntryB = true ∧
    deduplicate_candidates [unnamedEntryA, unnamedEntryB] =
      [{ unnamedEntryA with
          evidence := unnamedEntryA.evidence ++ unnamedEntryB.evidence
          confidence_score := 99 / 100 }] := by
  refine ⟨rfl, rfl, rfl, by decide, ?_, ?_⟩
  · simp [isDuplicate, unnamedEntryA, unnamedEntryB, Candidate.default]
  · have hdup : isDuplicate unnamedEntryA unnamedEntryB = true := by
      simp [isDuplicate, unnamedEntryA, unnamedEntryB, Candidate.default]
    have hscore : recalculatedScore (unnamedEntryA.evidence ++ unnamedEntryB.evidence)
        = 99 / 100 := by
      norm_num [unnamedEntryA, unnamedEntryB, Candidate.default, Evidence.make4,
        recalculatedScore, countLoop, StrengthCounts.bump, product_of_negatives]
    have hne : unnamedEntryB.evidence ≠ [] := by
      simp [unnamedEntryB, unnamedEntryA]
    show dedupLoop 2 [unnamedEntryA, unnamedEntryB] = _
    simp only [dedupLoop, extractDuplicate, hdup, ↓reduceIte, mergeEvidence_eq, hne, hscore]


/-! ## Direct detection -/

theorem findFrom_ge (needle hay : List Char) (pos k : Nat)
    (h : findFrom needle hay pos = some k) : pos ≤ k := by
  induction hay generalizing pos with
  | nil =>
    unfold findFrom at h
    split at h
    · simp only [Option.some.injEq] at h
      omega
    · simp at h
  | cons c cs ih =>
    unfold findFrom at h
    split at h
    · simp only [Option.some.injEq] at h
      omega
    · have := ih (pos + 1) h
      omega

theorem findFrom_zero_iff (needle hay : List Char) :
    findFrom needle hay 0 = some 0 ↔ needle <+: hay := by
  rw [← List.isPrefixOf_iff_prefix]
  cases hay with
  | nil =>
    unfold findFrom
    split <;> simp_all
  | cons c cs =>
    unfold findFrom
    split
    · simp_all
    · rename_i hn
      constructor
      · intro h
        have := findFrom_ge needle cs 1 0 h
        omega
      · intro h
        exact absurd h hn

theorem strFind_zero_iff (s needle : String) :
    strFind s needle = some 0 ↔ ∃ rest : String, s = needle ++ rest := by
  unfold strFind
  rw [findFrom_zero_iff]
  constructor
  · rintro ⟨t, ht⟩
    refine ⟨String.mk t, ?_⟩
    apply String.ext
    rw [String.data_append]
    exact ht.symm
  · rintro ⟨rest, hrest⟩
    refine ⟨rest.data, ?_⟩
    rw [hrest, String.toList, String.toList, String.data_append]

theorem directDetectionLoop_iff (es : List Evidence) :
    directDetectionLoop es = true ↔
      ∃ e ∈ es, e.type = "claude_extension_installed" ∨ e.type = "config_declared" ∨
        ∃ rest : String, e.source = "rulepack:" ++ rest := by
  induction es with
  | nil => simp [directDetectionLoop]
  | cons e es ih =>
    unfold directDetectionLoop
    simp only [List.mem_cons, exists_eq_or_imp, ← strFind_zero_iff]
    by_cases h1 : e.type = "claude_extension_installed"
    · simp [h1]
    · by_cases h2 : e.type = "config_declared"
      · simp [h2]
      · by_cases h3 : strFind e.source "rulepack:" = some 0
        · simp [h3]
        · simp only [h1, h2, h3, ↓reduceIte, false_or]
          rw [ih]
          simp only [← strFind_zero_iff]

/-- C9: `Candidate::is_direct_detection` returns `true` exactly when some evidence has
type `claude_extension_installed`, or type `config_declared`, or a source that starts with
`rulepack:`. It returns `false` for an empty evidence list, and for evidence whose source is
exactly `rulepack` (and whose type is neither of the two direct types). -/
theorem is_direct_detection_iff :
    (∀ c : Candidate, c.is_direct_detection = true ↔
      ∃ e ∈ c.evidence, e.type = "claude_extension_installed" ∨ e.type = "config_declared" ∨
        ∃ rest : String, e.source = "rulepack:" ++ rest) ∧
    (∀ c : Candidate, c.evidence = [] → c.is_direct_detection = false) ∧
    (∀ c : Candidate,
      (∀ e ∈ c.evidence, e.source = "rulepack" ∧ e.type ≠ "claude_extension_installed" ∧
        e.type ≠ "config_declared") →
      c.is_direct_detection = false) := by
  refine ⟨fun c => directDetectionLoop_iff c.evidence, ?_, ?_⟩
  · intro c hc
    unfold Candidate.is_direct_detection
    rw [hc]
    rfl
  · intro c hc
    rw [← Bool.not_eq_true]
    intro hd
    obtain ⟨e, he, h⟩ := (directDetectionLoop_iff c.evidence).mp hd
    obtain ⟨hsrc, ht1, ht2⟩ := hc e he
    rcases h with h | h | ⟨rest, h⟩
    · exact ht1 h
    · exact ht2 h
    · rw [hsrc] at h
      have hlen := congrArg String.length h
      rw [String.length_append] at hlen
      have h8 : "rulepack".length = 8 := by decide
      have h9 : "rulepack:".length = 9 := by decide
      omega

/-- A tag evidence, whose source is exactly `rulepack`, is no direct detection. -/
theorem is_direct_detection_iff_witness :
    (∀ e ∈ (sampleCandidate [Evidence.make4 "tag" "Tagged as: ide" 0 "rulepack"]).evidence,
      e.source = "rulepack" ∧ e.type ≠ "claude_extension_installed" ∧
        e.type ≠ "config_declared") ∧
    (sampleCandidate [Evidence.make4 "tag" "Tagged as: ide" 0 "rulepack"]).is_direct_detection
      = false :=
  have h : ∀ e ∈ (sampleCandidate [Evidence.make4 "tag" "Tagged as: ide" 0 "rulepack"]).evidence,
      e.source = "rulepack" ∧ e.type ≠ "claude_extension_installed" ∧
        e.type ≠ "config_declared" := by
    intro e he
    have : e = Evidence.make4 "tag" "Tagged as: ide" 0 "rulepack" := by
      simpa [sampleCandidate] using he
    rw [this]
    exact ⟨rfl, by decide, by decide⟩
  ⟨h, is_direct_detection_iff.2.2 _ h⟩


/-! ## SSE endpoint extraction -/

theorem getlinesAux_cons_nl (cur cs : List Char) :
    getlinesAux cur ('\n' :: cs) = cur.reverse :: getlinesAux [] cs := by
  simp [getlinesAux]

theorem getlinesAux_cons_ne (cur : List Char) (c : Char) (cs : List Char) (h : c ≠ '\n') :
    getlinesAux cur (c :: cs) = getlinesAux (c :: cur) cs := by
  simp [getlinesAux, h]

theorem getlinesAux_line (s t cur : List Char) (hs : '\n' ∉ s) :
    getlinesAux cur (s ++ '\n' :: t) = (cur.reverse ++ s) :: getlinesAux [] t := by
  induction s generalizing cur with
  | nil => simp [getlinesAux_cons_nl]
  | cons c s ih =>
    have hc : c ≠ '\n' := fun h => hs (by simp [h])
    have hs' : '\n' ∉ s := fun h => hs (List.mem_cons_of_mem _ h)
    rw [List.cons_append, getlinesAux_cons_ne _ _ _ hc, ih (c :: cur) hs']
    simp

theorem getlinesAux_append (a t cur : List Char) :
    getlinesAux cur (a ++ '\n' :: t) = getlinesAux cur (a ++ ['\n']) ++ getlinesAux [] t := by
  induction a generalizing cur with
  | nil => simp [getlinesAux_cons_nl, getlinesAux]
  | cons c a ih =>
    rw [List.cons_append, List.cons_append]
    by_cases hc : c = '\n'
    · subst hc
      rw [getlinesAux_cons_nl, getlinesAux_cons_nl, ih]
      simp
    · rw [getlinesAux_cons_ne _ _ _ hc, getlinesAux_cons_ne _ _ _ hc, ih]

theorem getlines_append (pre t : List Char) (hpre : pre = [] ∨ pre.getLast? = some '\n') :
    getlines (pre ++ t) = getlines pre ++ getlines t := by
  rcases hpre with h | h
  · subst h
    simp [getlines, getlinesAux]
  · obtain ⟨a, ha⟩ := List.getLast?_eq_some_iff.mp h
    subst ha
    unfold getlines
    rw [List.append_assoc, List.singleton_append, getlinesAux_append]


theorem sseLoop_cons (raw : List Char) (rest : List (List Char)) (found : Bool) :
    sseLoop (raw :: rest) found =
      if (trimLine raw).isEmpty then sseLoop rest found
      else if
          (if findFrom "event:".toList (trimLine raw) 0 = some 0 then
              if eraseLeadingBlanks ((trimLine raw).drop 6) = "endpoint".toList then true
              else found
            else found) = true ∧
            findFrom "data:".toList (trimLine raw) 0 = some 0 then
        eraseLeadingBlanks ((trimLine raw).drop 5)
      else
        sseLoop rest
          (if findFrom "event:".toList (trimLine raw) 0 = some 0 then
            if eraseLeadingBlanks ((trimLine raw).drop 6) = "endpoint".toList then true
            else found
          else found) := rfl

theorem sseLoop_skip (ls rest : List (List Char))
    (h : ∀ l ∈ ls, isEndpointEventLine l = false) :
    sseLoop (ls ++ rest) false = sseLoop rest false := by
  induction ls with
  | nil => rfl
  | cons raw ls ih =>
    have hraw := h raw (List.mem_cons_self _ _)
    have ih' := ih (fun l hl => h l (List.mem_cons_of_mem _ hl))
    simp only [isEndpointEventLine, decide_eq_false_iff_not, not_and] at hraw
    rw [List.cons_append, sseLoop_cons]
    by_cases hempty : (trimLine raw).isEmpty = true
    · rw [if_pos hempty]
      exact ih'
    · rw [if_neg hempty]
      by_cases hev : findFrom "event:".toList (trimLine raw) 0 = some 0
      · have hval := hraw hev
        simp only [hev, hval, ↓reduceIte, Bool.false_eq_true, false_and]
        exact ih'
      · simp only [hev, ↓reduceIte, Bool.false_eq_true, false_and]
        exact ih'

theorem trimLine_keep (a z : Char) (m cr : List Char) (ha : isTrimChar a = false)
    (hz : isTrimChar z = false) (hcr : ∀ c ∈ cr, isTrimChar c = true) :
    trimLine (a :: (m ++ [z]) ++ cr) = a :: (m ++ [z]) := by
  unfold trimLine
  have hdrop : List.dropWhile isTrimChar (a :: (m ++ [z]) ++ cr) = a :: (m ++ [z]) ++ cr := by
    rw [List.cons_append]
    exact List.dropWhile_cons_of_neg (by simp [ha])
  rw [hdrop]
  have hrev : (a :: (m ++ [z]) ++ cr).reverse = cr.reverse ++ (z :: (m.reverse ++ [a])) := by
    simp
  rw [hrev, List.dropWhile_append_of_pos (fun c hc => hcr c (List.mem_reverse.mp hc)),
    List.dropWhile_cons_of_neg (by simp [hz])]
  simp

/-- The two lines of the endpoint frame, read with `found_endpoint_event = false`, end the
loop with the endpoint path. -/
theorem sseLoop_frame (p cr1 cr2 : List Char) (rest : List (List Char)) (hne : p ≠ [])
    (hfirst : ∀ c, p.head? = some c → isTrimChar c = false)
    (hlast : ∀ c, p.getLast? = some c → isTrimChar c = false)
    (hcr1 : ∀ c ∈ cr1, isTrimChar c = true) (hcr2 : ∀ c ∈ cr2, isTrimChar c = true) :
    sseLoop (("event: endpoint".toList ++ cr1) :: ("data: ".toList ++ p ++ cr2) :: rest) false
      = p := by
  have hE : "event: endpoint".toList
      = 'e' :: (['v', 'e', 'n', 't', ':', ' ', 'e', 'n', 'd', 'p', 'o', 'i', 'n'] ++ ['t']) :=
    rfl
  have hline1 : trimLine ("event: endpoint".toList ++ cr1) = "event: endpoint".toList := by
    rw [hE]
    exact trimLine_keep 'e' 't' _ cr1 (by decide) (by decide) hcr1
  obtain ⟨q, z, hq⟩ : ∃ q z, p = q ++ [z] := by
    rcases List.eq_nil_or_concat p with h | ⟨q, z, h⟩
    · exact absurd h hne
    · exact ⟨q, z, by rw [h, List.concat_eq_append]⟩
  have hz : isTrimChar z = false := hlast z (by simp [hq])
  have hD : "data: ".toList ++ p = 'd' :: (['a', 't', 'a', ':', ' '] ++ q ++ [z]) := by
    rw [hq]
    rfl
  have hline2 : trimLine ("data: ".toList ++ p ++ cr2) = "data: ".toList ++ p := by
    rw [hD]
    exact trimLine_keep 'd' z _ cr2 (by decide) hz hcr2
  have hblank : eraseLeadingBlanks ((("data: ".toList ++ p)).drop 5) = p := by
    have h5 : ("data: ".toList ++ p).drop 5 = ' ' :: p := rfl
    rw [h5]
    unfold eraseLeadingBlanks
    rw [List.dropWhile_cons_of_pos (by decide)]
    cases p with
    | nil => exact absurd rfl hne
    | cons c cs =>
      have hc : isTrimChar c = false := hfirst c rfl
      apply List.dropWhile_cons_of_neg
      intro hb
      have : isTrimChar c = true := by
        unfold isBlankChar at hb
        unfold isTrimChar
        simp only [Bool.or_eq_true, decide_eq_true_eq] at hb ⊢
        rcases hb with hb | hb
        · exact Or.inl (Or.inl (Or.inl hb))
        · exact Or.inl (Or.inl (Or.inr hb))
      rw [hc] at this
      exact Bool.false_ne_true this
  have hdata : findFrom "data:".toList ("data: ".toList ++ p) 0 = some 0 :=
    (findFrom_zero_iff _ _).mpr ⟨' ' :: p, rfl⟩
  have hne2 : ("data: ".toList ++ p).isEmpty = false := rfl
  have hnoevent : findFrom "event:".toList ("data: ".toList ++ p) 0 ≠ some 0 := by
    intro h
    have hpre := (findFrom_zero_iff _ _).mp h
    have : ("event:".toList).head? = some 'd' := by
      obtain ⟨t, ht⟩ := hpre
      have h' : ("event:".toList ++ t).head? = ("data: ".toList ++ p).head? := by rw [ht]
      exact h'
    exact absurd this (by decide)
  rw [sseLoop_cons, hline1]
  have h1 : ("event: endpoint".toList).isEmpty = false := rfl
  have h2 : findFrom "event:".toList "event: endpoint".toList 0 = some 0 := by decide
  have h3 : eraseLeadingBlanks ("event: endpoint".toList.drop 6) = "endpoint".toList := by
    decide
  have h4 : findFrom "data:".toList "event: endpoint".toList 0 ≠ some 0 := by decide
  simp only [h1, h2, h3, h4, ↓reduceIte, Bool.false_eq_true, and_false]
  rw [sseLoop_cons, hline2]
  simp only [hne2, hnoevent, hdata, hblank, ↓reduceIte, Bool.false_eq_true, and_self]


theorem eol_data (eol : String) (h : eol = "\n" ∨ eol = "\r\n") :
    ∃ cr : List Char, eol.data = cr ++ ['\n'] ∧ (∀ c ∈ cr, isTrimChar c = true) ∧
      '\n' ∉ cr := by
  rcases h with h | h
  · subst h
    exact ⟨[], rfl, by simp, by simp⟩
  · subst h
    refine ⟨['\r'], rfl, ?_, by decide⟩
    intro c hc
    rw [List.mem_singleton.mp hc]
    decide

/-- C10: SSE endpoint extraction. Let `p` be a non-empty endpoint path without a line feed
whose first and last characters are none of space, tab, `\r`, `\n`. For every body made of
complete lines none of which is an `event:` line with value `endpoint`, then the line
`event: endpoint`, then the line `data: p`, then any text, with each of the two lines
terminated by `\n` or `\r\n`, `HttpTestingEngine::parse_sse_endpoint` returns exactly `p`. -/
theorem parse_sse_endpoint_extracts (pre p post eol1 eol2 : String)
    (hp : p ≠ "") (hnl : '\n' ∉ p.toList)
    (hfirst : ∀ c, p.toList.head? = some c → isTrimChar c = false)
    (hlast : ∀ c, p.toList.getLast? = some c → isTrimChar c = false)
    (hpre_end : pre = "" ∨ pre.toList.getLast? = some '\n')
    (hpre : ∀ l ∈ getlines pre.toList, isEndpointEventLine l = false)
    (heol1 : eol1 = "\n" ∨ eol1 = "\r\n") (heol2 : eol2 = "\n" ∨ eol2 = "\r\n") :
    parse_sse_endpoint (pre ++ "event: endpoint" ++ eol1 ++ "data: " ++ p ++ eol2 ++ post)
      = p := by
  obtain ⟨cr1, hd1, hcr1, hnl1⟩ := eol_data eol1 heol1
  obtain ⟨cr2, hd2, hcr2, hnl2⟩ := eol_data eol2 heol2
  have hpne : p.toList ≠ [] := by
    intro h
    apply hp
    apply String.ext
    exact h
  have hpre_end' : pre.toList = [] ∨ pre.toList.getLast? = some '\n' := by
    rcases hpre_end with h | h
    · left
      rw [h]
      rfl
    · exact Or.inr h
  have hbody : (pre ++ "event: endpoint" ++ eol1 ++ "data: " ++ p ++ eol2 ++ post).toList
      = pre.toList ++ (("event: endpoint".toList ++ cr1) ++ '\n' ::
          (("data: ".toList ++ p.toList ++ cr2) ++ '\n' :: post.toList)) := by
    simp only [String.toList, String.data_append, hd1, hd2, List.append_assoc,
      List.singleton_append, List.cons_append, List.nil_append]
  have hnlE : '\n' ∉ "event: endpoint".toList ++ cr1 := by
    intro h
    rcases List.mem_append.mp h with h | h
    · exact absurd h (by decide)
    · exact hnl1 h
  have hnlD : '\n' ∉ "data: ".toList ++ p.toList ++ cr2 := by
    intro h
    rcases List.mem_append.mp h with h | h
    · rcases List.mem_append.mp h with h | h
      · exact absurd h (by decide)
      · exact hnl h
    · exact hnl2 h
  have hlines : getlines (("event: endpoint".toList ++ cr1) ++ '\n' ::
        (("data: ".toList ++ p.toList ++ cr2) ++ '\n' :: post.toList))
      = ("event: endpoint".toList ++ cr1) :: ("data: ".toList ++ p.toList ++ cr2) ::
          getlines post.toList := by
    unfold getlines
    rw [getlinesAux_line _ _ _ hnlE, getlinesAux_line _ _ _ hnlD]
    rfl
  unfold parse_sse_endpoint
  apply String.ext
  show sseLoop (getlines _) false = p.toList
  rw [hbody, getlines_append _ _ hpre_end', hlines, sseLoop_skip _ _ hpre]
  exact sseLoop_frame p.toList cr1 cr2 _ hpne hfirst hlast hcr1 hcr2

/-- Endpoint extraction at a concrete body with `\r\n` line ends and other events around
the endpoint frame. -/
theorem parse_sse_endpoint_extracts_witness :
    parse_sse_endpoint
        ("event: message\r\ndata: hi\r\n\r\n" ++ "event: endpoint" ++ "\r\n" ++ "data: " ++
          "/messages/?session_id=abc" ++ "\n" ++ "\nevent: message\ndata: later\n\n")
      = "/messages/?session_id=abc" :=
  parse_sse_endpoint_extracts "event: message\r\ndata: hi\r\n\r\n" "/messages/?session_id=abc"
    "\nevent: message\ndata: later\n\n" "\r\n" "\n"
    (by decide) (by decide) (by decide) (by decide) (Or.inr (by decide)) (by decide)
    (Or.inr rfl) (Or.inl rfl)

/-! ## Rules: conjunction of matches, exclusion, tags, application order -/

theorem matchesLoop_true_iff (rx : RegexSearch) (c : Candidate) (ms : List RuleMatch) :
    matchesLoop rx c ms = some true ↔ ∀ m ∈ ms, m.matches rx c = some true := by
  induction ms with
  | nil => simp [matchesLoop]
  | cons m ms ih =>
    unfold matchesLoop
    cases hm : m.matches rx c with
    | none => simp [hm]
    | some b =>
      cases b with
      | false => simp [hm]
      | true => simp [hm, ih]

/-- C12: `Rule::matches` returns `true` exactly when every condition of `match_conditions`
matches the candidate, so a rule without conditions matches every candidate; and when
`Rule::matches` is `false`, `Rule::apply` returns with the candidate unchanged. -/
theorem rule_matches_conjunction (rx : RegexSearch) :
    (∀ (r : Rule) (c : Candidate),
      r.matches rx c = some true ↔ ∀ m ∈ r.match_conditions, m.matches rx c = some true) ∧
    (∀ (r : Rule) (c : Candidate), r.match_conditions = [] → r.matches rx c = some true) ∧
    (∀ (r : Rule) (c : Candidate),
      r.matches rx c = some false → r.apply rx c = Outcome.returned c) := by
  refine ⟨?_, ?_, ?_⟩
  · intro r c
    exact matchesLoop_true_iff rx c r.match_conditions
  · intro r c h
    unfold Rule.matches
    rw [h]
    rfl
  · intro r c h
    unfold Rule.apply
    rw [h]

/-- A rule with the two conditions of the unit test: the process name matches, the command
does not, so the candidate is returned unchanged. -/
theorem rule_matches_conjunction_witness :
    Rule.matches noRegex
        ⟨"two conditions", "",
          [⟨RuleMatchType.ProcessName, "crashpad"⟩, ⟨RuleMatchType.CommandContains, "mcp"⟩],
          [RuleAction.ofType RuleActionType.Exclude]⟩ crashpadCandidate = some false ∧
    Rule.apply noRegex
        ⟨"two conditions", "",
          [⟨RuleMatchType.ProcessName, "crashpad"⟩, ⟨RuleMatchType.CommandContains, "mcp"⟩],
          [RuleAction.ofType RuleActionType.Exclude]⟩ crashpadCandidate
      = Outcome.returned crashpadCandidate :=
  have h : Rule.matches noRegex
      ⟨"two conditions", "",
        [⟨RuleMatchType.ProcessName, "crashpad"⟩, ⟨RuleMatchType.CommandContains, "mcp"⟩],
        [RuleAction.ofType RuleActionType.Exclude]⟩ crashpadCandidate = some false := by
    decide
  ⟨h, (rule_matches_conjunction noRegex).2.2 _ _ h⟩

/-- C14: for every candidate, a `RuleAction` of type `Exclude` leaves `confidence_score`
at exactly `0` and appends exactly one evidence after the evidence already present, which is
unchanged; the appended evidence has `is_negative = true`, strength `Definitive` and source
`rulepack:exclusion`. -/
theorem exclude_action (a : RuleAction) (c : Candidate) (ha : a.type = RuleActionType.Exclude) :
    (a.apply c).confidence_score = 0 ∧
    ∃ e : Evidence, (a.apply c).evidence = c.evidence ++ [e] ∧ e.is_negative = true ∧
      e.strength = Strength.Definitive ∧ e.source = "rulepack:exclusion" := by
  have happ : a.apply c = Candidate.add_evidence { c with confidence_score := 0 }
      ⟨"rulepack_exclusion", "Excluded by rulepack rule", 99 / 100, "rulepack:exclusion",
        Strength.Definitive, true⟩ := by
    unfold RuleAction.apply
    rw [ha]
  rw [happ]
  constructor
  · apply add_evidence_veto
    exact ⟨_, List.mem_append_right _ (List.mem_singleton.mpr rfl), rfl⟩
  · exact ⟨_, rfl, rfl, rfl, rfl⟩

/-- The exclusion of a crash handler that already holds one evidence. -/
theorem exclude_action_witness :
    ((RuleAction.ofType RuleActionType.Exclude).apply
        (sampleCandidate [sampleEvidence (7 / 10) Strength.Moderate])).confidence_score = 0 ∧
    ∃ e : Evidence,
      ((RuleAction.ofType RuleActionType.Exclude).apply
          (sampleCandidate [sampleEvidence (7 / 10) Strength.Moderate])).evidence
        = (sampleCandidate [sampleEvidence (7 / 10) Strength.Moderate]).evidence ++ [e] ∧
      e.is_negative = true ∧ e.strength = Strength.Definitive ∧
      e.source = "rulepack:exclusion" :=
  exclude_action (RuleAction.ofType RuleActionType.Exclude)
    (sampleCandidate [sampleEvidence (7 / 10) Strength.Moderate]) rfl

theorem noisyOrReference_append_tag (es : List Evidence) (tag : String)
    (h : ¬ (es ≠ [] ∧ ∀ e ∈ es, e.strength = Strength.Weak ∧ e.is_negative = false)) :
    noisyOrReference (es ++ [tagEvidence tag]) = noisyOrReference es := by
  by_cases hneg : ∃ e ∈ es, e.is_negative = true
  · rw [noisyOrReference_of_negative es hneg]
    obtain ⟨e, he, hn⟩ := hneg
    exact noisyOrReference_of_negative _ ⟨e, List.mem_append_left _ he, hn⟩
  · have hneg' : ∀ x ∈ es, x.is_negative = false := by
      intro x hx
      cases hxn : x.is_negative with
      | false => rfl
      | true => exact absurd ⟨x, hx, hxn⟩ hneg
    have hnegTag : ∀ x ∈ es ++ [tagEvidence tag], x.is_negative = false := by
      intro x hx
      rcases List.mem_append.mp hx with h1 | h1
      · exact hneg' x h1
      · rw [List.mem_singleton.mp h1]
        rfl
    have hstrongTag : ∃ x ∈ es ++ [tagEvidence tag], x.strength ≠ Strength.Weak :=
      ⟨tagEvidence tag, List.mem_append_right _ (List.mem_singleton.mpr rfl),
        by simp [tagEvidence, Evidence.make4]⟩
    rw [noisyOrReference_strong _ hnegTag hstrongTag]
    by_cases hnil : es = []
    · subst hnil
      norm_num [noisyOrReference, tagEvidence, Evidence.make4]
    · have hstrong : ∃ x ∈ es, x.strength ≠ Strength.Weak := by
        by_contra hno
        apply h
        refine ⟨hnil, fun e he => ⟨?_, hneg' e he⟩⟩
        by_contra hw
        exact hno ⟨e, he, hw⟩
      rw [noisyOrReference_strong _ hneg' hstrong]
      simp [tagEvidence, Evidence.make4]

/-- C15, the code at the failing input: the `AddTag` branch builds its evidence with
confidence `0.0` under the comment that tags do not affect confidence, and then calls
`add_evidence`, which recalculates the score. On a candidate with two `Weak` evidences at
`0.7`, whose score is the weak cap `0.49`, `AddTag` raises the score to `0.91`: the tag
evidence has the default strength `Moderate`, so the candidate is no longer `Weak`-only. On
a candidate whose score `SetMinimumConfidence` has raised to `0.9` over one evidence at
`0.5`, `AddTag` puts the score back to the recalculated `0.5`. -/
theorem add_tag_changes_score :
    (weakPairCandidate.confidence_score = 49 / 100 ∧
      (tagIdeAction.apply weakPairCandidate).confidence_score = 91 / 100) ∧
    (flooredCandidate.confidence_score = 9 / 10 ∧
      (tagIdeAction.apply flooredCandidate).confidence_score = 1 / 2) := by
  refine ⟨⟨rfl, ?_⟩, ⟨rfl, ?_⟩⟩
  · norm_num [tagIdeAction, RuleAction.apply, RuleAction.ofType, weakPairCandidate,
      sampleCandidate, sampleEvidence, Candidate.default, Candidate.add_evidence,
      Candidate.recalculate_confidence, recalculatedScore, countLoop, StrengthCounts.bump,
      product_of_negatives, Evidence.make4]
  · norm_num [tagIdeAction, RuleAction.apply, RuleAction.ofType, flooredCandidate,
      sampleCandidate, sampleEvidence, Candidate.default, Candidate.add_evidence,
      Candidate.recalculate_confidence, recalculatedScore, countLoop, StrengthCounts.bump,
      product_of_negatives, Evidence.make4]

/-- What the `AddTag` branch computes: it appends one evidence of type `tag` with
confidence `0` (strength `Moderate`, source `rulepack`) and stores the value recalculated
from the evidence; the score is left as it was only when it was the recalculated value
before the action and the evidence of the candidate is not `Weak`-only. -/
theorem add_tag_action (a : RuleAction) (c : Candidate) (ha : a.type = RuleActionType.AddTag) :
    (a.apply c).evidence = c.evidence ++ [tagEvidence a.tag] ∧
    (tagEvidence a.tag).type = "tag" ∧ (tagEvidence a.tag).confidence = 0 ∧
    (a.apply c).confidence_score = recalculatedScore (c.evidence ++ [tagEvidence a.tag]) ∧
    (c.confidence_score = recalculatedScore c.evidence →
      ¬ (c.evidence ≠ [] ∧
          ∀ e ∈ c.evidence, e.strength = Strength.Weak ∧ e.is_negative = false) →
      (a.apply c).confidence_score = c.confidence_score) := by
  have happ : a.apply c = c.add_evidence (tagEvidence a.tag) := by
    unfold RuleAction.apply
    rw [ha]
    rfl
  rw [happ]
  refine ⟨rfl, rfl, rfl, rfl, ?_⟩
  intro hscore hnotweak
  show recalculatedScore (c.evidence ++ [tagEvidence a.tag]) = c.confidence_score
  rw [hscore, recalculatedScore_eq, recalculatedScore_eq]
  exact noisyOrReference_append_tag c.evidence a.tag hnotweak

/-- A tag on a candidate with one `Moderate` evidence at `0.7` leaves the score at `0.7`. -/
theorem add_tag_action_witness :
    (tagIdeAction.apply
        { sampleCandidate [sampleEvidence (7 / 10) Strength.Moderate] with
          confidence_score := 7 / 10 }).confidence_score = 7 / 10 :=
  (add_tag_action tagIdeAction
      { sampleCandidate [sampleEvidence (7 / 10) Strength.Moderate] with
        confidence_score := 7 / 10 } rfl).2.2.2.2
    (by norm_num [sampleCandidate, sampleEvidence, recalculatedScore, countLoop,
      StrengthCounts.bump, product_of_negatives])
    (by
      rintro ⟨_, hall⟩
      have := (hall (sampleEvidence (7 / 10) Strength.Moderate)
        (by simp [sampleCandidate])).1
      exact absurd this (by decide))

theorem foldl_apply_eq (as : List RuleAction) (c : Candidate) :
    as.foldl (fun c (a : RuleAction) => a.apply c) c = applyActionsInOrder as c := by
  induction as generalizing c with
  | nil => rfl
  | cons a as ih => exact ih (a.apply c)

theorem rule_apply_eq_visit (rx : RegexSearch) (r : Rule) (c : Candidate) :
    r.apply rx c = visitRule rx r c := by
  unfold Rule.apply visitRule
  rw [foldl_apply_eq]
  cases Rule.matches rx r c with
  | none => rfl
  | some b => cases b <;> rfl

theorem rulesLoop_eq_foldl (rx : RegexSearch) (rs : List Rule) (c : Candidate) :
    rulesLoop rx rs c
      = rs.foldl (fun o r => o.andThen (visitRule rx r)) (Outcome.returned c) := by
  have hthrew : ∀ (rs : List Rule) (c : Candidate),
      rs.foldl (fun o r => Outcome.andThen o (visitRule rx r)) (Outcome.threw c)
        = Outcome.threw c := by
    intro rs
    induction rs with
    | nil => intro c; rfl
    | cons r rs ih => intro c; exact ih c
  induction rs generalizing c with
  | nil => rfl
  | cons r rs ih =>
    rw [List.foldl_cons]
    unfold rulesLoop
    rw [rule_apply_eq_visit]
    show _ = rs.foldl (fun o r => Outcome.andThen o (visitRule rx r)) (visitRule rx r c)
    cases visitRule rx r c with
    | returned c' => exact ih c'
    | threw c' => exact (hthrew rs c').symm

theorem foldl_andThen_of_outcome (rx : RegexSearch) (rs : List Rule) (o : Outcome) :
    rs.foldl (fun o r => Outcome.andThen o (visitRule rx r)) o
      = o.andThen (rulesLoop rx rs) := by
  cases o with
  | returned c => exact (rulesLoop_eq_foldl rx rs c).symm
  | threw c =>
    induction rs with
    | nil => rfl
    | cons r rs ih => exact ih

theorem rulepacksLoop_eq_foldl (rx : RegexSearch) (ps : List Rulepack) (c : Candidate) :
    rulepacksLoop rx ps c
      = (ps.flatMap Rulepack.rules).foldl (fun o r => o.andThen (visitRule rx r))
          (Outcome.returned c) := by
  induction ps generalizing c with
  | nil => rfl
  | cons p ps ih =>
    rw [List.flatMap_cons, List.foldl_append, ← rulesLoop_eq_foldl]
    unfold rulepacksLoop Rulepack.apply
    cases hout : rulesLoop rx p.rules c with
    | returned c' => exact ih c'
    | threw c' =>
      rw [foldl_andThen_of_outcome]
      rfl

theorem rulepacksLoop_append (rx : RegexSearch) (ps qs : List Rulepack) (c : Candidate) :
    rulepacksLoop rx (ps ++ qs) c = (rulepacksLoop rx ps c).andThen (rulepacksLoop rx qs) := by
  induction ps generalizing c with
  | nil => rfl
  | cons p ps ih =>
    rw [List.cons_append]
    unfold rulepacksLoop
    cases p.apply rx c with
    | returned c' => exact ih c'
    | threw c' => rfl

theorem rulesLoop_append (rx : RegexSearch) (rs ss : List Rule) (c : Candidate) :
    rulesLoop rx (rs ++ ss) c = (rulesLoop rx rs c).andThen (rulesLoop rx ss) := by
  induction rs generalizing c with
  | nil => rfl
  | cons r rs ih =>
    rw [List.cons_append]
    unfold rulesLoop
    cases r.apply rx c with
    | returned c' => exact ih c'
    | threw c' => rfl

theorem rulesLoop_singleton (rx : RegexSearch) (r : Rule) :
    rulesLoop rx [r] = r.apply rx := by
  funext c
  unfold rulesLoop
  cases r.apply rx c with
  | returned c' => rfl
  | threw c' => rfl

theorem rulepacksLoop_singleton (rx : RegexSearch) (p : Rulepack) :
    rulepacksLoop rx [p] = p.apply rx := by
  funext c
  unfold rulepacksLoop
  cases p.apply rx c with
  | returned c' => rfl
  | threw c' => rfl

theorem applyActionsInOrder_append (as bs : List RuleAction) (c : Candidate) :
    applyActionsInOrder (as ++ bs) c = applyActionsInOrder bs (applyActionsInOrder as c) := by
  induction as generalizing c with
  | nil => rfl
  | cons a as ih => exact ih (a.apply c)

/-- C16: application order. `RuleEngine::apply` visits every rule of every rulepack in
rulepack order and then rule order, each rule being matched against the candidate as the
earlier rules left it, and a matching rule applies its actions in the order declared.
Appending a rulepack to the engine composes its `Rulepack::apply` after the engine so far,
appending a rule to a rulepack composes its `Rule::apply` after the rules so far, and
appending an action to a matching rule applies it after the actions so far; an exception
ends the sequence. -/
theorem rule_engine_application_order (rx : RegexSearch) :
    (∀ (engine : RuleEngine) (c : Candidate),
      engine.apply rx c = applyInOrderReference rx engine c) ∧
    (∀ (ps : List Rulepack) (p : Rulepack) (c : Candidate),
      RuleEngine.apply rx ⟨ps ++ [p]⟩ c = (RuleEngine.apply rx ⟨ps⟩ c).andThen (p.apply rx)) ∧
    (∀ c : Candidate, RuleEngine.apply rx ⟨[]⟩ c = Outcome.returned c) ∧
    (∀ (name version description : String) (rs : List Rule) (r : Rule) (c : Candidate),
      Rulepack.apply rx ⟨name, version, description, rs ++ [r]⟩ c
        = (Rulepack.apply rx ⟨name, version, description, rs⟩ c).andThen (r.apply rx)) ∧
    (∀ (name description : String) (ms : List RuleMatch) (as : List RuleAction)
        (a : RuleAction) (c : Candidate),
      Rule.matches rx ⟨name, description, ms, as ++ [a]⟩ c = some true →
      Rule.apply rx ⟨name, description, ms, as ++ [a]⟩ c
        = Outcome.returned (a.apply (applyActionsInOrder as c))) := by
  refine ⟨?_, ?_, ?_, ?_, ?_⟩
  · intro engine c
    exact rulepacksLoop_eq_foldl rx engine.rulepacks_ c
  · intro ps p c
    show rulepacksLoop rx (ps ++ [p]) c = _
    rw [rulepacksLoop_append, rulepacksLoop_singleton]
    rfl
  · intro c
    rfl
  · intro name version description rs r c
    show rulesLoop rx (rs ++ [r]) c = _
    rw [rulesLoop_append, rulesLoop_singleton]
    rfl
  · intro name description ms as a c hm
    rw [rule_apply_eq_visit]
    unfold visitRule
    rw [hm]
    show Outcome.returned (applyActionsInOrder (as ++ [a]) c) = _
    rw [applyActionsInOrder_append]
    rfl

/-- The order at a concrete input: the floor of the second rule acts on the candidate that
the exclusion of the first rule has left at score `0`. -/
theorem rule_engine_application_order_witness :
    RuleEngine.apply noRegex ⟨[] ++ [excludeThenFloorPack]⟩ crashpadCandidate
      = (RuleEngine.apply noRegex ⟨[]⟩ crashpadCandidate).andThen
          (excludeThenFloorPack.apply noRegex) :=
  (rule_engine_application_order noRegex).2.1 [] excludeThenFloorPack crashpadCandidate

/-! ## URL parsing -/

theorem findFrom_char (c : Char) (s : List Char) (pos : Nat) :
    findFrom [c] s pos =
      if c ∈ s then some (pos + (s.takeWhile (fun x => x != c)).length) else none := by
  induction s generalizing pos with
  | nil => simp [findFrom]
  | cons x xs ih =>
    unfold findFrom
    by_cases hx : x = c
    · subst hx
      simp
    · have hx' : c ≠ x := fun h => hx h.symm
      have hpre : List.isPrefixOf [c] (x :: xs) = false := by
        simp [List.isPrefixOf, hx']
      rw [hpre, ih]
      simp only [Bool.false_eq_true, ↓reduceIte, List.mem_cons, hx', false_or]
      split
      · rw [List.takeWhile_cons_of_pos (by simpa using hx)]
        simp only [List.length_cons]
        congr 1
        omega
      · rfl

theorem take_takeWhile_length (p : Char → Bool) (s : List Char) :
    s.take (s.takeWhile p).length = s.takeWhile p := by
  induction s with
  | nil => rfl
  | cons x xs ih =>
    by_cases hx : p x = true
    · rw [List.takeWhile_cons_of_pos hx]
      simp [ih]
    · rw [List.takeWhile_cons_of_neg hx]
      rfl

theorem drop_takeWhile_length (p : Char → Bool) (s : List Char) :
    s.drop (s.takeWhile p).length = s.dropWhile p := by
  induction s with
  | nil => rfl
  | cons x xs ih =>
    by_cases hx : p x = true
    · rw [List.takeWhile_cons_of_pos hx, List.dropWhile_cons_of_pos hx]
      simp [ih]
    · rw [List.takeWhile_cons_of_neg hx, List.dropWhile_cons_of_neg hx]
      rfl

/-- The authority branch for an authority that has a `':'` and does not start with `'['`:
the result is valid exactly when the text before the first `':'` is not empty and
`std::stoi` accepts the text after it. -/
theorem parseAuthority_unbracketed (scheme authority path : List Char)
    (hbr : '[' ∉ authority) (hcolon : ':' ∈ authority) :
    (parseAuthority scheme authority path).valid = true ↔
      authority.takeWhile (fun x => x != ':') ≠ [] ∧
      (stoi (String.mk (authority.dropWhile (fun x => x != ':')).tail)).isSome = true := by
  have hhead : ¬ authority.head? = some '[' := by
    intro h
    apply hbr
    cases authority with
    | nil => simp at h
    | cons x xs =>
      simp only [List.head?_cons, Option.some.injEq] at h
      simp [h]
  unfold parseAuthority
  simp only [hhead, ↓reduceIte, findFrom_char, hcolon, Nat.zero_add, take_takeWhile_length]
  have hdrop : authority.drop ((authority.takeWhile (fun x => x != ':')).length + 1)
      = (authority.dropWhile (fun x => x != ':')).tail := by
    rw [← List.drop_drop, drop_takeWhile_length, List.drop_one]
  rw [hdrop]
  cases hst : stoi (String.mk (authority.dropWhile (fun x => x != ':')).tail) with
  | none => simp [ParsedUrl.init]
  | some port =>
    simp only [Option.isSome_some, and_true, decide_eq_true_eq, ne_eq]
    constructor
    · intro h hnil
      apply h
      rw [hnil]
    · intro h hs
      apply h
      have := congrArg String.data hs
      exact this

/-- C11 as stated fails: the authority `2001:470::1` is an IPv6 literal without brackets
(three `':'`, no `'['`), and `HttpClient::parse_url` reports the URL valid, with host `2001`
and port `470`: the text after the first `':'` starts with digits, which `std::stoi`
accepts. -/
theorem parse_url_counterexample :
    splitUrl "http://2001:470::1".toList
      = some ("http".toList, "2001:470::1".toList, "/".toList) ∧
    2 ≤ "2001:470::1".toList.count ':' ∧ '[' ∉ "2001:470::1".toList ∧
    parse_url "http://2001:470::1" = ⟨"http", "2001", 470, "/", true⟩ := by
  refine ⟨by decide, by decide, by decide, by decide⟩

/-- C11, amended: `HttpClient::parse_url("http://[::1]:3000")` yields `valid = true`, host
`[::1]` and port `3000`; and a URL whose authority contains two or more `':'` and no `'['`
is reported invalid exactly when the text before the first `':'` of the authority is empty
or `std::stoi` rejects the text after that `':'`, as for `::1:3000` and `2001:db8::1`. -/
theorem parse_url_ipv6 :
    parse_url "http://[::1]:3000" = ⟨"http", "[::1]", 3000, "/", true⟩ ∧
    (∀ (url : String) (scheme authority path : List Char),
      splitUrl url.toList = some (scheme, authority, path) →
      2 ≤ authority.count ':' → '[' ∉ authority →
      ((parse_url url).valid = false ↔
        authority.takeWhile (fun x => x != ':') = [] ∨
        stoi (String.mk (authority.dropWhile (fun x => x != ':')).tail) = none)) ∧
    (parse_url "http://::1:3000").valid = false ∧
    (parse_url "http://2001:db8::1").valid = false := by
  refine ⟨by decide, ?_, by decide, by decide⟩
  intro url scheme authority path hsplit hcount hbr
  have hcolon : ':' ∈ authority := by
    apply List.count_pos_iff.mp
    omega
  have hvalid := parseAuthority_unbracketed scheme authority path hbr hcolon
  have hparse : parse_url url = parseAuthority scheme authority path := by
    unfold parse_url
    rw [hsplit]
  rw [hparse]
  constructor
  · intro hfalse
    by_contra hnot
    push_neg at hnot
    have : (parseAuthority scheme authority path).valid = true :=
      hvalid.mpr ⟨hnot.1, by
        cases hst : stoi (String.mk (authority.dropWhile (fun x => x != ':')).tail) with
        | none => exact absurd hst hnot.2
        | some v => rfl⟩
    rw [hfalse] at this
    exact Bool.false_ne_true this
  · intro h
    rw [← Bool.not_eq_true]
    intro htrue
    obtain ⟨h1, h2⟩ := hvalid.mp htrue
    rcases h with h | h
    · exact h1 h
    · rw [h] at h2
      exact Bool.false_ne_true h2

/-- The amended claim at the URL `http://2001:db8::1/sse`: `std::stoi` rejects `db8::1`. -/
theorem parse_url_ipv6_witness :
    (parse_url "http://2001:db8::1/sse").valid = false :=
  (parse_url_ipv6.2.1 "http://2001:db8::1/sse" "http".toList "2001:db8::1".toList
      "/sse".toList (by decide) (by decide) (by decide)).mpr (Or.inr (by decide))

theorem exclude_score_zero (a : RuleAction) (c : Candidate)
    (ha : a.type = RuleActionType.Exclude) : (a.apply c).confidence_score = 0 := by
  have happ : a.apply c = Candidate.add_evidence { c with confidence_score := 0 }
      ⟨"rulepack_exclusion", "Excluded by rulepack rule", 99 / 100, "rulepack:exclusion",
        Strength.Definitive, true⟩ := by
    unfold RuleAction.apply
    rw [ha]
  rw [happ]
  apply add_evidence_veto
  exact ⟨_, List.mem_append_right _ (List.mem_singleton.mpr rfl), rfl⟩

/-! ## Passive coordinator: confidence filter and candidate cap -/

theorem mem_confidenceFilter (config : PassiveScanConfig) (cs : List Candidate) (c : Candidate) :
    c ∈ confidenceFilter config cs ↔ c ∈ cs ∧ config.min_confidence ≤ c.confidence_score := by
  simp [confidenceFilter, List.mem_filter]

theorem runEngine_candidates (rx : RegexSearch) (rule_what : String) (rule_engine : RuleEngine)
    (config : PassiveScanConfig) (results : PassiveScanResults) (engine : EngineRun)
    (h : ∀ c ∈ results.candidates, config.min_confidence ≤ c.confidence_score) :
    ∀ c ∈ (runEngine rx rule_what rule_engine config results engine).candidates,
      config.min_confidence ≤ c.confidence_score := by
  unfold runEngine
  cases engine.detect with
  | error what => exact h
  | ok candidates =>
    simp only
    cases applyRulesLoop rx rule_engine candidates with
    | none => exact h
    | some candidates' =>
      simp only
      intro c hc
      have hc' : c ∈ results.candidates ++ confidenceFilter config candidates' := by
        unfold updateStatistics at hc
        split at hc
        · exact hc
        · split at hc
          · exact hc
          · split at hc
            · exact hc
            · exact hc
      rcases List.mem_append.mp hc' with h1 | h1
      · exact h c h1
      · exact ((mem_confidenceFilter config candidates' c).mp h1).2

theorem runEngines_candidates (rx : RegexSearch) (rule_what : String)
    (rule_engine : RuleEngine) (config : PassiveScanConfig) (engines : List EngineRun) :
    ∀ c ∈ (runEngines rx rule_what rule_engine config engines).candidates,
      config.min_confidence ≤ c.confidence_score := by
  unfold runEngines
  have hgen : ∀ (results : PassiveScanResults),
      (∀ c ∈ results.candidates, config.min_confidence ≤ c.confidence_score) →
      ∀ c ∈ (engines.foldl (runEngine rx rule_what rule_engine config) results).candidates,
        config.min_confidence ≤ c.confidence_score := by
    induction engines with
    | nil => intro results h; exact h
    | cons e es ih =>
      intro results h
      exact ih _ (runEngine_candidates rx rule_what rule_engine config results e h)
  apply hgen
  intro c hc
  simp [PassiveScanResults.init] at hc

theorem enforceMaxCandidates_subset (partial_sort : PartialSort)
    (hstd : partial_sort.meetsStandard) (config : PassiveScanConfig) (cs : List Candidate) :
    ∀ c ∈ enforceMaxCandidates partial_sort config cs, c ∈ cs := by
  intro c hc
  unfold enforceMaxCandidates at hc
  split at hc
  · rename_i hlen
    have hperm := (hstd cs (sizeOfInt config.max_candidates) (Nat.le_of_lt hlen)).1
    exact hperm.mem_iff.mp (List.mem_of_mem_take hc)
  · exact hc

/-- C17 as stated fails: with the default `PassiveScanConfig`, whose `min_confidence` is
`0.0`, a crash handler that a rule has excluded (score `0`, last evidence negative) passes
the filter `confidence_score >= min_confidence` and is the candidate of the scan result. -/
theorem exclusion_filter_counterexample :
    (PassiveScanner.scan noRegex stablePartialSort "stoi" ⟨[excludePack]⟩ [crashpadEngine]
        PassiveScanConfig.default).candidates
      = [{ crashpadCandidate with
            evidence :=
              [⟨"rulepack_exclusion", "Excluded by rulepack rule", 99 / 100,
                "rulepack:exclusion", Strength.Definitive, true⟩]
            confidence_score := 0 }] := by
  have hrule : RuleEngine.apply noRegex ⟨[excludePack]⟩ crashpadCandidate
      = Outcome.returned
          { crashpadCandidate with
            evidence :=
              [⟨"rulepack_exclusion", "Excluded by rulepack rule", 99 / 100,
                "rulepack:exclusion", Strength.Definitive, true⟩]
            confidence_score := 0 } := by
    simp [RuleEngine.apply, rulepacksLoop, Rulepack.apply, rulesLoop, Rule.apply, Rule.matches,
      matchesLoop, RuleMatch.matches, excludePack, crashpadCandidate, RuleAction.apply,
      RuleAction.ofType, Candidate.add_evidence, Candidate.recalculate_confidence,
      recalculatedScore, countLoop, Candidate.default, strFind, findFrom]
  have hloop : applyRulesLoop noRegex ⟨[excludePack]⟩ [crashpadCandidate]
      = some
          [{ crashpadCandidate with
              evidence :=
                [⟨"rulepack_exclusion", "Excluded by rulepack rule", 99 / 100,
                  "rulepack:exclusion", Strength.Definitive, true⟩]
              confidence_score := 0 }] := by
    simp only [applyRulesLoop, hrule]
  have hengines : (runEngines noRegex "stoi" ⟨[excludePack]⟩ PassiveScanConfig.default
      [crashpadEngine]).candidates
      = [{ crashpadCandidate with
            evidence :=
              [⟨"rulepack_exclusion", "Excluded by rulepack rule", 99 / 100,
                "rulepack:exclusion", Strength.Definitive, true⟩]
            confidence_score := 0 }] := by
    simp only [runEngines, List.foldl_cons, List.foldl_nil, runEngine, crashpadEngine, hloop]
    simp [confidenceFilter, PassiveScanConfig.default, updateStatistics,
      PassiveScanResults.init]
  unfold PassiveScanner.scan
  simp only [hengines]
  simp [deduplicate_candidates, dedupLoop, extractDuplicate, enforceMaxCandidates, sizeOfInt,
    PassiveScanConfig.default]

/-- C17, amended: the passive confidence filter keeps a candidate whose score is `0`, such
as one that a rule has excluded, exactly when `min_confidence ≤ 0`, which includes the
default `0.0`. For a `PassiveScanConfig` with `min_confidence > 0` such a candidate is
dropped: every candidate handed to the merger has a score of at least `min_confidence`, and
every candidate of `PassiveScanResults.candidates` has the identity of one of those. -/
theorem exclusion_filter (rx : RegexSearch) (partial_sort : PartialSort) (rule_what : String)
    (rule_engine : RuleEngine) (engines : List EngineRun) (config : PassiveScanConfig)
    (hstd : partial_sort.meetsStandard) :
    (∀ (cs : List Candidate) (c : Candidate), c.confidence_score = 0 →
      (c ∈ confidenceFilter config cs ↔ c ∈ cs ∧ config.min_confidence ≤ 0)) ∧
    (∀ (a : RuleAction) (c : Candidate), a.type = RuleActionType.Exclude →
      0 < config.min_confidence → ∀ cs : List Candidate, a.apply c ∉ confidenceFilter config cs) ∧
    (0 < config.min_confidence →
      ∀ c ∈ (runEngines rx rule_what rule_engine config engines).candidates,
        0 < c.confidence_score) ∧
    (0 < config.min_confidence →
      ∀ x ∈ (PassiveScanner.scan rx partial_sort rule_what rule_engine engines
          config).candidates,
        ∃ y ∈ (runEngines rx rule_what rule_engine config engines).candidates,
          y.identity = x.identity ∧ 0 < y.confidence_score) := by
  refine ⟨?_, ?_, ?_, ?_⟩
  · intro cs c hc
    rw [mem_confidenceFilter, hc]
  · intro a c ha hmin cs hmem
    have hscore := (exclude_score_zero a c ha)
    have := ((mem_confidenceFilter config cs (a.apply c)).mp hmem).2
    rw [hscore] at this
    exact absurd hmin (not_lt.mpr this)
  · intro hmin c hc
    exact lt_of_lt_of_le hmin (runEngines_candidates rx rule_what rule_engine config engines c hc)
  · intro hmin x hx
    have hx' : x ∈ deduplicate_candidates
        (runEngines rx rule_what rule_engine config engines).candidates :=
      enforceMaxCandidates_subset partial_sort hstd config _ x hx
    have hsub := dedupLoop_identity_sublist
      (runEngines rx rule_what rule_engine config engines).candidates.length
      (runEngines rx rule_what rule_engine config engines).candidates
    have hmem : x.identity ∈ (deduplicate_candidates
        (runEngines rx rule_what rule_engine config engines).candidates).map
          Candidate.identity := List.mem_map_of_mem _ hx'
    obtain ⟨y, hy, hxy⟩ := List.mem_map.mp (hsub.subset hmem)
    exact ⟨y, hy, hxy,
      lt_of_lt_of_le hmin
        (runEngines_candidates rx rule_what rule_engine config engines y hy)⟩

theorem updateStatistics_candidates (engine : EngineRun) (results : PassiveScanResults) :
    (updateStatistics engine results).candidates = results.candidates := by
  unfold updateStatistics
  split
  · rfl
  · split
    · rfl
    · split <;> rfl

theorem insertionSort_meetsStandard (f : List Candidate → List Candidate)
    (hf : ∀ l, (f l).Perm l) :
    PartialSort.meetsStandard
      (fun l _ => (f l).insertionSort (fun a b => a.confidence_score ≥ b.confidence_score)) := by
  intro l middle _
  have htotal : IsTotal Candidate (fun a b => a.confidence_score ≥ b.confidence_score) :=
    ⟨fun a b => le_total b.confidence_score a.confidence_score⟩
  have htrans : IsTrans Candidate (fun a b => a.confidence_score ≥ b.confidence_score) :=
    ⟨fun a b c hab hbc => le_trans hbc hab⟩
  have hsorted : List.Pairwise (fun a b => a.confidence_score ≥ b.confidence_score)
      ((f l).insertionSort (fun a b => a.confidence_score ≥ b.confidence_score)) :=
    List.sorted_insertionSort _ (f l)
  refine ⟨(List.perm_insertionSort _ (f l)).trans (hf l), ?_, ?_⟩
  · have htake := hsorted.sublist (List.take_sublist middle _)
    exact htake.imp (fun h => not_lt.mpr h)
  · intro a ha b hb
    rw [← List.take_append_drop middle
      ((f l).insertionSort (fun a b => a.confidence_score ≥ b.confidence_score))] at hsorted
    exact not_lt.mpr ((List.pairwise_append.mp hsorted).2.2 a ha b hb)

theorem stablePartialSort_meetsStandard : stablePartialSort.meetsStandard :=
  insertionSort_meetsStandard id (fun l => List.Perm.refl l)

/-- The exclusion of the crash handler under a threshold of `0.1`: the excluded candidate is
not kept by the filter. -/
theorem exclusion_filter_witness :
    stablePartialSort.meetsStandard ∧
    (RuleAction.ofType RuleActionType.Exclude).apply crashpadCandidate ∉
      confidenceFilter { PassiveScanConfig.default with min_confidence := 1 / 10 }
        [(RuleAction.ofType RuleActionType.Exclude).apply crashpadCandidate] :=
  ⟨stablePartialSort_meetsStandard,
    (exclusion_filter noRegex stablePartialSort "stoi" ⟨[excludePack]⟩ [crashpadEngine]
      { PassiveScanConfig.default with min_confidence := 1 / 10 }
      stablePartialSort_meetsStandard).2.1
      (RuleAction.ofType RuleActionType.Exclude) crashpadCandidate rfl
      (by norm_num [PassiveScanConfig.default]) _⟩

theorem parseStringMatch_type (match_json : Json) (key : String) (type : RuleMatchType)
    (ms : List RuleMatch) (h : parseStringMatch match_json key type = some ms) :
    ∀ m ∈ ms, m.type = type := by
  unfold parseStringMatch at h
  split at h
  · split at h
    · simp only [Option.some.injEq] at h
      subst h
      intro m hm
      rw [List.mem_singleton.mp hm]
    · exact absurd h (by simp)
  · simp only [Option.some.injEq] at h
    subst h
    intro m hm
    exact absurd hm (List.not_mem_nil m)

theorem parsePortMatch_type (match_json : Json) (ms : List RuleMatch)
    (h : parsePortMatch match_json = some ms) :
    ∀ m ∈ ms, m.type = RuleMatchType.PortEquals := by
  unfold parsePortMatch at h
  split at h
  · split at h
    · simp only [Option.some.injEq] at h
      subst h
      intro m hm
      rw [List.mem_singleton.mp hm]
    · exact absurd h (by simp)
  · simp only [Option.some.injEq] at h
    subst h
    intro m hm
    exact absurd hm (List.not_mem_nil m)

/-- No condition that `load_from_json` builds from a `match` object is a `ParentProcess`
condition: the parser has no block for the key `parent_process`. -/
theorem parseMatchConditions_no_parent (rule_json : Json) (ms : List RuleMatch)
    (h : parseMatchConditions rule_json = some ms) :
    ∀ m ∈ ms, m.type ≠ RuleMatchType.ParentProcess := by
  unfold parseMatchConditions at h
  split at h
  · simp only at h
    split at h
    · rename_i m1 m2 m3 m4 m5 m6 m7 h1 h2 h3 h4 h5 h6 h7
      simp only [Option.some.injEq] at h
      subst h
      intro m hm
      simp only [List.mem_append] at hm
      rcases hm with (((((hm | hm) | hm) | hm) | hm) | hm) | hm
      · rw [parseStringMatch_type _ _ _ _ h1 m hm]; decide
      · rw [parseStringMatch_type _ _ _ _ h2 m hm]; decide
      · rw [parseStringMatch_type _ _ _ _ h3 m hm]; decide
      · rw [parsePortMatch_type _ _ h4 m hm]; decide
      · rw [parseStringMatch_type _ _ _ _ h5 m hm]; decide
      · rw [parseStringMatch_type _ _ _ _ h6 m hm]; decide
      · rw [parseStringMatch_type _ _ _ _ h7 m hm]; decide
    · exact absurd h (by simp)
  · simp only [Option.some.injEq] at h
    subst h
    intro m hm
    exact absurd hm (List.not_mem_nil m)

/-- C13, the code at the failing input: from a rulepack whose only rule has the match
object `{"parent_process": "Code"}` and the action `{"exclude": true}`,
`Rulepack::load_from_json` builds a rule without any match condition (it has no block for
the key `parent_process`). That rule matches every candidate and excludes it, so applying
it changes the candidate, whereas a `ParentProcess` condition, had it been built, never
matches. -/
theorem parent_process_rule_fires :
    load_from_json parentProcessRulepackJson
      = some ⟨"ide children", "1.0", "",
          [⟨"exclude ide children", "", [], [RuleAction.ofType RuleActionType.Exclude]⟩]⟩ ∧
    (∀ (rx : RegexSearch) (c : Candidate),
      Rule.apply rx
          ⟨"exclude ide children", "", [], [RuleAction.ofType RuleActionType.Exclude]⟩ c
        = Outcome.returned ((RuleAction.ofType RuleActionType.Exclude).apply c) ∧
      (RuleAction.ofType RuleActionType.Exclude).apply c ≠ c) ∧
    (∀ (rx : RegexSearch) (value : String) (c : Candidate),
      RuleMatch.matches rx ⟨RuleMatchType.ParentProcess, value⟩ c = some false) ∧
    (∀ (rule_json : Json) (ms : List RuleMatch), parseMatchConditions rule_json = some ms →
      ∀ m ∈ ms, m.type ≠ RuleMatchType.ParentProcess) := by
  refine ⟨rfl, ?_, ?_, parseMatchConditions_no_parent⟩
  · intro rx c
    refine ⟨rfl, ?_⟩
    intro h
    have hev : ((RuleAction.ofType RuleActionType.Exclude).apply c).evidence
        = c.evidence ++
            [⟨"rulepack_exclusion", "Excluded by rulepack rule", 99 / 100,
              "rulepack:exclusion", Strength.Definitive, true⟩] := rfl
    rw [h] at hev
    have hlen := congrArg List.length hev
    simp at hlen
  · intro rx value c
    rfl

/-! ## Stdio probe and protocol detector -/

theorem matchesPattern_of_mem (candidate : Candidate) (patterns : List String)
    (pattern : String) (hmem : pattern ∈ patterns)
    (h : (strFind candidate.process_name pattern).isSome = true ∨
      (strFind candidate.command pattern).isSome = true) :
    matchesPattern candidate patterns = true := by
  induction patterns with
  | nil => exact absurd hmem (List.not_mem_nil _)
  | cons p ps ih =>
    unfold matchesPattern
    by_cases hp : ((strFind candidate.process_name p).isSome ||
        (strFind candidate.command p).isSome) = true
    · rw [if_pos hp]
    · rw [if_neg hp]
      rcases List.mem_cons.mp hmem with heq | hin
      · subst heq
        exfalso
        apply hp
        rcases h with h | h <;> simp [h]
      · exact ih hin

theorem detect_from_process_info_of_lsp (candidate : Candidate)
    (h : is_lsp_process candidate = true) :
    (detect_from_process_info candidate).type = ProtocolType.ChromiumIPC ∨
      (detect_from_process_info candidate).type = ProtocolType.LSP := by
  unfold detect_from_process_info
  by_cases hc : is_chromium_ipc_process candidate = true
  · left
    rw [if_pos hc]
  · right
    rw [if_neg hc, if_pos h]

/-- C19: stdio probe skip. For every candidate that
`ProtocolDetector::detect_from_process_info` classifies as `ChromiumIPC` or `LSP`,
`StdioTestingEngine::test` returns no server and makes no call at all, so it never calls
`spawn_process_with_pipes`. A process name that contains `typescript-language-server` and a
command that contains `--stdio` are classified so. -/
theorem stdio_probe_skip (lib : JsonLib) (engine : StdioTestingEngine) :
    (∀ c : Candidate,
      ((detect_from_process_info c).type = ProtocolType.ChromiumIPC ∨
        (detect_from_process_info c).type = ProtocolType.LSP) →
      (engine.test lib c).1.isNone = true ∧ (engine.test lib c).2 = [] ∧
        ∀ command : String, IoEvent.spawn command ∉ (engine.test lib c).2) ∧
    (∀ c : Candidate,
      (strFind c.process_name "typescript-language-server").isSome = true →
      (detect_from_process_info c).type = ProtocolType.ChromiumIPC ∨
        (detect_from_process_info c).type = ProtocolType.LSP) ∧
    (∀ c : Candidate, (strFind c.command "--stdio").isSome = true →
      (detect_from_process_info c).type = ProtocolType.ChromiumIPC ∨
        (detect_from_process_info c).type = ProtocolType.LSP) := by
  refine ⟨?_, ?_, ?_⟩
  · intro c h
    have htest : engine.test lib c = (none, []) := by
      unfold StdioTestingEngine.test
      split
      · rfl
      · split
        · rfl
        · cases engine.platform_ with
          | none => rfl
          | some platform =>
            simp only
            rw [if_pos h]
    rw [htest]
    exact ⟨rfl, rfl, fun command hmem => absurd hmem (List.not_mem_nil _)⟩
  · intro c h
    apply detect_from_process_info_of_lsp
    unfold is_lsp_process
    rw [if_pos (matchesPattern_of_mem c lsp_patterns "typescript-language-server"
      (by decide) (Or.inl h))]
  · intro c h
    apply detect_from_process_info_of_lsp
    unfold is_lsp_process
    rw [if_pos (matchesPattern_of_mem c lsp_patterns "--stdio" (by decide) (Or.inr h))]

/-- The skip at a concrete input: a TypeScript language server started with `--stdio`, on a
platform that would spawn it. -/
theorem stdio_probe_skip_witness :
    (StdioTestingEngine.test sampleJsonLib ⟨some (answeringPlatform bareResponseLine)⟩
        languageServerCandidate).1.isNone = true ∧
    (StdioTestingEngine.test sampleJsonLib ⟨some (answeringPlatform bareResponseLine)⟩
        languageServerCandidate).2 = [] :=
  have h := (stdio_probe_skip sampleJsonLib ⟨some (answeringPlatform bareResponseLine)⟩).1
    languageServerCandidate
    ((stdio_probe_skip sampleJsonLib ⟨some (answeringPlatform bareResponseLine)⟩).2.1
      languageServerCandidate (by decide))
  ⟨h.1, h.2.1⟩

/-- C20 as stated fails. A JSON-RPC 2.0 response with neither `result` nor `error` is
classified `GenericJSONRPC` with confidence `0.50`, not `0.60`; and a response with a
`result` that has neither `protocolVersion` nor `serverInfo` is classified
`GenericJSONRPC` with confidence `0.60` also when it carries an `error`, not `MCP` with
`0.75`. -/
theorem detect_mcp_counterexample :
    ((detect_mcp sampleJsonLib (answeringProcess bareResponseLine) []).1.type
        = ProtocolType.GenericJSONRPC ∧
      (detect_mcp sampleJsonLib (answeringProcess bareResponseLine) []).1.confidence = 50 / 100 ∧
      (detect_mcp sampleJsonLib (answeringProcess bareResponseLine) []).1.confidence ≠ 60 / 100) ∧
    ((detect_mcp sampleJsonLib (answeringProcess resultAndErrorLine) []).1.type
        = ProtocolType.GenericJSONRPC ∧
      (detect_mcp sampleJsonLib (answeringProcess resultAndErrorLine) []).1.confidence = 60 / 100 ∧
      resultAndErrorResponse.contains "error" = true) := by
  have h1 : (detect_mcp sampleJsonLib (answeringProcess bareResponseLine) []).1
      = ⟨ProtocolType.GenericJSONRPC, "Generic JSON-RPC", 50 / 100,
          "Valid JSON-RPC 2.0 but cannot determine if MCP"⟩ := by
    rfl
  have h2 : (detect_mcp sampleJsonLib (answeringProcess resultAndErrorLine) []).1
      = ⟨ProtocolType.GenericJSONRPC, "Generic JSON-RPC", 60 / 100,
          "Valid JSON-RPC response but missing MCP-specific fields"⟩ := by
    rfl
  rw [h1, h2]
  refine ⟨⟨rfl, rfl, ?_⟩, ⟨rfl, rfl, rfl⟩⟩
  norm_num

/-- C20, amended: when the probe has written its request and read a non-empty response
line, `ProtocolDetector::detect_mcp` returns `Invalid` if the line is not parseable JSON;
for a JSON-RPC 2.0 object it returns `MCP` with confidence `0.99` if `result.protocolVersion`
is present, else `MCP` with `0.95` if `result.serverInfo` is present, else `GenericJSONRPC`
with `0.60` if a `result` member is present, else `MCP` with `0.75` if an `error` member is
present, and `GenericJSONRPC` with `0.50` for a response with neither `result` nor
`error`. -/
theorem detect_mcp_classification (lib : JsonLib) (process : Process)
    (history : List IoEvent) (response_line : String)
    (hwrite : process.write_stdin
      (history ++ [IoEvent.write_stdin (lib.dump (create_initialize_request 1) ++ "\n")])
      (lib.dump (create_initialize_request 1) ++ "\n") = none)
    (hread : process.read_stdout_line
      (history ++ [IoEvent.write_stdin (lib.dump (create_initialize_request 1) ++ "\n")] ++
        [IoEvent.read_stdout_line]) = Except.ok response_line)
    (hne : response_line ≠ "") :
    (lib.parse response_line = none →
      (detect_mcp lib process history).1.type = ProtocolType.Invalid) ∧
    (∀ response : Json, lib.parse response_line = some response →
      response.value_string "jsonrpc" "" = some "2.0" →
      ((detect_mcp lib process history).1.type,
          (detect_mcp lib process history).1.confidence) =
        if (response.index "result").contains "protocolVersion" ∧
            response.contains "result" then (ProtocolType.MCP, 99 / 100)
        else if (response.index "result").contains "serverInfo" ∧
            response.contains "result" then (ProtocolType.MCP, 95 / 100)
        else if response.contains "result" then (ProtocolType.GenericJSONRPC, 60 / 100)
        else if response.contains "error" then (ProtocolType.MCP, 75 / 100)
        else (ProtocolType.GenericJSONRPC, 50 / 100)) := by
  have hdetect : (detect_mcp lib process history).1 = classifyMcpLine lib response_line := by
    unfold detect_mcp
    simp only [hwrite, hread]
  rw [hdetect]
  unfold classifyMcpLine
  rw [if_neg hne]
  constructor
  · intro hparse
    rw [hparse]
  · intro response hparse hversion
    rw [hparse]
    simp only
    unfold classifyMcpResponse
    rw [hversion]
    simp only [ne_eq, not_true_eq_false, ↓reduceIte]
    by_cases hres : response.contains "result" = true
    · simp only [hres, ↓reduceIte, and_true]
      by_cases hpv : (response.index "result").contains "protocolVersion" = true
      · simp only [hpv, ↓reduceIte]
      · simp only [hpv, ↓reduceIte, Bool.false_eq_true]
        by_cases hsi : (response.index "result").contains "serverInfo" = true
        · simp only [hsi, ↓reduceIte]
        · simp only [hsi, ↓reduceIte, Bool.false_eq_true]
    · simp only [hres, ↓reduceIte, Bool.false_eq_true, and_false]
      by_cases herr : response.contains "error" = true
      · simp only [herr, ↓reduceIte]
      · simp only [herr, ↓reduceIte, Bool.false_eq_true]

/-- The classification at a concrete input: a response without `result` and `error`. -/
theorem detect_mcp_classification_witness :
    ((detect_mcp sampleJsonLib (answeringProcess bareResponseLine) []).1.type,
        (detect_mcp sampleJsonLib (answeringProcess bareResponseLine) []).1.confidence)
      = (ProtocolType.GenericJSONRPC, 50 / 100) :=
  (detect_mcp_classification sampleJsonLib (answeringProcess bareResponseLine) []
    bareResponseLine rfl rfl (by decide)).2 bareResponse rfl rfl

/-! ## Active protocol detection: order and thresholds -/

/-- A parsed response classified as MCP has confidence 0.99, 0.95 or 0.75. -/
theorem classifyMcpResponse_mcp (response : Json) (signature : ProtocolSignature)
    (h : classifyMcpResponse response = some signature)
    (htype : signature.type = ProtocolType.MCP) : signature.confidence > 70 / 100 := by
  unfold classifyMcpResponse at h
  split at h
  · cases h
  · dsimp only at h
    split_ifs at h <;> simp only [Option.some.injEq] at h <;> subst h <;>
      first
        | (exact absurd htype (by decide))
        | (show (70 / 100 : ℚ) < _; norm_num)

/-- A response line classified as MCP has confidence above 0.7. -/
theorem classifyMcpLine_mcp (lib : JsonLib) (line : String)
    (htype : (classifyMcpLine lib line).type = ProtocolType.MCP) :
    (classifyMcpLine lib line).confidence > 70 / 100 := by
  revert htype
  unfold classifyMcpLine
  split_ifs with hempty
  · intro htype
    simp at htype
  · split
    · intro htype
      simp at htype
    · rename_i response hp
      split
      · rename_i signature hc
        intro htype
        exact classifyMcpResponse_mcp response signature hc htype
      · intro htype
        simp at htype

/-- Whenever the MCP probe answers MCP, its confidence is above 0.7. -/
theorem detect_mcp_confidence (lib : JsonLib) (process : Process) (history : List IoEvent)
    (htype : (detect_mcp lib process history).1.type = ProtocolType.MCP) :
    (detect_mcp lib process history).1.confidence > 70 / 100 := by
  revert htype
  unfold detect_mcp
  dsimp only
  split
  · intro htype
    simp at htype
  · split
    · intro htype
      simp at htype
    · intro htype
      exact classifyMcpLine_mcp lib _ htype

/-- Whenever the LSP probe answers LSP, its confidence is 0.95. -/
theorem detect_lsp_confidence (lib : JsonLib) (pid : Int) (process : Process)
    (history : List IoEvent)
    (htype : (detect_lsp lib pid process history).1.type = ProtocolType.LSP) :
    (detect_lsp lib pid process history).1.confidence > 80 / 100 := by
  revert htype
  unfold detect_lsp
  dsimp only
  split
  · intro htype
    simp at htype
  · split
    · intro htype
      simp at htype
    · split_ifs with hfind
      · intro _
        show (80 / 100 : ℚ) < 95 / 100
        norm_num
      · intro htype
        simp at htype

/-- The Chromium probe answers a failed read with confidence 0.60. -/
theorem detect_chromium_ipc_timeout (char_is_signed : Bool) (process : Process)
    (history : List IoEvent) (what : String)
    (hread : process.read_stdout_line (history ++ [IoEvent.read_stdout_line]) =
      Except.error what) :
    (detect_chromium_ipc char_is_signed process history).1 =
      ⟨ProtocolType.ChromiumIPC, "Chromium IPC", 60 / 100, "No response on stdio probe"⟩ := by
  unfold detect_chromium_ipc
  dsimp only
  rw [hread]

/-- The MCP probe on the JSON-RPC server of the example: a result without MCP fields. -/
theorem jsonRpc_mcp_probe :
    detect_mcp detectorJsonLib jsonRpcProcess [] =
      (⟨ProtocolType.GenericJSONRPC, "Generic JSON-RPC", 60 / 100,
        "Valid JSON-RPC response but missing MCP-specific fields"⟩,
        [IoEvent.write_stdin (initializeRequestText ++ "\n"), IoEvent.read_stdout_line]) :=
  rfl

set_option maxRecDepth 100000 in
/-- The LSP probe on the JSON-RPC server of the example: no `Content-Length` header. -/
theorem jsonRpc_lsp_probe :
    detect_lsp detectorJsonLib 4242 jsonRpcProcess
        [IoEvent.write_stdin (initializeRequestText ++ "\n"), IoEvent.read_stdout_line] =
      (⟨ProtocolType.Unknown, "Unknown", 0, ""⟩,
        [IoEvent.write_stdin (initializeRequestText ++ "\n"), IoEvent.read_stdout_line,
          IoEvent.write_stdin ("Content-Length: 107\r\n\r\n" ++ lspRequestText),
          IoEvent.read_stdout_line]) :=
  rfl

/-- The Chromium probe on the JSON-RPC server of the example: the read times out. -/
theorem jsonRpc_chromium_probe :
    detect_chromium_ipc true jsonRpcProcess
        [IoEvent.write_stdin (initializeRequestText ++ "\n"), IoEvent.read_stdout_line,
          IoEvent.write_stdin ("Content-Length: 107\r\n\r\n" ++ lspRequestText),
          IoEvent.read_stdout_line] =
      (⟨ProtocolType.ChromiumIPC, "Chromium IPC", 60 / 100, "No response on stdio probe"⟩,
        [IoEvent.write_stdin (initializeRequestText ++ "\n"), IoEvent.read_stdout_line,
          IoEvent.write_stdin ("Content-Length: 107\r\n\r\n" ++ lspRequestText),
          IoEvent.read_stdout_line, IoEvent.read_stdout_line]) :=
  rfl

/-- C21, amended: on a running process `detect_from_stdio` runs the MCP probe and returns
its result when that is MCP with confidence at least 0.7; otherwise it runs the LSP probe
and returns its result when that is LSP with confidence at least 0.8; otherwise it runs the
Chromium probe and returns its result when the confidence is above 0.6; otherwise the best
guess. The result 0.60 that the Chromium probe gives on a failed read is not above the
threshold: it is left to the best guess. -/
theorem detect_from_stdio_order (lib : JsonLib) (pid : Int) (char_is_signed : Bool)
    (process : Process) (history : List IoEvent)
    (hrun : process.is_running history = true) :
    detect_from_stdio lib pid char_is_signed (some process) history =
      (if (detect_mcp lib process history).1.type = ProtocolType.MCP ∧
          (detect_mcp lib process history).1.confidence ≥ 70 / 100 then
        detect_mcp lib process history
      else if (detect_lsp lib pid process (detect_mcp lib process history).2).1.type =
            ProtocolType.LSP ∧
          (detect_lsp lib pid process (detect_mcp lib process history).2).1.confidence ≥
            80 / 100 then
        detect_lsp lib pid process (detect_mcp lib process history).2
      else if (detect_chromium_ipc char_is_signed process
          (detect_lsp lib pid process (detect_mcp lib process history).2).2).1.confidence >
            60 / 100 then
        detect_chromium_ipc char_is_signed process
          (detect_lsp lib pid process (detect_mcp lib process history).2).2
      else
        (bestGuess (detect_mcp lib process history).1
            (detect_lsp lib pid process (detect_mcp lib process history).2).1
            (detect_chromium_ipc char_is_signed process
              (detect_lsp lib pid process (detect_mcp lib process history).2).2).1,
          (detect_chromium_ipc char_is_signed process
            (detect_lsp lib pid process (detect_mcp lib process history).2).2).2)) ∧
    ∀ what : String,
      process.read_stdout_line
          ((detect_lsp lib pid process (detect_mcp lib process history).2).2 ++
            [IoEvent.read_stdout_line]) = Except.error what →
      ¬ (detect_chromium_ipc char_is_signed process
          (detect_lsp lib pid process (detect_mcp lib process history).2).2).1.confidence >
            60 / 100 := by
  have hmcp : ((detect_mcp lib process history).1.type = ProtocolType.MCP ∧
      (detect_mcp lib process history).1.confidence ≥ 70 / 100) ↔
      ((detect_mcp lib process history).1.type = ProtocolType.MCP ∧
        (detect_mcp lib process history).1.confidence > 70 / 100) :=
    ⟨fun h => ⟨h.1, detect_mcp_confidence lib process history h.1⟩,
      fun h => ⟨h.1, le_of_lt h.2⟩⟩
  have hlsp : ∀ past : List IoEvent,
      ((detect_lsp lib pid process past).1.type = ProtocolType.LSP ∧
        (detect_lsp lib pid process past).1.confidence ≥ 80 / 100) ↔
      ((detect_lsp lib pid process past).1.type = ProtocolType.LSP ∧
        (detect_lsp lib pid process past).1.confidence > 80 / 100) :=
    fun past => ⟨fun h => ⟨h.1, detect_lsp_confidence lib pid process past h.1⟩,
      fun h => ⟨h.1, le_of_lt h.2⟩⟩
  refine ⟨?_, ?_⟩
  · unfold detect_from_stdio
    simp only [hrun, Bool.not_true, Bool.false_eq_true, if_false]
    by_cases h1 : (detect_mcp lib process history).1.type = ProtocolType.MCP ∧
        (detect_mcp lib process history).1.confidence > 70 / 100
    · rw [if_pos h1, if_pos (hmcp.mpr h1)]
    · rw [if_neg h1, if_neg (fun h => h1 (hmcp.mp h))]
      by_cases h2 : (detect_lsp lib pid process (detect_mcp lib process history).2).1.type =
          ProtocolType.LSP ∧
          (detect_lsp lib pid process (detect_mcp lib process history).2).1.confidence >
            80 / 100
      · rw [if_pos h2, if_pos ((hlsp _).mpr h2)]
      · rw [if_neg h2, if_neg (fun h => h2 ((hlsp _).mp h))]
  · intro what hread
    rw [detect_chromium_ipc_timeout char_is_signed process _ what hread]
    show ¬ ((60 / 100 : ℚ) < 60 / 100)
    exact lt_irrefl _

/-- The detection order at a concrete input: the JSON-RPC server of the example is running, and the detector
answers with the best guess, the result of the MCP probe. -/
theorem detect_from_stdio_order_witness :
    jsonRpcProcess.is_running [] = true ∧
    (detect_from_stdio detectorJsonLib 4242 true (some jsonRpcProcess) []).1 =
      ⟨ProtocolType.GenericJSONRPC, "Generic JSON-RPC", 60 / 100,
        "Valid JSON-RPC response but missing MCP-specific fields"⟩ := by
  refine ⟨rfl, ?_⟩
  have h := (detect_from_stdio_order detectorJsonLib 4242 true jsonRpcProcess [] rfl).1
  rw [h, jsonRpc_mcp_probe]
  dsimp only
  rw [jsonRpc_lsp_probe]
  dsimp only
  rw [jsonRpc_chromium_probe]
  norm_num [bestGuess]

/-- C21 as stated fails: the MCP probe finds a JSON-RPC result without MCP
fields, the LSP probe finds no header and the read of the Chromium probe times out. The
Chromium result has confidence 0.60, which is at least 0.6, and the two earlier results are
not confident; yet the detector does not return the Chromium result. -/
theorem detect_from_stdio_counterexample :
    ¬ ((detect_mcp detectorJsonLib jsonRpcProcess []).1.type = ProtocolType.MCP ∧
        (detect_mcp detectorJsonLib jsonRpcProcess []).1.confidence ≥ 70 / 100) ∧
    ¬ ((detect_lsp detectorJsonLib 4242 jsonRpcProcess
          (detect_mcp detectorJsonLib jsonRpcProcess []).2).1.type = ProtocolType.LSP ∧
        (detect_lsp detectorJsonLib 4242 jsonRpcProcess
          (detect_mcp detectorJsonLib jsonRpcProcess []).2).1.confidence ≥ 80 / 100) ∧
    (detect_chromium_ipc true jsonRpcProcess
      (detect_lsp detectorJsonLib 4242 jsonRpcProcess
        (detect_mcp detectorJsonLib jsonRpcProcess []).2).2).1.confidence ≥ 60 / 100 ∧
    (detect_from_stdio detectorJsonLib 4242 true (some jsonRpcProcess) []).1 ≠
      (detect_chromium_ipc true jsonRpcProcess
        (detect_lsp detectorJsonLib 4242 jsonRpcProcess
          (detect_mcp detectorJsonLib jsonRpcProcess []).2).2).1 := by
  have hresult : (detect_from_stdio detectorJsonLib 4242 true (some jsonRpcProcess) []).1 =
      ⟨ProtocolType.GenericJSONRPC, "Generic JSON-RPC", 60 / 100,
        "Valid JSON-RPC response but missing MCP-specific fields"⟩ := by
    unfold detect_from_stdio
    have hrun : jsonRpcProcess.is_running [] = true := rfl
    simp only [hrun, Bool.not_true, Bool.false_eq_true, if_false]
    rw [jsonRpc_mcp_probe]
    dsimp only
    rw [jsonRpc_lsp_probe]
    dsimp only
    rw [jsonRpc_chromium_probe]
    norm_num [bestGuess]
  rw [hresult, jsonRpc_mcp_probe]
  dsimp only
  rw [jsonRpc_lsp_probe]
  dsimp only
  rw [jsonRpc_chromium_probe]
  refine ⟨?_, ?_, ?_, ?_⟩
  · intro h
    exact absurd h.1 (by decide)
  · intro h
    exact absurd h.1 (by decide)
  · exact le_refl _
  · intro h
    exact absurd (congrArg ProtocolSignature.type h) (by decide)

/-! ## HTTP probe: authentication challenges and the direct POST fallback -/

/-- The search `find` succeeds exactly when the needle occurs in the text. -/
theorem findFrom_isSome_iff (needle hay : List Char) (pos : Nat) :
    (findFrom needle hay pos).isSome = true ↔ needle <:+: hay := by
  induction hay generalizing pos with
  | nil =>
    unfold findFrom
    rw [List.infix_nil]
    cases needle <;> simp
  | cons c cs ih =>
    unfold findFrom
    rw [List.infix_cons_iff, ← List.isPrefixOf_iff_prefix]
    by_cases h : needle.isPrefixOf (c :: cs) = true
    · simp [h]
    · simp only [h, Bool.false_eq_true, if_false, false_or]
      exact ih (pos + 1)

/-- The test of the code, a search in the lowered text, finds the keyword exactly when the
text contains it with the case of letters ignored. -/
theorem containsIgnoreCase_iff (s t : String) :
    containsIgnoreCase s t ↔ (strFind (toLowerText s) t).isSome = true := by
  unfold strFind toLowerText containsIgnoreCase
  rw [findFrom_isSome_iff]
  exact Iff.rfl
/-- C23: for a candidate with a non-empty url and transport hint Http or Unknown, when
`GET url + "/sse"` is answered by status 401 or 403 and a body that contains one of the
five keywords with the case of letters ignored, `HttpTestingEngine::test` returns a server
with transport type Http, the url `url + "/sse"` and empty server name, server version and
protocol version; the GET is the only request sent, so no POST is made. -/
theorem sse_auth_challenge (lib : JsonLib) (http_client : HttpClient)
    (candidate : Candidate) (response : HttpResponse) (keyword : String)
    (hurl : candidate.url ≠ "")
    (hhint : candidate.transport_hint = TransportType.Http ∨
      candidate.transport_hint = TransportType.Unknown)
    (hget : http_client.get
      [HttpEvent.get (candidate.url ++ "/sse") [("Accept", "text/event-stream")]]
      (candidate.url ++ "/sse") [("Accept", "text/event-stream")] = Except.ok response)
    (hstatus : response.status_code = 401 ∨ response.status_code = 403)
    (hkeyword : keyword ∈ authKeywords)
    (hbody : containsIgnoreCase response.body keyword) :
    ∃ server : MCPServer,
      HttpTestingEngine.test lib ⟨some http_client⟩ candidate =
        (some server,
          [HttpEvent.get (candidate.url ++ "/sse") [("Accept", "text/event-stream")]]) ∧
      server.transport_type = TransportType.Http ∧
      server.candidate = { candidate with url := candidate.url ++ "/sse" } ∧
      server.server_name = "" ∧ server.server_version = "" ∧
      server.protocol_version = "" := by
  have hfound : ((strFind (toLowerText response.body) "authentication").isSome ||
      (strFind (toLowerText response.body) "unauthorized").isSome ||
      (strFind (toLowerText response.body) "session").isSome ||
      (strFind (toLowerText response.body) "token").isSome ||
      (strFind (toLowerText response.body) "mcp").isSome) = true := by
    have hk := (containsIgnoreCase_iff response.body keyword).mp hbody
    unfold authKeywords at hkeyword
    simp only [List.mem_cons, List.mem_singleton, List.not_mem_nil, or_false] at hkeyword
    rcases hkeyword with h | h | h | h | h <;> subst h <;> simp [hk]
  have hsse : try_sse_transport lib http_client candidate [] =
      (some (httpServerAt candidate (candidate.url ++ "/sse")),
        [HttpEvent.get (candidate.url ++ "/sse") [("Accept", "text/event-stream")]]) := by
    unfold try_sse_transport
    simp only [List.nil_append, hget, hstatus, if_true, hfound]
  have hnot : ¬ (candidate.transport_hint ≠ TransportType.Http ∧
      candidate.transport_hint ≠ TransportType.Unknown) := by
    rintro ⟨h1, h2⟩
    rcases hhint with h | h
    · exact h1 h
    · exact h2 h
  refine ⟨httpServerAt candidate (candidate.url ++ "/sse"), ?_, rfl, rfl, rfl, rfl, rfl⟩
  unfold HttpTestingEngine.test
  rw [if_neg hurl, if_neg hnot]
  simp only [hsse]

/-- The SSE authentication challenge at a concrete input: the protected server of the example answers `GET /sse` by 401 and a
text with the word `Token`. -/
theorem sse_auth_challenge_witness :
    httpCandidate.url ≠ "" ∧
    containsIgnoreCase (plainAnswer 401 "Missing bearer Token").body "token" ∧
    ∃ server : MCPServer,
      HttpTestingEngine.test sampleJsonLib ⟨some protectedSseClient⟩ httpCandidate =
        (some server,
          [HttpEvent.get (httpCandidate.url ++ "/sse") [("Accept", "text/event-stream")]]) ∧
      server.transport_type = TransportType.Http ∧
      server.candidate = { httpCandidate with url := httpCandidate.url ++ "/sse" } ∧
      server.server_name = "" ∧ server.server_version = "" ∧
      server.protocol_version = "" :=
  have hbody : containsIgnoreCase (plainAnswer 401 "Missing bearer Token").body "token" :=
    ⟨"missing bearer ".toList, [], rfl⟩
  ⟨by decide, hbody,
    sse_auth_challenge sampleJsonLib protectedSseClient httpCandidate
      (plainAnswer 401 "Missing bearer Token") "token" (by decide) (Or.inl rfl) rfl
      (Or.inl rfl) (by simp [authKeywords]) hbody⟩

/-- One round of the POST loop whose outcome confirms nothing: the loop goes on. -/
theorem postLoop_cons_nothing (lib : JsonLib) (http_client : HttpClient)
    (candidate : Candidate) (path : String) (rest : List String) (history : List HttpEvent)
    (h : confirmsNothing lib (http_client.post
      (history ++ [HttpEvent.post (candidate.url ++ path)
        (lib.dump (create_initialize_request 1)) []])
      (candidate.url ++ path) (lib.dump (create_initialize_request 1)) []) = true) :
    postLoop lib http_client candidate (path :: rest) history =
      postLoop lib http_client candidate rest
        (history ++ [HttpEvent.post (candidate.url ++ path)
          (lib.dump (create_initialize_request 1)) []]) := by
  rw [postLoop]
  dsimp only
  cases hpost : http_client.post
      (history ++ [HttpEvent.post (candidate.url ++ path)
        (lib.dump (create_initialize_request 1)) []])
      (candidate.url ++ path) (lib.dump (create_initialize_request 1)) [] with
  | error what => rfl
  | ok response =>
    rw [hpost] at h
    unfold confirmsNothing at h
    dsimp only at h ⊢
    cases hparse : lib.parse response.body with
    | some json_response =>
      rw [hparse] at h
      dsimp only at h ⊢
      by_cases hs : response.status_code = 200
      · simp only [hs, true_or, decide_True, Bool.not_true, Bool.false_or,
          Bool.not_eq_true'] at h
        simp [hs, h]
      · by_cases ha : response.status_code = 401 ∨ response.status_code = 403
        · simp only [ha, or_true, decide_True, Bool.not_true, Bool.false_or,
            Bool.not_eq_true'] at h
          simp [hs, ha, h]
        · simp [hs, ha]
    | none =>
      rw [hparse] at h
      dsimp only at h ⊢
      by_cases ha : response.status_code = 401 ∨ response.status_code = 403
      · simp only [ha, decide_True, Bool.not_true, Bool.false_or] at h
        have hnone : ∀ keyword ∈ authKeywords,
            (strFind (toLowerText response.body) keyword).isSome = false := by
          intro keyword hk
          have h1 := List.all_eq_true.mp h keyword hk
          have h2 : ¬ containsIgnoreCase response.body keyword := by simpa using h1
          rw [containsIgnoreCase_iff] at h2
          simpa using h2
        have h1 := hnone "authentication" (by simp [authKeywords])
        have h2 := hnone "unauthorized" (by simp [authKeywords])
        have h3 := hnone "session" (by simp [authKeywords])
        have h4 := hnone "mcp" (by simp [authKeywords])
        simp [ha, h1, h2, h3, h4]
      · by_cases hs : response.status_code = 200
        · simp [hs]
        · simp [hs, ha]

/-- One round of the POST loop whose answer confirms a server: the loop ends there. -/
theorem postLoop_cons_confirms (lib : JsonLib) (http_client : HttpClient)
    (candidate : Candidate) (path : String) (rest : List String) (history : List HttpEvent)
    (response : HttpResponse)
    (hpost : http_client.post
      (history ++ [HttpEvent.post (candidate.url ++ path)
        (lib.dump (create_initialize_request 1)) []])
      (candidate.url ++ path) (lib.dump (create_initialize_request 1)) [] =
        Except.ok response)
    (h : confirmsServer lib response = true) :
    postLoop lib http_client candidate (path :: rest) history =
      (some (match lib.parse response.body with
          | some json_response =>
            extract_server_info json_response
              (httpServerAt candidate (candidate.url ++ path))
          | none => httpServerAt candidate (candidate.url ++ path)),
        history ++ [HttpEvent.post (candidate.url ++ path)
          (lib.dump (create_initialize_request 1)) []]) := by
  rw [postLoop]
  dsimp only
  rw [hpost]
  unfold confirmsServer at h
  dsimp only at h ⊢
  cases hparse : lib.parse response.body with
  | some json_response =>
    rw [hparse] at h
    simp only [Bool.and_eq_true, decide_eq_true_eq] at h
    obtain ⟨hstatus, hvalid⟩ := h
    have hgo : (!decide (response.status_code = 200) &&
        !decide (response.status_code = 401 ∨ response.status_code = 403)) = false := by
      rcases hstatus with h | h | h <;> simp [h]
    simp only [hgo, hvalid, Bool.false_eq_true, if_false, Bool.not_true]
  | none =>
    rw [hparse] at h
    simp only [Bool.and_eq_true, decide_eq_true_eq, List.any_eq_true] at h
    obtain ⟨hstatus, keyword, hk, hbody⟩ := h
    have hfound := (containsIgnoreCase_iff response.body keyword).mp hbody
    have hgo : (!decide (response.status_code = 200) &&
        !decide (response.status_code = 401 ∨ response.status_code = 403)) = false := by
      simp [hstatus]
    have hkey : ((strFind (toLowerText response.body) "authentication").isSome ||
        (strFind (toLowerText response.body) "unauthorized").isSome ||
        (strFind (toLowerText response.body) "session").isSome ||
        (strFind (toLowerText response.body) "mcp").isSome) = true := by
      unfold postKeywords at hk
      simp only [List.mem_cons, List.mem_singleton, List.not_mem_nil, or_false] at hk
      rcases hk with h | h | h | h <;> subst h <;> simp [hfound]
    simp only [hgo, hstatus, hkey, Bool.false_eq_true, if_false, decide_True, if_true,
      Bool.not_true, Bool.and_false]

/-- The POST loop passes over every path whose outcome confirms nothing. -/
theorem postLoop_append_nothing (lib : JsonLib) (http_client : HttpClient)
    (candidate : Candidate) (before rest : List String) (history : List HttpEvent)
    (h : ∀ earlier later : List String, ∀ path : String,
      before = earlier ++ path :: later →
      confirmsNothing lib (http_client.post
        (postHistory lib candidate history (earlier ++ [path]))
        (candidate.url ++ path) (lib.dump (create_initialize_request 1)) []) = true) :
    postLoop lib http_client candidate (before ++ rest) history =
      postLoop lib http_client candidate rest (postHistory lib candidate history before) := by
  induction before generalizing history with
  | nil => simp [postHistory]
  | cons path before ih =>
    have hfirst := h [] before path rfl
    simp only [postHistory, List.nil_append, List.map_cons, List.map_nil] at hfirst
    rw [List.cons_append, postLoop_cons_nothing lib http_client candidate path _ history hfirst,
      ih]
    · simp [postHistory]
    · intro earlier later p hsplit
      have := h (path :: earlier) later p (by rw [hsplit]; rfl)
      simpa [postHistory] using this

/-- The member function `extract_server_info` leaves the candidate and the transport type of the
server as they are. -/
theorem extract_server_info_candidate (response : Json) (server : MCPServer) :
    (extract_server_info response server).candidate = server.candidate ∧
    (extract_server_info response server).transport_type = server.transport_type := by
  unfold extract_server_info
  dsimp only
  split_ifs <;> exact ⟨rfl, rfl⟩

/-- C24, amended: when the SSE sub-probe yields nothing, `HttpTestingEngine::test` POSTs
to `url`, `url + "/messages"`, `url + "/rpc"` in that order and confirms the server at the
first path whose answer confirms a server (status 200, 401 or 403 with a valid JSON-RPC
2.0 body, or status 401 or 403 with a body that is not JSON and contains `authentication`,
`unauthorized`, `session` or `mcp` with the case of letters ignored), the earlier paths
having confirmed nothing; a body that is JSON without being valid JSON-RPC 2.0 confirms
nothing, whatever it contains. When no path confirms anything, all three POSTs are sent
and no server is returned. -/
theorem direct_post_fallback (lib : JsonLib) (http_client : HttpClient)
    (candidate : Candidate) (history : List HttpEvent)
    (hurl : candidate.url ≠ "")
    (hhint : candidate.transport_hint = TransportType.Http ∨
      candidate.transport_hint = TransportType.Unknown)
    (hsse : try_sse_transport lib http_client candidate [] = (none, history)) :
    (∀ (before after : List String) (path : String) (response : HttpResponse),
      ["", "/messages", "/rpc"] = before ++ path :: after →
      (∀ (earlier later : List String) (p : String), before = earlier ++ p :: later →
        confirmsNothing lib (http_client.post
          (postHistory lib candidate history (earlier ++ [p]))
          (candidate.url ++ p) (lib.dump (create_initialize_request 1)) []) = true) →
      http_client.post (postHistory lib candidate history (before ++ [path]))
        (candidate.url ++ path) (lib.dump (create_initialize_request 1)) [] =
          Except.ok response →
      confirmsServer lib response = true →
      ∃ server : MCPServer,
        HttpTestingEngine.test lib ⟨some http_client⟩ candidate =
          (some server, postHistory lib candidate history (before ++ [path])) ∧
        server.candidate = { candidate with url := candidate.url ++ path } ∧
        server.transport_type = TransportType.Http) ∧
    ((∀ (earlier later : List String) (p : String),
        ["", "/messages", "/rpc"] = earlier ++ p :: later →
        confirmsNothing lib (http_client.post
          (postHistory lib candidate history (earlier ++ [p]))
          (candidate.url ++ p) (lib.dump (create_initialize_request 1)) []) = true) →
      HttpTestingEngine.test lib ⟨some http_client⟩ candidate =
        (none, postHistory lib candidate history ["", "/messages", "/rpc"])) ∧
    (∀ (response : HttpResponse) (json_response : Json),
      lib.parse response.body = some json_response →
      is_valid_mcp_response json_response = false →
      confirmsNothing lib (Except.ok response) = true) := by
  have hnot : ¬ (candidate.transport_hint ≠ TransportType.Http ∧
      candidate.transport_hint ≠ TransportType.Unknown) := by
    rintro ⟨h1, h2⟩
    rcases hhint with h | h
    · exact h1 h
    · exact h2 h
  have htest : HttpTestingEngine.test lib ⟨some http_client⟩ candidate =
      postLoop lib http_client candidate ["", "/messages", "/rpc"] history := by
    unfold HttpTestingEngine.test
    rw [if_neg hurl, if_neg hnot]
    simp only [hsse]
  refine ⟨?_, ?_, ?_⟩
  · intro before after path response hpaths hbefore hpost hconfirms
    have hpost2 : http_client.post
        (postHistory lib candidate history before ++
          [HttpEvent.post (candidate.url ++ path) (lib.dump (create_initialize_request 1)) []])
        (candidate.url ++ path) (lib.dump (create_initialize_request 1)) [] =
          Except.ok response := by
      have heq : postHistory lib candidate history before ++
          [HttpEvent.post (candidate.url ++ path)
            (lib.dump (create_initialize_request 1)) []] =
          postHistory lib candidate history (before ++ [path]) := by
        simp [postHistory]
      rw [heq]
      exact hpost
    have hloop := postLoop_cons_confirms lib http_client candidate path after
      (postHistory lib candidate history before) response hpost2 hconfirms
    rw [htest, hpaths,
      postLoop_append_nothing lib http_client candidate before (path :: after) history hbefore,
      hloop]
    have heq : postHistory lib candidate history before ++
        [HttpEvent.post (candidate.url ++ path)
          (lib.dump (create_initialize_request 1)) []] =
        postHistory lib candidate history (before ++ [path]) := by
      simp [postHistory]
    rw [heq]
    refine ⟨_, rfl, ?_, ?_⟩
    · cases lib.parse response.body with
      | none => rfl
      | some json_response =>
        exact (extract_server_info_candidate json_response _).1
    · cases lib.parse response.body with
      | none => rfl
      | some json_response =>
        exact (extract_server_info_candidate json_response _).2
  · intro hall
    have h := postLoop_append_nothing lib http_client candidate ["", "/messages", "/rpc"] []
      history hall
    rw [List.append_nil] at h
    rw [htest, h, postLoop]
  · intro response json_response hparse hvalid
    unfold confirmsNothing
    simp only [hparse, hvalid, Bool.not_false, Bool.or_true]
/-- The direct POST fallback at a concrete input: the server of the example has no SSE endpoint and answers the POST to
`/rpc` only; it is confirmed there, after the POSTs to the two earlier paths. -/
theorem direct_post_fallback_witness :
    httpCandidate.url ≠ "" ∧
    try_sse_transport httpJsonLib rpcPathClient httpCandidate [] =
      (none, [HttpEvent.get "http://127.0.0.1:8080/sse" [("Accept", "text/event-stream")]]) ∧
    ∃ server : MCPServer,
      HttpTestingEngine.test httpJsonLib ⟨some rpcPathClient⟩ httpCandidate =
        (some server,
          postHistory httpJsonLib httpCandidate
            [HttpEvent.get "http://127.0.0.1:8080/sse" [("Accept", "text/event-stream")]]
            (["", "/messages"] ++ ["/rpc"])) ∧
      server.candidate = { httpCandidate with url := httpCandidate.url ++ "/rpc" } ∧
      server.transport_type = TransportType.Http := by
  have hbefore : ∀ (earlier later : List String) (p : String),
      ["", "/messages"] = earlier ++ p :: later →
      confirmsNothing httpJsonLib (rpcPathClient.post
        (postHistory httpJsonLib httpCandidate
          [HttpEvent.get "http://127.0.0.1:8080/sse" [("Accept", "text/event-stream")]]
          (earlier ++ [p]))
        (httpCandidate.url ++ p)
        (httpJsonLib.dump (create_initialize_request 1)) []) = true := by
    intro earlier later p hsplit
    have hp : p ∈ ["", "/messages"] := by
      rw [hsplit]
      exact List.mem_append_right _ (List.mem_cons_self _ _)
    simp only [List.mem_cons, List.mem_singleton, List.not_mem_nil, or_false] at hp
    rcases hp with h | h <;> subst h <;> rfl
  exact ⟨by decide, rfl,
    (direct_post_fallback httpJsonLib rpcPathClient httpCandidate
      [HttpEvent.get "http://127.0.0.1:8080/sse" [("Accept", "text/event-stream")]]
      (by decide) (Or.inl rfl) rfl).1 ["", "/messages"] [] "/rpc"
      (plainAnswer 200 plainResultLine) rfl hbefore rfl rfl⟩

/-- C24 as stated fails: the server has no SSE endpoint and answers every POST
by status 401 and the body `{"error":"Unauthorized"}`, which contains the keyword
`unauthorized` with the case of letters ignored. The body is JSON and not a JSON-RPC 2.0
response, so no path confirms the server: all three POSTs are sent and nothing is
returned. -/
theorem direct_post_counterexample :
    (try_sse_transport httpJsonLib unauthorizedJsonClient httpCandidate []).1 = none ∧
    unauthorizedJsonClient.post
      [HttpEvent.get "http://127.0.0.1:8080/sse" [("Accept", "text/event-stream")],
        HttpEvent.post "http://127.0.0.1:8080" initializeRequestText []]
      "http://127.0.0.1:8080" initializeRequestText [] =
        Except.ok (plainAnswer 401 unauthorizedJsonText) ∧
    "unauthorized" ∈ authKeywords ∧
    containsIgnoreCase (plainAnswer 401 unauthorizedJsonText).body "unauthorized" ∧
    HttpTestingEngine.test httpJsonLib ⟨some unauthorizedJsonClient⟩ httpCandidate =
      (none,
        [HttpEvent.get "http://127.0.0.1:8080/sse" [("Accept", "text/event-stream")],
          HttpEvent.post "http://127.0.0.1:8080" initializeRequestText [],
          HttpEvent.post "http://127.0.0.1:8080/messages" initializeRequestText [],
          HttpEvent.post "http://127.0.0.1:8080/rpc" initializeRequestText []]) := by
  refine ⟨rfl, rfl, ?_, ?_, rfl⟩
  · simp [authKeywords]
  · exact ⟨"\x7b\"error\":\"".toList, "\"\x7d".toList, rfl⟩

/-- C22, amended: `is_valid_mcp_response` accepts a JSON value iff it has jsonrpc equal to
`"2.0"`, has a result or an error member, and has an id member; the value of the id is not
compared with the id of the initialize request. A response with these three properties,
whatever its id, is accepted by both transport probes: the stdio probe returns a server
when the spawned process answers with it, and the HTTP probe returns a server when the
first direct POST is answered by status 200 with it. -/
theorem mcp_response_validity :
    (∀ response : Json,
      is_valid_mcp_response response = true ↔
        (response.find "jsonrpc" = some (Json.string "2.0") ∧
          (response.contains "result" = true ∨ response.contains "error" = true) ∧
          response.contains "id" = true)) ∧
    (∀ (lib : JsonLib) (platform : PlatformAdapter) (candidate : Candidate)
        (process : Process) (line : String) (response : Json),
      candidate.command ≠ "" →
      (candidate.transport_hint = TransportType.Stdio ∨
        candidate.transport_hint = TransportType.Unknown) →
      (detect_from_process_info candidate).type ≠ ProtocolType.ChromiumIPC →
      (detect_from_process_info candidate).type ≠ ProtocolType.LSP →
      platform.spawn_process_with_pipes candidate.command = Except.ok (some process) →
      process.is_running [IoEvent.spawn candidate.command] = true →
      process.write_stdin
        [IoEvent.spawn candidate.command,
          IoEvent.write_stdin (lib.dump (create_initialize_request 1) ++ "\n")]
        (lib.dump (create_initialize_request 1) ++ "\n") = none →
      process.read_stdout_line
        [IoEvent.spawn candidate.command,
          IoEvent.write_stdin (lib.dump (create_initialize_request 1) ++ "\n"),
          IoEvent.read_stdout_line] = Except.ok line →
      lib.parse line = some response →
      is_valid_mcp_response response = true →
      ∃ server : MCPServer,
        (StdioTestingEngine.test lib ⟨some platform⟩ candidate).1 = some server) ∧
    (∀ (lib : JsonLib) (http_client : HttpClient) (candidate : Candidate)
        (history : List HttpEvent) (answer : HttpResponse) (response : Json),
      candidate.url ≠ "" →
      (candidate.transport_hint = TransportType.Http ∨
        candidate.transport_hint = TransportType.Unknown) →
      try_sse_transport lib http_client candidate [] = (none, history) →
      http_client.post
        (history ++ [HttpEvent.post (candidate.url ++ "")
          (lib.dump (create_initialize_request 1)) []])
        (candidate.url ++ "") (lib.dump (create_initialize_request 1)) [] =
          Except.ok answer →
      answer.status_code = 200 →
      lib.parse answer.body = some response →
      is_valid_mcp_response response = true →
      ∃ server : MCPServer,
        (HttpTestingEngine.test lib ⟨some http_client⟩ candidate).1 = some server) := by
  refine ⟨?_, ?_, ?_⟩
  · intro response
    unfold is_valid_mcp_response Json.contains Json.index
    cases hj : response.find "jsonrpc" with
    | none => simp
    | some version =>
      cases version with
      | string s =>
        by_cases hs : s = "2.0"
        · subst hs
          cases hr : (response.find "result").isSome <;>
            cases he : (response.find "error").isSome <;>
            cases hi : (response.find "id").isSome <;> simp
        · simp [hs]
      | _ => simp
  · intro lib platform candidate process line response hcommand hhint hchromium hlsp hspawn
      hrun hwrite hread hparse hvalid
    have hnot : ¬ (candidate.transport_hint ≠ TransportType.Stdio ∧
        candidate.transport_hint ≠ TransportType.Unknown) := by
      rintro ⟨h1, h2⟩
      rcases hhint with h | h
      · exact h1 h
      · exact h2 h
    have hpassive : ¬ ((detect_from_process_info candidate).type = ProtocolType.ChromiumIPC ∨
        (detect_from_process_info candidate).type = ProtocolType.LSP) := by
      rintro (h | h)
      · exact hchromium h
      · exact hlsp h
    unfold StdioTestingEngine.test
    rw [if_neg hcommand, if_neg hnot]
    dsimp only
    rw [if_neg hpassive, hspawn]
    dsimp only
    rw [hrun]
    unfold stdioHandshake
    simp only [Bool.not_true, Bool.false_eq_true, if_false, List.singleton_append,
      List.cons_append, List.nil_append, hwrite, hread, hparse, hvalid]
    exact ⟨_, rfl⟩
  · intro lib http_client candidate history answer response hurl hhint hsse hpost hstatus
      hparse hvalid
    have hnot : ¬ (candidate.transport_hint ≠ TransportType.Http ∧
        candidate.transport_hint ≠ TransportType.Unknown) := by
      rintro ⟨h1, h2⟩
      rcases hhint with h | h
      · exact h1 h
      · exact h2 h
    have hconfirms : confirmsServer lib answer = true := by
      unfold confirmsServer
      simp only [hparse, hstatus, true_or, decide_True, hvalid, Bool.and_self]
    unfold HttpTestingEngine.test
    rw [if_neg hurl, if_neg hnot]
    simp only [hsse]
    rw [postLoop_cons_confirms lib http_client candidate "" _ history answer hpost hconfirms]
    exact ⟨_, rfl⟩

/-- C22 as stated fails: the response `{"id":7,"jsonrpc":"2.0","result":{}}`
answers the request with id `1`; it is accepted by `is_valid_mcp_response`, and both
probes return a server on it. -/
theorem mcp_response_validity_counterexample :
    (create_initialize_request 1).find "id" = some (Json.number_integer 1) ∧
    otherIdResponse.find "id" = some (Json.number_integer 7) ∧
    is_valid_mcp_response otherIdResponse = true ∧
    ((StdioTestingEngine.test httpJsonLib ⟨some (answeringPlatform otherIdLine)⟩
      nodeCandidate).1).isSome = true ∧
    ((HttpTestingEngine.test httpJsonLib ⟨some otherIdClient⟩ httpCandidate).1).isSome =
      true := by
  refine ⟨rfl, rfl, rfl, ?_, ?_⟩
  · rfl
  · rfl

/-! ## Server interrogation: template parameters, caps, tool parameters -/

/-- A search for a character that is not in the text fails. -/
theorem findFrom_char_none (c : Char) (s : List Char) (pos : Nat) (h : c ∉ s) :
    findFrom [c] s pos = none := by
  rw [findFrom_char, if_neg h]

/-- A search for a character finds its first occurrence. -/
theorem findFrom_char_first (c : Char) (before after : List Char) (pos : Nat)
    (h : c ∉ before) : findFrom [c] (before ++ c :: after) pos = some (pos + before.length) := by
  rw [findFrom_char, if_pos (by simp)]
  have htake : (before ++ c :: after).takeWhile (fun x => x != c) = before := by
    rw [List.takeWhile_append_of_pos]
    · simp
    · intro x hx
      have : x ≠ c := fun hxc => h (hxc ▸ hx)
      simpa using this
  rw [htake]

/-- The loop on a template `s ++ segments ++ tail`, from the position of `s`, where `tail`
is empty or an opening brace that is never closed: it extracts the parameters of the
segments, given one round of fuel more than there are segments. -/
theorem templateLoop_segments (done : List Char) (segments : List (List Char × List Char)) :
    ∀ (s tail : List Char) (fuel : Nat) (parameters : List String) (processed : List Char),
      segments.length < fuel →
      '\x7b' ∉ s →
      (∀ segment ∈ segments, '\x7d' ∉ segment.1 ∧ '\x7b' ∉ segment.2) →
      (tail = [] ∨ ∃ rest, tail = '\x7b' :: rest ∧ '\x7d' ∉ rest) →
      done = processed ++ (s ++ templateSegments segments ++ tail) →
      templateLoop done fuel processed.length parameters =
        some (parameters ++ segments.map (fun segment => String.mk segment.1)) := by
  induction segments with
  | nil =>
    intro s tail fuel parameters processed hfuel hs _ htail hdone
    obtain ⟨fuel, rfl⟩ : ∃ f, fuel = f + 1 := ⟨fuel - 1, by simp at hfuel; omega⟩
    have hdrop : done.drop processed.length = s ++ tail := by
      rw [hdone, List.drop_left]
      simp [templateSegments]
    rw [templateLoop, hdrop]
    rcases htail with htail | ⟨rest, htail, hrest⟩
    · subst htail
      rw [List.append_nil, findFrom_char_none _ _ _ hs]
      simp
    · subst htail
      rw [findFrom_char_first _ _ _ _ hs]
      dsimp only
      have hdrop2 : done.drop (processed.length + s.length) = '\x7b' :: rest := by
        rw [hdone]
        have : processed ++ (s ++ templateSegments [] ++ '\x7b' :: rest) =
            (processed ++ s) ++ '\x7b' :: rest := by
          simp [templateSegments]
        rw [this, ← List.length_append, List.drop_left]
      rw [hdrop2, findFrom_char_none]
      · simp
      · intro hmem
        rcases List.mem_cons.mp hmem with h | h
        · exact absurd h (by decide)
        · exact hrest h
  | cons segment segments ih =>
    intro s tail fuel parameters processed hfuel hs hsegments htail hdone
    obtain ⟨fuel, rfl⟩ : ∃ f, fuel = f + 1 := ⟨fuel - 1, by simp at hfuel; omega⟩
    obtain ⟨p, t⟩ := segment
    have hp : '\x7d' ∉ p := (hsegments (p, t) (List.mem_cons_self _ _)).1
    have ht : '\x7b' ∉ t := (hsegments (p, t) (List.mem_cons_self _ _)).2
    have hshape : s ++ templateSegments ((p, t) :: segments) ++ tail =
        s ++ '\x7b' :: (p ++ '\x7d' :: (t ++ templateSegments segments ++ tail)) := by
      simp [templateSegments]
    have hdrop : done.drop processed.length =
        s ++ '\x7b' :: (p ++ '\x7d' :: (t ++ templateSegments segments ++ tail)) := by
      rw [hdone, List.drop_left, hshape]
    rw [templateLoop, hdrop, findFrom_char_first _ _ _ _ hs]
    dsimp only
    have hdrop2 : done.drop (processed.length + s.length) =
        ('\x7b' :: p) ++ '\x7d' :: (t ++ templateSegments segments ++ tail) := by
      rw [hdone, hshape]
      have : processed ++ (s ++ '\x7b' :: (p ++ '\x7d' ::
            (t ++ templateSegments segments ++ tail))) =
          (processed ++ s) ++ (('\x7b' :: p) ++ '\x7d' ::
            (t ++ templateSegments segments ++ tail)) := by
        simp
      rw [this, ← List.length_append, List.drop_left]
    have hopen : '\x7d' ∉ '\x7b' :: p := by
      intro hmem
      rcases List.mem_cons.mp hmem with h | h
      · exact absurd h (by decide)
      · exact hp h
    rw [hdrop2, findFrom_char_first _ _ _ _ hopen]
    dsimp only
    have hdrop3 : done.drop (processed.length + s.length + 1) =
        p ++ '\x7d' :: (t ++ templateSegments segments ++ tail) := by
      rw [← List.drop_drop, hdrop2]
      rfl
    have hlen : processed.length + s.length + ('\x7b' :: p).length -
        (processed.length + s.length) - 1 = p.length := by
      simp
    rw [hdrop3, hlen, List.take_left]
    have hnext : processed.length + s.length + ('\x7b' :: p).length + 1 =
        (processed ++ s ++ '\x7b' :: p ++ ['\x7d']).length := by
      simp
      omega
    rw [hnext, ih t tail fuel (parameters ++ [String.mk p])
      (processed ++ s ++ '\x7b' :: p ++ ['\x7d'])
      (by simp at hfuel ⊢; omega) ht
      (fun segment hmem => hsegments segment (List.mem_cons_of_mem _ hmem)) htail
      (by rw [hdone, hshape]; simp)]
    simp

/-- The loop ends on every template: more rounds than the template has characters behind
the position are enough. -/
theorem templateLoop_terminates (uri_template : List Char) :
    ∀ (fuel pos : Nat) (parameters : List String),
      uri_template.length - pos < fuel →
      (templateLoop uri_template fuel pos parameters).isSome = true := by
  intro fuel
  induction fuel with
  | zero =>
    intro pos parameters hfuel
    exact absurd hfuel (Nat.not_lt_zero _)
  | succ fuel ih =>
    intro pos parameters hfuel
    rw [templateLoop]
    cases hopen : findFrom ['\x7b'] (uri_template.drop pos) pos with
    | none => rfl
    | some open_pos =>
      dsimp only
      cases hclose : findFrom ['\x7d'] (uri_template.drop open_pos) open_pos with
      | none => rfl
      | some end_pos =>
        dsimp only
        have h1 := findFrom_ge _ _ _ _ hopen
        have h2 := findFrom_ge _ _ _ _ hclose
        have hpos : pos < uri_template.length := by
          by_contra hge
          rw [List.drop_eq_nil_of_le (by omega)] at hopen
          simp [findFrom] at hopen
        exact ih (end_pos + 1) _ (by omega)

/-- The number of elements that a loop with counter `count` and cap `cap` still takes. -/
theorem take_cap_step (cap count : Int) (h : ¬ count ≥ cap) :
    (cap - count).toNat = (cap - (count + 1)).toNat + 1 := by
  omega

/-- The loop of `parse_tools_response` appends the tools of the first elements, as many as
the cap leaves room for. -/
theorem toolsLoop_eq (config : InterrogationConfig) (items : List Json) :
    ∀ (count : Int) (server : MCPServer),
      toolsLoop config items count server =
        { server with
          tools := server.tools ++
            (items.take (config.max_tools - count).toNat).map parseTool } := by
  induction items with
  | nil =>
    intro count server
    simp [toolsLoop]
  | cons item items ih =>
    intro count server
    rw [toolsLoop]
    by_cases h : count ≥ config.max_tools
    · rw [if_pos h]
      have hzero : (config.max_tools - count).toNat = 0 := by omega
      simp [hzero]
    · rw [if_neg h, ih, take_cap_step _ _ h]
      simp

/-- The loop of `parse_resources_response` appends the resources of the first elements, as
many as the cap leaves room for. -/
theorem resourcesLoop_eq (config : InterrogationConfig) (items : List Json) :
    ∀ (count : Int) (server : MCPServer),
      resourcesLoop config items count server =
        { server with
          resources := server.resources ++
            (items.take (config.max_resources - count).toNat).map parseResource } := by
  induction items with
  | nil =>
    intro count server
    simp [resourcesLoop]
  | cons item items ih =>
    intro count server
    rw [resourcesLoop]
    by_cases h : count ≥ config.max_resources
    · rw [if_pos h]
      have hzero : (config.max_resources - count).toNat = 0 := by omega
      simp [hzero]
    · rw [if_neg h, ih, take_cap_step _ _ h]
      simp

/-- The loop of `parse_resource_templates_response` appends the templates of the first
elements, as many as the cap `max_resources` leaves room for. -/
theorem resourceTemplatesLoop_eq (config : InterrogationConfig) (items : List Json) :
    ∀ (count : Int) (server : MCPServer),
      resourceTemplatesLoop config items count server =
        { server with
          resource_templates := server.resource_templates ++
            (items.take (config.max_resources - count).toNat).map parseResourceTemplate } := by
  induction items with
  | nil =>
    intro count server
    simp [resourceTemplatesLoop]
  | cons item items ih =>
    intro count server
    rw [resourceTemplatesLoop]
    by_cases h : count ≥ config.max_resources
    · rw [if_pos h]
      have hzero : (config.max_resources - count).toNat = 0 := by omega
      simp [hzero]
    · rw [if_neg h, ih, take_cap_step _ _ h]
      simp

/-- The loop of `parse_prompts_response` appends the prompts of the first elements, as
many as the cap leaves room for. -/
theorem promptsLoop_eq (config : InterrogationConfig) (items : List Json) :
    ∀ (count : Int) (server : MCPServer),
      promptsLoop config items count server =
        { server with
          prompts := server.prompts ++
            (items.take (config.max_prompts - count).toNat).map parsePrompt } := by
  induction items with
  | nil =>
    intro count server
    simp [promptsLoop]
  | cons item items ih =>
    intro count server
    rw [promptsLoop]
    by_cases h : count ≥ config.max_prompts
    · rw [if_pos h]
      have hzero : (config.max_prompts - count).toNat = 0 := by omega
      simp [hzero]
    · rw [if_neg h, ih, take_cap_step _ _ h]
      simp

/-- A member found under a key is what `contains` and the index operator see. -/
theorem Json.index_of_find (j value : Json) (key : String) (h : j.find key = some value) :
    j.contains key = true ∧ j.index key = value := by
  unfold Json.contains Json.index
  rw [h]
  exact ⟨rfl, rfl⟩

/-- The tools stored by `parse_tools_response` for a response whose `result.tools` is an
array. -/
theorem parse_tools_response_eq (config : InterrogationConfig) (response result : Json)
    (items : List Json) (server : MCPServer)
    (hresult : response.find "result" = some result)
    (hitems : result.find "tools" = some (Json.array items)) :
    parse_tools_response config response server =
      { server with
        tools := server.tools ++ (items.take config.max_tools.toNat).map parseTool } := by
  unfold parse_tools_response
  obtain ⟨h1, h2⟩ := Json.index_of_find response result "result" hresult
  obtain ⟨h3, h4⟩ := Json.index_of_find result (Json.array items) "tools" hitems
  simp only [h1, h2, h3, h4, Json.is_array, Json.elements, Bool.not_true, Bool.false_eq_true,
    if_false, Bool.or_self, toolsLoop_eq, sub_zero]

/-- The resources stored by `parse_resources_response` for a response whose
`result.resources` is an array. -/
theorem parse_resources_response_eq (config : InterrogationConfig) (response result : Json)
    (items : List Json) (server : MCPServer)
    (hresult : response.find "result" = some result)
    (hitems : result.find "resources" = some (Json.array items)) :
    parse_resources_response config response server =
      { server with
        resources := server.resources ++
          (items.take config.max_resources.toNat).map parseResource } := by
  unfold parse_resources_response
  obtain ⟨h1, h2⟩ := Json.index_of_find response result "result" hresult
  obtain ⟨h3, h4⟩ := Json.index_of_find result (Json.array items) "resources" hitems
  simp only [h1, h2, h3, h4, Json.is_array, Json.elements, Bool.not_true, Bool.false_eq_true,
    if_false, Bool.or_self, resourcesLoop_eq, sub_zero]

/-- The templates stored by `parse_resource_templates_response` for a response whose
`result.resourceTemplates` is an array. -/
theorem parse_resource_templates_response_eq (config : InterrogationConfig)
    (response result : Json) (items : List Json) (server : MCPServer)
    (hresult : response.find "result" = some result)
    (hitems : result.find "resourceTemplates" = some (Json.array items)) :
    parse_resource_templates_response config response server =
      { server with
        resource_templates := server.resource_templates ++
          (items.take config.max_resources.toNat).map parseResourceTemplate } := by
  unfold parse_resource_templates_response
  obtain ⟨h1, h2⟩ := Json.index_of_find response result "result" hresult
  obtain ⟨h3, h4⟩ := Json.index_of_find result (Json.array items) "resourceTemplates" hitems
  simp only [h1, h2, h3, h4, Json.is_array, Json.elements, Bool.not_true, Bool.false_eq_true,
    if_false, Bool.or_self, resourceTemplatesLoop_eq, sub_zero]

/-- The prompts stored by `parse_prompts_response` for a response whose `result.prompts`
is an array. -/
theorem parse_prompts_response_eq (config : InterrogationConfig) (response result : Json)
    (items : List Json) (server : MCPServer)
    (hresult : response.find "result" = some result)
    (hitems : result.find "prompts" = some (Json.array items)) :
    parse_prompts_response config response server =
      { server with
        prompts := server.prompts ++ (items.take config.max_prompts.toNat).map parsePrompt } := by
  unfold parse_prompts_response
  obtain ⟨h1, h2⟩ := Json.index_of_find response result "result" hresult
  obtain ⟨h3, h4⟩ := Json.index_of_find result (Json.array items) "prompts" hitems
  simp only [h1, h2, h3, h4, Json.is_array, Json.elements, Bool.not_true, Bool.false_eq_true,
    if_false, Bool.or_self, promptsLoop_eq, sub_zero]

/-- C26: for a server whose result lists are empty and a response whose result array has
`n` items, each of the four parsers stores exactly the first `min(n, max)` items, in the
order of the response, where `max` is `max_tools`, `max_resources`, `max_resources` and
`max_prompts`; nothing is stored when `max <= 0`. -/
theorem interrogation_caps (config : InterrogationConfig) (server : MCPServer)
    (htools : server.tools = []) (hresources : server.resources = [])
    (htemplates : server.resource_templates = []) (hprompts : server.prompts = []) :
    (∀ (response result : Json) (items : List Json),
      response.find "result" = some result →
      result.find "tools" = some (Json.array items) →
      (parse_tools_response config response server).tools =
          (items.take config.max_tools.toNat).map parseTool ∧
        (((parse_tools_response config response server).tools.length : Nat) : Int) =
          min (items.length : Int) (max config.max_tools 0) ∧
        (config.max_tools ≤ 0 → (parse_tools_response config response server).tools = [])) ∧
    (∀ (response result : Json) (items : List Json),
      response.find "result" = some result →
      result.find "resources" = some (Json.array items) →
      (parse_resources_response config response server).resources =
          (items.take config.max_resources.toNat).map parseResource ∧
        (((parse_resources_response config response server).resources.length : Nat) : Int) =
          min (items.length : Int) (max config.max_resources 0) ∧
        (config.max_resources ≤ 0 →
          (parse_resources_response config response server).resources = [])) ∧
    (∀ (response result : Json) (items : List Json),
      response.find "result" = some result →
      result.find "resourceTemplates" = some (Json.array items) →
      (parse_resource_templates_response config response server).resource_templates =
          (items.take config.max_resources.toNat).map parseResourceTemplate ∧
        (((parse_resource_templates_response config response
            server).resource_templates.length : Nat) : Int) =
          min (items.length : Int) (max config.max_resources 0) ∧
        (config.max_resources ≤ 0 →
          (parse_resource_templates_response config response server).resource_templates =
            [])) ∧
    (∀ (response result : Json) (items : List Json),
      response.find "result" = some result →
      result.find "prompts" = some (Json.array items) →
      (parse_prompts_response config response server).prompts =
          (items.take config.max_prompts.toNat).map parsePrompt ∧
        (((parse_prompts_response config response server).prompts.length : Nat) : Int) =
          min (items.length : Int) (max config.max_prompts 0) ∧
        (config.max_prompts ≤ 0 →
          (parse_prompts_response config response server).prompts = [])) := by
  have hlength : ∀ (cap : Int) (n : Nat),
      ((min cap.toNat n : Nat) : Int) = min (n : Int) (max cap 0) := by
    intro cap n
    omega
  have hnone : ∀ cap : Int, cap ≤ 0 → cap.toNat = 0 := by
    intro cap hcap
    omega
  refine ⟨?_, ?_, ?_, ?_⟩
  · intro response result items hresult hitems
    rw [parse_tools_response_eq config response result items server hresult hitems]
    refine ⟨by simp [htools], ?_, ?_⟩
    · simp only [htools, List.nil_append, List.length_map, List.length_take]
      exact hlength _ _
    · intro hcap
      simp [htools, hnone _ hcap]
  · intro response result items hresult hitems
    rw [parse_resources_response_eq config response result items server hresult hitems]
    refine ⟨by simp [hresources], ?_, ?_⟩
    · simp only [hresources, List.nil_append, List.length_map, List.length_take]
      exact hlength _ _
    · intro hcap
      simp [hresources, hnone _ hcap]
  · intro response result items hresult hitems
    rw [parse_resource_templates_response_eq config response result items server hresult
      hitems]
    refine ⟨by simp [htemplates], ?_, ?_⟩
    · simp only [htemplates, List.nil_append, List.length_map, List.length_take]
      exact hlength _ _
    · intro hcap
      simp [htemplates, hnone _ hcap]
  · intro response result items hresult hitems
    rw [parse_prompts_response_eq config response result items server hresult hitems]
    refine ⟨by simp [hprompts], ?_, ?_⟩
    · simp only [hprompts, List.nil_append, List.length_map, List.length_take]
      exact hlength _ _
    · intro hcap
      simp [hprompts, hnone _ hcap]

/-- The caps at a concrete input, the unit test `EnforceToolsLimit`; of three tools the first two are
stored on a fresh server. -/
theorem interrogation_caps_witness :
    MCPServer.init.tools = [] ∧
    (parse_tools_response twoToolsConfig threeToolsResponse MCPServer.init).tools =
      [parseTool (bareToolJson "tool1" "Tool 1"), parseTool (bareToolJson "tool2" "Tool 2")] :=
  ⟨rfl,
    ((interrogation_caps twoToolsConfig MCPServer.init rfl rfl rfl rfl).1 threeToolsResponse
      (Json.object
        [ ("tools", Json.array
            [ bareToolJson "tool1" "Tool 1",
              bareToolJson "tool2" "Tool 2",
              bareToolJson "tool3" "Tool 3" ]) ])
      [ bareToolJson "tool1" "Tool 1", bareToolJson "tool2" "Tool 2",
        bareToolJson "tool3" "Tool 3" ] rfl rfl).1⟩

/-- The parameters extracted from a template `s0 {p1} s1 ... {pk} sk`, possibly followed by
an opening brace that is never closed. -/
theorem templateParameters_segments (uri : String) (s0 tail : List Char)
    (segments : List (List Char × List Char))
    (hs0 : braceFree s0)
    (hsegments : ∀ segment ∈ segments, braceFree segment.1 ∧ braceFree segment.2)
    (htail : tail = [] ∨ ∃ rest, tail = '\x7b' :: rest ∧ '\x7d' ∉ rest)
    (huri : uri.toList = s0 ++ templateSegments segments ++ tail) :
    templateParameters uri = segments.map (fun segment => String.mk segment.1) := by
  have hlen : s0.length + (templateSegments segments).length + tail.length = uri.length := by
    rw [String.length, ← String.toList, huri]
    simp only [List.length_append]
  have hcount : 2 * segments.length ≤ (templateSegments segments).length := by
    clear hlen huri hsegments
    induction segments with
    | nil => simp [templateSegments]
    | cons segment segments ih =>
      have hcons : templateSegments (segment :: segments) =
          ('\x7b' :: segment.1 ++ '\x7d' :: segment.2) ++ templateSegments segments := by
        simp [templateSegments]
      rw [hcons]
      simp only [List.length_append, List.length_cons]
      omega
  have hrun := templateLoop_segments uri.toList segments s0 tail (uri.length + 1) [] []
    (by omega) hs0.1
    (fun segment hmem => ⟨(hsegments segment hmem).1.2, (hsegments segment hmem).2.1⟩)
    htail (by rw [huri]; simp)
  unfold templateParameters
  rw [show (0 : Nat) = ([] : List Char).length from rfl, hrun]
  simp

/-- The element that a parser stores at position `i` behind the entries that the server
had. -/
theorem getElem_append_take_map {α β : Type} (old : List β) (items : List α) (f : α → β)
    (cap i : Nat) (item : α) (hitem : items[i]? = some item) (hcap : i < cap) :
    (old ++ (items.take cap).map f)[old.length + i]? = some (f item) := by
  rw [List.getElem?_append_right (Nat.le_add_right _ _), Nat.add_sub_cancel_left,
    List.getElem?_map, List.getElem?_take_of_lt hcap, hitem]
  rfl

/-- C27: for a template element within the cap whose `uriTemplate` reads
`s0 {p1} s1 ... {pk} sk`, no `si` or `pi` containing a brace,
`parse_resource_templates_response` stores a template with the parameters `[p1, ..., pk]`
in this order; the same holds when the text is followed by an opening brace that is never
closed, which contributes no parameter; and the scanning loop ends on every string within
the rounds that the model grants it. -/
theorem template_parameter_extraction (config : InterrogationConfig)
    (response result : Json) (items : List Json) (server : MCPServer) (i : Nat)
    (template_json : Json) (uri : String) (s0 : List Char)
    (segments : List (List Char × List Char))
    (hresult : response.find "result" = some result)
    (hitems : result.find "resourceTemplates" = some (Json.array items))
    (hitem : items[i]? = some template_json)
    (hcap : (i : Int) < config.max_resources)
    (huri : template_json.find "uriTemplate" = some (Json.string uri))
    (hs0 : braceFree s0)
    (hsegments : ∀ segment ∈ segments, braceFree segment.1 ∧ braceFree segment.2) :
    (∀ tail : List Char,
      (tail = [] ∨ ∃ rest, tail = '\x7b' :: rest ∧ '\x7d' ∉ rest) →
      uri.toList = s0 ++ templateSegments segments ++ tail →
      ∃ stored : ResourceTemplate,
        (parse_resource_templates_response config response
          server).resource_templates[server.resource_templates.length + i]? = some stored ∧
        stored.uri_template = uri ∧
        stored.parameters = segments.map (fun segment => String.mk segment.1)) ∧
    (∀ text : String,
      (templateLoop text.toList (text.length + 1) 0 []).isSome = true) := by
  refine ⟨?_, ?_⟩
  · intro tail htail hshape
    rw [parse_resource_templates_response_eq config response result items server hresult
      hitems]
    have hfield : stringField template_json "uriTemplate" "" = uri := by
      obtain ⟨h1, h2⟩ := Json.index_of_find template_json (Json.string uri) "uriTemplate" huri
      unfold stringField
      rw [h1, h2]
      rfl
    refine ⟨parseResourceTemplate template_json, ?_, ?_, ?_⟩
    · exact getElem_append_take_map _ items parseResourceTemplate _ i template_json hitem
        (by omega)
    · exact hfield
    · show templateParameters (stringField template_json "uriTemplate" "") = _
      rw [hfield]
      exact templateParameters_segments uri s0 tail segments hs0 hsegments htail hshape
  · intro text
    exact templateLoop_terminates text.toList (text.length + 1) 0 []
      (by rw [String.length, ← String.toList]; omega)

/-- The template parameters at a concrete input: the template `user:///{userId}/profile/{field}` of the unit test
`ParseResourceTemplatesResponse` gives the parameters `userId` and `field`. -/
theorem template_parameter_extraction_witness :
    braceFree "user:///".toList ∧
    (∃ stored : ResourceTemplate,
      (parse_resource_templates_response InterrogationConfig.default
        (templatesResponse [userProfileTemplateJson])
        MCPServer.init).resource_templates[MCPServer.init.resource_templates.length + 0]? =
          some stored ∧
      stored.uri_template = "user:///\x7buserId\x7d/profile/\x7bfield\x7d" ∧
      stored.parameters = ["userId", "field"]) := by
  have hs0 : braceFree "user:///".toList := by decide
  have hsegments : ∀ segment ∈ [("userId".toList, "/profile/".toList), ("field".toList, [])],
      braceFree segment.1 ∧ braceFree segment.2 := by
    decide
  exact ⟨hs0,
    (template_parameter_extraction InterrogationConfig.default
      (templatesResponse [userProfileTemplateJson])
      (Json.object [("resourceTemplates", Json.array [userProfileTemplateJson])])
      [userProfileTemplateJson] MCPServer.init 0 userProfileTemplateJson
      "user:///\x7buserId\x7d/profile/\x7bfield\x7d" "user:///".toList
      [("userId".toList, "/profile/".toList), ("field".toList, [])]
      rfl rfl rfl (by decide) rfl hs0 hsegments).1 [] (Or.inl rfl) rfl⟩

/-- The loop over `required` pushes the string elements, in array order. -/
theorem requiredLoop_eq (elements : List Json) :
    ∀ required_parameters : List String,
      requiredLoop elements required_parameters =
        required_parameters ++ elements.filterMap Json.get_string := by
  induction elements with
  | nil =>
    intro required_parameters
    simp [requiredLoop]
  | cons req rest ih =>
    intro required_parameters
    rw [requiredLoop]
    cases req <;> simp [Json.is_string, Json.get_string, ih]

/-- The loop over `properties` pushes the keys that are not required, in the order of the
members. -/
theorem optionalLoop_eq (required_parameters : List String)
    (members : List (String × Json)) :
    ∀ optional_parameters : List String,
      optionalLoop required_parameters members optional_parameters =
        optional_parameters ++
          (members.map Prod.fst).filter (fun key => decide (key ∉ required_parameters)) := by
  induction members with
  | nil =>
    intro optional_parameters
    simp [optionalLoop]
  | cons member rest ih =>
    intro optional_parameters
    obtain ⟨param_name, value⟩ := member
    rw [optionalLoop]
    by_cases h : param_name ∈ required_parameters
    · simp [h, ih]
    · simp [h, ih]

/-- The keys of an object after an insertion are the inserted key and the keys it had. -/
theorem insertMember_keys (key : String) (value : Json) (members : List (String × Json))
    (k : String) (hk : k ∈ (Json.insertMember key value members).map Prod.fst) :
    k = key ∨ k ∈ members.map Prod.fst := by
  induction members with
  | nil =>
    simp [Json.insertMember] at hk
    exact Or.inl hk
  | cons member rest ih =>
    obtain ⟨k0, v0⟩ := member
    rw [Json.insertMember] at hk
    split_ifs at hk with h1 h2
    · simp only [List.map_cons, List.mem_cons] at hk ⊢
      tauto
    · simp only [List.map_cons, List.mem_cons] at hk ⊢
      tauto
    · simp only [List.map_cons, List.mem_cons] at hk ⊢
      rcases hk with hk | hk
      · tauto
      · rcases ih hk with h | h <;> tauto

/-- The comparison of code sequences is transitive. -/
theorem lexLess_trans : ∀ a b c : List Nat,
    lexLess a b = true → lexLess b c = true → lexLess a c = true := by
  intro a
  induction a with
  | nil =>
    intro b c hab hbc
    cases b with
    | nil => simp [lexLess] at hab
    | cons y ys =>
      cases c with
      | nil => simp [lexLess] at hbc
      | cons z zs => simp [lexLess]
  | cons x xs ih =>
    intro b c hab hbc
    cases b with
    | nil => simp [lexLess] at hab
    | cons y ys =>
      cases c with
      | nil => simp [lexLess] at hbc
      | cons z zs =>
        rw [lexLess] at hab hbc ⊢
        by_cases hxy : x < y
        · by_cases hyz : y < z
          · rw [if_pos (lt_trans hxy hyz)]
          · rw [if_neg hyz] at hbc
            by_cases hzy : z < y
            · rw [if_pos hzy] at hbc
              exact absurd hbc (by decide)
            · have hyz2 : y = z := by omega
              rw [if_pos (hyz2 ▸ hxy)]
        · rw [if_neg hxy] at hab
          by_cases hyx : y < x
          · rw [if_pos hyx] at hab
            exact absurd hab (by decide)
          · rw [if_neg hyx] at hab
            have hxy2 : x = y := by omega
            subst hxy2
            by_cases hxz : x < z
            · rw [if_pos hxz]
            · rw [if_neg hxz] at hbc ⊢
              by_cases hzx : z < x
              · rw [if_pos hzx] at hbc
                exact absurd hbc (by decide)
              · rw [if_neg hzx] at hbc ⊢
                exact ih ys zs hab hbc

/-- Two different code sequences are ordered one way or the other. -/
theorem lexLess_total : ∀ a b : List Nat,
    lexLess a b = false → a ≠ b → lexLess b a = true := by
  intro a
  induction a with
  | nil =>
    intro b hab hne
    cases b with
    | nil => exact absurd rfl hne
    | cons y ys => simp [lexLess] at hab
  | cons x xs ih =>
    intro b hab hne
    cases b with
    | nil => simp [lexLess]
    | cons y ys =>
      rw [lexLess] at hab ⊢
      by_cases hxy : x < y
      · rw [if_pos hxy] at hab
        exact absurd hab (by decide)
      · rw [if_neg hxy] at hab
        by_cases hyx : y < x
        · rw [if_pos hyx]
        · rw [if_neg hyx] at hab ⊢
          rw [if_neg hxy]
          have hxy2 : x = y := by omega
          subst hxy2
          exact ih ys hab (fun h => hne (by rw [h]))

/-- The codes of the characters determine a text. -/
theorem toNat_codes_injective (a b : String)
    (h : a.toList.map Char.toNat = b.toList.map Char.toNat) : a = b := by
  have hinj : Function.Injective Char.toNat := by
    intro x y hxy
    have := congrArg Char.ofNat hxy
    simpa [Char.ofNat_toNat] using this
  have hlist : a.toList = b.toList := List.map_injective_iff.mpr hinj h
  exact String.ext hlist

/-- An insertion keeps the members of an object in ascending key order. -/
theorem insertMember_sorted (key : String) (value : Json) (members : List (String × Json))
    (h : (members.map Prod.fst).Pairwise (fun a b => keyLess a b = true)) :
    ((Json.insertMember key value members).map Prod.fst).Pairwise
      (fun a b => keyLess a b = true) := by
  induction members with
  | nil => simp [Json.insertMember]
  | cons member rest ih =>
    obtain ⟨k0, v0⟩ := member
    simp only [List.map_cons, List.pairwise_cons] at h
    obtain ⟨hfirst, hrest⟩ := h
    rw [Json.insertMember]
    split_ifs with h1 h2
    · simp only [List.map_cons, List.pairwise_cons, List.mem_cons]
      refine ⟨?_, hfirst, hrest⟩
      rintro k (hk | hk)
      · rw [hk]
        exact h1
      · exact lexLess_trans _ _ _ h1 (hfirst k hk)
    · simp only [List.map_cons, List.pairwise_cons]
      exact ⟨hfirst, hrest⟩
    · simp only [List.map_cons, List.pairwise_cons]
      refine ⟨?_, ih hrest⟩
      intro k hk
      rcases insertMember_keys key value rest k hk with hkey | hmem
      · rw [hkey]
        exact lexLess_total _ _ (by simpa [keyLess] using h1)
          (fun heq => h2 (toNat_codes_injective _ _ heq))
      · exact hfirst k hmem

/-- An object holds its members in ascending key order, whatever the order in which they
were inserted. -/
theorem ofInsertions_sorted (inserted : List (String × Json)) :
    ((Json.ofInsertions inserted).members.map Prod.fst).Pairwise
      (fun a b => keyLess a b = true) := by
  unfold Json.ofInsertions Json.members
  have hfold : ∀ (entries start : List (String × Json)),
      (start.map Prod.fst).Pairwise (fun a b => keyLess a b = true) →
      ((entries.foldl (fun members entry =>
        Json.insertMember entry.1 entry.2 members) start).map Prod.fst).Pairwise
          (fun a b => keyLess a b = true) := by
    intro entries
    induction entries with
    | nil =>
      intro start hstart
      exact hstart
    | cons entry entries ih =>
      intro start hstart
      exact ih _ (insertMember_sorted entry.1 entry.2 start hstart)
  exact hfold inserted [] List.Pairwise.nil

/-- C25, amended: for a tool element within the cap, `parse_tools_response` stores a tool
whose `required_parameters` are the string elements of the array `required` of its input
schema, in array order, and whose `optional_parameters` are the keys of `properties` that
are not among the required parameters, in the order in which the object holds its members;
that order is ascending key order, whatever the order in which the keys were written. A
tool without `inputSchema` gets two empty lists. -/
theorem tool_parameter_extraction (config : InterrogationConfig) (response result : Json)
    (items : List Json) (server : MCPServer) (i : Nat) (tool_json : Json)
    (hresult : response.find "result" = some result)
    (hitems : result.find "tools" = some (Json.array items))
    (hitem : items[i]? = some tool_json)
    (hcap : (i : Int) < config.max_tools) :
    (∃ tool : ToolDefinition,
      (parse_tools_response config response server).tools[server.tools.length + i]? =
        some tool ∧
      (tool_json.find "inputSchema" = none →
        tool.required_parameters = [] ∧ tool.optional_parameters = []) ∧
      (∀ schema : List (String × Json),
        tool_json.find "inputSchema" = some (Json.object schema) →
        (∀ elements : List Json,
          schema.lookup "required" = some (Json.array elements) →
          tool.required_parameters = elements.filterMap Json.get_string) ∧
        (∀ properties : List (String × Json),
          schema.lookup "properties" = some (Json.object properties) →
          tool.optional_parameters =
            (properties.map Prod.fst).filter
              (fun key => decide (key ∉ tool.required_parameters))))) ∧
    (∀ inserted : List (String × Json),
      ((Json.ofInsertions inserted).members.map Prod.fst).Pairwise
        (fun a b => keyLess a b = true)) := by
  refine ⟨⟨parseTool tool_json, ?_, ?_, ?_⟩, ofInsertions_sorted⟩
  · rw [parse_tools_response_eq config response result items server hresult hitems]
    exact getElem_append_take_map _ items parseTool _ i tool_json hitem (by omega)
  · intro hnone
    have hcontains : tool_json.contains "inputSchema" = false := by
      unfold Json.contains
      rw [hnone]
      rfl
    unfold parseTool
    simp only [hcontains, Bool.false_and, Bool.false_eq_true, if_false]
    exact ⟨rfl, rfl⟩
  · intro schema hschema
    obtain ⟨h1, h2⟩ := Json.index_of_find tool_json (Json.object schema) "inputSchema" hschema
    have hrequired : (parseTool tool_json).required_parameters =
        if (Json.object schema).contains "required" &&
            ((Json.object schema).index "required").is_array then
          requiredLoop ((Json.object schema).index "required").elements []
        else [] := by
      unfold parseTool
      simp only [h1, h2, Json.is_object, Bool.and_self, if_true]
      split_ifs <;> rfl
    have hoptional : (parseTool tool_json).optional_parameters =
        if (Json.object schema).contains "properties" &&
            ((Json.object schema).index "properties").is_object then
          optionalLoop (parseTool tool_json).required_parameters
            ((Json.object schema).index "properties").members []
        else [] := by
      rw [hrequired]
      unfold parseTool
      simp only [h1, h2, Json.is_object, Bool.and_self, if_true]
      split_ifs <;> rfl
    refine ⟨?_, ?_⟩
    · intro elements helements
      have hfind : (Json.object schema).find "required" = some (Json.array elements) :=
        helements
      obtain ⟨h3, h4⟩ := Json.index_of_find _ _ _ hfind
      rw [hrequired, h3, h4]
      simp only [Json.is_array, Bool.and_self, if_true, Json.elements, requiredLoop_eq,
        List.nil_append]
    · intro properties hproperties
      have hfind : (Json.object schema).find "properties" = some (Json.object properties) :=
        hproperties
      obtain ⟨h3, h4⟩ := Json.index_of_find _ _ _ hfind
      rw [hoptional, h3, h4]
      simp only [Json.is_object, Bool.and_self, if_true, Json.members, optionalLoop_eq,
        List.nil_append]

/-- The tool parameters at a concrete input: the tool `read_file` of the unit test `ParseToolsResponse`, with
`path` required and `encoding` optional. -/
theorem tool_parameter_extraction_witness :
    (readFileResponse readFileSchemaRequired).find "result" =
      some (Json.object
        [ ("tools", Json.array
            [ Json.ofInsertions
                [ ("name", Json.string "read_file"),
                  ("description", Json.string "Read a file from the filesystem"),
                  ("inputSchema", readFileSchemaRequired) ] ]) ]) ∧
    ∃ tool : ToolDefinition,
      (parse_tools_response InterrogationConfig.default
        (readFileResponse readFileSchemaRequired)
        MCPServer.init).tools[MCPServer.init.tools.length + 0]? = some tool ∧
      tool.required_parameters = ["path"] ∧ tool.optional_parameters = ["encoding"] := by
  have hresult : (readFileResponse readFileSchemaRequired).find "result" =
      some (Json.object
        [ ("tools", Json.array
            [ Json.ofInsertions
                [ ("name", Json.string "read_file"),
                  ("description", Json.string "Read a file from the filesystem"),
                  ("inputSchema", readFileSchemaRequired) ] ]) ]) := rfl
  obtain ⟨⟨tool, hstored, _, hschema⟩, _⟩ :=
    tool_parameter_extraction InterrogationConfig.default
      (readFileResponse readFileSchemaRequired) _ _ MCPServer.init 0 _ hresult rfl rfl
      (by decide)
  refine ⟨hresult, tool, hstored, ?_⟩
  obtain ⟨hrequired, hoptional⟩ := hschema
    [ ("properties", Json.object
        [ ("encoding", Json.object [("type", Json.string "string")]),
          ("path", Json.object [("type", Json.string "string")]) ]),
      ("required", Json.array [Json.string "path"]),
      ("type", Json.string "object") ] rfl
  have h1 := hrequired [Json.string "path"] rfl
  have h2 := hoptional
    [ ("encoding", Json.object [("type", Json.string "string")]),
      ("path", Json.object [("type", Json.string "string")]) ] rfl
  rw [h1] at h2
  exact ⟨h1, by rw [h2]; decide⟩

/-- C25 as stated fails: the properties of the tool are written in the order
`path`, `encoding` and none is required; the optional parameters come out as `encoding`,
`path`, which is not the order of insertion. -/
theorem tool_parameter_counterexample :
    (∃ types : List Json,
      readFileSchema.find "properties" =
        some (Json.ofInsertions (List.zip ["path", "encoding"] types))) ∧
    ((parse_tools_response InterrogationConfig.default (readFileResponse readFileSchema)
      MCPServer.init).tools.map ToolDefinition.optional_parameters) =
        [["encoding", "path"]] ∧
    ((parse_tools_response InterrogationConfig.default (readFileResponse readFileSchema)
      MCPServer.init).tools.map ToolDefinition.optional_parameters) ≠
        [["path", "encoding"]] := by
  have hresult : (parse_tools_response InterrogationConfig.default
      (readFileResponse readFileSchema)
      MCPServer.init).tools.map ToolDefinition.optional_parameters =
        [["encoding", "path"]] := rfl
  refine ⟨⟨[Json.ofInsertions [("type", Json.string "string")],
    Json.ofInsertions [("type", Json.string "string")]], rfl⟩, hresult, ?_⟩
  rw [hresult]
  decide

/-! ## Server interrogation: success and errors -/

/-- After the end of `interrogate`, success means that there are no errors. -/
theorem finishInterrogation_iff (server : MCPServer) :
    (finishInterrogation server).interrogation_successful = true ↔
      (finishInterrogation server).interrogation_errors = [] := by
  unfold finishInterrogation
  exact List.isEmpty_iff

/-- After an early return of `interrogate` there is an error and no success. -/
theorem abandonInterrogation_iff (server : MCPServer) (message : String) :
    (abandonInterrogation server message).interrogation_successful = true ↔
      (abandonInterrogation server message).interrogation_errors = [] := by
  unfold abandonInterrogation
  simp

/-- C28, amended: for every InterrogationConfig with `interrogate_enabled` set, every
server and every behaviour of the transport, after `ServerInterrogator::interrogate`
returns, `interrogation_successful` is true iff `interrogation_errors` is empty. -/
theorem interrogation_successful_iff (lib : JsonLib) (parse_error_what : String → String)
    (interrogator : ServerInterrogator) (server : MCPServer)
    (henabled : interrogator.config_.interrogate_enabled = true) :
    (interrogator.interrogate lib parse_error_what server).1.interrogation_successful = true ↔
      (interrogator.interrogate lib parse_error_what server).1.interrogation_errors = [] := by
  unfold ServerInterrogator.interrogate
  simp only [henabled, Bool.not_true, Bool.false_eq_true, if_false]
  by_cases hstdio : server.transport_type = TransportType.Stdio
  · rw [if_pos hstdio]
    cases interrogator.platform_ with
    | none => exact abandonInterrogation_iff _ _
    | some platform =>
      dsimp only
      by_cases hcommand : server.candidate.command = ""
      · rw [if_pos hcommand]
        exact abandonInterrogation_iff _ _
      · rw [if_neg hcommand]
        cases platform.spawn_process_with_pipes server.candidate.command with
        | error what => exact finishInterrogation_iff _
        | ok spawned =>
          cases spawned with
          | none => exact abandonInterrogation_iff _ _
          | some process =>
            dsimp only
            split_ifs
            · exact abandonInterrogation_iff _ _
            · exact finishInterrogation_iff _
            · exact finishInterrogation_iff _
  · rw [if_neg hstdio]
    by_cases hhttp : server.transport_type = TransportType.Http
    · rw [if_pos hhttp]
      cases interrogator.http_client_ with
      | none => exact abandonInterrogation_iff _ _
      | some http_client =>
        dsimp only
        by_cases hurl : server.candidate.url = ""
        · rw [if_pos hurl]
          exact abandonInterrogation_iff _ _
        · rw [if_neg hurl]
          exact finishInterrogation_iff _
    · rw [if_neg hhttp]
      exact abandonInterrogation_iff _ _

/-- Success and errors at a concrete input: interrogation is switched on and the server announces tools, but the
request `tools/list` is answered by status 404; the error is recorded and the
interrogation does not count as successful. -/
theorem interrogation_successful_iff_witness :
    enabledInterrogationConfig.interrogate_enabled = true ∧
    ((ServerInterrogator.interrogate httpJsonLib sampleParseErrorWhat
        ⟨enabledInterrogationConfig, none, some rpcPathClient⟩
        toolsServer).1.interrogation_successful = true ↔
      (ServerInterrogator.interrogate httpJsonLib sampleParseErrorWhat
        ⟨enabledInterrogationConfig, none, some rpcPathClient⟩
        toolsServer).1.interrogation_errors = []) ∧
    (ServerInterrogator.interrogate httpJsonLib sampleParseErrorWhat
      ⟨enabledInterrogationConfig, none, some rpcPathClient⟩
      toolsServer).1.interrogation_errors =
        ["Tools interrogation failed: HTTP request failed with status 404"] :=
  ⟨rfl,
    interrogation_successful_iff httpJsonLib sampleParseErrorWhat
      ⟨enabledInterrogationConfig, none, some rpcPathClient⟩ toolsServer rfl,
    by decide⟩

/-- C28 as stated fails: under the default configuration, where interrogation
is not enabled, `interrogate` on a freshly confirmed server returns with no error and with
`interrogation_successful` false. -/
theorem interrogation_disabled_counterexample :
    InterrogationConfig.default.interrogate_enabled = false ∧
    (ServerInterrogator.interrogate httpJsonLib sampleParseErrorWhat
      ⟨InterrogationConfig.default, none, some otherIdClient⟩
      (httpServerAt httpCandidate "http://127.0.0.1:8080")).1.interrogation_errors = [] ∧
    (ServerInterrogator.interrogate httpJsonLib sampleParseErrorWhat
      ⟨InterrogationConfig.default, none, some otherIdClient⟩
      (httpServerAt httpCandidate "http://127.0.0.1:8080")).1.interrogation_successful =
        false ∧
    (ServerInterrogator.interrogate httpJsonLib sampleParseErrorWhat
      ⟨InterrogationConfig.default, none, some otherIdClient⟩
      (httpServerAt httpCandidate "http://127.0.0.1:8080")).1.interrogation_attempted =
        true := by
  refine ⟨rfl, ?_, ?_, ?_⟩
  · rfl
  · rfl
  · rfl

/-! ## Active coordinator: skip lists, probe order, confirmed servers -/

/-- The tools parser leaves the candidate of the server as it is. -/
theorem parse_tools_response_candidate (config : InterrogationConfig) (response : Json)
    (server : MCPServer) :
    (parse_tools_response config response server).candidate = server.candidate := by
  unfold parse_tools_response
  dsimp only
  split_ifs
  · rfl
  · rfl
  · rw [toolsLoop_eq]

/-- The resources parser leaves the candidate of the server as it is. -/
theorem parse_resources_response_candidate (config : InterrogationConfig) (response : Json)
    (server : MCPServer) :
    (parse_resources_response config response server).candidate = server.candidate := by
  unfold parse_resources_response
  dsimp only
  split_ifs
  · rfl
  · rfl
  · rw [resourcesLoop_eq]

/-- The templates parser leaves the candidate of the server as it is. -/
theorem parse_resource_templates_response_candidate (config : InterrogationConfig)
    (response : Json) (server : MCPServer) :
    (parse_resource_templates_response config response server).candidate =
      server.candidate := by
  unfold parse_resource_templates_response
  dsimp only
  split_ifs
  · rfl
  · rfl
  · rw [resourceTemplatesLoop_eq]

/-- The prompts parser leaves the candidate of the server as it is. -/
theorem parse_prompts_response_candidate (config : InterrogationConfig) (response : Json)
    (server : MCPServer) :
    (parse_prompts_response config response server).candidate = server.candidate := by
  unfold parse_prompts_response
  dsimp only
  split_ifs
  · rfl
  · rfl
  · rw [promptsLoop_eq]

/-- One step of the interrogation leaves the candidate as it is when its parser does. -/
theorem interrogateStep_candidate (send_request : SendRequest) (request : Json)
    (parse : Json → MCPServer → MCPServer) (failure : String) (server : MCPServer)
    (trace : InterrogationTrace)
    (hparse : ∀ response server, (parse response server).candidate = server.candidate) :
    (interrogateStep send_request request parse failure server trace).1.candidate =
      server.candidate := by
  unfold interrogateStep
  split
  · exact hparse _ _
  · rfl

/-- The four steps of the interrogation leave the candidate as it is. -/
theorem performInterrogation_candidate (config : InterrogationConfig)
    (send_request : SendRequest) (server : MCPServer) (trace : InterrogationTrace) :
    (performInterrogation config send_request server trace).1.candidate =
      server.candidate := by
  unfold performInterrogation
  dsimp only
  have h1 : ∀ (server : MCPServer) (trace : InterrogationTrace),
      (if (config.get_tools && server.has_tools) = true then
        interrogate_tools config send_request server trace
      else (server, trace)).1.candidate = server.candidate := by
    intro server trace
    split_ifs
    · exact interrogateStep_candidate _ _ _ _ _ _ (parse_tools_response_candidate config)
    · rfl
  have h2 : ∀ (state : MCPServer × InterrogationTrace),
      (if (config.get_resources && state.1.has_resources) = true then
        interrogate_resources config send_request state.1 state.2
      else state).1.candidate = state.1.candidate := by
    intro state
    split_ifs
    · exact interrogateStep_candidate _ _ _ _ _ _ (parse_resources_response_candidate config)
    · rfl
  have h3 : ∀ (state : MCPServer × InterrogationTrace),
      (if (config.get_resource_templates && state.1.has_resources) = true then
        interrogate_resource_templates config send_request state.1 state.2
      else state).1.candidate = state.1.candidate := by
    intro state
    split_ifs
    · exact interrogateStep_candidate _ _ _ _ _ _
        (parse_resource_templates_response_candidate config)
    · rfl
  have h4 : ∀ (state : MCPServer × InterrogationTrace),
      (if (config.get_prompts && state.1.has_prompts) = true then
        interrogate_prompts config send_request state.1 state.2
      else state).1.candidate = state.1.candidate := by
    intro state
    split_ifs
    · exact interrogateStep_candidate _ _ _ _ _ _ (parse_prompts_response_candidate config)
    · rfl
  rw [h4, h3, h2, h1]

/-- The member function `interrogate` leaves the candidate of the server as it is. -/
theorem interrogate_candidate (lib : JsonLib) (parse_error_what : String → String)
    (interrogator : ServerInterrogator) (server : MCPServer) :
    (interrogator.interrogate lib parse_error_what server).1.candidate =
      server.candidate := by
  unfold ServerInterrogator.interrogate
  dsimp only
  by_cases henabled : (!interrogator.config_.interrogate_enabled) = true
  · rw [if_pos henabled]
  · rw [if_neg henabled]
    by_cases hstdio : server.transport_type = TransportType.Stdio
    · rw [if_pos hstdio]
      cases interrogator.platform_ with
      | none => rfl
      | some platform =>
        dsimp only
        by_cases hcommand : server.candidate.command = ""
        · rw [if_pos hcommand]
          rfl
        · rw [if_neg hcommand]
          cases platform.spawn_process_with_pipes server.candidate.command with
          | error what => rfl
          | ok spawned =>
            cases spawned with
            | none => rfl
            | some process =>
              dsimp only
              split_ifs
              · rfl
              · exact performInterrogation_candidate _ _ _ _
              · exact performInterrogation_candidate _ _ _ _
    · rw [if_neg hstdio]
      by_cases hhttp : server.transport_type = TransportType.Http
      · rw [if_pos hhttp]
        cases interrogator.http_client_ with
        | none => rfl
        | some http_client =>
          dsimp only
          by_cases hurl : server.candidate.url = ""
          · rw [if_pos hurl]
            rfl
          · rw [if_neg hurl]
            exact performInterrogation_candidate _ _ _ _
      · rw [if_neg hhttp]
        rfl

/-- The body of the candidate loop with the two registered engines: the calls it makes and
the candidate it confirms. -/
theorem scanCandidate_registered (lib : JsonLib) (parse_error_what : String → String)
    (scanner : ActiveScanner) (config : ActiveScanConfig) (candidate : Candidate)
    (state : ActiveScanState) (platform : Option PlatformAdapter)
    (http_client : Option HttpClient)
    (hengines : scanner.testing_engines_ =
      [stdioEngine lib platform, httpEngine lib http_client]) :
    (scanCandidate lib parse_error_what scanner config candidate state).calls =
      state.calls ++
        (if isSkipped config candidate then []
        else if ((StdioTestingEngine.test lib ⟨platform⟩ candidate).1).isSome then
          [⟨"StdioTestingEngine", candidate⟩]
        else [⟨"StdioTestingEngine", candidate⟩, ⟨"HttpTestingEngine", candidate⟩]) ∧
    (scanCandidate lib parse_error_what scanner config candidate
        state).results.confirmed_servers.map MCPServer.candidate =
      state.results.confirmed_servers.map MCPServer.candidate ++
        (if !isSkipped config candidate &&
            (((StdioTestingEngine.test lib ⟨platform⟩ candidate).1).isSome ||
              ((HttpTestingEngine.test lib ⟨http_client⟩ candidate).1).isSome) then
          [candidate]
        else []) := by
  have hrecord : ∀ (server : MCPServer) (st : ActiveScanState),
      (recordConfirmed lib parse_error_what scanner config candidate server st).calls =
          st.calls ∧
        (recordConfirmed lib parse_error_what scanner config candidate server
            st).results.confirmed_servers.map MCPServer.candidate =
          st.results.confirmed_servers.map MCPServer.candidate ++ [candidate] := by
    intro server st
    unfold recordConfirmed
    dsimp only
    refine ⟨rfl, ?_⟩
    rw [List.map_append]
    congr 1
    split_ifs
    · simp only [List.map_cons, List.map_nil]
      rw [interrogate_candidate]
    · rfl
  unfold scanCandidate
  by_cases hskip : isSkipped config candidate = true
  · simp [hskip]
  · simp only [hskip, Bool.false_eq_true, if_false, hengines]
    rw [engineLoop]
    simp only [stdioEngine, httpEngine]
    cases hstdio : (StdioTestingEngine.test lib ⟨platform⟩ candidate).1 with
    | some server =>
      dsimp only
      obtain ⟨h1, h2⟩ := hrecord server
        { results :=
            { state.results with
              candidates_tested_count := state.results.candidates_tested_count + 1 }
          interrogator_ := state.interrogator_
          calls := state.calls ++ [⟨"StdioTestingEngine", candidate⟩] }
      refine ⟨?_, ?_⟩
      · rw [h1]
        simp
      · rw [h2]
        simp
    | none =>
      dsimp only
      rw [engineLoop]
      dsimp only
      cases hhttp : (HttpTestingEngine.test lib ⟨http_client⟩ candidate).1 with
      | some server =>
        dsimp only
        obtain ⟨h1, h2⟩ := hrecord server
          { results :=
              { state.results with
                candidates_tested_count := state.results.candidates_tested_count + 1 }
            interrogator_ := state.interrogator_
            calls := state.calls ++ [⟨"StdioTestingEngine", candidate⟩] ++
              [⟨"HttpTestingEngine", candidate⟩] }
        refine ⟨?_, ?_⟩
        · rw [h1]
          simp
        · rw [h2]
          simp
      | none =>
        dsimp only
        rw [engineLoop]
        dsimp only
        refine ⟨by simp, ?_⟩
        unfold recordFailed
        simp only [Option.isSome_none, Bool.or_self, Bool.and_false, Bool.false_eq_true,
          if_false, List.append_nil]
        split_ifs <;> rfl

/-- The candidate loop with the two registered engines: the calls it makes and the
candidates it confirms, in input order. -/
theorem candidatesLoop_registered (lib : JsonLib) (parse_error_what : String → String)
    (scanner : ActiveScanner) (config : ActiveScanConfig) (platform : Option PlatformAdapter)
    (http_client : Option HttpClient)
    (hengines : scanner.testing_engines_ =
      [stdioEngine lib platform, httpEngine lib http_client])
    (candidates : List Candidate) :
    ∀ state : ActiveScanState,
      (candidatesLoop lib parse_error_what scanner config candidates state).calls =
        state.calls ++
          (candidates.filter (fun c => !isSkipped config c)).flatMap (fun c =>
            if ((StdioTestingEngine.test lib ⟨platform⟩ c).1).isSome then
              [⟨"StdioTestingEngine", c⟩]
            else [⟨"StdioTestingEngine", c⟩, ⟨"HttpTestingEngine", c⟩]) ∧
      (candidatesLoop lib parse_error_what scanner config candidates
          state).results.confirmed_servers.map MCPServer.candidate =
        state.results.confirmed_servers.map MCPServer.candidate ++
          (candidates.filter (fun c => !isSkipped config c)).filter (fun c =>
            ((StdioTestingEngine.test lib ⟨platform⟩ c).1).isSome ||
              ((HttpTestingEngine.test lib ⟨http_client⟩ c).1).isSome) := by
  induction candidates with
  | nil =>
    intro state
    simp [candidatesLoop]
  | cons candidate rest ih =>
    intro state
    rw [candidatesLoop]
    obtain ⟨h1, h2⟩ := scanCandidate_registered lib parse_error_what scanner config candidate
      state platform http_client hengines
    obtain ⟨h3, h4⟩ := ih (scanCandidate lib parse_error_what scanner config candidate state)
    rw [h3, h4, h1, h2]
    by_cases hskip : isSkipped config candidate = true
    · simp [hskip]
    · simp only [hskip, Bool.false_eq_true, if_false, Bool.not_false, Bool.true_and]
      simp only [Bool.not_eq_true] at hskip
      simp only [List.filter_cons, hskip, Bool.not_false, if_true, List.flatMap_cons,
        List.append_assoc]
      refine ⟨trivial, ?_⟩
      split_ifs <;> simp

/-- C29: a fresh `ActiveScanner` registers the stdio probe and then the HTTP probe. Its
`scan` goes through the candidates in input order; a candidate with `pid > 0` contained in
`skip_pids` or with a non-empty url contained in `skip_urls` is passed to no probe; every
other candidate is passed to the stdio probe and, only when that returns no server, to the
HTTP probe; the first probe that returns a server confirms the candidate, so that
`confirmed_servers` lists the confirmed candidates in input order. -/
theorem active_coordination (lib : JsonLib) (parse_error_what : String → String)
    (new_http_client : HttpClient) (scanner : ActiveScanner) (candidates : List Candidate)
    (config : ActiveScanConfig) (hfresh : scanner.testing_engines_ = []) :
    (scanner.initialize_engines lib new_http_client).testing_engines_.map TestingEngine.name =
      ["StdioTestingEngine", "HttpTestingEngine"] ∧
    (scanner.scan lib parse_error_what new_http_client candidates config).2.2 =
      (candidates.filter (fun c => !isSkipped config c)).flatMap (fun c =>
        if ((StdioTestingEngine.test lib ⟨scanner.platform_⟩ c).1).isSome then
          [⟨"StdioTestingEngine", c⟩]
        else [⟨"StdioTestingEngine", c⟩, ⟨"HttpTestingEngine", c⟩]) ∧
    (scanner.scan lib parse_error_what new_http_client candidates
        config).1.confirmed_servers.map MCPServer.candidate =
      (candidates.filter (fun c => !isSkipped config c)).filter (fun c =>
        ((StdioTestingEngine.test lib ⟨scanner.platform_⟩ c).1).isSome ||
          ((HttpTestingEngine.test lib ⟨some new_http_client⟩ c).1).isSome) ∧
    (∀ c : Candidate,
      (c.pid > 0 ∧ c.pid ∈ config.skip_pids) ∨ (c.url ≠ "" ∧ c.url ∈ config.skip_urls) →
      ∀ call ∈ (scanner.scan lib parse_error_what new_http_client candidates config).2.2,
        call.candidate ≠ c) := by
  have hengines : (scanner.initialize_engines lib new_http_client).testing_engines_ =
      [stdioEngine lib scanner.platform_, httpEngine lib (some new_http_client)] := by
    unfold ActiveScanner.initialize_engines
    simp [hfresh]
  have hloop := candidatesLoop_registered lib parse_error_what
    (scanner.initialize_engines lib new_http_client) config scanner.platform_
    (some new_http_client) hengines candidates
    ⟨{ candidates_tested := candidates
       confirmed_servers := []
       failed_tests := []
       candidates_tested_count := 0
       servers_confirmed_count := 0
       tests_failed_count := 0
       errors := [] },
      (scanner.initialize_engines lib new_http_client).interrogator_, []⟩
  have hcalls : (scanner.scan lib parse_error_what new_http_client candidates config).2.2 =
      (candidates.filter (fun c => !isSkipped config c)).flatMap (fun c =>
        if ((StdioTestingEngine.test lib ⟨scanner.platform_⟩ c).1).isSome then
          [⟨"StdioTestingEngine", c⟩]
        else [⟨"StdioTestingEngine", c⟩, ⟨"HttpTestingEngine", c⟩]) := by
    unfold ActiveScanner.scan
    simp only [hfresh, List.isEmpty_nil, if_true]
    rw [hloop.1]
    rfl
  refine ⟨?_, hcalls, ?_, ?_⟩
  · rw [hengines]
    rfl
  · unfold ActiveScanner.scan
    simp only [hfresh, List.isEmpty_nil, if_true]
    rw [hloop.2]
    rfl
  · intro c hc call hcall heq
    rw [hcalls, List.mem_flatMap] at hcall
    obtain ⟨tested, htested, hmem⟩ := hcall
    have hnot : isSkipped config tested = false := by
      have := (List.mem_filter.mp htested).2
      simpa using this
    have hsame : call.candidate = tested := by
      split_ifs at hmem
      · simp only [List.mem_singleton] at hmem
        rw [hmem]
      · simp only [List.mem_cons, List.mem_singleton, List.not_mem_nil, or_false] at hmem
        rcases hmem with h | h <;> rw [h]
    have hskipped : isSkipped config c = true := by
      unfold isSkipped
      rcases hc with ⟨hpid, hmem⟩ | ⟨hurl, hmem⟩
      · simp [hpid, hmem]
      · simp [hurl, hmem]
    rw [← hsame, heq, hskipped] at hnot
    exact absurd hnot (by decide)

/-- The active coordinator at a concrete input: a fresh scanner, three candidates and a skip list with the url of the
second. The first candidate is confirmed by the stdio probe, and the HTTP probe is not
called for it; the second is passed to no probe; the third is passed to both probes, which
confirm nothing. -/
theorem active_coordination_witness :
    freshScanner.testing_engines_ = [] ∧
    (freshScanner.scan httpJsonLib sampleParseErrorWhat rpcPathClient
      [nodeCandidate, httpCandidate, silentCandidate] skipUrlConfig).2.2 =
        [⟨"StdioTestingEngine", nodeCandidate⟩, ⟨"StdioTestingEngine", silentCandidate⟩,
          ⟨"HttpTestingEngine", silentCandidate⟩] ∧
    (freshScanner.scan httpJsonLib sampleParseErrorWhat rpcPathClient
      [nodeCandidate, httpCandidate, silentCandidate]
      skipUrlConfig).1.confirmed_servers.map MCPServer.candidate = [nodeCandidate] := by
  obtain ⟨_, hcalls, hconfirmed, _⟩ :=
    active_coordination httpJsonLib sampleParseErrorWhat rpcPathClient freshScanner
      [nodeCandidate, httpCandidate, silentCandidate] skipUrlConfig rfl
  refine ⟨rfl, ?_, ?_⟩
  · rw [hcalls]
    rfl
  · rw [hconfirmed]
    rfl

/-! ## Config source: the candidate of a server entry -/

/-- The loop over `args` keeps an array of strings as it is. -/
theorem argsLoop_strings (args : List String) :
    ∀ collected : List String,
      argsLoop (args.map Json.string) collected = collected ++ args := by
  induction args with
  | nil =>
    intro collected
    simp [argsLoop]
  | cons arg rest ih =>
    intro collected
    simp [argsLoop, Json.is_string, Json.get_string, ih]

/-- The loop over `mcpServers` appends the configs of the entries that have a command. -/
theorem mcpServersLoop_eq (members : List (String × Json)) :
    ∀ configs : List ServerConfig,
      mcpServersLoop members configs =
        configs ++ members.filterMap (fun entry =>
          parseServerEntry { ServerConfig.init with name := entry.1 } entry.2) := by
  induction members with
  | nil =>
    intro configs
    simp [mcpServersLoop]
  | cons entry rest ih =>
    intro configs
    obtain ⟨server_name, server_obj⟩ := entry
    rw [mcpServersLoop]
    cases h : parseServerEntry { ServerConfig.init with name := server_name } server_obj with
    | none => simp [ih, h]
    | some config => simp [ih, h]

/-- The loop over `servers` appends the configs of the entries that have a command. -/
theorem serversLoop_eq (elements : List Json) :
    ∀ configs : List ServerConfig,
      serversLoop elements configs =
        configs ++ elements.filterMap (fun server_obj =>
          parseServerEntry
            { ServerConfig.init with name := stringField server_obj "name" "" }
            server_obj) := by
  induction elements with
  | nil =>
    intro configs
    simp [serversLoop]
  | cons server_obj rest ih =>
    intro configs
    rw [serversLoop]
    cases h : parseServerEntry
        { ServerConfig.init with name := stringField server_obj "name" "" } server_obj with
    | none => simp [ih, h]
    | some config => simp [ih, h]

/-- The command stream: the command followed by each argument behind one space. -/
theorem command_stream (args : List String) :
    ∀ command : String,
      (args.foldl (fun cmd_stream arg => cmd_stream ++ " " ++ arg) command).toList =
        command.toList ++ args.flatMap (fun arg => ' ' :: arg.toList) := by
  induction args with
  | nil =>
    intro command
    simp
  | cons arg rest ih =>
    intro command
    rw [List.foldl_cons, ih]
    simp [String.toList, String.data_append]

/-- The score of a candidate whose only evidence is the config evidence. -/
theorem config_evidence_score (config_path : String) :
    recalculatedScore
      [Evidence.make4 "config_declared" ("Declared in config file: " ++ config_path)
        (9 / 10) config_path] = 9 / 10 := by
  norm_num [recalculatedScore, countLoop, Evidence.make4, StrengthCounts.bump,
    product_of_negatives]

/-- C30, amended: for every server entry, in the object `mcpServers` or in the array
`servers`, whose command is a non-empty string `c` with string args `a1..an`, the emitted
candidate has the command `c` followed by each `ai` behind one space, transport hint Http
when a non-empty url is present and Stdio otherwise, exactly one evidence, of type
`config_declared` with confidence 0.9, the score 0.9, and is a direct detection. An entry
whose command is missing or not a string yields no candidate, and a config file yields the
candidates of its entries, those of `mcpServers` before those of `servers`. -/
theorem config_source_candidate (config_path name : String) (server_obj : Json)
    (c : String) (args : List String)
    (hcommand : server_obj.find "command" = some (Json.string c))
    (hnonempty : c ≠ "")
    (hargs : server_obj.find "args" = some (Json.array (args.map Json.string)) ∨
      (server_obj.find "args" = none ∧ args = [])) :
    (∃ candidate : Candidate,
      entryCandidate config_path name server_obj = some candidate ∧
      candidate.command.toList = c.toList ++ args.flatMap (fun arg => ' ' :: arg.toList) ∧
      candidate.config_file = config_path ∧ candidate.config_key = name ∧
      (∀ url : String, server_obj.find "url" = some (Json.string url) → url ≠ "" →
        candidate.transport_hint = TransportType.Http ∧ candidate.url = url) ∧
      ((server_obj.find "url" = none ∨ server_obj.find "url" = some (Json.string "") ∨
          ∃ value, server_obj.find "url" = some value ∧ value.is_string = false) →
        candidate.transport_hint = TransportType.Stdio) ∧
      (∃ evidence : Evidence,
        candidate.evidence = [evidence] ∧ evidence.type = "config_declared" ∧
        evidence.confidence = 9 / 10) ∧
      candidate.confidence_score = 9 / 10 ∧
      candidate.is_direct_detection = true) ∧
    (∀ (other_name : String) (other_obj : Json),
      (other_obj.find "command" = none ∨
        ∃ value, other_obj.find "command" = some value ∧ value.is_string = false) →
      entryCandidate config_path other_name other_obj = none) ∧
    (∀ (read_json_file : String → Except String Json) (json : Json),
      read_json_file config_path = Except.ok json →
      configFileCandidates read_json_file config_path =
        Except.ok
          ((json.index "mcpServers").members.filterMap (fun entry =>
              entryCandidate config_path entry.1 entry.2) ++
            (json.index "servers").elements.filterMap (fun entry =>
              entryCandidate config_path (stringField entry "name" "") entry))) := by
  refine ⟨?_, ?_, ?_⟩
  · obtain ⟨h1, h2⟩ := Json.index_of_find server_obj (Json.string c) "command" hcommand
    have hargsParsed :
        (if (server_obj.contains "args" && (server_obj.index "args").is_array) = true then
          argsLoop (server_obj.index "args").elements []
        else []) = args := by
      rcases hargs with h | ⟨h, hnil⟩
      · obtain ⟨h3, h4⟩ := Json.index_of_find server_obj _ "args" h
        rw [h3, h4]
        simp [Json.is_array, Json.elements, argsLoop_strings]
      · have h3 : server_obj.contains "args" = false := by
          unfold Json.contains
          rw [h]
          rfl
        rw [h3, hnil]
        rfl
    have hentry : ∃ config : ServerConfig,
        parseServerEntry { ServerConfig.init with name := name } server_obj = some config ∧
        config.name = name ∧ config.command = c ∧ config.args = args ∧
        config.url =
          (if (server_obj.contains "url" && (server_obj.index "url").is_string) = true then
            ((server_obj.index "url").get_string).getD ""
          else "") := by
      unfold parseServerEntry
      simp only [h1, h2, Json.is_string, Bool.and_self, if_true]
      refine ⟨_, rfl, ?_, ?_, ?_, ?_⟩
      · split_ifs <;> rfl
      · split_ifs <;> rfl
      · rw [← hargsParsed]
        split_ifs <;> rfl
      · split_ifs <;> rfl
    obtain ⟨config, hconfig, hname, hcmd, hcargs, hcurl⟩ := hentry
    refine ⟨create_candidate_from_config config config_path, ?_, ?_, ?_, ?_, ?_, ?_, ?_, ?_,
      ?_⟩
    · unfold entryCandidate
      rw [hconfig]
      rfl
    · have hne : config.command ≠ "" := by
        rw [hcmd]
        exact hnonempty
      have hcommandField : (create_candidate_from_config config config_path).command =
          config.args.foldl (fun cmd_stream arg => cmd_stream ++ " " ++ arg)
            config.command := by
        unfold create_candidate_from_config Candidate.add_evidence
          Candidate.recalculate_confidence
        simp only [hne, ne_eq, not_false_eq_true, if_true]
        split_ifs <;> rfl
      rw [hcommandField, command_stream, hcmd, hcargs]
    · unfold create_candidate_from_config Candidate.add_evidence
        Candidate.recalculate_confidence
      dsimp only
      split_ifs <;> rfl
    · unfold create_candidate_from_config Candidate.add_evidence
        Candidate.recalculate_confidence
      dsimp only
      rw [← hname]
      split_ifs <;> rfl
    · intro url hurl hurlne
      obtain ⟨h3, h4⟩ := Json.index_of_find server_obj _ "url" hurl
      have hu : config.url = url := by
        rw [hcurl, h3, h4]
        rfl
      have hune : config.url ≠ "" := by
        rw [hu]
        exact hurlne
      unfold create_candidate_from_config Candidate.add_evidence
        Candidate.recalculate_confidence
      simp only [hune, ne_eq, not_false_eq_true, if_true]
      exact ⟨trivial, hu⟩
    · intro hurl
      have hu : config.url = "" := by
        rw [hcurl]
        rcases hurl with h | h | ⟨value, h, hvalue⟩
        · have h3 : server_obj.contains "url" = false := by
            unfold Json.contains
            rw [h]
            rfl
          rw [h3]
          rfl
        · obtain ⟨h3, h4⟩ := Json.index_of_find server_obj _ "url" h
          rw [h3, h4]
          rfl
        · obtain ⟨h3, h4⟩ := Json.index_of_find server_obj _ "url" h
          rw [h3, h4, hvalue]
          rfl
      unfold create_candidate_from_config Candidate.add_evidence
        Candidate.recalculate_confidence
      simp only [hu, ne_eq, not_true_eq_false, if_false]
    · refine ⟨Evidence.make4 "config_declared" ("Declared in config file: " ++ config_path)
        (9 / 10) config_path, ?_, rfl, rfl⟩
      unfold create_candidate_from_config Candidate.add_evidence
        Candidate.recalculate_confidence
      dsimp only
      split_ifs <;> rfl
    · have hscore : (create_candidate_from_config config config_path).confidence_score =
          recalculatedScore
            [Evidence.make4 "config_declared" ("Declared in config file: " ++ config_path)
              (9 / 10) config_path] := by
        unfold create_candidate_from_config Candidate.add_evidence
          Candidate.recalculate_confidence
        dsimp only
        split_ifs <;> rfl
      rw [hscore, config_evidence_score]
    · have hevidence : (create_candidate_from_config config config_path).evidence =
          [Evidence.make4 "config_declared" ("Declared in config file: " ++ config_path)
            (9 / 10) config_path] := by
        unfold create_candidate_from_config Candidate.add_evidence
          Candidate.recalculate_confidence
        dsimp only
        split_ifs <;> rfl
      unfold Candidate.is_direct_detection
      rw [hevidence]
      rfl
  · intro other_name other_obj hother
    have hnone : (other_obj.contains "command" && (other_obj.index "command").is_string) =
        false := by
      rcases hother with h | ⟨value, h, hvalue⟩
      · have h3 : other_obj.contains "command" = false := by
          unfold Json.contains
          rw [h]
          rfl
        rw [h3]
        rfl
      · obtain ⟨h3, h4⟩ := Json.index_of_find other_obj _ "command" h
        rw [h3, h4, hvalue]
        rfl
    unfold entryCandidate parseServerEntry
    rw [hnone]
    rfl
  · intro read_json_file json hread
    unfold configFileCandidates parse_config_file
    rw [hread]
    dsimp only
    congr 1
    unfold parseConfigJson
    dsimp only
    have hmcp : (if (json.contains "mcpServers" && (json.index "mcpServers").is_object) = true
        then mcpServersLoop (json.index "mcpServers").members []
        else []) =
        (json.index "mcpServers").members.filterMap (fun entry =>
          parseServerEntry { ServerConfig.init with name := entry.1 } entry.2) := by
      split_ifs with h
      · rw [mcpServersLoop_eq, List.nil_append]
      · have hmembers : (json.index "mcpServers").members = [] := by
          unfold Json.index Json.contains at *
          cases hfind : json.find "mcpServers" with
          | none => rfl
          | some value =>
            rw [hfind] at h
            cases value <;> first | rfl | simp [Json.is_object] at h
        rw [hmembers]
        rfl
    rw [hmcp]
    have hservers : ∀ configs : List ServerConfig,
        (if (json.contains "servers" && (json.index "servers").is_array) = true
        then serversLoop (json.index "servers").elements configs
        else configs) =
        configs ++ (json.index "servers").elements.filterMap (fun server_obj =>
          parseServerEntry
            { ServerConfig.init with name := stringField server_obj "name" "" }
            server_obj) := by
      intro configs
      split_ifs with h
      · rw [serversLoop_eq]
      · have helements : (json.index "servers").elements = [] := by
          unfold Json.index Json.contains at *
          cases hfind : json.find "servers" with
          | none => rfl
          | some value =>
            rw [hfind] at h
            cases value <;> first | rfl | simp [Json.is_array] at h
        rw [helements]
        simp
    rw [hservers]
    simp only [List.map_append, List.map_filterMap, entryCandidate, Option.map_eq_map]
/-- The config source at a concrete input: the entry `"fs": {"command":"node","args":["/a/b.js"]}` of the
specification yields one candidate with the command `node /a/b.js`. -/
theorem config_source_candidate_witness :
    nodeEntry.find "command" = some (Json.string "node") ∧
    ∃ candidate : Candidate,
      entryCandidate "/home/u/claude_desktop_config.json" "fs" nodeEntry = some candidate ∧
      candidate.command = "node /a/b.js" ∧
      candidate.transport_hint = TransportType.Stdio ∧
      candidate.confidence_score = 9 / 10 ∧
      candidate.is_direct_detection = true ∧
      configFileCandidates nodeConfigReader "/home/u/claude_desktop_config.json" =
        Except.ok [candidate] := by
  obtain ⟨⟨candidate, hentry, hcommand, _, _, _, hstdio, _, hscore, hdirect⟩, _, hfile⟩ :=
    config_source_candidate "/home/u/claude_desktop_config.json" "fs" nodeEntry "node"
      ["/a/b.js"] rfl (by decide) (Or.inl rfl)
  refine ⟨rfl, candidate, hentry, ?_, hstdio (Or.inl rfl), hscore, hdirect, ?_⟩
  · exact String.ext hcommand
  · rw [hfile nodeConfigReader nodeConfigJson rfl]
    have hmembers : (nodeConfigJson.index "mcpServers").members = [("fs", nodeEntry)] := rfl
    have helements : (nodeConfigJson.index "servers").elements = [] := rfl
    rw [hmembers, helements]
    simp [hentry]

/-- C30 as stated fails: the entry `{"command":"","args":["server.js"]}` has a
string command and a string argument; a candidate is emitted, and its command is empty,
not the command followed by the argument behind a space. -/
theorem config_source_counterexample :
    emptyCommandEntry.find "command" = some (Json.string "") ∧
    emptyCommandEntry.find "args" = some (Json.array [Json.string "server.js"]) ∧
    (entryCandidate "/etc/mcp.json" "empty" emptyCommandEntry).map Candidate.command =
      some "" ∧
    ("" : String) ≠ "" ++ " " ++ "server.js" := by
  refine ⟨rfl, rfl, ?_, by decide⟩
  rfl

/-! ## Monotonicity of evidence -/

/-- C40: for every candidate, after a `RuleAction` of type `Exclude` or
`AddNegativeEvidence` has been applied, `Candidate::is_direct_detection` returns `true`,
because the appended negative evidence has the source `rulepack:exclusion`, although
`confidence_score` is `0`. -/
theorem excluded_is_direct_detection (a : RuleAction) (c : Candidate)
    (ha : a.type = RuleActionType.Exclude ∨ a.type = RuleActionType.AddNegativeEvidence) :
    (a.apply c).is_direct_detection = true ∧
    (a.apply c).confidence_score = 0 ∧
    ∃ e : Evidence, (a.apply c).evidence = c.evidence ++ [e] ∧ e.is_negative = true ∧
      e.source = "rulepack:exclusion" := by
  have happended : ∃ e : Evidence, (a.apply c).evidence = c.evidence ++ [e] ∧
      e.is_negative = true ∧ e.source = "rulepack:exclusion" ∧
      (a.apply c).confidence_score = recalculatedScore (c.evidence ++ [e]) := by
    rcases ha with h | h
    · unfold RuleAction.apply
      rw [h]
      exact ⟨_, rfl, rfl, rfl, rfl⟩
    · unfold RuleAction.apply
      rw [h]
      exact ⟨_, rfl, rfl, rfl, rfl⟩
  obtain ⟨e, hevidence, hnegative, hsource, hscore⟩ := happended
  refine ⟨?_, ?_, e, hevidence, hnegative, hsource⟩
  · unfold Candidate.is_direct_detection
    rw [directDetectionLoop_iff, hevidence]
    refine ⟨e, List.mem_append_right _ (List.mem_singleton.mpr rfl), Or.inr (Or.inr ?_)⟩
    exact ⟨"exclusion", by rw [hsource]; rfl⟩
  · rw [hscore, recalculatedScore_eq]
    exact noisyOrReference_of_negative _
      ⟨e, List.mem_append_right _ (List.mem_singleton.mpr rfl), hnegative⟩

/-- The exclusion at a concrete input: a crash handler without evidence, excluded by a
rule, counts as a direct detection with score `0`. -/
theorem excluded_is_direct_detection_witness :
    (RuleAction.ofType RuleActionType.Exclude).type = RuleActionType.Exclude ∧
    ((RuleAction.ofType RuleActionType.Exclude).apply crashpadCandidate).is_direct_detection =
      true ∧
    ((RuleAction.ofType RuleActionType.Exclude).apply crashpadCandidate).confidence_score = 0 :=
  ⟨rfl,
    (excluded_is_direct_detection (RuleAction.ofType RuleActionType.Exclude) crashpadCandidate
      (Or.inl rfl)).1,
    (excluded_is_direct_detection (RuleAction.ofType RuleActionType.Exclude) crashpadCandidate
      (Or.inl rfl)).2.1⟩

/-! ## Deduplication: end of the loop, no duplicates left, first candidate kept -/

/-- The duplicate predicate does not depend on the order of its arguments. -/
theorem isDuplicate_symm (A B : Candidate) : isDuplicate A B = isDuplicate B A := by
  have hiff : isDuplicate A B = true ↔ isDuplicate B A = true := by
    rw [isDuplicate_iff, isDuplicate_iff]
    constructor
    · rintro (⟨h1, h2, h3, h4⟩ | ⟨h1, h2, h3⟩ | ⟨h1, h2, h3⟩ | ⟨h1, h2, h3⟩)
      · exact Or.inl ⟨h2, h1, h3.symm, h4.symm⟩
      · exact Or.inr (Or.inl ⟨h2, h1, h3.symm⟩)
      · exact Or.inr (Or.inr (Or.inl ⟨h2, h1, h3.symm⟩))
      · exact Or.inr (Or.inr (Or.inr ⟨h2, h1, h3.symm⟩))
    · rintro (⟨h1, h2, h3, h4⟩ | ⟨h1, h2, h3⟩ | ⟨h1, h2, h3⟩ | ⟨h1, h2, h3⟩)
      · exact Or.inl ⟨h2, h1, h3.symm, h4.symm⟩
      · exact Or.inr (Or.inl ⟨h2, h1, h3.symm⟩)
      · exact Or.inr (Or.inr (Or.inl ⟨h2, h1, h3.symm⟩))
      · exact Or.inr (Or.inr (Or.inr ⟨h2, h1, h3.symm⟩))
  cases hab : isDuplicate A B <;> cases hba : isDuplicate B A <;> simp_all

/-- Once the loop has had as many iterations as there are candidates, it has ended:
further iterations change nothing. -/
theorem dedupLoop_ended (fuel : Nat) :
    ∀ cs : List Candidate, cs.length ≤ fuel → dedupLoop fuel cs = dedupLoop cs.length cs := by
  induction fuel with
  | zero =>
    intro cs hlen
    have hnil : cs = [] := List.length_eq_zero.mp (Nat.le_zero.mp hlen)
    rw [hnil]
    rfl
  | succ fuel ih =>
    intro cs hlen
    cases cs with
    | nil => rfl
    | cons it rest =>
      rw [List.length_cons, dedupLoop, dedupLoop]
      cases hextract : extractDuplicate it rest with
      | none =>
        dsimp only
        rw [ih rest (by simpa using hlen)]
      | some found =>
        obtain ⟨duplicate, remaining⟩ := found
        dsimp only
        obtain ⟨before, after, hrest, hremaining, _, _⟩ :=
          extractDuplicate_some it rest duplicate remaining hextract
        have hsame : (mergeEvidence it duplicate :: remaining).length = rest.length := by
          rw [hrest, hremaining]
          simp only [List.length_cons, List.length_append]
          omega
        rw [ih _ (by rw [hsame]; simpa using hlen), hsame]

/-- The loop keeps the candidate it stands at, with its identity, at the head. -/
theorem dedupLoop_head (fuel : Nat) :
    ∀ (it : Candidate) (rest : List Candidate),
      ∃ kept tail, dedupLoop fuel (it :: rest) = kept :: tail ∧
        kept.identity = it.identity := by
  induction fuel with
  | zero =>
    intro it rest
    exact ⟨it, rest, rfl, rfl⟩
  | succ fuel ih =>
    intro it rest
    rw [dedupLoop]
    cases hextract : extractDuplicate it rest with
    | none => exact ⟨it, _, rfl, rfl⟩
    | some found =>
      obtain ⟨duplicate, remaining⟩ := found
      dsimp only
      obtain ⟨kept, tail, hloop, hkept⟩ := ih (mergeEvidence it duplicate) remaining
      exact ⟨kept, tail, hloop, by rw [hkept, mergeEvidence_identity]⟩

/-- C36: `deduplicate_candidates` ends on every list within as many iterations as the list
has candidates; in its output no two candidates satisfy the duplicate predicate (same
non-empty config file and same key, same positive pid, same non-empty url, or same
non-empty command); the identities of the output are a subsequence of those of the input,
and the first candidate is kept. -/
theorem deduplicate_candidates_postcondition (candidates : List Candidate) :
    (∀ fuel : Nat, candidates.length ≤ fuel →
      dedupLoop fuel candidates = deduplicate_candidates candidates) ∧
    (deduplicate_candidates candidates).Pairwise (fun a b =>
      isDuplicate a b = false ∧ isDuplicate b a = false) ∧
    (∀ A B : Candidate, isDuplicate A B = true ↔
      (A.config_file ≠ "" ∧ B.config_file ≠ "" ∧ A.config_file = B.config_file ∧
        A.config_key = B.config_key) ∨
      (A.pid > 0 ∧ B.pid > 0 ∧ A.pid = B.pid) ∨
      (A.url ≠ "" ∧ B.url ≠ "" ∧ A.url = B.url) ∨
      (A.command ≠ "" ∧ B.command ≠ "" ∧ A.command = B.command)) ∧
    ((deduplicate_candidates candidates).map Candidate.identity).Sublist
      (candidates.map Candidate.identity) ∧
    (∀ (first : Candidate) (rest : List Candidate), candidates = first :: rest →
      ∃ kept tail, deduplicate_candidates candidates = kept :: tail ∧
        kept.identity = first.identity) := by
  refine ⟨?_, ?_, isDuplicate_iff, ?_, ?_⟩
  · intro fuel hfuel
    unfold deduplicate_candidates
    exact dedupLoop_ended fuel candidates hfuel
  · unfold deduplicate_candidates
    refine (dedupLoop_pairwise candidates.length candidates (le_refl _)).imp ?_
    intro a b hab
    exact ⟨hab, by rw [isDuplicate_symm]; exact hab⟩
  · unfold deduplicate_candidates
    exact dedupLoop_identity_sublist _ _
  · intro first rest hcandidates
    unfold deduplicate_candidates
    rw [hcandidates]
    exact dedupLoop_head _ first rest

/-! ## Active coordinator: accounting, the candidate of a confirmed server -/

/-- The engine loop for one candidate: either a server is recorded, which adds one
confirmed server with that candidate and counts it, or the results stay as they are. -/
theorem engineLoop_results (lib : JsonLib) (parse_error_what : String → String)
    (scanner : ActiveScanner) (config : ActiveScanConfig) (candidate : Candidate)
    (engines : List TestingEngine) :
    ∀ (state : ActiveScanState) (engine_errors : List String),
      ((engineLoop lib parse_error_what scanner config candidate engines state
          engine_errors).2.1 = false ∧
        (engineLoop lib parse_error_what scanner config candidate engines state
          engine_errors).1.results = state.results) ∨
      ((engineLoop lib parse_error_what scanner config candidate engines state
          engine_errors).2.1 = true ∧
        ∃ server : MCPServer, server.candidate = candidate ∧
          (engineLoop lib parse_error_what scanner config candidate engines state
            engine_errors).1.results =
            { state.results with
              confirmed_servers := state.results.confirmed_servers ++ [server]
              servers_confirmed_count := state.results.servers_confirmed_count + 1 }) := by
  induction engines with
  | nil =>
    intro state engine_errors
    exact Or.inl ⟨rfl, rfl⟩
  | cons engine rest ih =>
    intro state engine_errors
    rw [engineLoop]
    dsimp only
    cases engine.test (state.calls ++ [⟨engine.name, candidate⟩]) candidate with
    | error what => exact ih _ _
    | ok answer =>
      cases answer with
      | none => exact ih _ _
      | some server =>
        refine Or.inr ⟨rfl, ?_⟩
        unfold recordConfirmed
        dsimp only
        split_ifs
        · exact ⟨_, interrogate_candidate _ _ _ _, rfl⟩
        · exact ⟨_, rfl, rfl⟩

/-- The body of the candidate loop keeps the accounting balanced and counts the candidate
when it is not skipped. -/
theorem scanCandidate_balanced (lib : JsonLib) (parse_error_what : String → String)
    (scanner : ActiveScanner) (config : ActiveScanConfig) (candidate : Candidate)
    (state : ActiveScanState) (tested : Nat) (h : state.results.balanced tested) :
    (scanCandidate lib parse_error_what scanner config candidate state).results.balanced
        (tested + if isSkipped config candidate then 0 else 1) ∧
      (scanCandidate lib parse_error_what scanner config candidate
        state).results.candidates_tested = state.results.candidates_tested := by
  obtain ⟨h1, h2, h3, h4⟩ := h
  unfold scanCandidate
  by_cases hskip : isSkipped config candidate = true
  · rw [if_pos hskip, if_pos hskip, Nat.add_zero]
    exact ⟨⟨h1, h2, h3, h4⟩, rfl⟩
  · simp only [hskip, Bool.false_eq_true, if_false]
    rcases engineLoop_results lib parse_error_what scanner config candidate
        scanner.testing_engines_
        { state with
          results :=
            { state.results with
              candidates_tested_count := state.results.candidates_tested_count + 1 } }
        [] with ⟨hflag, hresults⟩ | ⟨hflag, server, _, hresults⟩
    · generalize engineLoop lib parse_error_what scanner config candidate
        scanner.testing_engines_
        { state with
          results :=
            { state.results with
              candidates_tested_count := state.results.candidates_tested_count + 1 } }
        [] = outcome at hflag hresults
      obtain ⟨after, flag, errors⟩ := outcome
      dsimp only at hflag hresults
      subst hflag
      dsimp only
      rw [hresults]
      unfold recordFailed ActiveScanResults.balanced
      dsimp only
      refine ⟨⟨?_, ?_, ?_, ?_⟩, ?_⟩
      · split_ifs <;> simp [h1]
      · split_ifs <;> simp <;> omega
      · split_ifs <;> simp [h3]
      · split_ifs <;> simp [h4]
      · split_ifs <;> rfl
    · generalize engineLoop lib parse_error_what scanner config candidate
        scanner.testing_engines_
        { state with
          results :=
            { state.results with
              candidates_tested_count := state.results.candidates_tested_count + 1 } }
        [] = outcome at hflag hresults
      obtain ⟨after, flag, errors⟩ := outcome
      dsimp only at hflag hresults
      subst hflag
      dsimp only
      rw [hresults]
      unfold ActiveScanResults.balanced
      dsimp only
      refine ⟨⟨?_, ?_, ?_, ?_⟩, rfl⟩
      · simp [h1]
      · simp
        omega
      · simp [h3]
      · exact h4

/-- The candidate loop keeps the accounting balanced: it counts the candidates that are
not skipped. -/
theorem candidatesLoop_balanced (lib : JsonLib) (parse_error_what : String → String)
    (scanner : ActiveScanner) (config : ActiveScanConfig) (candidates : List Candidate) :
    ∀ (state : ActiveScanState) (tested : Nat), state.results.balanced tested →
      (candidatesLoop lib parse_error_what scanner config candidates state).results.balanced
          (tested + (candidates.filter (fun c => !isSkipped config c)).length) ∧
        (candidatesLoop lib parse_error_what scanner config candidates
          state).results.candidates_tested = state.results.candidates_tested := by
  induction candidates with
  | nil =>
    intro state tested h
    exact ⟨h, rfl⟩
  | cons candidate rest ih =>
    intro state tested h
    rw [candidatesLoop]
    obtain ⟨hstep, hsame⟩ := scanCandidate_balanced lib parse_error_what scanner config
      candidate state tested h
    obtain ⟨hrest, hsame2⟩ := ih _ _ hstep
    refine ⟨?_, hsame2.trans hsame⟩
    have hcount : tested + (if isSkipped config candidate then 0 else 1) +
        (rest.filter (fun c => !isSkipped config c)).length =
        tested + ((candidate :: rest).filter (fun c => !isSkipped config c)).length := by
      by_cases hskip : isSkipped config candidate = true
      · simp [hskip]
      · simp only [Bool.not_eq_true] at hskip
        simp [hskip]
        omega
    rw [← hcount]
    exact hrest

/-- C37: for every scanner, candidate list, config and behaviour of the probes, the result
of `ActiveScanner::scan` satisfies `candidates_tested_count = servers_confirmed_count +
tests_failed_count`, which is the number of input candidates that are in no skip list; the
lengths of `confirmed_servers` and `failed_tests` are the two counters; and
`candidates_tested` is the whole input list, skipped candidates included. -/
theorem active_scan_accounting (lib : JsonLib) (parse_error_what : String → String)
    (new_http_client : HttpClient) (scanner : ActiveScanner) (candidates : List Candidate)
    (config : ActiveScanConfig) :
    (scanner.scan lib parse_error_what new_http_client candidates
        config).1.candidates_tested_count =
      ((candidates.filter (fun c => !isSkipped config c)).length : Int) ∧
    (scanner.scan lib parse_error_what new_http_client candidates
        config).1.servers_confirmed_count +
      (scanner.scan lib parse_error_what new_http_client candidates
        config).1.tests_failed_count =
      (scanner.scan lib parse_error_what new_http_client candidates
        config).1.candidates_tested_count ∧
    (((scanner.scan lib parse_error_what new_http_client candidates
        config).1.confirmed_servers.length : Nat) : Int) =
      (scanner.scan lib parse_error_what new_http_client candidates
        config).1.servers_confirmed_count ∧
    (((scanner.scan lib parse_error_what new_http_client candidates
        config).1.failed_tests.length : Nat) : Int) =
      (scanner.scan lib parse_error_what new_http_client candidates
        config).1.tests_failed_count ∧
    (scanner.scan lib parse_error_what new_http_client candidates
        config).1.candidates_tested = candidates ∧
    (∀ c : Candidate, isSkipped config c = true ↔
      (c.pid > 0 ∧ c.pid ∈ config.skip_pids) ∨ (c.url ≠ "" ∧ c.url ∈ config.skip_urls)) := by
  have hstart : ActiveScanResults.balanced
      { candidates_tested := candidates
        confirmed_servers := []
        failed_tests := []
        candidates_tested_count := 0
        servers_confirmed_count := 0
        tests_failed_count := 0
        errors := [] } 0 := by
    unfold ActiveScanResults.balanced
    simp
  have hskipped : ∀ c : Candidate, isSkipped config c = true ↔
      (c.pid > 0 ∧ c.pid ∈ config.skip_pids) ∨ (c.url ≠ "" ∧ c.url ∈ config.skip_urls) := by
    intro c
    unfold isSkipped
    by_cases h1 : c.pid > 0 ∧ c.pid ∈ config.skip_pids
    · simp [h1]
    · by_cases h2 : c.url ≠ "" ∧ c.url ∈ config.skip_urls
      · simp [h2]
      · simp only [h1, h2, or_self, iff_false]
        rw [not_and_or] at h1 h2
        rcases h1 with h1 | h1 <;> rcases h2 with h2 | h2 <;> simp [h1, h2]
  unfold ActiveScanner.scan
  dsimp only
  obtain ⟨⟨h1, h2, h3, h4⟩, h5⟩ := candidatesLoop_balanced lib parse_error_what
    (if scanner.testing_engines_.isEmpty = true then
      scanner.initialize_engines lib new_http_client else scanner)
    config candidates
    ⟨{ candidates_tested := candidates
       confirmed_servers := []
       failed_tests := []
       candidates_tested_count := 0
       servers_confirmed_count := 0
       tests_failed_count := 0
       errors := [] },
      (if scanner.testing_engines_.isEmpty = true then
        scanner.initialize_engines lib new_http_client else scanner).interrogator_, []⟩
    0 hstart
  rw [Nat.zero_add] at h1 h2
  exact ⟨h1, by rw [h2, h1], h3, h4, h5, hskipped⟩

/-- The body of the candidate loop records a server, if any, with the candidate itself. -/
theorem scanCandidate_confirmed (lib : JsonLib) (parse_error_what : String → String)
    (scanner : ActiveScanner) (config : ActiveScanConfig) (candidate : Candidate)
    (state : ActiveScanState) :
    ∃ added : List Candidate,
      added.Sublist ([candidate].filter (fun c => !isSkipped config c)) ∧
      (scanCandidate lib parse_error_what scanner config candidate
          state).results.confirmed_servers.map MCPServer.candidate =
        state.results.confirmed_servers.map MCPServer.candidate ++ added := by
  unfold scanCandidate
  by_cases hskip : isSkipped config candidate = true
  · rw [if_pos hskip]
    exact ⟨[], List.nil_sublist _, by simp⟩
  · have hfilter : [candidate].filter (fun c => !isSkipped config c) = [candidate] := by
      simp [hskip]
    rw [hfilter]
    simp only [hskip, Bool.false_eq_true, if_false]
    rcases engineLoop_results lib parse_error_what scanner config candidate
        scanner.testing_engines_
        { state with
          results :=
            { state.results with
              candidates_tested_count := state.results.candidates_tested_count + 1 } }
        [] with ⟨hflag, hresults⟩ | ⟨hflag, server, hserver, hresults⟩
    · generalize engineLoop lib parse_error_what scanner config candidate
        scanner.testing_engines_
        { state with
          results :=
            { state.results with
              candidates_tested_count := state.results.candidates_tested_count + 1 } }
        [] = outcome at hflag hresults
      obtain ⟨after, flag, errors⟩ := outcome
      dsimp only at hflag hresults
      subst hflag
      dsimp only
      rw [hresults]
      refine ⟨[], List.nil_sublist _, ?_⟩
      unfold recordFailed
      dsimp only
      split_ifs <;> simp
    · generalize engineLoop lib parse_error_what scanner config candidate
        scanner.testing_engines_
        { state with
          results :=
            { state.results with
              candidates_tested_count := state.results.candidates_tested_count + 1 } }
        [] = outcome at hflag hresults
      obtain ⟨after, flag, errors⟩ := outcome
      dsimp only at hflag hresults
      subst hflag
      dsimp only
      rw [hresults]
      exact ⟨[candidate], List.Sublist.refl _, by simp [hserver]⟩

/-- The candidates of the confirmed servers are input candidates that are not skipped, in
input order. -/
theorem candidatesLoop_confirmed (lib : JsonLib) (parse_error_what : String → String)
    (scanner : ActiveScanner) (config : ActiveScanConfig) (candidates : List Candidate) :
    ∀ state : ActiveScanState,
      ∃ added : List Candidate,
        added.Sublist (candidates.filter (fun c => !isSkipped config c)) ∧
        (candidatesLoop lib parse_error_what scanner config candidates
            state).results.confirmed_servers.map MCPServer.candidate =
          state.results.confirmed_servers.map MCPServer.candidate ++ added := by
  induction candidates with
  | nil =>
    intro state
    exact ⟨[], List.nil_sublist _, by simp [candidatesLoop]⟩
  | cons candidate rest ih =>
    intro state
    rw [candidatesLoop]
    obtain ⟨first, hfirst, hstep⟩ := scanCandidate_confirmed lib parse_error_what scanner
      config candidate state
    obtain ⟨others, hothers, hrest⟩ := ih
      (scanCandidate lib parse_error_what scanner config candidate state)
    refine ⟨first ++ others, ?_, ?_⟩
    · have hsplit : (candidate :: rest).filter (fun c => !isSkipped config c) =
          [candidate].filter (fun c => !isSkipped config c) ++
            rest.filter (fun c => !isSkipped config c) := by
        rw [← List.filter_append]
        rfl
      rw [hsplit]
      exact List.Sublist.append hfirst hothers
    · rw [hrest, hstep, List.append_assoc]

/-- A request of the HTTP `send_request` goes to the url it was created with. -/
theorem httpSendRequest_trace (lib : JsonLib) (parse_error_what : String → String)
    (http_client : HttpClient) (url : String) (trace : InterrogationTrace) (request : Json) :
    (httpSendRequest lib parse_error_what http_client url trace request).2.http =
      trace.http ++
        [HttpEvent.post url (lib.dump request) [("Content-Type", "application/json")]] := by
  unfold httpSendRequest
  dsimp only
  split
  · rfl
  · split_ifs
    · rfl
    · split <;> rfl

/-- One step of an interrogation over HTTP adds one POST to the url. -/
theorem interrogateStep_http (lib : JsonLib) (parse_error_what : String → String)
    (http_client : HttpClient) (url : String) (request : Json)
    (parse : Json → MCPServer → MCPServer) (failure : String) (server : MCPServer)
    (trace : InterrogationTrace) :
    (interrogateStep (httpSendRequest lib parse_error_what http_client url) request parse
        failure server trace).2.http =
      trace.http ++
        [HttpEvent.post url (lib.dump request) [("Content-Type", "application/json")]] := by
  unfold interrogateStep
  have h := httpSendRequest_trace lib parse_error_what http_client url trace request
  generalize httpSendRequest lib parse_error_what http_client url trace request = sent at h
  obtain ⟨answer, after⟩ := sent
  cases answer with
  | ok response => exact h
  | error what => exact h

/-- The requests of an interrogation over HTTP all go to the url of the send function. -/
theorem performInterrogation_http (lib : JsonLib) (parse_error_what : String → String)
    (http_client : HttpClient) (url : String) (config : InterrogationConfig)
    (server : MCPServer) (trace : InterrogationTrace)
    (htrace : ∀ event ∈ trace.http, ∃ body headers, event = HttpEvent.post url body headers) :
    ∀ event ∈ (performInterrogation config
        (httpSendRequest lib parse_error_what http_client url) server trace).2.http,
      ∃ body headers, event = HttpEvent.post url body headers := by
  have hstep : ∀ (state : MCPServer × InterrogationTrace) (flag : Bool) (request : Json)
      (parse : Json → MCPServer → MCPServer) (failure : String),
      (∀ event ∈ state.2.http, ∃ body headers, event = HttpEvent.post url body headers) →
      ∀ event ∈ (if flag = true then
          interrogateStep (httpSendRequest lib parse_error_what http_client url) request parse
            failure state.1 state.2
        else state).2.http,
        ∃ body headers, event = HttpEvent.post url body headers := by
    intro state flag request parse failure hstate event hevent
    cases flag with
    | false => exact hstate event hevent
    | true =>
      simp only [if_true] at hevent
      rw [interrogateStep_http] at hevent
      rcases List.mem_append.mp hevent with h | h
      · exact hstate event h
      · exact ⟨_, _, List.mem_singleton.mp h⟩
  unfold performInterrogation interrogate_tools interrogate_resources
    interrogate_resource_templates interrogate_prompts
  dsimp only
  apply hstep
  apply hstep
  apply hstep
  exact hstep (server, trace) _ _ _ _ htrace

/-- The requests of the interrogation of a server confirmed over HTTP all go to the url of
its candidate. -/
theorem interrogate_http_url (lib : JsonLib) (parse_error_what : String → String)
    (interrogator : ServerInterrogator) (server : MCPServer)
    (hhttp : server.transport_type = TransportType.Http) :
    ∀ event ∈ (interrogator.interrogate lib parse_error_what server).2.http,
      ∃ body headers, event = HttpEvent.post server.candidate.url body headers := by
  have hnone : ∀ event ∈ ([] : List HttpEvent),
      ∃ body headers, event = HttpEvent.post server.candidate.url body headers := by
    intro event hevent
    exact absurd hevent (List.not_mem_nil _)
  have hstdio : ¬ server.transport_type = TransportType.Stdio := by
    rw [hhttp]
    decide
  unfold ServerInterrogator.interrogate
  dsimp only
  by_cases henabled : (!interrogator.config_.interrogate_enabled) = true
  · rw [if_pos henabled]
    exact hnone
  · rw [if_neg henabled, if_neg hstdio, if_pos hhttp]
    cases interrogator.http_client_ with
    | none => exact hnone
    | some http_client =>
      dsimp only
      by_cases hurl : server.candidate.url = ""
      · rw [if_pos hurl]
        exact hnone
      · rw [if_neg hurl]
        exact performInterrogation_http lib parse_error_what http_client
          server.candidate.url interrogator.config_ _ ⟨[], []⟩ hnone

/-- C38: every server in `confirmed_servers` has as its candidate an input candidate that
is in no skip list, and the candidates of the confirmed servers follow the input order.
The coordinator replaces the candidate of the server that a probe returns, and with it the
url that the HTTP probe had set to the successful path, by the input candidate before it
interrogates and records the server, so that the requests of an interrogation over HTTP go
to the original url. -/
theorem confirmed_server_keeps_candidate (lib : JsonLib)
    (parse_error_what : String → String) (new_http_client : HttpClient)
    (scanner : ActiveScanner) (candidates : List Candidate) (config : ActiveScanConfig)
    (server : MCPServer)
    (hserver : server ∈ (scanner.scan lib parse_error_what new_http_client candidates
      config).1.confirmed_servers) :
    (server.candidate ∈ candidates ∧ isSkipped config server.candidate = false) ∧
    ((scanner.scan lib parse_error_what new_http_client candidates
        config).1.confirmed_servers.map MCPServer.candidate).Sublist
      (candidates.filter (fun c => !isSkipped config c)) ∧
    (∀ (engines_scanner : ActiveScanner) (candidate : Candidate) (probe_server : MCPServer)
        (state : ActiveScanState),
      ∃ recorded : MCPServer,
        (recordConfirmed lib parse_error_what engines_scanner config candidate probe_server
            state).results.confirmed_servers =
          state.results.confirmed_servers ++ [recorded] ∧
        recorded.candidate = candidate ∧
        ((config.interrogate && config.interrogation_config.interrogate_enabled) = false →
          recorded = { probe_server with candidate := candidate }) ∧
        ((config.interrogate && config.interrogation_config.interrogate_enabled) = true →
          ∃ interrogator : ServerInterrogator,
            recorded = (interrogator.interrogate lib parse_error_what
              { probe_server with candidate := candidate }).1)) ∧
    (∀ (interrogator : ServerInterrogator) (http_server : MCPServer),
      http_server.transport_type = TransportType.Http →
      ∀ event ∈ (interrogator.interrogate lib parse_error_what http_server).2.http,
        ∃ body headers, event = HttpEvent.post http_server.candidate.url body headers) := by
  have hsublist : ((scanner.scan lib parse_error_what new_http_client candidates
        config).1.confirmed_servers.map MCPServer.candidate).Sublist
      (candidates.filter (fun c => !isSkipped config c)) := by
    unfold ActiveScanner.scan
    dsimp only
    obtain ⟨added, hadded, hmap⟩ := candidatesLoop_confirmed lib parse_error_what
      (if scanner.testing_engines_.isEmpty = true then
        scanner.initialize_engines lib new_http_client else scanner)
      config candidates
      ⟨{ candidates_tested := candidates
         confirmed_servers := []
         failed_tests := []
         candidates_tested_count := 0
         servers_confirmed_count := 0
         tests_failed_count := 0
         errors := [] },
        (if scanner.testing_engines_.isEmpty = true then
          scanner.initialize_engines lib new_http_client else scanner).interrogator_, []⟩
    rw [hmap]
    exact hadded
  refine ⟨?_, hsublist, ?_, ?_⟩
  · have hmem : server.candidate ∈ candidates.filter (fun c => !isSkipped config c) :=
      hsublist.subset (List.mem_map_of_mem MCPServer.candidate hserver)
    obtain ⟨h1, h2⟩ := List.mem_filter.mp hmem
    exact ⟨h1, by simpa using h2⟩
  · intro engines_scanner candidate probe_server state
    unfold recordConfirmed
    dsimp only
    by_cases henabled :
        (config.interrogate && config.interrogation_config.interrogate_enabled) = true
    · simp only [henabled, if_true]
      refine ⟨_, rfl, interrogate_candidate _ _ _ _, ?_, ?_⟩
      · intro hfalse
        exact absurd hfalse (by simp)
      · intro _
        exact ⟨_, rfl⟩
    · simp only [henabled, Bool.false_eq_true, if_false]
      refine ⟨_, rfl, rfl, ?_, ?_⟩
      · intro _
        rfl
      · intro htrue
        exact False.elim htrue
  · intro interrogator http_server hhttp
    exact interrogate_http_url lib parse_error_what interrogator http_server hhttp

/-- The candidate of a confirmed server at a concrete input: the HTTP probe confirms the
protected server at the url that ends in `/sse`, and the scan records the server with the
candidate as it was given, whose url is the base url. -/
theorem confirmed_server_keeps_candidate_witness :
    ((HttpTestingEngine.test sampleJsonLib ⟨some protectedSseClient⟩ httpCandidate).1.map
      (fun probe_server => probe_server.candidate.url)) =
        some "http://127.0.0.1:8080/sse" ∧
    { httpServerAt httpCandidate "http://127.0.0.1:8080/sse" with candidate := httpCandidate } ∈
      (bareScanner.scan sampleJsonLib sampleParseErrorWhat protectedSseClient [httpCandidate]
        ActiveScanConfig.default).1.confirmed_servers ∧
    ({ httpServerAt httpCandidate "http://127.0.0.1:8080/sse" with
        candidate := httpCandidate } : MCPServer).candidate ∈ [httpCandidate] ∧
    httpCandidate.url = "http://127.0.0.1:8080" := by
  have hmem : ({ httpServerAt httpCandidate "http://127.0.0.1:8080/sse" with
      candidate := httpCandidate } : MCPServer) ∈
      (bareScanner.scan sampleJsonLib sampleParseErrorWhat protectedSseClient [httpCandidate]
        ActiveScanConfig.default).1.confirmed_servers :=
    List.Mem.head _
  exact ⟨rfl, hmem,
    (confirmed_server_keeps_candidate sampleJsonLib sampleParseErrorWhat protectedSseClient
      bareScanner [httpCandidate] ActiveScanConfig.default _ hmem).1.1, rfl⟩

/-! ## Active coordinator: candidates with the transport hint Sse -/

/-- The body of the candidate loop with the two registered engines: the candidate goes to
`failed_tests` when it is not skipped and neither probe returns a server. -/
theorem scanCandidate_registered_failed (lib : JsonLib)
    (parse_error_what : String → String) (scanner : ActiveScanner)
    (config : ActiveScanConfig) (candidate : Candidate) (state : ActiveScanState)
    (platform : Option PlatformAdapter) (http_client : Option HttpClient)
    (hengines : scanner.testing_engines_ =
      [stdioEngine lib platform, httpEngine lib http_client]) :
    (scanCandidate lib parse_error_what scanner config candidate state).results.failed_tests =
      state.results.failed_tests ++
        (if !isSkipped config candidate &&
            !(((StdioTestingEngine.test lib ⟨platform⟩ candidate).1).isSome ||
              ((HttpTestingEngine.test lib ⟨http_client⟩ candidate).1).isSome) then
          [candidate]
        else []) := by
  have hrecord : ∀ (server : MCPServer) (st : ActiveScanState),
      (recordConfirmed lib parse_error_what scanner config candidate server
          st).results.failed_tests = st.results.failed_tests := by
    intro server st
    rfl
  unfold scanCandidate
  by_cases hskip : isSkipped config candidate = true
  · simp [hskip]
  · simp only [hskip, Bool.false_eq_true, if_false, hengines]
    rw [engineLoop]
    simp only [stdioEngine, httpEngine]
    cases hstdio : (StdioTestingEngine.test lib ⟨platform⟩ candidate).1 with
    | some server =>
      dsimp only
      rw [hrecord]
      simp
    | none =>
      dsimp only
      rw [engineLoop]
      dsimp only
      cases hhttp : (HttpTestingEngine.test lib ⟨http_client⟩ candidate).1 with
      | some server =>
        dsimp only
        rw [hrecord]
        simp
      | none =>
        dsimp only
        rw [engineLoop]
        dsimp only
        unfold recordFailed
        simp

/-- The candidate loop with the two registered engines: `failed_tests` lists, in input
order, the candidates that are not skipped and that neither probe confirms. -/
theorem candidatesLoop_registered_failed (lib : JsonLib)
    (parse_error_what : String → String) (scanner : ActiveScanner)
    (config : ActiveScanConfig) (platform : Option PlatformAdapter)
    (http_client : Option HttpClient)
    (hengines : scanner.testing_engines_ =
      [stdioEngine lib platform, httpEngine lib http_client])
    (candidates : List Candidate) :
    ∀ state : ActiveScanState,
      (candidatesLoop lib parse_error_what scanner config candidates
          state).results.failed_tests =
        state.results.failed_tests ++
          (candidates.filter (fun c => !isSkipped config c)).filter (fun c =>
            !(((StdioTestingEngine.test lib ⟨platform⟩ c).1).isSome ||
              ((HttpTestingEngine.test lib ⟨http_client⟩ c).1).isSome)) := by
  induction candidates with
  | nil =>
    intro state
    simp [candidatesLoop]
  | cons candidate rest ih =>
    intro state
    rw [candidatesLoop, ih,
      scanCandidate_registered_failed lib parse_error_what scanner config candidate state
        platform http_client hengines]
    by_cases hskip : isSkipped config candidate = true
    · simp [hskip]
    · simp only [Bool.not_eq_true] at hskip
      simp only [hskip, Bool.not_false, Bool.true_and, List.filter_cons, if_true,
        List.append_assoc]
      split_ifs <;> simp

/-- C39, amended: for a candidate with transport hint Sse both `StdioTestingEngine::test`
and `HttpTestingEngine::test` return no server without any call on the platform or the
HTTP client, so a fresh `ActiveScanner` never confirms the candidate; `scan` places it in
`failed_tests` when it is an input candidate in no skip list, and in neither result list
when it is in a skip list. -/
theorem sse_hint_never_confirmed (lib : JsonLib) (parse_error_what : String → String)
    (new_http_client : HttpClient) (scanner : ActiveScanner) (candidates : List Candidate)
    (config : ActiveScanConfig) (candidate : Candidate)
    (hhint : candidate.transport_hint = TransportType.Sse)
    (hfresh : scanner.testing_engines_ = []) :
    (∀ engine : StdioTestingEngine, StdioTestingEngine.test lib engine candidate = (none, [])) ∧
    (∀ engine : HttpTestingEngine, HttpTestingEngine.test lib engine candidate = (none, [])) ∧
    (∀ server ∈ (scanner.scan lib parse_error_what new_http_client candidates
        config).1.confirmed_servers, server.candidate ≠ candidate) ∧
    (candidate ∈ candidates → isSkipped config candidate = false →
      candidate ∈ (scanner.scan lib parse_error_what new_http_client candidates
        config).1.failed_tests) ∧
    (isSkipped config candidate = true →
      candidate ∉ (scanner.scan lib parse_error_what new_http_client candidates
        config).1.failed_tests) := by
  have hstdio : ∀ engine : StdioTestingEngine,
      StdioTestingEngine.test lib engine candidate = (none, []) := by
    intro engine
    unfold StdioTestingEngine.test
    by_cases hcommand : candidate.command = ""
    · rw [if_pos hcommand]
    · rw [if_neg hcommand, if_pos]
      rw [hhint]
      exact ⟨by decide, by decide⟩
  have hhttp : ∀ engine : HttpTestingEngine,
      HttpTestingEngine.test lib engine candidate = (none, []) := by
    intro engine
    unfold HttpTestingEngine.test
    by_cases hurl : candidate.url = ""
    · rw [if_pos hurl]
    · rw [if_neg hurl, if_pos]
      rw [hhint]
      exact ⟨by decide, by decide⟩
  have hengines : (scanner.initialize_engines lib new_http_client).testing_engines_ =
      [stdioEngine lib scanner.platform_, httpEngine lib (some new_http_client)] := by
    unfold ActiveScanner.initialize_engines
    simp [hfresh]
  have hconfirmed : (scanner.scan lib parse_error_what new_http_client candidates
        config).1.confirmed_servers.map MCPServer.candidate =
      (candidates.filter (fun c => !isSkipped config c)).filter (fun c =>
        ((StdioTestingEngine.test lib ⟨scanner.platform_⟩ c).1).isSome ||
          ((HttpTestingEngine.test lib ⟨some new_http_client⟩ c).1).isSome) := by
    unfold ActiveScanner.scan
    simp only [hfresh, List.isEmpty_nil, if_true]
    rw [(candidatesLoop_registered lib parse_error_what
      (scanner.initialize_engines lib new_http_client) config scanner.platform_
      (some new_http_client) hengines candidates _).2]
    rfl
  have hfailed : (scanner.scan lib parse_error_what new_http_client candidates
        config).1.failed_tests =
      (candidates.filter (fun c => !isSkipped config c)).filter (fun c =>
        !(((StdioTestingEngine.test lib ⟨scanner.platform_⟩ c).1).isSome ||
          ((HttpTestingEngine.test lib ⟨some new_http_client⟩ c).1).isSome)) := by
    unfold ActiveScanner.scan
    simp only [hfresh, List.isEmpty_nil, if_true]
    rw [candidatesLoop_registered_failed lib parse_error_what
      (scanner.initialize_engines lib new_http_client) config scanner.platform_
      (some new_http_client) hengines candidates _]
    rfl
  have hneither : (((StdioTestingEngine.test lib ⟨scanner.platform_⟩ candidate).1).isSome ||
      ((HttpTestingEngine.test lib ⟨some new_http_client⟩ candidate).1).isSome) = false := by
    rw [hstdio, hhttp]
    rfl
  refine ⟨hstdio, hhttp, ?_, ?_, ?_⟩
  · intro server hserver heq
    have hmem : server.candidate ∈ (scanner.scan lib parse_error_what new_http_client
        candidates config).1.confirmed_servers.map MCPServer.candidate :=
      List.mem_map_of_mem MCPServer.candidate hserver
    rw [hconfirmed, heq] at hmem
    have hsome := (List.mem_filter.mp hmem).2
    rw [hneither] at hsome
    exact absurd hsome (by decide)
  · intro hmem hskip
    rw [hfailed]
    refine List.mem_filter.mpr ⟨List.mem_filter.mpr ⟨hmem, by simp [hskip]⟩, ?_⟩
    rw [hneither]
    rfl
  · intro hskip hmem
    rw [hfailed] at hmem
    have hnot := (List.mem_filter.mp (List.mem_filter.mp hmem).1).2
    rw [hskip] at hnot
    exact absurd hnot (by decide)

/-- The Sse hint at a concrete input: a fresh scanner without skip lists places the
candidate of the container source in `failed_tests`. -/
theorem sse_hint_never_confirmed_witness :
    sseCandidate.transport_hint = TransportType.Sse ∧
    bareScanner.testing_engines_ = [] ∧
    sseCandidate ∈ (bareScanner.scan sampleJsonLib sampleParseErrorWhat protectedSseClient
      [sseCandidate] ActiveScanConfig.default).1.failed_tests :=
  ⟨rfl, rfl,
    (sse_hint_never_confirmed sampleJsonLib sampleParseErrorWhat protectedSseClient
      bareScanner [sseCandidate] ActiveScanConfig.default sseCandidate rfl rfl).2.2.2.1
      (List.mem_singleton.mpr rfl) rfl⟩

/-- C39 as stated fails: the url of the candidate is in `skip_urls`; the scan passes over
the candidate, and `failed_tests` stays empty. -/
theorem sse_hint_counterexample :
    sseCandidate.transport_hint = TransportType.Sse ∧
    sseCandidate ∈ [sseCandidate] ∧
    (bareScanner.scan sampleJsonLib sampleParseErrorWhat protectedSseClient [sseCandidate]
      skipUrlConfig).1.failed_tests = [] ∧
    sseCandidate ∉ (bareScanner.scan sampleJsonLib sampleParseErrorWhat protectedSseClient
      [sseCandidate] skipUrlConfig).1.failed_tests := by
  have hfailed : (bareScanner.scan sampleJsonLib sampleParseErrorWhat protectedSseClient
      [sseCandidate] skipUrlConfig).1.failed_tests = [] := rfl
  refine ⟨rfl, List.mem_singleton.mpr rfl, hfailed, ?_⟩
  rw [hfailed]
  exact List.not_mem_nil _

/-! ## Passive coordinator: the threshold and the merger of duplicates -/

theorem mergeEvidence_score (it duplicate : Candidate) :
    mergeEvidence it duplicate = it ∨
    (mergeEvidence it duplicate).confidence_score =
      recalculatedScore (mergeEvidence it duplicate).evidence := by
  rw [mergeEvidence_eq]
  by_cases hempty : duplicate.evidence = []
  · left
    rw [if_pos hempty, hempty, List.append_nil]
  · right
    rw [if_neg hempty]

theorem dedupLoop_score (collected : List Candidate) : ∀ (fuel : Nat) (cs : List Candidate),
    (∀ x ∈ cs, x ∈ collected ∨
      (x.confidence_score = recalculatedScore x.evidence ∧
        ∃ y ∈ collected, y.identity = x.identity)) →
    ∀ x ∈ dedupLoop fuel cs, x ∈ collected ∨
      (x.confidence_score = recalculatedScore x.evidence ∧
        ∃ y ∈ collected, y.identity = x.identity) := by
  intro fuel
  induction fuel with
  | zero =>
    intro cs h x hx
    exact h x hx
  | succ fuel ih =>
    intro cs h x hx
    cases cs with
    | nil => simp [dedupLoop] at hx
    | cons it rest =>
      unfold dedupLoop at hx
      cases hfind : extractDuplicate it rest with
      | none =>
        rw [hfind] at hx
        rcases List.mem_cons.mp hx with hx1 | hx1
        · rw [hx1]
          exact h it (List.mem_cons_self _ _)
        · exact ih rest (fun z hz => h z (List.mem_cons_of_mem _ hz)) x hx1
      | some found =>
        obtain ⟨duplicate, rest2⟩ := found
        rw [hfind] at hx
        obtain ⟨pre, post, hrest, hrest2, _, _⟩ :=
          extractDuplicate_some it rest duplicate rest2 hfind
        refine ih (mergeEvidence it duplicate :: rest2) ?_ x hx
        intro z hz
        rcases List.mem_cons.mp hz with hz1 | hz1
        · rw [hz1]
          have hit := h it (List.mem_cons_self _ _)
          rcases mergeEvidence_score it duplicate with hsame | hscore
          · rw [hsame]
            exact hit
          · right
            refine ⟨hscore, ?_⟩
            rw [mergeEvidence_identity]
            rcases hit with hmem | ⟨_, y, hy, hid⟩
            · exact ⟨it, hmem, rfl⟩
            · exact ⟨y, hy, hid⟩
        · apply h z
          apply List.mem_cons_of_mem
          rw [hrest]
          rw [hrest2] at hz1
          rcases List.mem_append.mp hz1 with hp | hp
          · exact List.mem_append_left _ hp
          · exact List.mem_append_right _ (List.mem_cons_of_mem _ hp)

/-- C35, amended: each candidate in `PassiveScanResults.candidates` either is a candidate
that passed the filter, with `confidence_score >= config.min_confidence`, or is the
survivor of a merger: its score is recomputed from its merged evidence (floors, caps and
boosts set by rules are discarded) and the candidate it was before the merger passed the
filter with a score of at least `config.min_confidence`. -/
theorem confidence_floor_before_merge (rx : RegexSearch) (partial_sort : PartialSort)
    (rule_what : String) (rule_engine : RuleEngine) (engines : List EngineRun)
    (config : PassiveScanConfig) (hstd : partial_sort.meetsStandard) :
    ∀ x ∈ (PassiveScanner.scan rx partial_sort rule_what rule_engine engines
        config).candidates,
      (x ∈ (runEngines rx rule_what rule_engine config engines).candidates ∧
        config.min_confidence ≤ x.confidence_score) ∨
      (x.confidence_score = recalculatedScore x.evidence ∧
        ∃ y ∈ (runEngines rx rule_what rule_engine config engines).candidates,
          y.identity = x.identity ∧ config.min_confidence ≤ y.confidence_score) := by
  intro x hx
  have hfilter := runEngines_candidates rx rule_what rule_engine config engines
  have hdedup : x ∈ deduplicate_candidates
      (runEngines rx rule_what rule_engine config engines).candidates := by
    unfold PassiveScanner.scan at hx
    exact enforceMaxCandidates_subset partial_sort hstd config _ x hx
  unfold deduplicate_candidates at hdedup
  rcases dedupLoop_score (runEngines rx rule_what rule_engine config engines).candidates _ _
      (fun z hz => Or.inl hz) x hdedup with hmem | ⟨hscore, y, hy, hid⟩
  · exact Or.inl ⟨hmem, hfilter x hmem⟩
  · exact Or.inr ⟨hscore, y, hy, hid, hfilter y hy⟩

theorem floor_collected :
    (runEngines noRegex "stoi" ⟨[floorPack]⟩ thresholdConfig
        [weakProcessEngine, samePidListenerEngine]).candidates
      = [ { processCandidate 100 "node server.js" (sampleEvidence (7 / 10) Strength.Weak) with
            confidence_score := 9 / 10 },
          { listenerCandidate 100 "http://127.0.0.1:3000" (1 / 10) with
            confidence_score := 9 / 10 } ] := by
  have hprocess : RuleEngine.apply noRegex ⟨[floorPack]⟩
      (processCandidate 100 "node server.js" (sampleEvidence (7 / 10) Strength.Weak))
      = Outcome.returned
          { processCandidate 100 "node server.js" (sampleEvidence (7 / 10) Strength.Weak) with
            confidence_score := 9 / 10 } := by
    norm_num [RuleEngine.apply, rulepacksLoop, Rulepack.apply, rulesLoop, Rule.apply,
      Rule.matches, matchesLoop, floorPack, processCandidate, sampleEvidence, RuleAction.apply,
      RuleAction.ofType, recalculatedScore, countLoop, Candidate.default, StrengthCounts.bump,
      product_of_negatives, stdMin]
  have hlistener : RuleEngine.apply noRegex ⟨[floorPack]⟩
      (listenerCandidate 100 "http://127.0.0.1:3000" (1 / 10))
      = Outcome.returned
          { listenerCandidate 100 "http://127.0.0.1:3000" (1 / 10) with
            confidence_score := 9 / 10 } := by
    norm_num [RuleEngine.apply, rulepacksLoop, Rulepack.apply, rulesLoop, Rule.apply,
      Rule.matches, matchesLoop, floorPack, listenerCandidate, RuleAction.apply,
      RuleAction.ofType, Candidate.default]
  simp only [runEngines, List.foldl_cons, List.foldl_nil, runEngine, weakProcessEngine,
    samePidListenerEngine, applyRulesLoop, hprocess, hlistener, updateStatistics_candidates]
  norm_num [confidenceFilter, PassiveScanResults.init, thresholdConfig,
    PassiveScanConfig.default]

theorem floor_merged :
    (PassiveScanner.scan noRegex stablePartialSort "stoi" ⟨[floorPack]⟩
        [weakProcessEngine, samePidListenerEngine] thresholdConfig).candidates
      = [ { processCandidate 100 "node server.js" (sampleEvidence (7 / 10) Strength.Weak) with
            evidence :=
              [ sampleEvidence (7 / 10) Strength.Weak,
                Evidence.make4 "network_listener" "listener" (1 / 10) "network" ]
            confidence_score := 73 / 100 } ] := by
  unfold PassiveScanner.scan
  simp only [floor_collected]
  have hmerge : deduplicate_candidates
      [ { processCandidate 100 "node server.js" (sampleEvidence (7 / 10) Strength.Weak) with
            confidence_score := 9 / 10 },
          { listenerCandidate 100 "http://127.0.0.1:3000" (1 / 10) with
            confidence_score := 9 / 10 } ]
      = [ { processCandidate 100 "node server.js" (sampleEvidence (7 / 10) Strength.Weak) with
            evidence :=
              [ sampleEvidence (7 / 10) Strength.Weak,
                Evidence.make4 "network_listener" "listener" (1 / 10) "network" ]
            confidence_score := 73 / 100 } ] := by
    norm_num [deduplicate_candidates, dedupLoop, extractDuplicate, isDuplicate, mergeEvidence,
      processCandidate, listenerCandidate, Candidate.default, Candidate.add_evidence,
      Candidate.recalculate_confidence, recalculatedScore, countLoop, StrengthCounts.bump,
      product_of_negatives, stdMin, sampleEvidence, Evidence.make4]
  rw [hmerge]
  simp [enforceMaxCandidates, sizeOfInt, thresholdConfig, PassiveScanConfig.default]

/-- The threshold at a concrete input: a process candidate and a listener of the same
process, both lifted to `0.9` by a rule, under `min_confidence = 0.8`; the merged survivor
has the recomputed score, and the process candidate passed the filter before the merger. -/
theorem confidence_floor_before_merge_witness :
    stablePartialSort.meetsStandard ∧
    ∀ x ∈ (PassiveScanner.scan noRegex stablePartialSort "stoi" ⟨[floorPack]⟩
        [weakProcessEngine, samePidListenerEngine] thresholdConfig).candidates,
      (x ∈ (runEngines noRegex "stoi" ⟨[floorPack]⟩ thresholdConfig
          [weakProcessEngine, samePidListenerEngine]).candidates ∧
        thresholdConfig.min_confidence ≤ x.confidence_score) ∨
      (x.confidence_score = recalculatedScore x.evidence ∧
        ∃ y ∈ (runEngines noRegex "stoi" ⟨[floorPack]⟩ thresholdConfig
            [weakProcessEngine, samePidListenerEngine]).candidates,
          y.identity = x.identity ∧ thresholdConfig.min_confidence ≤ y.confidence_score) :=
  ⟨stablePartialSort_meetsStandard,
    confidence_floor_before_merge noRegex stablePartialSort "stoi" ⟨[floorPack]⟩
      [weakProcessEngine, samePidListenerEngine] thresholdConfig
      stablePartialSort_meetsStandard⟩

/-- C35 as stated fails: a process candidate and a listener of the same process are both
lifted to `0.9` by a rule and pass the filter at `min_confidence = 0.8`; the merger
recomputes the score of the survivor from its two evidence, `0.73`, and the scan returns
it below `min_confidence`. -/
theorem confidence_floor_counterexample :
    (∀ c ∈ (runEngines noRegex "stoi" ⟨[floorPack]⟩ thresholdConfig
        [weakProcessEngine, samePidListenerEngine]).candidates, c.confidence_score = 9 / 10) ∧
    thresholdConfig.min_confidence = 8 / 10 ∧
    ∃ c ∈ (PassiveScanner.scan noRegex stablePartialSort "stoi" ⟨[floorPack]⟩
        [weakProcessEngine, samePidListenerEngine] thresholdConfig).candidates,
      c.confidence_score = 73 / 100 ∧
      ¬ (c.confidence_score ≥ thresholdConfig.min_confidence) := by
  refine ⟨?_, rfl, ?_⟩
  · rw [floor_collected]
    intro c hc
    simp only [List.mem_cons, List.mem_singleton, List.not_mem_nil, or_false] at hc
    rcases hc with hc | hc <;> rw [hc]
  · rw [floor_merged]
    refine ⟨_, List.mem_singleton.mpr rfl, rfl, ?_⟩
    norm_num [thresholdConfig, PassiveScanConfig.default]

/-! ## Network source -/

theorem strFind_colon (host : String) :
    (strFind host ":").isSome = true ↔ ':' ∈ host.toList := by
  unfold strFind
  rw [findFrom_isSome_iff]
  constructor
  · rintro ⟨s, t, h⟩
    rw [← h]
    simp
  · intro h
    obtain ⟨s, t, h2⟩ := List.append_of_mem h
    exact ⟨s, t, by rw [h2]; simp⟩

theorem listenerBody_eq (platform : PlatformQueries) (s : Strength) (n : Bool)
    (listener : NetworkListener) :
    (listenerBody platform s n listener).pid = listener.pid ∧
    (listenerBody platform s n listener).url =
      "http://" ++
        (if listener.address = "0.0.0.0" ∨ listener.address = "::" then "127.0.0.1"
          else if ':' ∈ listener.address.toList then "[" ++ listener.address ++ "]"
          else listener.address) ++ ":" ++ toString listener.port ∧
    (listenerBody platform s n listener).transport_hint = TransportType.Http ∧
    (listenerBody platform s n listener).evidence =
      [⟨"network_listener",
        "Process listening on " ++ listener.address ++ ":" ++ toString listener.port ++
          " (" ++ listener.protocol ++ ")",
        if listener.protocol = "udp" then 5 / 100 else 10 / 100, "", s, n⟩] ∧
    (listenerBody platform s n listener).confidence_score =
      if n = true then 0 else if listener.protocol = "udp" then 5 / 100 else 10 / 100 := by
  have hhost : (if (strFind (if listener.address = "0.0.0.0" ∨ listener.address = "::"
          then "127.0.0.1" else listener.address) ":").isSome = true
        then "[" ++ (if listener.address = "0.0.0.0" ∨ listener.address = "::"
          then "127.0.0.1" else listener.address) ++ "]"
        else (if listener.address = "0.0.0.0" ∨ listener.address = "::"
          then "127.0.0.1" else listener.address)) =
      (if listener.address = "0.0.0.0" ∨ listener.address = "::" then "127.0.0.1"
        else if ':' ∈ listener.address.toList then "[" ++ listener.address ++ "]"
        else listener.address) := by
    by_cases hany : listener.address = "0.0.0.0" ∨ listener.address = "::"
    · rw [if_pos hany, if_pos hany]
      rfl
    · rw [if_neg hany, if_neg hany]
      by_cases hcolon : ':' ∈ listener.address.toList
      · rw [if_pos ((strFind_colon _).mpr hcolon), if_pos hcolon]
      · rw [if_neg (fun h => hcolon ((strFind_colon _).mp h)), if_neg hcolon]
  have hscore : recalculatedScore
      [⟨"network_listener",
        "Process listening on " ++ listener.address ++ ":" ++ toString listener.port ++
          " (" ++ listener.protocol ++ ")",
        if listener.protocol = "udp" then 5 / 100 else 10 / 100, "", s, n⟩] =
      if n = true then 0 else if listener.protocol = "udp" then 5 / 100 else 10 / 100 := by
    cases n
    · cases s <;> by_cases hudp : listener.protocol = "udp" <;>
        norm_num [recalculatedScore, countLoop, StrengthCounts.bump, product_of_negatives,
          stdMin, hudp]
    · simp [recalculatedScore, countLoop]
  refine ⟨?_, ?_, ?_, ?_, ?_⟩
  · unfold listenerBody
    dsimp only
    split_ifs <;> rfl
  · unfold listenerBody
    dsimp only
    have hurl : ∀ c : Candidate, (c.add_evidence
        ⟨"network_listener",
          "Process listening on " ++ listener.address ++ ":" ++ toString listener.port ++
            " (" ++ listener.protocol ++ ")",
          if listener.protocol = "udp" then 5 / 100 else 10 / 100, "", s, n⟩).url = c.url :=
      fun _ => rfl
    rw [hurl]
    have hkeep : (if listener.pid > 0 then
          ({ Candidate.default with
              pid := listener.pid
              url := "http" ++ "://" ++
                (if (strFind (if listener.address = "0.0.0.0" ∨ listener.address = "::"
                    then "127.0.0.1" else listener.address) ":").isSome = true
                  then "[" ++ (if listener.address = "0.0.0.0" ∨ listener.address = "::"
                    then "127.0.0.1" else listener.address) ++ "]"
                  else (if listener.address = "0.0.0.0" ∨ listener.address = "::"
                    then "127.0.0.1" else listener.address)) ++ ":" ++ toString listener.port
              transport_hint := TransportType.Http
              process_name := platform.get_process_name listener.pid
              command := platform.get_command_line listener.pid } : Candidate)
        else
          { Candidate.default with
            pid := listener.pid
            url := "http" ++ "://" ++
              (if (strFind (if listener.address = "0.0.0.0" ∨ listener.address = "::"
                  then "127.0.0.1" else listener.address) ":").isSome = true
                then "[" ++ (if listener.address = "0.0.0.0" ∨ listener.address = "::"
                  then "127.0.0.1" else listener.address) ++ "]"
                else (if listener.address = "0.0.0.0" ∨ listener.address = "::"
                  then "127.0.0.1" else listener.address)) ++ ":" ++ toString listener.port
            transport_hint := TransportType.Http }).url =
        "http" ++ "://" ++
          (if (strFind (if listener.address = "0.0.0.0" ∨ listener.address = "::"
              then "127.0.0.1" else listener.address) ":").isSome = true
            then "[" ++ (if listener.address = "0.0.0.0" ∨ listener.address = "::"
              then "127.0.0.1" else listener.address) ++ "]"
            else (if listener.address = "0.0.0.0" ∨ listener.address = "::"
              then "127.0.0.1" else listener.address)) ++ ":" ++ toString listener.port := by
      split_ifs <;> rfl
    rw [hkeep, hhost]
    rfl
  · unfold listenerBody
    dsimp only
    split_ifs <;> rfl
  · unfold listenerBody
    dsimp only
    split_ifs <;> rfl
  · have hscoreOf : (listenerBody platform s n listener).confidence_score =
        recalculatedScore
          [⟨"network_listener",
            "Process listening on " ++ listener.address ++ ":" ++ toString listener.port ++
              " (" ++ listener.protocol ++ ")",
            if listener.protocol = "udp" then 5 / 100 else 10 / 100, "", s, n⟩] := by
      unfold listenerBody
      dsimp only
      split_ifs <;> rfl
    rw [hscoreOf, hscore]

theorem listenersLoop_eq (platform : PlatformQueries)
    (indeterminate : Nat → Strength × Bool) (listeners : List NetworkListener) :
    ∀ i, (listenersLoop platform indeterminate i listeners).length = listeners.length := by
  induction listeners with
  | nil => intro i; rfl
  | cons l ls ih =>
    intro i
    unfold listenersLoop
    rw [List.length_cons, List.length_cons, ih]

/-- C31, the code at the failing input: for the listener of process 123 on `0.0.0.0:3000`
(`tcp`), `NetworkDetectionEngine::detect` emits one candidate with the url
`http://127.0.0.1:3000`, the hint `Http` and one `network_listener` evidence of confidence
`0.10`; the members `strength` and `is_negative` of that evidence are never assigned, and
`confidence_score` is `0.10` when `is_negative` reads `false` and `0` when it reads `true`.
For every listener the url, the hint and the evidence type and confidence are those of the
claim, and the score is the confidence exactly when `is_negative` reads `false`. -/
theorem network_candidate_indeterminate :
    NetworkDetectionEngine.detect (fun _ => (Strength.Moderate, false))
        (some samplePlatformQueries)
      = [ { Candidate.default with
            pid := 123
            process_name := "node"
            command := "node server.js"
            url := "http://127.0.0.1:3000"
            transport_hint := TransportType.Http
            evidence :=
              [⟨"network_listener", "Process listening on 0.0.0.0:3000 (tcp)", 10 / 100, "",
                Strength.Moderate, false⟩]
            confidence_score := 10 / 100 } ] ∧
    NetworkDetectionEngine.detect (fun _ => (Strength.Moderate, true))
        (some samplePlatformQueries)
      = [ { Candidate.default with
            pid := 123
            process_name := "node"
            command := "node server.js"
            url := "http://127.0.0.1:3000"
            transport_hint := TransportType.Http
            evidence :=
              [⟨"network_listener", "Process listening on 0.0.0.0:3000 (tcp)", 10 / 100, "",
                Strength.Moderate, true⟩]
            confidence_score := 0 } ] ∧
    (∀ (platform : PlatformQueries) (indeterminate : Nat → Strength × Bool),
      (NetworkDetectionEngine.detect indeterminate (some platform)).length =
        platform.get_listening_sockets.length) ∧
    (∀ (platform : PlatformQueries) (s : Strength) (n : Bool) (listener : NetworkListener),
      (listenerBody platform s n listener).url =
        "http://" ++
          (if listener.address = "0.0.0.0" ∨ listener.address = "::" then "127.0.0.1"
            else if ':' ∈ listener.address.toList then "[" ++ listener.address ++ "]"
            else listener.address) ++ ":" ++ toString listener.port ∧
      (listenerBody platform s n listener).transport_hint = TransportType.Http ∧
      (listenerBody platform s n listener).evidence.map
          (fun e => (e.type, e.confidence, e.strength, e.is_negative)) =
        [("network_listener", if listener.protocol = "udp" then 5 / 100 else 10 / 100, s, n)] ∧
      ((listenerBody platform s n listener).confidence_score =
          (if listener.protocol = "udp" then 5 / 100 else 10 / 100) ↔ n = false)) := by
  refine ⟨?_, ?_, ?_, ?_⟩
  · have hscore : recalculatedScore
        [⟨"network_listener", "Process listening on 0.0.0.0:3000 (tcp)", 10 / 100, "",
          Strength.Moderate, false⟩] = 10 / 100 := by
      norm_num [recalculatedScore, countLoop, StrengthCounts.bump, product_of_negatives]
    have hbody : listenerBody samplePlatformQueries Strength.Moderate false
        ⟨123, "0.0.0.0", 3000, "tcp", "node"⟩ =
        { Candidate.default with
          pid := 123
          process_name := "node"
          command := "node server.js"
          url := "http://127.0.0.1:3000"
          transport_hint := TransportType.Http
          evidence :=
            [⟨"network_listener", "Process listening on 0.0.0.0:3000 (tcp)", 10 / 100, "",
              Strength.Moderate, false⟩]
          confidence_score := recalculatedScore
            [⟨"network_listener", "Process listening on 0.0.0.0:3000 (tcp)", 10 / 100, "",
              Strength.Moderate, false⟩] } := rfl
    have hdetect : NetworkDetectionEngine.detect (fun _ => (Strength.Moderate, false))
        (some samplePlatformQueries) =
        [listenerBody samplePlatformQueries Strength.Moderate false
          ⟨123, "0.0.0.0", 3000, "tcp", "node"⟩] := rfl
    rw [hdetect, hbody, hscore]
  · have hscore : recalculatedScore
        [⟨"network_listener", "Process listening on 0.0.0.0:3000 (tcp)", 10 / 100, "",
          Strength.Moderate, true⟩] = 0 := by
      simp [recalculatedScore, countLoop]
    have hbody : listenerBody samplePlatformQueries Strength.Moderate true
        ⟨123, "0.0.0.0", 3000, "tcp", "node"⟩ =
        { Candidate.default with
          pid := 123
          process_name := "node"
          command := "node server.js"
          url := "http://127.0.0.1:3000"
          transport_hint := TransportType.Http
          evidence :=
            [⟨"network_listener", "Process listening on 0.0.0.0:3000 (tcp)", 10 / 100, "",
              Strength.Moderate, true⟩]
          confidence_score := recalculatedScore
            [⟨"network_listener", "Process listening on 0.0.0.0:3000 (tcp)", 10 / 100, "",
              Strength.Moderate, true⟩] } := rfl
    have hdetect : NetworkDetectionEngine.detect (fun _ => (Strength.Moderate, true))
        (some samplePlatformQueries) =
        [listenerBody samplePlatformQueries Strength.Moderate true
          ⟨123, "0.0.0.0", 3000, "tcp", "node"⟩] := rfl
    rw [hdetect, hbody, hscore]
  · intro platform indeterminate
    exact listenersLoop_eq platform indeterminate _ 0
  · intro platform s n listener
    obtain ⟨_, hurl, hhint, hevidence, hscore⟩ := listenerBody_eq platform s n listener
    refine ⟨hurl, hhint, ?_, ?_⟩
    · rw [hevidence]
      rfl
    · rw [hscore]
      cases n
      · simp
      · by_cases hudp : listener.protocol = "udp"
        · norm_num [hudp]
        · norm_num [hudp]

/-! ## Process source -/

theorem clientsLoop_eq (parent_name : String) (candidate : Candidate) (clients : List String) :
    clientsLoop parent_name candidate clients =
      if ∃ client ∈ clients, client.toList <:+: parent_name.toList then
        candidate.add_evidence
          ⟨"parent_process", "Parent process is MCP client: " ++ parent_name, 7 / 10, "",
            Strength.Weak, false⟩
      else candidate := by
  induction clients with
  | nil => simp [clientsLoop]
  | cons client rest ih =>
    unfold clientsLoop
    by_cases hfound : (strFind parent_name client).isSome = true
    · rw [if_pos hfound, if_pos]
      exact ⟨client, List.mem_cons_self _ _, (findFrom_isSome_iff _ _ _).mp hfound⟩
    · rw [if_neg hfound, ih]
      have hnot : ¬ client.toList <:+: parent_name.toList :=
        fun h => hfound ((findFrom_isSome_iff _ _ 0).mpr h)
      by_cases hrest : ∃ c ∈ rest, c.toList <:+: parent_name.toList
      · rw [if_pos hrest, if_pos]
        obtain ⟨c, hc, hin⟩ := hrest
        exact ⟨c, List.mem_cons_of_mem _ hc, hin⟩
      · rw [if_neg hrest, if_neg]
        rintro ⟨c, hc, hin⟩
        rcases List.mem_cons.mp hc with h | h
        · rw [h] at hin
          exact hnot hin
        · exact hrest ⟨c, h, hin⟩

theorem check_parent_process_eq (platform : PlatformQueries) (pid : Int)
    (candidate : Candidate) :
    (check_parent_process platform pid candidate).pid = candidate.pid ∧
    (check_parent_process platform pid candidate).evidence =
      candidate.evidence ++
        (if parentIsKnownClient platform pid then
          [⟨"parent_process",
            "Parent process is MCP client: " ++
              platform.get_process_name (platform.get_parent_pid pid), 7 / 10, "",
            Strength.Weak, false⟩]
        else []) := by
  unfold check_parent_process parentIsKnownClient
  dsimp only
  by_cases hparent : platform.get_parent_pid pid ≤ 0
  · rw [if_pos hparent, if_neg (fun h => absurd h.1 (not_lt.mpr hparent)), List.append_nil]
    exact ⟨rfl, rfl⟩
  · rw [if_neg hparent]
    by_cases hname : platform.get_process_name (platform.get_parent_pid pid) = ""
    · rw [if_pos hname, if_neg, List.append_nil]
      · exact ⟨rfl, rfl⟩
      · rintro ⟨_, client, hclient, hin⟩
        rw [hname] at hin
        have hnil : client.toList = [] := List.infix_nil.mp hin
        revert hnil
        revert client
        decide
    · rw [if_neg hname, clientsLoop_eq]
      by_cases hfound : ∃ client ∈ known_clients,
          client.toList <:+: (platform.get_process_name (platform.get_parent_pid pid)).toList
      · rw [if_pos hfound, if_pos ⟨not_le.mp hparent, hfound⟩]
        exact ⟨rfl, rfl⟩
      · rw [if_neg hfound, if_neg (fun h => hfound h.2), List.append_nil]
        exact ⟨rfl, rfl⟩

theorem check_file_descriptors_eq (platform : PlatformQueries) (pid : Int)
    (candidate : Candidate) :
    (check_file_descriptors platform pid candidate).pid = candidate.pid ∧
    (check_file_descriptors platform pid candidate).evidence =
      candidate.evidence ++
        (if platform.has_bidirectional_pipes pid = true then
          [⟨"file_descriptors", "Process has bidirectional pipes (stdio transport)", 6 / 10, "",
            Strength.Moderate, false⟩]
        else []) := by
  unfold check_file_descriptors
  by_cases hpipes : platform.has_bidirectional_pipes pid = true
  · rw [if_pos hpipes, if_pos hpipes]
    exact ⟨rfl, rfl⟩
  · rw [if_neg hpipes, if_neg hpipes, List.append_nil]
    exact ⟨rfl, rfl⟩

theorem prefixesLoop_eq (key : String) (candidate : Candidate) (prefixes : List String) :
    prefixesLoop key candidate prefixes =
      if ∃ p ∈ prefixes, p.toList <+: key.toList then
        candidate.add_evidence
          ⟨"environment", "Environment variable found: " ++ key, 5 / 10, "",
            Strength.Moderate, false⟩
      else candidate := by
  induction prefixes with
  | nil => simp [prefixesLoop]
  | cons p rest ih =>
    unfold prefixesLoop
    by_cases hfound : strFind key p = some 0
    · rw [if_pos hfound, if_pos]
      exact ⟨p, List.mem_cons_self _ _, (findFrom_zero_iff _ _).mp hfound⟩
    · rw [if_neg hfound, ih]
      have hnot : ¬ p.toList <+: key.toList :=
        fun h => hfound ((findFrom_zero_iff _ _).mpr h)
      by_cases hrest : ∃ q ∈ rest, q.toList <+: key.toList
      · rw [if_pos hrest, if_pos]
        obtain ⟨q, hq, hin⟩ := hrest
        exact ⟨q, List.mem_cons_of_mem _ hq, hin⟩
      · rw [if_neg hrest, if_neg]
        rintro ⟨q, hq, hin⟩
        rcases List.mem_cons.mp hq with h | h
        · rw [h] at hin
          exact hnot hin
        · exact hrest ⟨q, h, hin⟩

theorem environmentLoop_eq (entries : List (String × String)) : ∀ candidate : Candidate,
    (environmentLoop entries candidate).pid = candidate.pid ∧
    (environmentLoop entries candidate).evidence =
      candidate.evidence ++
        (entries.filter (fun entry =>
          decide (∃ p ∈ mcp_env_vars, p.toList <+: entry.1.toList))).map (fun entry =>
            (⟨"environment", "Environment variable found: " ++ entry.1, 5 / 10, "",
              Strength.Moderate, false⟩ : Evidence)) := by
  induction entries with
  | nil =>
    intro candidate
    simp [environmentLoop]
  | cons entry rest ih =>
    intro candidate
    obtain ⟨key, value⟩ := entry
    unfold environmentLoop
    rw [(ih _).1, (ih _).2, prefixesLoop_eq]
    by_cases hfound : ∃ p ∈ mcp_env_vars, p.toList <+: key.toList
    · rw [if_pos hfound, List.filter_cons_of_pos (by simpa using hfound)]
      refine ⟨rfl, ?_⟩
      simp [Candidate.add_evidence, Candidate.recalculate_confidence]
    · rw [if_neg hfound, List.filter_cons_of_neg (by simpa using hfound)]
      exact ⟨rfl, rfl⟩

theorem checks_eq (platform : PlatformQueries) (pid : Int) (candidate : Candidate) :
    (check_environment platform pid (check_file_descriptors platform pid
      (check_parent_process platform pid candidate))).pid = candidate.pid ∧
    ((check_environment platform pid (check_file_descriptors platform pid
        (check_parent_process platform pid candidate))).evidence ≠ [] ↔
      candidate.evidence ≠ [] ∨ parentIsKnownClient platform pid ∨
        platform.has_bidirectional_pipes pid = true ∨ hasMcpVariable platform pid) := by
  unfold check_environment
  constructor
  · rw [(environmentLoop_eq _ _).1, (check_file_descriptors_eq _ _ _).1,
      (check_parent_process_eq _ _ _).1]
  · rw [(environmentLoop_eq _ _).2, (check_file_descriptors_eq _ _ _).2,
      (check_parent_process_eq _ _ _).2]
    have hvariable : (List.map (fun entry : String × String =>
          (⟨"environment", "Environment variable found: " ++ entry.1, 5 / 10, "",
            Strength.Moderate, false⟩ : Evidence))
        ((platform.get_environment pid).filter (fun entry =>
          decide (∃ p ∈ mcp_env_vars, p.toList <+: entry.1.toList)))) ≠ [] ↔
        hasMcpVariable platform pid := by
      unfold hasMcpVariable
      rw [Ne, List.map_eq_nil_iff, List.filter_eq_nil_iff]
      constructor
      · intro h
        by_contra hnone
        apply h
        intro entry hentry hp
        exact hnone ⟨entry, hentry, of_decide_eq_true hp⟩
      · rintro ⟨entry, hentry, hp⟩ h
        exact h entry hentry (decide_eq_true hp)
    rw [← hvariable]
    by_cases hparent : parentIsKnownClient platform pid
    · rw [if_pos hparent]
      simp [hparent]
    · rw [if_neg hparent]
      by_cases hpipes : platform.has_bidirectional_pipes pid = true
      · rw [if_pos hpipes]
        simp [hpipes]
      · rw [if_neg hpipes]
        simp only [List.append_nil, hparent, hpipes, false_or, Ne, List.append_eq_nil]
        tauto

theorem processBody_some (platform : PlatformQueries) (pid : Int) (candidate : Candidate)
    (h : processBody platform pid = some candidate) :
    candidate.pid = pid ∧ candidate.evidence ≠ [] := by
  unfold processBody at h
  dsimp only at h
  split_ifs at h with hskip hcommand hevidence hevidence
  · rw [← Option.some.inj h]
    exact ⟨(checks_eq platform pid _).1, hevidence⟩
  · rw [← Option.some.inj h]
    exact ⟨(checks_eq platform pid _).1, hevidence⟩

theorem processBody_isSome (platform : PlatformQueries) (pid : Int) :
    (processBody platform pid).isSome = true ↔ processEmitted platform pid := by
  unfold processBody processEmitted
  dsimp only
  by_cases hskip : platform.get_process_name pid = "" ∧ platform.get_command_line pid = ""
  · rw [if_pos hskip]
    simp [hskip.1, hskip.2]
  · rw [if_neg hskip]
    have hguard : platform.get_process_name pid ≠ "" ∨ platform.get_command_line pid ≠ "" := by
      by_contra hnot
      push_neg at hnot
      exact hskip hnot
    by_cases hcommand : platform.get_command_line pid ≠ ""
    · rw [if_pos hcommand]
      have hchecks := (checks_eq platform pid
        { Candidate.default with
          pid := pid
          process_name := platform.get_process_name pid
          command := platform.get_command_line pid }).2
      have hbase : ¬ (Candidate.default.evidence ≠ []) := fun h => h rfl
      by_cases hevidence : (check_environment platform pid (check_file_descriptors platform pid
          (check_parent_process platform pid
            { Candidate.default with
              pid := pid
              process_name := platform.get_process_name pid
              command := platform.get_command_line pid }))).evidence ≠ []
      · rw [if_pos hevidence]
        have hcond := hchecks.mp hevidence
        exact ⟨fun _ => ⟨hguard, hcond.resolve_left hbase⟩, fun _ => rfl⟩
      · rw [if_neg hevidence]
        constructor
        · intro h
          exact absurd h (by simp)
        · rintro ⟨_, hcond⟩
          exact absurd (hchecks.mpr (Or.inr hcond)) hevidence
    · rw [if_neg hcommand]
      have hchecks := (checks_eq platform pid
        { Candidate.default with
          pid := pid
          process_name := platform.get_process_name pid }).2
      have hbase : ¬ (Candidate.default.evidence ≠ []) := fun h => h rfl
      by_cases hevidence : (check_environment platform pid (check_file_descriptors platform pid
          (check_parent_process platform pid
            { Candidate.default with
              pid := pid
              process_name := platform.get_process_name pid }))).evidence ≠ []
      · rw [if_pos hevidence]
        have hcond := hchecks.mp hevidence
        exact ⟨fun _ => ⟨hguard, hcond.resolve_left hbase⟩, fun _ => rfl⟩
      · rw [if_neg hevidence]
        constructor
        · intro h
          exact absurd h (by simp)
        · rintro ⟨_, hcond⟩
          exact absurd (hchecks.mpr (Or.inr hcond)) hevidence

theorem pidsLoop_eq (platform : PlatformQueries) (pids : List Int) :
    (pidsLoop platform pids).map Candidate.pid =
      pids.filter (fun pid => decide (processEmitted platform pid)) ∧
    ∀ candidate ∈ pidsLoop platform pids, candidate.evidence ≠ [] := by
  induction pids with
  | nil => exact ⟨rfl, fun _ h => absurd h (List.not_mem_nil _)⟩
  | cons pid rest ih =>
    unfold pidsLoop
    cases hbody : processBody platform pid with
    | none =>
      have hnot : ¬ processEmitted platform pid := by
        intro h
        have hsome := (processBody_isSome platform pid).mpr h
        rw [hbody] at hsome
        exact absurd hsome (by decide)
      rw [List.filter_cons_of_neg (by simpa using hnot)]
      exact ih
    | some candidate =>
      have hyes : processEmitted platform pid := by
        apply (processBody_isSome platform pid).mp
        rw [hbody]
        rfl
      obtain ⟨hpid, hevidence⟩ := processBody_some platform pid candidate hbody
      rw [List.filter_cons_of_pos (by simpa using hyes)]
      refine ⟨?_, ?_⟩
      · rw [List.map_cons, hpid, ih.1]
      · intro c hc
        rcases List.mem_cons.mp hc with h | h
        · rw [h]
          exact hevidence
        · exact ih.2 c h

/-- C32, amended: `ProcessDetectionEngine::detect` emits a candidate for a PID returned by
the adapter iff the process name or the command line of the process is not empty and at
least one of the three checks yields evidence, i.e. the process has a parent (parent pid
above 0) whose name contains a known client name, or the process has bidirectional pipes,
or its environment has a variable whose name starts with `MCP_`, `ANTHROPIC_` or
`CLAUDE_`; the candidates are emitted in the order of the PIDs, and every emitted
candidate has a non-empty evidence list. -/
theorem process_emission (platform : PlatformQueries) :
    (ProcessDetectionEngine.detect (some platform)).map Candidate.pid =
      platform.get_process_list.filter (fun pid =>
        decide ((platform.get_process_name pid ≠ "" ∨ platform.get_command_line pid ≠ "") ∧
          (parentIsKnownClient platform pid ∨ platform.has_bidirectional_pipes pid = true ∨
            hasMcpVariable platform pid))) ∧
    (∀ pid : Int, (∃ candidate ∈ ProcessDetectionEngine.detect (some platform),
        candidate.pid = pid) ↔
      pid ∈ platform.get_process_list ∧
        (platform.get_process_name pid ≠ "" ∨ platform.get_command_line pid ≠ "") ∧
        (parentIsKnownClient platform pid ∨ platform.has_bidirectional_pipes pid = true ∨
          hasMcpVariable platform pid)) ∧
    (∀ candidate ∈ ProcessDetectionEngine.detect (some platform),
      candidate.evidence ≠ []) := by
  have hloop := pidsLoop_eq platform platform.get_process_list
  have hmap : (ProcessDetectionEngine.detect (some platform)).map Candidate.pid =
      platform.get_process_list.filter (fun pid =>
        decide ((platform.get_process_name pid ≠ "" ∨ platform.get_command_line pid ≠ "") ∧
          (parentIsKnownClient platform pid ∨ platform.has_bidirectional_pipes pid = true ∨
            hasMcpVariable platform pid))) := hloop.1
  refine ⟨hmap, ?_, hloop.2⟩
  intro pid
  have hmem : (∃ candidate ∈ ProcessDetectionEngine.detect (some platform),
      candidate.pid = pid) ↔
      pid ∈ (ProcessDetectionEngine.detect (some platform)).map Candidate.pid := by
    rw [List.mem_map]
  rw [hmem, hmap, List.mem_filter, decide_eq_true_iff]

/-- C32 as stated fails: process 77 has bidirectional pipes, so the second check would
yield evidence, but its name and its command line are empty and `detect` passes over it
before the checks; only process 200 is emitted. -/
theorem process_emission_counterexample :
    (77 : Int) ∈ samplePlatformQueries.get_process_list ∧
    samplePlatformQueries.has_bidirectional_pipes 77 = true ∧
    (check_file_descriptors samplePlatformQueries 77
      { Candidate.default with pid := 77 }).evidence ≠ [] ∧
    (ProcessDetectionEngine.detect (some samplePlatformQueries)).map Candidate.pid = [200] ∧
    ¬ ∃ candidate ∈ ProcessDetectionEngine.detect (some samplePlatformQueries),
      candidate.pid = 77 := by
  have hpids : (ProcessDetectionEngine.detect (some samplePlatformQueries)).map Candidate.pid
      = [200] := by
    rw [show ProcessDetectionEngine.detect (some samplePlatformQueries) =
      pidsLoop samplePlatformQueries samplePlatformQueries.get_process_list from rfl,
      (pidsLoop_eq samplePlatformQueries _).1]
    decide
  refine ⟨by decide, rfl, ?_, hpids, ?_⟩
  · rw [(check_file_descriptors_eq samplePlatformQueries 77 _).2]
    simp [samplePlatformQueries]
  · rintro ⟨candidate, hmem, hpid⟩
    have hin : (77 : Int) ∈
        (ProcessDetectionEngine.detect (some samplePlatformQueries)).map Candidate.pid :=
      List.mem_map.mpr ⟨candidate, hmem, hpid⟩
    rw [hpids] at hin
    exact absurd hin (by decide)

end Kyros
